import Mathlib

/-!
# Maroon: IR builder and step interpreter

A shallow embedding of `cpp_ir/src/ir.h` (the IR schema),
`cpp_ir/src/boilerplate/dsl.prefix.h` + `dsl.spec.h` (the IR builder and the
DSL macros that drive it) and `cpp_ir/src/engine.h` (the step interpreter),
followed by theorems about them.

Conventions of the embedding.

* `std::vector` used as a sequence (`code`, `vars`, `args`, `arms`) is a `List`
  in the same order; `push_back x` is `xs ++ [x]`.
* `std::vector` used as a stack (`current_fn_blocks_stack`, `blocks_stack`,
  `call_stack_`) is a `List` whose head is `back()`; `push_back x` is `x :: xs`
  and `pop_back` drops the head.
* `uint32_t` counters that the code increments are reduced `% 2 ^ 32`.
  Line numbers and indices received as arguments are `Nat` values of that range.
* `std::exit(1)` and C++ undefined behaviour (for instance `back()` of an empty
  vector) are the two constructors of `Fatal`; a function that can reach either
  returns `Except Fatal _`.
* A `std::function<void()>` sub-builder is a function `Ctx → Except Fatal Ctx`.
-/

namespace Maroon

/-! ## `ir.h`: the schema -/

/-- The variant `MaroonIRVar` with its three cases. -/
inductive MaroonIRVar
  | MaroonIRVarRegular (line : Nat) (name type init : String)
  | MaroonIRVarFunctionArg (line : Nat) (name type : String)
  | MaroonIRVarEnumCaseCapture (name key src : String)
  deriving DecidableEq, Repr

mutual
/-- The variant `MaroonIRStmtOrBlock`: `MaroonIRStmt`, `MaroonIRIf`, `MaroonIRBlock`,
`MaroonIRMatchEnumStmt`, `MaroonIRBlockPlaceholder`. -/
inductive MaroonIRStmtOrBlock
  | MaroonIRStmt (line : Nat) (stmt : String)
  | MaroonIRIf (line : Nat) (cond : String) (yes no : MaroonIRStmtOrBlock)
  | MaroonIRBlock (b : MaroonIRBlock)
  | MaroonIRMatchEnumStmt (line : Nat) (var : String) (arms : List MaroonIRMatchEnumStmtArm)
  | MaroonIRBlockPlaceholder (line : Nat) (_idx : Nat)
/-- The struct `MaroonIRBlock`: `line`, `vars`, `code`. -/
inductive MaroonIRBlock
  | mk (line : Nat) (vars : List MaroonIRVar) (code : List MaroonIRStmtOrBlock)
/-- The struct `MaroonIRMatchEnumStmtArm`: `line`, `key`, `capture`, `code`. -/
inductive MaroonIRMatchEnumStmtArm
  | mk (line : Nat) (key : Option String) (capture : Option String) (code : MaroonIRBlock)
end

/-- Field `line` of a block. -/
def MaroonIRBlock.line : MaroonIRBlock → Nat
  | .mk l _ _ => l

/-- Field `vars` of a block. -/
def MaroonIRBlock.vars : MaroonIRBlock → List MaroonIRVar
  | .mk _ v _ => v

/-- Field `code` of a block. -/
def MaroonIRBlock.code : MaroonIRBlock → List MaroonIRStmtOrBlock
  | .mk _ _ c => c

/-- A default-constructed `MaroonIRBlock` (`new MaroonIRBlock()`): no vars, no code;
the `line` field is value-initialised. -/
def MaroonIRBlock.new : MaroonIRBlock := .mk 0 [] []

instance : Inhabited MaroonIRBlock := ⟨MaroonIRBlock.new⟩

/-- Field `capture` of an arm. -/
def MaroonIRMatchEnumStmtArm.capture : MaroonIRMatchEnumStmtArm → Option String
  | .mk _ _ c _ => c

/-- Field `key` of an arm. -/
def MaroonIRMatchEnumStmtArm.key : MaroonIRMatchEnumStmtArm → Option String
  | .mk _ k _ _ => k

/-- Field `code` of an arm. -/
def MaroonIRMatchEnumStmtArm.code : MaroonIRMatchEnumStmtArm → MaroonIRBlock
  | .mk _ _ _ b => b

/-- Field `line` of an arm. -/
def MaroonIRMatchEnumStmtArm.line : MaroonIRMatchEnumStmtArm → Nat
  | .mk l _ _ _ => l

/-- The struct `MaroonIRMatchEnumStmt` while it is a member of `RegisterMatchEnumStmt`. -/
structure MaroonIRMatchEnumStmt where
  line : Nat := 0
  var : String := ""
  arms : List MaroonIRMatchEnumStmtArm := []

/-- Wrapping a finished `MaroonIRMatchEnumStmt` into the variant. -/
def MaroonIRMatchEnumStmt.toStmtOrBlock (m : MaroonIRMatchEnumStmt) : MaroonIRStmtOrBlock :=
  .MaroonIRMatchEnumStmt m.line m.var m.arms

mutual
/-- Whether a `MaroonIRBlockPlaceholder` occurs anywhere in an item: as the item itself,
as a branch of an `If`, in a nested block, or in the block of a match arm. -/
def MaroonIRStmtOrBlock.hasPlaceholder : MaroonIRStmtOrBlock → Bool
  | .MaroonIRStmt _ _ => false
  | .MaroonIRIf _ _ y n => y.hasPlaceholder || n.hasPlaceholder
  | .MaroonIRBlock b => b.hasPlaceholder
  | .MaroonIRMatchEnumStmt _ _ arms => armsHavePlaceholder arms
  | .MaroonIRBlockPlaceholder _ _ => true
/-- Whether a placeholder occurs anywhere in a block. -/
def MaroonIRBlock.hasPlaceholder : MaroonIRBlock → Bool
  | .mk _ _ code => codeHasPlaceholder code
/-- Whether a placeholder occurs anywhere in an arm's block. -/
def MaroonIRMatchEnumStmtArm.hasPlaceholder : MaroonIRMatchEnumStmtArm → Bool
  | .mk _ _ _ b => b.hasPlaceholder
/-- Whether a placeholder occurs anywhere in a code list. -/
def codeHasPlaceholder : List MaroonIRStmtOrBlock → Bool
  | [] => false
  | i :: is => i.hasPlaceholder || codeHasPlaceholder is
/-- Whether a placeholder occurs anywhere in a list of arms. -/
def armsHavePlaceholder : List MaroonIRMatchEnumStmtArm → Bool
  | [] => false
  | a :: as => a.hasPlaceholder || armsHavePlaceholder as
end

/-- The struct `MaroonIRFunction`. -/
structure MaroonIRFunction where
  line : Nat := 0
  ret : Option String := none
  args : List String := []
  body : MaroonIRBlock := MaroonIRBlock.new

instance : Inhabited MaroonIRFunction := ⟨{}⟩

/-- A `std::map<std::string, V>`: an association list kept in key order. -/
abbrev StdMap (V : Type) := List (String × V)

/-- Lookup (`find`). -/
def StdMap.find {V : Type} : StdMap V → String → Option V
  | [], _ => none
  | (k', v) :: m, k => if k = k' then some v else StdMap.find m k

/-- The member `count(k)`: 1 when the key is present, 0 otherwise. -/
def StdMap.count {V : Type} (m : StdMap V) (k : String) : Nat :=
  match StdMap.find m k with
  | some _ => 1
  | none => 0

/-- Store `v` under `k`, replacing the entry when the key is present and inserting in key
order (the lexicographic order of the characters) otherwise. -/
def StdMap.set {V : Type} : StdMap V → String → V → StdMap V
  | [], k, v => [(k, v)]
  | (k', v') :: m, k, v =>
      if k = k' then (k, v) :: m
      else if k.toList < k'.toList then (k, v) :: (k', v') :: m
      else (k', v') :: StdMap.set m k v

/-- The value `m[k]` refers to: the stored one, or a default-constructed one that
`operator[]` inserts. -/
def StdMap.at {V : Type} [Inhabited V] (m : StdMap V) (k : String) : V :=
  (StdMap.find m k).getD default

/-- The assignment `m[k] = f(m[k])`, the entry being default-constructed first when absent. -/
def StdMap.modify {V : Type} [Inhabited V] (m : StdMap V) (k : String) (f : V → V) : StdMap V :=
  StdMap.set m k (f (StdMap.at m k))

/-- The struct `MaroonIRFiber`. -/
structure MaroonIRFiber where
  line : Nat := 0
  functions : StdMap MaroonIRFunction := []

instance : Inhabited MaroonIRFiber := ⟨{}⟩

/-- The struct `MaroonIRTypeDefStructField`. -/
structure MaroonIRTypeDefStructField where
  name : String
  type : String
  deriving DecidableEq, Repr

/-- The struct `MaroonIRTypeDefEnumCase`. -/
structure MaroonIRTypeDefEnumCase where
  key : String
  type : String
  deriving DecidableEq, Repr

/-- The variant `MaroonIRTypeDef`; a default-constructed variant holds nothing. -/
inductive MaroonIRTypeDef
  | unset
  | MaroonIRTypeDefStruct (fields : List MaroonIRTypeDefStructField)
  | MaroonIRTypeDefEnum (cases : List MaroonIRTypeDefEnumCase)
  | MaroonIRTypeDefOptional (type : String)
  deriving DecidableEq, Repr

/-- The struct `MaroonIRType`. -/
structure MaroonIRType where
  line : Nat := 0
  def_ : MaroonIRTypeDef := .unset
  deriving DecidableEq, Repr

instance : Inhabited MaroonIRType := ⟨{}⟩

/-- The struct `MaroonIRNamespace`. -/
structure MaroonIRNamespace where
  line : Nat := 0
  fibers : StdMap MaroonIRFiber := []
  types : StdMap MaroonIRType := []

instance : Inhabited MaroonIRNamespace := ⟨{}⟩

/-- The variant `MaroonTestCase`. -/
inductive MaroonTestCase
  | MaroonTestCaseRunFiber (line : Nat) (maroon fiber : String) (golden_output : List String)
  | MaroonTestCaseFiberShouldThrow (line : Nat) (maroon fiber error : String)
  deriving DecidableEq, Repr

/-- The struct `MaroonIRScenarios`, the top level of the IR. -/
structure MaroonIRScenarios where
  src : String := ""
  maroon : StdMap MaroonIRNamespace := []
  tests : List MaroonTestCase := []

/-- The function stored at `out.maroon[m].fibers[f].functions[fn]`, when every level exists. -/
def MaroonIRScenarios.function (out : MaroonIRScenarios) (m f fn : String) :
    Option MaroonIRFunction :=
  match StdMap.find out.maroon m with
  | none => none
  | some ns =>
    match StdMap.find ns.fibers f with
    | none => none
    | some fib => StdMap.find fib.functions fn

/-- The assignment `out.maroon[m].fibers[f].functions[fn] = g(that entry)`; `operator[]`
creates each missing level. -/
def MaroonIRScenarios.modifyFunction (out : MaroonIRScenarios) (m f fn : String)
    (g : MaroonIRFunction → MaroonIRFunction) : MaroonIRScenarios :=
  { out with maroon := StdMap.modify out.maroon m (fun ns =>
      { ns with fibers := StdMap.modify ns.fibers f (fun fib =>
          { fib with functions := StdMap.modify fib.functions fn g }) }) }

/-! ## `dsl.prefix.h`: the builder context -/

/-- How a build stops before completing. -/
inductive Fatal
  | exit (msg : String)
  | undefined (what : String)
  deriving DecidableEq, Repr

/-- The struct `Ctx`. -/
structure Ctx where
  out : MaroonIRScenarios := {}
  current_maroon_name : String := ""
  current_type_name : String := ""
  current_fiber_name : String := ""
  current_function_name : String := ""
  next_placeholder_idx : Nat := 0
  blocks_stack : List (Nat × Nat) := []
  current_fn_blocks_stack : List MaroonIRBlock := []
  optional_types_per_maroon : StdMap (StdMap Nat) := []
  finalized : Bool := false

/-- The method `Ctx::InFunction`. -/
def Ctx.InFunction (c : Ctx) : Bool := !c.current_fn_blocks_stack.isEmpty

/-- The method `Ctx::BlocksDepth`. -/
def Ctx.BlocksDepth (c : Ctx) : Nat := c.current_fn_blocks_stack.length

/-- The method `Ctx::EnterFunction`. -/
def Ctx.EnterFunction (c : Ctx) (line : Nat) : Except Fatal Ctx :=
  if !c.current_fn_blocks_stack.isEmpty then .error (.exit "NE")
  else .ok { c with current_fn_blocks_stack := [.mk line [] []] }

/-- The method `Ctx::LeaveFunction`. A depth other than one only prints a message; the
body installed is always `back()` of the stack. -/
def Ctx.LeaveFunction (c : Ctx) : Except Fatal Ctx :=
  match c.current_fn_blocks_stack with
  | [] => .error (.undefined "back() of an empty current_fn_blocks_stack")
  | b :: _ =>
    .ok { c with
      out := (c.out.modifyFunction c.current_maroon_name c.current_fiber_name
        c.current_function_name (fun fn => { fn with body := b }))
      current_fn_blocks_stack := []
      current_function_name := "" }

/-- The method `Ctx::AddToBlock`: returns the index of the new item. -/
def Ctx.AddToBlock (c : Ctx) (item : MaroonIRStmtOrBlock) : Except Fatal (Nat × Ctx) :=
  match c.current_fn_blocks_stack with
  | [] => .error (.undefined "back() of an empty current_fn_blocks_stack")
  | .mk l vs code :: rest =>
    .ok (code.length, { c with current_fn_blocks_stack := .mk l vs (code ++ [item]) :: rest })

/-- The method `Ctx::ExtractLastStmt`. -/
def Ctx.ExtractLastStmt (c : Ctx) : Except Fatal (MaroonIRStmtOrBlock × Ctx) :=
  match c.current_fn_blocks_stack with
  | [] => .error (.undefined "back() of an empty current_fn_blocks_stack")
  | .mk l vs code :: rest =>
    match code.getLast? with
    | none => .error (.undefined "back() of an empty code vector")
    | some res => .ok (res, { c with current_fn_blocks_stack := .mk l vs code.dropLast :: rest })

/-- The method `Ctx::AddVarToBlock`. -/
def Ctx.AddVarToBlock (c : Ctx) (var : MaroonIRVar) : Except Fatal Ctx :=
  match c.current_fn_blocks_stack with
  | [] => .error (.undefined "back() of an empty current_fn_blocks_stack")
  | .mk l vs code :: rest =>
    .ok { c with current_fn_blocks_stack := .mk l (vs ++ [var]) code :: rest }

/-- The method `Ctx::AddArgToFunction`. -/
def Ctx.AddArgToFunction (c : Ctx) (type : String) : Ctx :=
  { c with out := (c.out.modifyFunction c.current_maroon_name c.current_fiber_name
      c.current_function_name (fun fn => { fn with args := fn.args ++ [type] })) }

/-- The method `Ctx::EnterBlock`: returns the key of the new placeholder. -/
def Ctx.EnterBlock (c : Ctx) (line : Nat) : Except Fatal (Nat × Ctx) :=
  let key := (c.next_placeholder_idx + 1) % 2 ^ 32
  let c0 : Ctx := { c with next_placeholder_idx := key }
  match c0.AddToBlock (.MaroonIRBlockPlaceholder line key) with
  | .error e => .error e
  | .ok (saved_index, c1) =>
    .ok (key, { c1 with
      blocks_stack := (key, saved_index) :: c1.blocks_stack
      current_fn_blocks_stack := MaroonIRBlock.new :: c1.current_fn_blocks_stack })

/-- The method `Ctx::MarkInnerBlockAsCompleted`. -/
def Ctx.MarkInnerBlockAsCompleted (c : Ctx) (user_key : Nat) : Except Fatal Ctx :=
  match c.blocks_stack with
  | [] => .error (.exit "WTF0!")
  | (key, idx) :: bs =>
    if key ≠ user_key then .error (.exit "WTF1!")
    else
      match c.current_fn_blocks_stack with
      | [] => .error (.undefined "back() of an empty current_fn_blocks_stack")
      | _ :: [] => .error (.undefined "back() of an empty current_fn_blocks_stack")
      | blk :: .mk pl pvs pcode :: rest =>
        if pcode.isEmpty then .error (.exit "WTF2!")
        else if idx ≥ pcode.length then .error (.exit "WTF3")
        else
          match pcode.get? idx with
          | some (.MaroonIRBlockPlaceholder line _idx) =>
            if _idx ≠ key then .error (.exit "WTF5!")
            else
              .ok { c with
                blocks_stack := bs
                current_fn_blocks_stack :=
                  .mk pl pvs (pcode.set idx (.MaroonIRBlock (.mk line blk.vars blk.code))) :: rest }
          | _ => .error (.exit "WTF4!")

/-- The method `Ctx::ConsiderOptionalType`: the first line at which `type` needed an
optional wrapper in the current namespace is kept. -/
def Ctx.ConsiderOptionalType (c : Ctx) (type : String) (line : Nat) : Ctx :=
  { c with optional_types_per_maroon :=
      StdMap.modify c.optional_types_per_maroon c.current_maroon_name (fun per_type =>
        StdMap.modify per_type type (fun placeholder =>
          if placeholder = 0 then line else placeholder)) }

/-! ## `dsl.prefix.h`: the registration functions -/

/-- The function `RegisterStmt`. -/
def RegisterStmt (c : Ctx) (line : Nat) (stmt : String) : Except Fatal Ctx :=
  if !c.InFunction then .error (.exit "`STMT()` is only legal inside an `FN()`.")
  else
    match c.AddToBlock (.MaroonIRStmt line stmt) with
    | .error e => .error e
    | .ok (_, c1) => .ok c1

/-- The constructor of `RegisterIf`, which does all of its work. -/
def RegisterIf (c : Ctx) (condition : String) (yes no : Ctx → Except Fatal Ctx) (line : Nat) :
    Except Fatal Ctx :=
  if !c.InFunction then .error (.exit "`IF()` is only legal inside an `FN()`.")
  else
    match yes c with
    | .error e => .error e
    | .ok c1 =>
      match no c1 with
      | .error e => .error e
      | .ok c2 =>
        match c2.ExtractLastStmt with
        | .error e => .error e
        | .ok (cond_no, c3) =>
          match c3.ExtractLastStmt with
          | .error e => .error e
          | .ok (cond_yes, c4) =>
            match c4.AddToBlock (.MaroonIRIf line condition cond_yes cond_no) with
            | .error e => .error e
            | .ok (_, c5) => .ok c5

/-- The struct `RegisterBlock` as the `BLOCK` macro uses it: the constructor, then
`operator<<` with the body `f` (so `entered` is false on entry and true at destruction). -/
def RegisterBlock (c : Ctx) (line : Nat) (f : Ctx → Except Fatal Ctx) : Except Fatal Ctx :=
  if !c.InFunction then .error (.exit "`BLOCK()` is only legal inside an `FN()`.")
  else
    match c.EnterBlock line with
    | .error e => .error e
    | .ok (block_key, c1) =>
      let save_stack_depth := c1.BlocksDepth
      match f c1 with
      | .error e => .error e
      | .ok c2 =>
        if c2.BlocksDepth ≠ save_stack_depth then
          .error (.exit "Internal error, stack depth mismatch on closing the block.")
        else c2.MarkInnerBlockAsCompleted block_key

/-- The test of `SupportOptionalTypes`: the text starts with `OPTIONAL<` and ends with `>`. -/
def isOptionalSpelling (type : String) : Bool :=
  type.toList.take "OPTIONAL<".length == "OPTIONAL<".toList && type.toList.getLast? == some '>'

/-- The text `inner` of `SupportOptionalTypes`: what follows the prefix, last character
removed. -/
def optionalInner (type : String) : String :=
  String.mk (type.toList.drop "OPTIONAL<".length).dropLast

/-- The function `SupportOptionalTypes`: returns the context and the rewritten type. -/
def SupportOptionalTypes (c : Ctx) (type : String) (line : Nat) : Ctx × String :=
  if isOptionalSpelling type then
    (c.ConsiderOptionalType (optionalInner type) line, "OPTIONAL_" ++ optionalInner type)
  else (c, type)

/-- The initializer `RegisterVar` stores: a text that starts with an opening and ends with a
closing parenthesis loses both. -/
def storedInit (init : String) : String :=
  if init ≠ "" ∧ init.toList.head? = some '(' ∧ init.toList.getLast? = some ')' then
    String.mk ((init.toList.drop 1).take (init.length - 2))
  else init

/-- The function `RegisterVar`. -/
def RegisterVar (c : Ctx) (name type init : String) (line : Nat) : Except Fatal Ctx :=
  if !c.InFunction then .error (.exit "`VAR()` is only legal inside an `FN()`.")
  else
    let r := SupportOptionalTypes c type line
    r.1.AddVarToBlock (.MaroonIRVarRegular line name r.2 (storedInit init))

/-- The function `RegisterArg`. -/
def RegisterArg (c : Ctx) (name type : String) (line : Nat) : Except Fatal Ctx :=
  if !c.InFunction then .error (.exit "`ARG()` is only legal inside an `FN()`.")
  else (c.AddArgToFunction type).AddVarToBlock (.MaroonIRVarFunctionArg line name type)

/-- The function `AsBlock`. -/
def AsBlock (capture : Option String) (key : String) (line : Nat) (in_ : MaroonIRStmtOrBlock) :
    MaroonIRBlock :=
  let block : MaroonIRBlock :=
    match in_ with
    | .MaroonIRBlock b => b
    | other => .mk line [] [other]
  match capture with
  | some name =>
    .mk block.line
      (block.vars ++
        [.MaroonIRVarEnumCaseCapture name key "THIS_WILL_BE_REPLACED_BY_SOURCE_VAR_NAME"])
      block.code
  | none => block

/-- The function `RegisterEnumArm`. Both `arm.key = key` and `arm.capture = capture` assign a
`std::string` to an `Optional<std::string>`, so both fields are set. -/
def RegisterEnumArm (c : Ctx) (key capture : String) (line : Nat)
    (code : Ctx → Except Fatal Ctx) : Except Fatal (MaroonIRMatchEnumStmtArm × Ctx) :=
  match code c with
  | .error e => .error e
  | .ok c1 =>
    match c1.ExtractLastStmt with
    | .error e => .error e
    | .ok (item, c2) => .ok (.mk line (some key) (some capture) (AsBlock (some capture) key line item), c2)

/-- The function `RegisterEnumDefaultArm`. -/
def RegisterEnumDefaultArm (c : Ctx) (line : Nat) (code : Ctx → Except Fatal Ctx) :
    Except Fatal (MaroonIRMatchEnumStmtArm × Ctx) :=
  match code c with
  | .error e => .error e
  | .ok c1 =>
    match c1.ExtractLastStmt with
    | .error e => .error e
    | .ok (item, c2) => .ok (.mk line none none (AsBlock none "" line item), c2)

/-- The constructor of `RegisterMatchEnumStmt`: returns the member `match` and the context
with a scratch block pushed. -/
def RegisterMatchEnumStmt.ctor (c : Ctx) (var : String) (line : Nat) :
    MaroonIRMatchEnumStmt × Ctx :=
  ({ line := line, var := var, arms := [] },
   { c with current_fn_blocks_stack := MaroonIRBlock.new :: c.current_fn_blocks_stack })

/-- One pass of the loop of `RegisterMatchEnumStmt::AddArms`: the arm as it is pushed to
`match.arms`. -/
def RegisterMatchEnumStmt.AddArm (var : String) (in_ : MaroonIRMatchEnumStmtArm) :
    Except Fatal MaroonIRMatchEnumStmtArm :=
  match in_ with
  | .mk line key capture code =>
    if capture.isSome then
      match code.vars.getLast? with
      | none => .error (.exit "Internal error: should have a var in arm's block.")
      | some (.MaroonIRVarEnumCaseCapture name k _) =>
        .ok (.mk line key capture
          (.mk code.line (code.vars.dropLast ++ [.MaroonIRVarEnumCaseCapture name k var])
            code.code))
      | some _ => .error (.exit "Internal error: should have a captured enum var in arm's block.")
    else .ok in_

/-- The method `RegisterMatchEnumStmt::AddArms`. -/
def RegisterMatchEnumStmt.AddArms (m : MaroonIRMatchEnumStmt) :
    List MaroonIRMatchEnumStmtArm → Except Fatal MaroonIRMatchEnumStmt
  | [] => .ok m
  | arm :: arms =>
    match RegisterMatchEnumStmt.AddArm m.var arm with
    | .error e => .error e
    | .ok in_ => RegisterMatchEnumStmt.AddArms { m with arms := m.arms ++ [in_] } arms

/-- The destructor of `RegisterMatchEnumStmt`: drop the scratch block, emit the match. -/
def RegisterMatchEnumStmt.dtor (c : Ctx) (m : MaroonIRMatchEnumStmt) : Except Fatal Ctx :=
  match c.current_fn_blocks_stack with
  | [] => .error (.undefined "pop_back() of an empty current_fn_blocks_stack")
  | _ :: rest =>
    let c1 : Ctx := { c with current_fn_blocks_stack := rest }
    match c1.AddToBlock m.toStmtOrBlock with
    | .error e => .error e
    | .ok (_, c2) => .ok c2

/-- The macro `MATCH_ENUM_STMT(enum_var, arms...)`, that is
`RegisterMatchEnumStmt(ctx, #enum_var, __LINE__).AddArms(arms...);` with the arms in a braced
list: the temporary is constructed, the arms of the braced list are evaluated left to right,
`AddArms` runs, and the temporary is destroyed at the end of the full expression. -/
def MATCH_ENUM_STMT (c : Ctx) (enum_var : String) (line : Nat)
    (arms : Ctx → Except Fatal (List MaroonIRMatchEnumStmtArm × Ctx)) : Except Fatal Ctx :=
  let r := RegisterMatchEnumStmt.ctor c enum_var line
  match arms r.2 with
  | .error e => .error e
  | .ok (as, c2) =>
    match RegisterMatchEnumStmt.AddArms r.1 as with
    | .error e => .error e
    | .ok m => RegisterMatchEnumStmt.dtor c2 m

/-- The struct `RegisterFn` as the `FN` macro uses it: the constructor, then `operator<<`
with the body `f`. -/
def RegisterFn (c : Ctx) (name : String) (return_type : Option String) (line : Nat)
    (f : Ctx → Except Fatal Ctx) : Except Fatal Ctx :=
  if c.current_fiber_name = "" then
    .error (.exit ("`FN(" ++ name ++ ")` should be defined within some `FIBER()`."))
  else if (c.out.function c.current_maroon_name c.current_fiber_name name).isSome then
    .error (.exit ("`FN(" ++ name ++ ")` is defined more than once in `FIBER(" ++
      c.current_fiber_name ++ ")` of `MAROON(" ++ c.current_maroon_name ++ ")`."))
  else
    let c1 : Ctx := { c with
      out := (c.out.modifyFunction c.current_maroon_name c.current_fiber_name name
        (fun fn => { fn with ret := return_type, line := line }))
      current_function_name := name }
    match c1.EnterFunction line with
    | .error e => .error e
    | .ok c2 =>
      match f c2 with
      | .error e => .error e
      | .ok c3 => c3.LeaveFunction

/-! ## `dsl.spec.h`: the statements of a function body

The macros expand to calls of the registration functions whose sub-builders are lambdas
holding further macro calls, so the body of an `FN` is a tree. -/

mutual
/-- A macro call that may stand in a function body, with the `__LINE__` it expands to. -/
inductive DslStmt
  | STMT (stmt : String) (line : Nat)
  | VAR (name type init : String) (line : Nat)
  | ARG (name type : String) (line : Nat)
  | IF (cond : String) (yes no : List DslStmt) (line : Nat)
  | BLOCK (body : List DslStmt) (line : Nat)
  | MATCH_ENUM_STMT (enum_var : String) (arms : List DslArm) (line : Nat)
/-- An arm of `MATCH_ENUM_STMT`: `ENUM_ARM(key, capture, stmt)` (the two-argument form
passes the empty text as `capture`) or `ENUM_DEFAULT(stmt)`. -/
inductive DslArm
  | ENUM_ARM (key capture : String) (stmt : List DslStmt) (line : Nat)
  | ENUM_DEFAULT (stmt : List DslStmt) (line : Nat)
end

mutual
/-- Run one macro call. -/
def DslStmt.run : DslStmt → Ctx → Except Fatal Ctx
  | .STMT stmt line, c => RegisterStmt c line stmt
  | .VAR name type init line, c => RegisterVar c name type init line
  | .ARG name type line, c => RegisterArg c name type line
  | .IF cond yes no line, c => RegisterIf c cond (runStmts yes) (runStmts no) line
  | .BLOCK body line, c => RegisterBlock c line (runStmts body)
  | .MATCH_ENUM_STMT enum_var arms line, c => MATCH_ENUM_STMT c enum_var line (runArms arms)
/-- Run the macro calls of a lambda body in order. -/
def runStmts : List DslStmt → Ctx → Except Fatal Ctx
  | [], c => .ok c
  | s :: ss, c =>
    match s.run c with
    | .error e => .error e
    | .ok c1 => runStmts ss c1
/-- Run one arm: the value `RegisterEnumArm` or `RegisterEnumDefaultArm` returns. -/
def DslArm.run : DslArm → Ctx → Except Fatal (MaroonIRMatchEnumStmtArm × Ctx)
  | .ENUM_ARM key capture stmt line, c => RegisterEnumArm c key capture line (runStmts stmt)
  | .ENUM_DEFAULT stmt line, c => RegisterEnumDefaultArm c line (runStmts stmt)
/-- Evaluate the braced list of arms left to right. -/
def runArms : List DslArm → Ctx → Except Fatal (List MaroonIRMatchEnumStmtArm × Ctx)
  | [], c => .ok ([], c)
  | a :: as, c =>
    match a.run c with
    | .error e => .error e
    | .ok (arm, c1) =>
      match runArms as c1 with
      | .error e => .error e
      | .ok (arms, c2) => .ok (arm :: arms, c2)
end

/-- The macro `FN(name)` (or `FN(name, ret)`) applied to the lambda holding `body`. -/
def FN (c : Ctx) (name : String) (ret : Option String) (line : Nat) (body : List DslStmt) :
    Except Fatal Ctx :=
  RegisterFn c name ret line (runStmts body)

/-! ## The tree a function body stands for

The IR a body is meant to produce, computed by recursion on the nesting alone: no block
stack, no placeholders, nothing extracted. The builder is compared with it below. -/

/-- How many items a macro call leaves in the current block: `VAR` and `ARG` none, every
other call one. -/
def DslStmt.appends : DslStmt → Nat
  | .VAR _ _ _ _ => 0
  | .ARG _ _ _ => 0
  | _ => 1

/-- How many items a lambda body leaves in the current block. -/
def appended (ss : List DslStmt) : Nat := (ss.map DslStmt.appends).sum

mutual
/-- Well-nestedness of a macro call: each branch of an `IF` and each arm of a
`MATCH_ENUM_STMT` appends exactly one item, at every depth. (A `BLOCK` is opened and closed
by `RegisterBlock` by construction of the tree.) -/
def DslStmt.wellNested : DslStmt → Bool
  | .STMT _ _ => true
  | .VAR _ _ _ _ => true
  | .ARG _ _ _ => true
  | .IF _ yes no _ =>
    appended yes == 1 && appended no == 1 && wellNestedStmts yes && wellNestedStmts no
  | .BLOCK body _ => wellNestedStmts body
  | .MATCH_ENUM_STMT _ arms _ => wellNestedArms arms
/-- Well-nestedness of a lambda body. -/
def wellNestedStmts : List DslStmt → Bool
  | [] => true
  | s :: ss => s.wellNested && wellNestedStmts ss
/-- Well-nestedness of an arm. -/
def DslArm.wellNested : DslArm → Bool
  | .ENUM_ARM _ _ stmt _ => appended stmt == 1 && wellNestedStmts stmt
  | .ENUM_DEFAULT stmt _ => appended stmt == 1 && wellNestedStmts stmt
/-- Well-nestedness of a list of arms. -/
def wellNestedArms : List DslArm → Bool
  | [] => true
  | a :: as => a.wellNested && wellNestedArms as
end

/-- The type text `RegisterVar` stores. -/
def storedType (type : String) : String :=
  if isOptionalSpelling type then "OPTIONAL_" ++ optionalInner type else type

mutual
/-- The vars a macro call registers in the current block. -/
def DslStmt.vars : DslStmt → List MaroonIRVar
  | .STMT _ _ => []
  | .VAR name type init line => [.MaroonIRVarRegular line name (storedType type) (storedInit init)]
  | .ARG name type line => [.MaroonIRVarFunctionArg line name type]
  | .IF _ yes no _ => varsOfStmts yes ++ varsOfStmts no
  | .BLOCK _ _ => []
  | .MATCH_ENUM_STMT _ _ _ => []
/-- The vars a lambda body registers in the current block, in order. -/
def varsOfStmts : List DslStmt → List MaroonIRVar
  | [] => []
  | s :: ss => s.vars ++ varsOfStmts ss
end

/-- The block of an arm around the item its sub-builder produced: the item itself when it is
a block, otherwise a new block at the arm's line holding just the item. -/
def armBlock (line : Nat) (item : MaroonIRStmtOrBlock) : MaroonIRBlock :=
  match item with
  | .MaroonIRBlock b => b
  | other => .mk line [] [other]

/-- The arm a keyed `ENUM_ARM` registers in a match on `var`: the wrapped item with the
capture alias `(capture, key, var)` as the last var of its block. -/
def keyedArm (var key capture : String) (line : Nat) (item : MaroonIRStmtOrBlock) :
    MaroonIRMatchEnumStmtArm :=
  .mk line (some key) (some capture)
    (.mk (armBlock line item).line
      ((armBlock line item).vars ++ [.MaroonIRVarEnumCaseCapture capture key var])
      (armBlock line item).code)

/-- The arm `ENUM_DEFAULT` registers: no key, no capture, the wrapped item. -/
def defaultArm (line : Nat) (item : MaroonIRStmtOrBlock) : MaroonIRMatchEnumStmtArm :=
  .mk line none none (armBlock line item)

mutual
/-- The items a macro call leaves in the current block. -/
def DslStmt.items : DslStmt → List MaroonIRStmtOrBlock
  | .STMT stmt line => [.MaroonIRStmt line stmt]
  | .VAR _ _ _ _ => []
  | .ARG _ _ _ => []
  | .IF cond yes no line =>
    match itemsOfStmts yes, itemsOfStmts no with
    | [y], [n] => [.MaroonIRIf line cond y n]
    | _, _ => []
  | .BLOCK body line => [.MaroonIRBlock (.mk line (varsOfStmts body) (itemsOfStmts body))]
  | .MATCH_ENUM_STMT enum_var arms line =>
    [.MaroonIRMatchEnumStmt line enum_var (armsOf enum_var arms)]
/-- The items a lambda body leaves in the current block, in order. -/
def itemsOfStmts : List DslStmt → List MaroonIRStmtOrBlock
  | [] => []
  | s :: ss => s.items ++ itemsOfStmts ss
/-- The arm one `ENUM_ARM` or `ENUM_DEFAULT` stands for in a match on `var` (none when its
sub-builder does not produce exactly one item). -/
def DslArm.arm (var : String) : DslArm → List MaroonIRMatchEnumStmtArm
  | .ENUM_ARM key capture stmt line =>
    match itemsOfStmts stmt with
    | [item] => [keyedArm var key capture line item]
    | _ => []
  | .ENUM_DEFAULT stmt line =>
    match itemsOfStmts stmt with
    | [item] => [defaultArm line item]
    | _ => []
/-- The arms of a match on `var`, in the order given. -/
def armsOf (var : String) : List DslArm → List MaroonIRMatchEnumStmtArm
  | [] => []
  | a :: as => a.arm var ++ armsOf var as
end

/-- The scope fields of the context, which no statement of a function body changes. -/
structure SameScope (c c1 : Ctx) : Prop where
  current_maroon_name : c1.current_maroon_name = c.current_maroon_name
  current_type_name : c1.current_type_name = c.current_type_name
  current_fiber_name : c1.current_fiber_name = c.current_fiber_name
  current_function_name : c1.current_function_name = c.current_function_name
  finalized : c1.finalized = c.finalized

/-! ## `engine.h`: values -/

mutual
/-- An object of a class derived from `MaroonTypeBase`: `MAROON_TYPE_U64`, `MAROON_TYPE_BOOL`,
or a class made by `DEFINE_MAROON_OPTIONAL_TYPE(alias, inner)`. -/
inductive MaroonValue
  | MAROON_TYPE_U64 (value : Nat)
  | MAROON_TYPE_BOOL (value : Bool)
  | MAROON_TYPE_OPTIONAL (alias_ inner : String) (value : MaroonOptional)
/-- The member `Optional<MAROON_TYPE_inner> value` of an optional class. -/
inductive MaroonOptional
  | none
  | some (v : MaroonValue)
end

/-- The class of an object, which is what `dynamic_cast` tests and what a template
argument `T_VAR` names. -/
inductive MaroonClass
  | MAROON_TYPE_U64
  | MAROON_TYPE_BOOL
  | MAROON_TYPE_OPTIONAL (alias_ inner : String)
  deriving DecidableEq, Repr

/-- The dynamic class of an object. -/
def MaroonValue.cls : MaroonValue → MaroonClass
  | .MAROON_TYPE_U64 _ => .MAROON_TYPE_U64
  | .MAROON_TYPE_BOOL _ => .MAROON_TYPE_BOOL
  | .MAROON_TYPE_OPTIONAL alias_ inner _ => .MAROON_TYPE_OPTIONAL alias_ inner

/-- The static member `MAROON_type_name_static()` of a class; the optional classes return
the stringified `inner`. -/
def MaroonClass.MAROON_type_name_static : MaroonClass → String
  | .MAROON_TYPE_U64 => "U64"
  | .MAROON_TYPE_BOOL => "BOOL"
  | .MAROON_TYPE_OPTIONAL _ inner => inner

/-- The virtual `MAROON_type_name()`, which every class overrides with the text its static
counterpart returns. -/
def MaroonValue.MAROON_type_name (v : MaroonValue) : String :=
  v.cls.MAROON_type_name_static

mutual
/-- The virtual `MAROON_display`, as the text it writes. -/
def MaroonValue.MAROON_display : MaroonValue → String
  | .MAROON_TYPE_U64 value => toString value
  | .MAROON_TYPE_BOOL value => if value then "true" else "false"
  | .MAROON_TYPE_OPTIONAL _ _ value => value.MAROON_display
/-- The two branches of an optional's display. -/
def MaroonOptional.MAROON_display : MaroonOptional → String
  | .none => "None"
  | .some v => "Some(" ++ v.MAROON_display ++ ")"
end

/-- The helper `U64(v)`. -/
def U64 (v : Nat) : MaroonValue := .MAROON_TYPE_U64 (v % 2 ^ 64)

/-- The helper `BOOL(v)`. -/
def BOOL (v : Bool) : MaroonValue := .MAROON_TYPE_BOOL v

/-- How a run stops other than by `run` returning: `std::exit(1)`, undefined behaviour, or
(in this embedding only) the iteration budget of the loop being used up. A thrown
`ImplException` is the constructor `throw`, caught by `run`. -/
inductive Stop
  | throw (description : String)
  | exit (msg : String)
  | undefined (what : String)
  | outOfFuel
  deriving DecidableEq, Repr

/-- The function `StripMaroonTypeNamePrefix`. -/
def StripMaroonTypeNamePrefix (s : String) : String :=
  if s.length ≥ "MAROON_TYPE_".length ∧ s.toList.take "MAROON_TYPE_".length = "MAROON_TYPE_".toList
  then String.mk (s.toList.drop "MAROON_TYPE_".length)
  else s

/-! ## `engine.h`: the result collector -/

/-- The enum `TmpNextStatus`. -/
inductive TmpNextStatus
  | None
  | Branch
  | Call
  | Return
  deriving DecidableEq, Repr

/-- The struct `ImplResultCollector`. Members without an initializer are given a fixed
value here; the code reads each of them only after writing it. -/
structure ImplResultCollector where
  next_idx_ : Nat := 0
  status_ : TmpNextStatus := .None
  call_idx_ : Nat := 0
  call_f_ : String := ""
  call_retval_var_idx_ : Nat := 0
  call_args_ : List (Option MaroonValue) := []
  has_retval_ : Bool := false
  retval_ : Option MaroonValue := none

/-- The value `static_cast<MaroonVarIndex>(-1)`. -/
def noRetvalVar : Nat := 2 ^ 32 - 1

/-- The method `ImplResultCollector::branch`: what it raises, if anything, and the collector
it leaves. -/
def ImplResultCollector.branch (r : ImplResultCollector) (idx : Nat) :
    Except Stop Unit × ImplResultCollector :=
  if r.status_ ≠ .None then
    (.error (.throw "TODO(dkorolev): FIXME: Attempted to `IF()` in the wrong place."), r)
  else (.ok (), { r with status_ := .Branch, next_idx_ := idx })

/-- The method `ImplResultCollector::call_ignore_return`. -/
def ImplResultCollector.call_ignore_return (r : ImplResultCollector) (number_of_args : Nat)
    (idx : Nat) (f : String) (args : List (Option MaroonValue)) :
    Except Stop Unit × ImplResultCollector :=
  if r.status_ ≠ .None then
    (.error (.throw "TODO(dkorolev): FIXME: Attempted `CALL()` in the wrong place."), r)
  else if args.length ≠ number_of_args then (.error (.throw "WRONG NUMBER OF ARGS"), r)
  else
    (.ok (), { r with
      status_ := .Call, call_idx_ := idx, call_f_ := f, call_retval_var_idx_ := noRetvalVar
      call_args_ := args })

/-- The method `ImplResultCollector::call_capture_return`. -/
def ImplResultCollector.call_capture_return (r : ImplResultCollector) (v : Nat)
    (number_of_args : Nat) (idx : Nat) (f : String) (args : List (Option MaroonValue)) :
    Except Stop Unit × ImplResultCollector :=
  if r.status_ ≠ .None then
    (.error (.throw "TODO(dkorolev): FIXME: Attempted `CALL()` in the wrong place."), r)
  else if args.length ≠ number_of_args then (.error (.throw "WRONG NUMBER OF ARGS"), r)
  else
    (.ok (), { r with
      status_ := .Call, call_idx_ := idx, call_f_ := f, call_retval_var_idx_ := v
      call_args_ := args })

/-- The method `ImplResultCollector::ret()` without a value. -/
def ImplResultCollector.ret (r : ImplResultCollector) : Except Stop Unit × ImplResultCollector :=
  if r.status_ ≠ .None then
    (.error (.throw "TODO(dkorolev): FIXME: Attempted `RETURN()` in the wrong place."), r)
  else (.ok (), { r with status_ := .Return, has_retval_ := false })

/-- The method `ImplResultCollector::ret(val)`; `val` is the object made from the argument. -/
def ImplResultCollector.retVal (r : ImplResultCollector) (val : MaroonValue) :
    Except Stop Unit × ImplResultCollector :=
  if r.status_ ≠ .None then
    (.error (.throw "TODO(dkorolev): FIXME: Attempted `RETURN()` in the wrong place."), r)
  else (.ok (), { r with status_ := .Return, has_retval_ := true, retval_ := some val })

/-- The method `ImplResultCollector::status`. -/
def ImplResultCollector.status (r : ImplResultCollector) : TmpNextStatus := r.status_

/-! ## `engine.h`: the environment -/

/-- The struct `ImplVar`; `value` is a `unique_ptr`, which may be null. -/
structure ImplVar where
  name : String := ""
  value : Option MaroonValue := none

/-- The struct `ImplCallStackEntry`. -/
structure ImplCallStackEntry where
  current_idx_ : Nat
  f_ : String := ""
  call_retval_var_idx_ : Nat := noRetvalVar
  vars_ : List ImplVar := []
  args_used_ : Nat := 0
  args_ : List (Option MaroonValue) := []

/-- The struct `ImplEnv`; `os_` is the text written to the stream so far. -/
structure ImplEnv where
  os_ : String := ""
  call_stack_ : List ImplCallStackEntry := []

/-- The method `ImplEnv::debug`, `s` being the text the argument streams as. -/
def ImplEnv.debug (env : ImplEnv) (s : String) : ImplEnv :=
  { env with os_ := env.os_ ++ s ++ "\n" }

/-- The method `ImplEnv::debug_expr`. -/
def ImplEnv.debug_expr (env : ImplEnv) (expr : String) (v : MaroonValue) : ImplEnv :=
  { env with os_ := env.os_ ++ (expr ++ "=" ++ v.MAROON_display) ++ "\n" }

/-- The loop of `ImplEnv::do_debug_dump_vars`: the entries, each preceded by a comma
unless `first`. -/
def do_debug_dump_vars.loop : Bool → List ImplVar → Except Stop String
  | _, [] => .ok ""
  | first, v :: vs =>
    match v.value with
    | none => .error (.undefined "MAROON_display through a null pointer")
    | some x =>
      match do_debug_dump_vars.loop false vs with
      | .error e => .error e
      | .ok tail => .ok ((if first then "" else ",") ++ v.name ++ ":" ++ x.MAROON_display ++ tail)

/-- The method `ImplEnv::do_debug_dump_vars`, as the text it writes. -/
def ImplEnv.do_debug_dump_vars (vars : List ImplVar) : Except Stop String :=
  match do_debug_dump_vars.loop true vars with
  | .error e => .error e
  | .ok s => .ok ("[" ++ s ++ "]")

/-- The method `ImplEnv::debug_dump_vars`. -/
def ImplEnv.debug_dump_vars (env : ImplEnv) : Except Stop ImplEnv :=
  match env.call_stack_ with
  | [] => .error (.undefined "back() of an empty call_stack_")
  | top :: _ =>
    match ImplEnv.do_debug_dump_vars top.vars_ with
    | .error e => .error e
    | .ok s => .ok { env with os_ := env.os_ ++ s ++ "\n" }

/-- The loop of `ImplEnv::debug_dump_stack` over the frames from the entry frame up. -/
def debug_dump_stack.loop : Bool → List ImplCallStackEntry → Except Stop String
  | _, [] => .ok ""
  | first, v :: vs =>
    match ImplEnv.do_debug_dump_vars v.vars_ with
    | .error e => .error e
    | .ok s =>
      match debug_dump_stack.loop false vs with
      | .error e => .error e
      | .ok tail =>
        .ok ((if first then "" else ",") ++ (if v.f_ ≠ "" then v.f_ ++ "@" else "") ++ s ++ tail)

/-- The method `ImplEnv::debug_dump_stack`. -/
def ImplEnv.debug_dump_stack (env : ImplEnv) : Except Stop ImplEnv :=
  match debug_dump_stack.loop true env.call_stack_.reverse with
  | .error e => .error e
  | .ok s => .ok { env with os_ := env.os_ ++ ("<" ++ s ++ ">") ++ "\n" }

/-- The method `ImplEnv::DeclareVar`. -/
def ImplEnv.DeclareVar (env : ImplEnv) (idx : Nat) (name : String) (init : MaroonValue) :
    Except Stop ImplEnv :=
  match env.call_stack_ with
  | [] => .error (.undefined "back() of an empty call_stack_")
  | top :: rest =>
    if idx ≠ top.vars_.length then .error (.exit "Internal invariant error: corrupted stack.")
    else
      .ok { env with call_stack_ :=
        { top with vars_ := top.vars_ ++ [{ name := name, value := some init }] } :: rest }

/-- The method `ImplEnv::DeclareFunctionArg<T_VAR>`. -/
def ImplEnv.DeclareFunctionArg (T_VAR : MaroonClass) (env : ImplEnv) (idx : Nat)
    (name : String) : Except Stop ImplEnv :=
  match env.call_stack_ with
  | [] => .error (.undefined "back() of an empty call_stack_")
  | top :: rest =>
    if idx ≠ top.vars_.length then .error (.exit "Internal invariant error: corrupted stack.")
    else if top.args_used_ ≥ top.args_.length then
      .error (.exit "Internal invariant error: not enough args, should never happen.")
    else
      match top.args_.get? top.args_used_ with
      | some (some value) =>
        if T_VAR.MAROON_type_name_static ≠ value.MAROON_type_name then
          .error (.exit "Internal error: function argument type does not match (should not happen).")
        else
          .ok { env with call_stack_ :=
            { top with
              vars_ := top.vars_ ++ [{ name := name, value := some value }]
              args_ := top.args_.set top.args_used_ none
              args_used_ := top.args_used_ + 1 } :: rest }
      | _ => .error (.undefined "MAROON_type_name through a null pointer")

/-- The method `ImplEnv::DeclareCapturedAlias`: the new entry has no value. -/
def ImplEnv.DeclareCapturedAlias (env : ImplEnv) (idx : Nat) (name : String) :
    Except Stop ImplEnv :=
  match env.call_stack_ with
  | [] => .error (.undefined "back() of an empty call_stack_")
  | top :: rest =>
    if idx ≠ top.vars_.length then .error (.exit "Internal invariant error: corrupted stack.")
    else
      .ok { env with call_stack_ :=
        { top with vars_ := top.vars_ ++ [{ name := name, value := none }] } :: rest }

/-- The text of the exception `AccessVar` throws. -/
def typeMismatchMessage (name actual expected : String) : String :=
  "Attempted to use `" ++ name ++ "` of type `" ++ StripMaroonTypeNamePrefix actual ++
    "` as `" ++ StripMaroonTypeNamePrefix expected ++ "`."

/-- The method `ImplEnv::AccessVar<T_VAR>`, read through the reference it returns. -/
def ImplEnv.AccessVar (T_VAR : MaroonClass) (env : ImplEnv) (idx : Nat) (name : String) :
    Except Stop MaroonValue :=
  match env.call_stack_ with
  | [] => .error (.undefined "back() of an empty call_stack_")
  | top :: _ =>
    match top.vars_.get? idx with
    | none => .error (.exit "Internal invariant error: var out of stack.")
    | some var =>
      if var.name ≠ name then .error (.exit "Internal invariant error: corrupted stack.")
      else
        match var.value with
        | none => .error (.undefined "MAROON_type_name through a null pointer")
        | some v =>
          if v.cls = T_VAR then .ok v
          else
            .error (.throw
              (typeMismatchMessage name v.MAROON_type_name T_VAR.MAROON_type_name_static))

/-! ## `engine.h`: the engine -/

/-- The struct `MaroonStep`. The two function pointers are functions of the objects they
receive by reference, returning them as they leave them or the way they stop. -/
structure MaroonStep where
  code : ImplEnv → ImplResultCollector → Except Stop (ImplEnv × ImplResultCollector)
  num_vars_available_before_step : Nat
  num_vars_declared_for_step : Nat
  new_vars : ImplEnv → Except Stop ImplEnv

/-- The template argument `T_FIBER` of `MaroonEngine`, a generated class: the entry index
`FN_main` and the table `MAROON_steps()`. -/
structure T_FIBER where
  FN_main : Nat
  MAROON_steps : List MaroonStep

/-- Modelled from the spec: the constant `T_FIBER::kStepsCount` of the generated class, which
is not in the sources; the spec has the index checked against the end of the step table. -/
def T_FIBER.kStepsCount (T : T_FIBER) : Nat := T.MAROON_steps.length

/-- The assignment `vars_[i].value = std::move(retval_)`; none when `i` is out of range. -/
def storeValue : List ImplVar → Nat → Option MaroonValue → Option (List ImplVar)
  | [], _, _ => none
  | v :: vs, 0, x => some ({ v with value := x } :: vs)
  | v :: vs, i + 1, x =>
    match storeValue vs i x with
    | none => none
    | some vs1 => some (v :: vs1)

/-- The part of the loop body of `MaroonEngine::run` after `step.code(env, result)`:
the four-way branch on `result.status()`. -/
def MaroonEngine.applyResult (env : ImplEnv) (result : ImplResultCollector) :
    Except Stop ImplEnv :=
  match env.call_stack_ with
  | [] => .error (.undefined "back() of an empty call_stack_")
  | top :: rest =>
    match result.status with
    | .Branch =>
      .ok { env with call_stack_ := { top with current_idx_ := result.next_idx_ } :: rest }
    | .Call =>
      .ok { env with call_stack_ :=
        { current_idx_ := result.call_idx_, f_ := result.call_f_
          call_retval_var_idx_ := result.call_retval_var_idx_, args_ := result.call_args_ } ::
        { top with current_idx_ := (top.current_idx_ + 1) % 2 ^ 32 } :: rest }
    | .Return =>
      let retval_var_idx := top.call_retval_var_idx_
      if result.has_retval_ then
        match rest with
        | [] =>
          .error (.exit
            "Internal error: returning from the top-level of the fiber should have no value.")
        | caller :: below =>
          if retval_var_idx ≠ noRetvalVar then
            match storeValue caller.vars_ retval_var_idx result.retval_ with
            | none => .error (.undefined "vars_[retval_var_idx] out of range")
            | some vars => .ok { env with call_stack_ := { caller with vars_ := vars } :: below }
          else .ok { env with call_stack_ := rest }
      else if retval_var_idx ≠ noRetvalVar then
        .error (.throw "A return value must have been provided.")
      else .ok { env with call_stack_ := rest }
    | .None =>
      .ok { env with call_stack_ :=
        { top with current_idx_ := (top.current_idx_ + 1) % 2 ^ 32 } :: rest }

/-- The part of the loop body of `MaroonEngine::run` before `step.code(env, result)`: the
check of the step index, the fetch of the step, the release of the variables beyond
`num_vars_available_before_step`, the call of `step.new_vars` and the check of the count.
Returns the step and the environment its code will run on. -/
def MaroonEngine.prepareStep (T : T_FIBER) (env : ImplEnv) : Except Stop (MaroonStep × ImplEnv) :=
  match env.call_stack_ with
  | [] => .error (.undefined "back() of an empty call_stack_")
  | top :: rest =>
    if top.current_idx_ ≥ T.kStepsCount then
      .error (.throw "Need `RETURN()` at least at the last `STMT()` of the `FN()`.")
    else
      match T.MAROON_steps.get? top.current_idx_ with
      | none => .error (.undefined "fiber_steps[current_idx_] out of range")
      | some step =>
        if top.vars_.length < step.num_vars_available_before_step then
          .error (.exit "Internal invariant failed: pre-step vars count mismatch.")
        else
          let env1 : ImplEnv :=
            if top.vars_.length > step.num_vars_available_before_step then
              { env with call_stack_ :=
                { top with vars_ := top.vars_.take step.num_vars_available_before_step } :: rest }
            else env
          match step.new_vars env1 with
          | .error e => .error e
          | .ok env2 =>
            match env2.call_stack_ with
            | [] => .error (.undefined "back() of an empty call_stack_")
            | top2 :: _ =>
              if top2.vars_.length ≠
                  step.num_vars_available_before_step + step.num_vars_declared_for_step then
                .error (.exit "Internal invariant failed: intra-step vars count mismatch.")
              else .ok (step, env2)

/-- One pass through the body of the `while` loop of `MaroonEngine::run`: the preparation,
the step's code on a new `ImplResultCollector`, and the branch on what it recorded. -/
def MaroonEngine.iteration (T : T_FIBER) (env : ImplEnv) : Except Stop ImplEnv :=
  match MaroonEngine.prepareStep T env with
  | .error e => .error e
  | .ok (step, env2) =>
    match step.code env2 {} with
    | .error e => .error e
    | .ok (env3, result) => MaroonEngine.applyResult env3 result

/-- The `while (!env.call_stack_.empty())` loop, given a budget of iterations. -/
def MaroonEngine.loop (T : T_FIBER) : Nat → ImplEnv → Except Stop ImplEnv
  | fuel, env =>
    if env.call_stack_.isEmpty then .ok env
    else
      match fuel with
      | 0 => .error .outOfFuel
      | fuel + 1 =>
        match MaroonEngine.iteration T env with
        | .error e => .error e
        | .ok env1 => MaroonEngine.loop T fuel env1

/-- The state `run` enters the loop with: an empty stream and the frame of `main`. -/
def MaroonEngine.initial (T : T_FIBER) : ImplEnv :=
  { os_ := "", call_stack_ := [{ current_idx_ := T.FN_main }] }

/-- The method `MaroonEngine::run`: the pair it returns. The `catch` clause turns a thrown
`ImplException` into the pair of the empty text and `OriginalDescription()`. -/
def MaroonEngine.run (T : T_FIBER) (fuel : Nat) : Except Stop (String × String) :=
  match MaroonEngine.loop T fuel (MaroonEngine.initial T) with
  | .ok env => .ok (env.os_, "")
  | .error (.throw description) => .ok ("", description)
  | .error e => .error e

/-- The first `k` passes through the loop body from `env` (fewer when the stack empties). -/
def MaroonEngine.iterations (T : T_FIBER) : Nat → ImplEnv → Except Stop ImplEnv
  | 0, env => .ok env
  | k + 1, env =>
    if env.call_stack_.isEmpty then .ok env
    else
      match MaroonEngine.iteration T env with
      | .error e => .error e
      | .ok env1 => MaroonEngine.iterations T k env1

/-- A step's code that only deposits an outcome in the collector. -/
def onCollector (op : ImplResultCollector → Except Stop Unit × ImplResultCollector) :
    ImplEnv → ImplResultCollector → Except Stop (ImplEnv × ImplResultCollector) :=
  fun env r =>
    match (op r).1 with
    | .error e => .error e
    | .ok _ => .ok (env, (op r).2)

/-- The line an arm is registered with. -/
def DslArm.line : DslArm → Nat
  | .ENUM_ARM _ _ _ line => line
  | .ENUM_DEFAULT _ line => line

/-- The key `RegisterEnumArm` sets on the arm; `RegisterEnumDefaultArm` sets none. -/
def DslArm.key : DslArm → Option String
  | .ENUM_ARM key _ _ _ => some key
  | .ENUM_DEFAULT _ _ => none

/-- The capture `RegisterEnumArm` sets on the arm; `RegisterEnumDefaultArm` sets none. -/
def DslArm.capture : DslArm → Option String
  | .ENUM_ARM _ capture _ _ => some capture
  | .ENUM_DEFAULT _ _ => none

/-- Sequencing of two pieces of a step's code: the second runs on what the first left,
unless the first stopped. -/
def andThen (a b : ImplEnv → ImplResultCollector → Except Stop (ImplEnv × ImplResultCollector)) :
    ImplEnv → ImplResultCollector → Except Stop (ImplEnv × ImplResultCollector) :=
  fun env r =>
    match a env r with
    | .error e => .error e
    | .ok (env1, r1) => b env1 r1

/-- A call of one of the outcome-recording methods of `ImplResultCollector`. -/
inductive ControlOp
  | branch (idx : Nat)
  | call_ignore_return (number_of_args idx : Nat) (f : String) (args : List (Option MaroonValue))
  | call_capture_return (v number_of_args idx : Nat) (f : String)
      (args : List (Option MaroonValue))
  | ret
  | retVal (val : MaroonValue)

/-- The method a `ControlOp` calls. -/
def ControlOp.apply : ControlOp → ImplResultCollector → Except Stop Unit × ImplResultCollector
  | .branch idx, r => r.branch idx
  | .call_ignore_return n idx f args, r => r.call_ignore_return n idx f args
  | .call_capture_return v n idx f args, r => r.call_capture_return v n idx f args
  | .ret, r => r.ret
  | .retVal val, r => r.retVal val

/-- The text of the exception a method throws when the collector already holds an
outcome. -/
def ControlOp.misplaced : ControlOp → String
  | .branch _ => "TODO(dkorolev): FIXME: Attempted to `IF()` in the wrong place."
  | .call_ignore_return _ _ _ _ => "TODO(dkorolev): FIXME: Attempted `CALL()` in the wrong place."
  | .call_capture_return _ _ _ _ _ =>
    "TODO(dkorolev): FIXME: Attempted `CALL()` in the wrong place."
  | .ret => "TODO(dkorolev): FIXME: Attempted `RETURN()` in the wrong place."
  | .retVal _ => "TODO(dkorolev): FIXME: Attempted `RETURN()` in the wrong place."

/-- The text of the exception thrown when the step index is past the table. -/
def missingReturnMessage : String := "Need `RETURN()` at least at the last `STMT()` of the `FN()`."

/-- The operator `+` of `MAROON_TYPE_U64`, on the `value` members. -/
def U64.add (lhs rhs : Nat) : MaroonValue := .MAROON_TYPE_U64 ((lhs + rhs) % 2 ^ 64)

/-! ## `dsl.prefix.h`: namespaces, fibers, types and `Finalize` -/

/-- The assignment `out.maroon[m] = g(that entry)`; `operator[]` creates a missing entry. -/
def MaroonIRScenarios.modifyNamespace (out : MaroonIRScenarios) (m : String)
    (g : MaroonIRNamespace → MaroonIRNamespace) : MaroonIRScenarios :=
  { out with maroon := StdMap.modify out.maroon m g }

/-- The assignment `out.maroon[m].fibers[f] = g(that entry)`. -/
def MaroonIRScenarios.modifyFiber (out : MaroonIRScenarios) (m f : String)
    (g : MaroonIRFiber → MaroonIRFiber) : MaroonIRScenarios :=
  out.modifyNamespace m (fun ns => { ns with fibers := StdMap.modify ns.fibers f g })

/-- The assignment `out.maroon[m].types[t] = g(that entry)`. -/
def MaroonIRScenarios.modifyType (out : MaroonIRScenarios) (m t : String)
    (g : MaroonIRType → MaroonIRType) : MaroonIRScenarios :=
  out.modifyNamespace m (fun ns => { ns with types := StdMap.modify ns.types t g })

/-- The type table `out.maroon[m].types`. -/
def MaroonIRScenarios.typesOf (out : MaroonIRScenarios) (m : String) : StdMap MaroonIRType :=
  (StdMap.at out.maroon m).types

/-- The fiber table `out.maroon[m].fibers`. -/
def MaroonIRScenarios.fibersOf (out : MaroonIRScenarios) (m : String) : StdMap MaroonIRFiber :=
  (StdMap.at out.maroon m).fibers

/-- The struct `RegisterMaroon` as the `MAROON` macro uses it: the constructor, then
`operator<<` with the body `f`. -/
def RegisterMaroon (c : Ctx) (name : String) (line : Nat) (f : Ctx → Except Fatal Ctx) :
    Except Fatal Ctx :=
  if StdMap.count c.out.maroon name ≠ 0 then
    .error (.exit ("`MAROON(" ++ name ++ ")` is defined more than once."))
  else
    let c1 : Ctx := { c with
      current_maroon_name := name
      out := (c.out.modifyNamespace name (fun ns => { ns with line := line })) }
    if c1.current_maroon_name = "" then .error (.exit "FOO2")
    else
      match f c1 with
      | .error e => .error e
      | .ok c2 => .ok { c2 with current_maroon_name := "" }

/-- The struct `RegisterFiber` as the `FIBER` macro uses it. -/
def RegisterFiber (c : Ctx) (name : String) (line : Nat) (f : Ctx → Except Fatal Ctx) :
    Except Fatal Ctx :=
  if c.current_maroon_name = "" then
    .error (.exit ("`FIBER(" ++ name ++ ")` should be defined within some `MAROON()`."))
  else if StdMap.count (c.out.fibersOf c.current_maroon_name) name ≠ 0 then
    .error (.exit ("`FIBER(" ++ name ++ ")` is defined more than once in `MAROON(" ++
      c.current_maroon_name ++ ")`."))
  else
    let c1 : Ctx := { c with
      current_fiber_name := name
      out := (c.out.modifyFiber c.current_maroon_name name (fun fib => { fib with line := line })) }
    if c1.current_fiber_name = "" then .error (.exit "BAR2")
    else
      match f c1 with
      | .error e => .error e
      | .ok c2 => .ok { c2 with current_fiber_name := "" }

/-- The struct `RegisterType` as the `TYPE` macro uses it. The exit of `operator<<` on an
empty `current_type_name` prints nothing. -/
def RegisterType (c : Ctx) (name : String) (line : Nat) (f : Ctx → Except Fatal Ctx) :
    Except Fatal Ctx :=
  if c.current_maroon_name = "" then
    .error (.exit ("`TYPE(" ++ name ++ ")` should be defined within some `MAROON()`."))
  else if StdMap.count (c.out.typesOf c.current_maroon_name) name ≠ 0 then
    .error (.exit ("Type `" ++ name ++ "` is defined more than once in `MAROON(" ++
      c.current_maroon_name ++ ")`."))
  else
    let c1 : Ctx := { c with
      current_type_name := name
      out := (c.out.modifyType c.current_maroon_name name
        (fun r => { r with line := line, def_ := .MaroonIRTypeDefStruct [] })) }
    if c1.current_type_name = "" then .error (.exit "")
    else
      match f c1 with
      | .error e => .error e
      | .ok c2 => .ok { c2 with current_type_name := "" }

/-- The struct `RegisterEnum` as the `ENUM` macro uses it. -/
def RegisterEnum (c : Ctx) (name : String) (line : Nat) (f : Ctx → Except Fatal Ctx) :
    Except Fatal Ctx :=
  if c.current_maroon_name = "" then
    .error (.exit ("`ENUM(" ++ name ++ ")` should be defined within some `MAROON()`."))
  else if StdMap.count (c.out.typesOf c.current_maroon_name) name ≠ 0 then
    .error (.exit ("Type `" ++ name ++ "` is defined more than once in `MAROON(" ++
      c.current_maroon_name ++ ")`."))
  else
    let c1 : Ctx := { c with
      current_type_name := name
      out := (c.out.modifyType c.current_maroon_name name
        (fun r => { r with line := line, def_ := .MaroonIRTypeDefEnum [] })) }
    if c1.current_type_name = "" then .error (.exit "")
    else
      match f c1 with
      | .error e => .error e
      | .ok c2 => .ok { c2 with current_type_name := "" }

/-- The function `RegisterField`. -/
def RegisterField (c : Ctx) (name type : String) (line : Nat) : Except Fatal Ctx :=
  if c.current_type_name = "" then
    .error (.exit "`FIELD()` is only legal inside `TYPE()`.")
  else
    let r := SupportOptionalTypes c type line
    match (StdMap.at (r.1.out.typesOf r.1.current_maroon_name) r.1.current_type_name).def_ with
    | .MaroonIRTypeDefStruct fields =>
      .ok { r.1 with out := (r.1.out.modifyType r.1.current_maroon_name r.1.current_type_name
        (fun t => { t with def_ :=
          .MaroonIRTypeDefStruct (fields ++ [{ name := name, type := r.2 }]) })) }
    | _ => .error (.exit "`FIELD()` is only legal inside the type that is a proper `TYPE()`.")

/-- The function `RegisterCase`. -/
def RegisterCase (c : Ctx) (key type : String) (line : Nat) : Except Fatal Ctx :=
  if c.current_type_name = "" then
    .error (.exit "`CASE()` is only legal inside `ENUM()`.")
  else
    let r := SupportOptionalTypes c type line
    match (StdMap.at (r.1.out.typesOf r.1.current_maroon_name) r.1.current_type_name).def_ with
    | .MaroonIRTypeDefEnum cases =>
      .ok { r.1 with out := (r.1.out.modifyType r.1.current_maroon_name r.1.current_type_name
        (fun t => { t with def_ :=
          .MaroonIRTypeDefEnum (cases ++ [{ key := key, type := r.2 }]) })) }
    | _ => .error (.exit "`CASE()` is only legal inside the type that is a proper `ENUM()`.")

/-- The definition of the active type, the `p` of `RegisterField` and `RegisterCase`:
`out.maroon[current_maroon_name].types[current_type_name].def`. -/
def Ctx.activeTypeDef (c : Ctx) : MaroonIRTypeDef :=
  (StdMap.at (c.out.typesOf c.current_maroon_name) c.current_type_name).def_

/-- The inner loop of `Ctx::Finalize` over the recorded types `(T, line)` of one namespace,
on that namespace's type table. -/
def Ctx.Finalize.types (maroon_types : StdMap MaroonIRType) :
    List (String × Nat) → Except Fatal (StdMap MaroonIRType)
  | [] => .ok maroon_types
  | t :: rest =>
    if StdMap.count maroon_types ("OPTIONAL_" ++ t.1) ≠ 0 then
      .error (.exit ("Internal error, type `" ++ ("OPTIONAL_" ++ t.1) ++
        "` should not be defined explicitly."))
    else
      Ctx.Finalize.types
        (StdMap.set maroon_types ("OPTIONAL_" ++ t.1)
          { line := t.2, def_ := .MaroonIRTypeDefOptional t.1 }) rest

/-- The outer loop of `Ctx::Finalize` over `optional_types_per_maroon`. -/
def Ctx.Finalize.namespaces (out : MaroonIRScenarios) :
    List (String × StdMap Nat) → Except Fatal MaroonIRScenarios
  | [] => .ok out
  | cit :: rest =>
    match Ctx.Finalize.types (out.typesOf cit.1) cit.2 with
    | .error e => .error e
    | .ok types =>
      Ctx.Finalize.namespaces (out.modifyNamespace cit.1 (fun ns => { ns with types := types }))
        rest

/-- The method `Ctx::Finalize`. -/
def Ctx.Finalize (c : Ctx) : Except Fatal Ctx :=
  if c.finalized then .error (.exit "Internal error, `Finalize()` already called.")
  else
    match Ctx.Finalize.namespaces c.out c.optional_types_per_maroon with
    | .error e => .error e
    | .ok out => .ok { c with finalized := true, out := out }

/-- The entry `optional_types_per_maroon[N][T]` exists and holds `line`. -/
def Ctx.recordedAt (c : Ctx) (N T : String) (line : Nat) : Prop :=
  ∃ per, (N, per) ∈ c.optional_types_per_maroon ∧ (T, line) ∈ per

/-- The entry `optional_types_per_maroon[N][T]` exists: `T` was used in the spelling
`OPTIONAL<T>` in namespace `N`. -/
def Ctx.recorded (c : Ctx) (N T : String) : Prop :=
  ∃ line, c.recordedAt N T line

/-! ## `dsl.spec.h`: a whole program

A program in the nesting the macros are meant for: namespaces holding fibers of functions,
struct types of fields and enums of cases; `Finalize` runs after the last namespace. -/

/-- A `FIELD(name, type)` or `CASE(key, type)` call. -/
inductive DslMember
  | FIELD (name type : String) (line : Nat)
  | CASE (key type : String) (line : Nat)

/-- A `FN(name)` or `FN(name, ret)` with its body. -/
structure DslFn where
  name : String
  ret : Option String
  body : List DslStmt
  line : Nat

/-- A `FIBER`, `TYPE` or `ENUM` with its body. -/
inductive DslDecl
  | FIBER (name : String) (fns : List DslFn) (line : Nat)
  | TYPE (name : String) (members : List DslMember) (line : Nat)
  | ENUM (name : String) (members : List DslMember) (line : Nat)

/-- A `MAROON(name)` with its body. -/
structure DslMaroon where
  name : String
  decls : List DslDecl
  line : Nat

/-- Run one member call. -/
def DslMember.run : DslMember → Ctx → Except Fatal Ctx
  | .FIELD name type line, c => RegisterField c name type line
  | .CASE key type line, c => RegisterCase c key type line

/-- Run the member calls of a lambda body in order. -/
def runMembers : List DslMember → Ctx → Except Fatal Ctx
  | [], c => .ok c
  | m :: ms, c =>
    match m.run c with
    | .error e => .error e
    | .ok c1 => runMembers ms c1

/-- Run the functions of a fiber body in order. -/
def runFns : List DslFn → Ctx → Except Fatal Ctx
  | [], c => .ok c
  | fn :: fns, c =>
    match FN c fn.name fn.ret fn.line fn.body with
    | .error e => .error e
    | .ok c1 => runFns fns c1

/-- Run one declaration of a namespace body. -/
def DslDecl.run : DslDecl → Ctx → Except Fatal Ctx
  | .FIBER name fns line, c => RegisterFiber c name line (runFns fns)
  | .TYPE name members line, c => RegisterType c name line (runMembers members)
  | .ENUM name members line, c => RegisterEnum c name line (runMembers members)

/-- Run the declarations of a namespace body in order. -/
def runDecls : List DslDecl → Ctx → Except Fatal Ctx
  | [], c => .ok c
  | d :: ds, c =>
    match d.run c with
    | .error e => .error e
    | .ok c1 => runDecls ds c1

/-- Run the namespaces of a program in order. -/
def runMaroons : List DslMaroon → Ctx → Except Fatal Ctx
  | [], c => .ok c
  | m :: ms, c =>
    match RegisterMaroon c m.name m.line (runDecls m.decls) with
    | .error e => .error e
    | .ok c1 => runMaroons ms c1

/-- Build a program: a new `Ctx`, the namespaces, then `Finalize`. -/
def buildProgram (P : List DslMaroon) : Except Fatal Ctx :=
  match runMaroons P {} with
  | .error e => .error e
  | .ok c => c.Finalize

/-- Whether a var is a `MaroonIRVarEnumCaseCapture`. -/
def MaroonIRVar.isCapture : MaroonIRVar → Bool
  | .MaroonIRVarEnumCaseCapture _ _ _ => true
  | _ => false

/-- The text `AsBlock` writes as `src` until `AddArms` replaces it. -/
def temporarySrc : String := "THIS_WILL_BE_REPLACED_BY_SOURCE_VAR_NAME"

/-! ## What a program records

The texts `T` that the fields, cases and variables of a program spell as `OPTIONAL<T>`;
`ARG` is not among them, because `RegisterArg` does not call `SupportOptionalTypes`. -/

/-- The `T` a type text spells as `OPTIONAL<T>`, if it does. -/
def optionalUse (type : String) : List String :=
  if isOptionalSpelling type then [optionalInner type] else []

mutual
/-- The `T` of the `VAR` calls at any depth of a statement. -/
def DslStmt.optionalUses : DslStmt → List String
  | .STMT _ _ => []
  | .VAR _ type _ _ => optionalUse type
  | .ARG _ _ _ => []
  | .IF _ yes no _ => optionalUsesOfStmts yes ++ optionalUsesOfStmts no
  | .BLOCK body _ => optionalUsesOfStmts body
  | .MATCH_ENUM_STMT _ arms _ => optionalUsesOfArms arms
/-- The `T` of the `VAR` calls at any depth of a lambda body. -/
def optionalUsesOfStmts : List DslStmt → List String
  | [] => []
  | s :: ss => s.optionalUses ++ optionalUsesOfStmts ss
/-- The `T` of the `VAR` calls at any depth of an arm. -/
def DslArm.optionalUses : DslArm → List String
  | .ENUM_ARM _ _ stmt _ => optionalUsesOfStmts stmt
  | .ENUM_DEFAULT stmt _ => optionalUsesOfStmts stmt
/-- The `T` of the `VAR` calls at any depth of a list of arms. -/
def optionalUsesOfArms : List DslArm → List String
  | [] => []
  | a :: as => a.optionalUses ++ optionalUsesOfArms as
end

/-- The `T` of a `FIELD` or `CASE`. -/
def DslMember.optionalUses : DslMember → List String
  | .FIELD _ type _ => optionalUse type
  | .CASE _ type _ => optionalUse type

/-- The `T` of the members of a type body. -/
def optionalUsesOfMembers : List DslMember → List String
  | [] => []
  | m :: ms => m.optionalUses ++ optionalUsesOfMembers ms

/-- The `T` of the functions of a fiber body. -/
def optionalUsesOfFns : List DslFn → List String
  | [] => []
  | fn :: fns => optionalUsesOfStmts fn.body ++ optionalUsesOfFns fns

/-- The `T` of a declaration. -/
def DslDecl.optionalUses : DslDecl → List String
  | .FIBER _ fns _ => optionalUsesOfFns fns
  | .TYPE _ members _ => optionalUsesOfMembers members
  | .ENUM _ members _ => optionalUsesOfMembers members

/-- The `T` of the declarations of a namespace body. -/
def optionalUsesOfDecls : List DslDecl → List String
  | [] => []
  | d :: ds => d.optionalUses ++ optionalUsesOfDecls ds

/-- The pairs of a namespace name and a `T` spelled `OPTIONAL<T>` in it, over a program. -/
def optionalUsesOfProgram : List DslMaroon → List (String × String)
  | [] => []
  | m :: ms => (optionalUsesOfDecls m.decls).map (fun T => (m.name, T)) ++ optionalUsesOfProgram ms

/-- The record of optional types only grows, and the current namespace is the same. -/
structure OptGrows (c c1 : Ctx) : Prop where
  current_maroon_name : c1.current_maroon_name = c.current_maroon_name
  recorded : ∀ N T, c.recorded N T → c1.recorded N T

/-- What a successful statement keeps: the depth of the block stack and the current
namespace; what it adds: the `T` of its `OPTIONAL<T>` spellings to the record. -/
structure Kept (uses : List String) (c c1 : Ctx) : Prop where
  depth : c1.current_fn_blocks_stack.length = c.current_fn_blocks_stack.length
  grows : OptGrows c c1
  uses : ∀ T ∈ uses, c1.recorded c.current_maroon_name T

/-- The messages of the five guards that test `InFunction`. -/
def functionScopeMessages : List String :=
  [ "`STMT()` is only legal inside an `FN()`.",
    "`IF()` is only legal inside an `FN()`.",
    "`BLOCK()` is only legal inside an `FN()`.",
    "`VAR()` is only legal inside an `FN()`.",
    "`ARG()` is only legal inside an `FN()`." ]

/-- Whether a build stopped at one of the guards that test `InFunction`. -/
def Fatal.isFunctionScope : Fatal → Bool
  | .exit msg => decide (msg ∈ functionScopeMessages)
  | .undefined _ => false

/-- The keys of a `std::map` are distinct. -/
def StdMap.distinctKeys {V : Type} (m : StdMap V) : Prop := (m.map Prod.fst).Nodup

/-- The member `optional_types_per_maroon` is a `std::map` of `std::map`s: the keys are
distinct at both levels. -/
def Ctx.recordIsMap (c : Ctx) : Prop :=
  c.optional_types_per_maroon.distinctKeys ∧
    ∀ p ∈ c.optional_types_per_maroon, p.2.distinctKeys

/-- The text `Finalize` prints when `OPTIONAL_T` is already in the type table. -/
def collisionMessage (T : String) : String :=
  "Internal error, type `" ++ ("OPTIONAL_" ++ T) ++ "` should not be defined explicitly."

/-- Modelled from the spec: the `new_vars` constructor of the first step of a function, which
the generator (not in the sources) emits for the declared arguments; it materializes them in
the frame in order, each with `DeclareFunctionArg<T_VAR>(idx, name)`, `idx` counting up. -/
def declareArgs : List (MaroonClass × String) → Nat → ImplEnv → Except Stop ImplEnv
  | [], _, env => .ok env
  | (T_VAR, name) :: rest, idx, env =>
    match ImplEnv.DeclareFunctionArg T_VAR env idx name with
    | .error e => .error e
    | .ok env1 => declareArgs rest (idx + 1) env1

/-- The text `DeclareFunctionArg` prints before `std::exit(1)` when the packed value is of
another type than the declared one. -/
def argumentTypeMessage : String :=
  "Internal error: function argument type does not match (should not happen)."

/-- A step of `main` that declares nothing and whose code is `DEBUG(s)`: it calls
`env.debug` and deposits nothing in the collector, so the engine falls through. -/
def debugStep (s : String) : MaroonStep :=
  { num_vars_available_before_step := 0
    num_vars_declared_for_step := 0
    new_vars := fun env => .ok env
    code := fun env r => .ok (env.debug s, r) }

/-- A step that declares nothing and whose code is `RETURN()`. -/
def returnStep : MaroonStep :=
  { num_vars_available_before_step := 0
    num_vars_declared_for_step := 0
    new_vars := fun env => .ok env
    code := onCollector (fun r => r.ret) }

/-- The step table whose `main` is one `DEBUG` step per text of `ss`, then `RETURN()`. -/
def debugThenReturn (ss : List String) : T_FIBER :=
  { FN_main := 0, MAROON_steps := ss.map debugStep ++ [returnStep] }

/-- The text `s_1 ++ "\n" ++ ... ++ s_n ++ "\n"`. -/
def linesOf : List String → String
  | [] => ""
  | s :: ss => s ++ "\n" ++ linesOf ss

/-- A step that only ever appends to the stream: what `new_vars` and `code` leave in `os_`
starts with what they found there. Writing to a `std::ostream&` with `<<` is of this kind. -/
def MaroonStep.appendsOnly (step : MaroonStep) : Prop :=
  (∀ e e1, step.new_vars e = .ok e1 → ∃ t, e1.os_ = e.os_ ++ t) ∧
  (∀ e r e1 r1, step.code e r = .ok (e1, r1) → ∃ t, e1.os_ = e.os_ ++ t)

/-- Whether a slot holds a value: `value` is not a null pointer. -/
def ImplVar.boxed (v : ImplVar) : Bool := v.value.isSome

/-- Whether every slot of a variable list holds a value. -/
def allBoxed (vars : List ImplVar) : Bool := vars.all ImplVar.boxed

/-- Whether every slot of every frame holds a value. -/
def ImplEnv.slotsBoxed (env : ImplEnv) : Bool := env.call_stack_.all (fun fr => allBoxed fr.vars_)

/-- The rendering of one variable in the words of the specification, `name:display`, to be
compared with what `do_debug_dump_vars` writes; a slot without a value has no display and is
given an empty one here. -/
def varText (v : ImplVar) : String :=
  v.name ++ ":" ++ (match v.value with
    | some x => x.MAROON_display
    | none => "")

/-- The rendering of a variable list in the words of the specification: the variables in
slot order, joined by a comma, between brackets. -/
def varsText (vars : List ImplVar) : String :=
  "[" ++ String.intercalate "," (vars.map varText) ++ "]"

/-- The rendering of a frame in the words of the specification: the bracketed variable list,
prefixed by the function name and `@` exactly when the function name is not empty. -/
def frameText (fr : ImplCallStackEntry) : String :=
  (if fr.f_ = "" then "" else fr.f_ ++ "@") ++ varsText fr.vars_

/-- The rendering of a call stack in the words of the specification: the frames from the
entry frame (the last of the list) to the top frame (its head), joined by a comma, between
angle brackets. -/
def stackText (call_stack_ : List ImplCallStackEntry) : String :=
  "<" ++ String.intercalate "," (call_stack_.reverse.map frameText) ++ ">"

/-- The texts of a list, each preceded by a comma. -/
def commaTail : List String → String
  | [] => ""
  | x :: xs => "," ++ x ++ commaTail xs

/-- The text printed before `std::exit(1)` when the top frame holds fewer variables than the
step's entry count. -/
def preStepMessage : String := "Internal invariant failed: pre-step vars count mismatch."

/-- The text printed before `std::exit(1)` when, after `new_vars`, the top frame does not
hold the step's entry count plus its declared count. -/
def intraStepMessage : String := "Internal invariant failed: intra-step vars count mismatch."

/-- A step that keeps every slot holding a value: its `new_vars` and its `code` (called on a
new collector) leave every slot of every frame with a value when they found it so, and a
return value the code records is there. Steps that declare with `DeclareVar` and
`DeclareFunctionArg` and return with `RETURN(value)` are of this kind. -/
def MaroonStep.keepsBoxed (step : MaroonStep) : Prop :=
  (∀ e e1, e.slotsBoxed = true → step.new_vars e = .ok e1 → e1.slotsBoxed = true) ∧
  (∀ e e1 r1, e.slotsBoxed = true → step.code e {} = .ok (e1, r1) →
    e1.slotsBoxed = true ∧ (r1.has_retval_ = true → r1.retval_.isSome = true))

/-- The entry `optional_types_per_maroon[N][T]` as `find` sees it: the line recorded for `T`
in the namespace `N`, when there is one. -/
def Ctx.lineOf (c : Ctx) (N T : String) : Option Nat :=
  match StdMap.find c.optional_types_per_maroon N with
  | none => none
  | some per => StdMap.find per T

/-- A sequence of usages `OPTIONAL<T>` in the current namespace, each given by its `T` and
its line, in event order: what `SupportOptionalTypes` does to the record for each. -/
def Ctx.considerAll : Ctx → List (String × Nat) → Ctx
  | c, [] => c
  | c, u :: us => (c.ConsiderOptionalType u.1 u.2).considerAll us

/-- The line of the first usage of `T` in a sequence of usages, in event order. -/
def firstUse (T : String) : List (String × Nat) → Option Nat
  | [] => none
  | u :: us => if u.1 = T then some u.2 else firstUse T us

/-- Whether the parentheses of a text are balanced, read from an opening depth: every
closing parenthesis has an opening one before it, and none is left open at the end. -/
def balancedFrom : Nat → List Char → Bool
  | d, [] => d == 0
  | d, c :: cs =>
    if c = '(' then balancedFrom (d + 1) cs
    else if c = ')' then (if d = 0 then false else balancedFrom (d - 1) cs)
    else balancedFrom d cs

/-- Whether the parentheses of a text are balanced. -/
def balanced (s : String) : Bool := balancedFrom 0 s.toList

/-! ## Sample inputs -/

/-- A context inside `MAROON(ns)` and `FIBER(global)`, before any function. -/
def sampleCtx : Ctx := { current_maroon_name := "ns", current_fiber_name := "global" }

/-- A body with an argument, an optional variable, a nested block holding an `IF` whose else
branch is a block, and a match with a capturing arm and a default arm. -/
def sampleBody : List DslStmt :=
  [ .ARG "a" "U64" 3,
    .VAR "x" "OPTIONAL<U64>" "(a)" 4,
    .STMT "DEBUG_EXPR(a)" 5,
    .BLOCK
      [ .VAR "y" "BOOL" "true" 7,
        .IF "y" [.STMT "DEBUG(1)" 8] [.BLOCK [.STMT "DEBUG(2)" 9] 9] 8 ] 6,
    .MATCH_ENUM_STMT "x"
      [ .ENUM_ARM "U64" "v" [.STMT "DEBUG_EXPR(v)" 11] 11,
        .ENUM_DEFAULT [.STMT "DEBUG(0)" 12] 12 ] 10 ]

/-- A context inside a function whose body block, opened at line 2, already holds one
statement. -/
def sampleInFn : Ctx :=
  { current_maroon_name := "ns", current_fiber_name := "global", current_function_name := "main"
    current_fn_blocks_stack := [.mk 2 [] [.MaroonIRStmt 3 "DEBUG(0)"]] }

/-- A step table, written out by hand, for
`FN add(a U64, b U64) -> U64 ( RETURN(a + b) )` and
`main ( VAR r U64 = 0; CALL(r, add, (U64(2), U64(3))); DEBUG_EXPR(r); RETURN() )`:
steps 0 to 2 are `main`, step 3 is `add`. -/
def callWithReturn : T_FIBER :=
  { FN_main := 0
    MAROON_steps :=
      [ { num_vars_available_before_step := 0
          num_vars_declared_for_step := 1
          new_vars := fun env => env.DeclareVar 0 "r" (U64 0)
          code := onCollector (fun r =>
            r.call_capture_return 0 2 3 "add" [some (U64 2), some (U64 3)]) },
        { num_vars_available_before_step := 1
          num_vars_declared_for_step := 0
          new_vars := fun env => .ok env
          code := fun env r =>
            match ImplEnv.AccessVar .MAROON_TYPE_U64 env 0 "r" with
            | .error e => .error e
            | .ok v => .ok (env.debug_expr "r" v, r) },
        { num_vars_available_before_step := 1
          num_vars_declared_for_step := 0
          new_vars := fun env => .ok env
          code := onCollector (fun r => r.ret) },
        { num_vars_available_before_step := 0
          num_vars_declared_for_step := 2
          new_vars := fun env =>
            match ImplEnv.DeclareFunctionArg .MAROON_TYPE_U64 env 0 "a" with
            | .error e => .error e
            | .ok env1 => ImplEnv.DeclareFunctionArg .MAROON_TYPE_U64 env1 1 "b"
          code := fun env r =>
            match ImplEnv.AccessVar .MAROON_TYPE_U64 env 0 "a",
                ImplEnv.AccessVar .MAROON_TYPE_U64 env 1 "b" with
            | .ok (.MAROON_TYPE_U64 a), .ok (.MAROON_TYPE_U64 b) =>
              onCollector (fun r => r.retVal (U64.add a b)) env r
            | .error e, _ => .error e
            | _, .error e => .error e
            | _, _ => .error (.undefined "AccessVar of U64 gave another class") } ] }

/-- A step table whose `main` prints a line and then, in its second step, reads the `BOOL`
variable `b` as a `U64`. -/
def boolAsU64 : T_FIBER :=
  { FN_main := 0
    MAROON_steps :=
      [ { num_vars_available_before_step := 0
          num_vars_declared_for_step := 0
          new_vars := fun env => .ok env
          code := fun env r => .ok (env.debug "hi", r) },
        { num_vars_available_before_step := 0
          num_vars_declared_for_step := 1
          new_vars := fun env => env.DeclareVar 0 "b" (BOOL true)
          code := fun env r =>
            match ImplEnv.AccessVar .MAROON_TYPE_U64 env 0 "b" with
            | .error e => .error e
            | .ok v => .ok (env.debug_expr "b" v, r) } ] }

/-- A step without variables whose code calls `RETURN()` twice. -/
def returnTwiceStep : MaroonStep :=
  { num_vars_available_before_step := 0
    num_vars_declared_for_step := 0
    new_vars := fun env => .ok env
    code := andThen (onCollector ControlOp.ret.apply) (onCollector ControlOp.ret.apply) }

/-- A step table whose `main` prints a line and then, in its second step, calls `RETURN()`
twice. -/
def returnTwice : T_FIBER :=
  { FN_main := 0
    MAROON_steps :=
      [ { num_vars_available_before_step := 0
          num_vars_declared_for_step := 0
          new_vars := fun env => .ok env
          code := fun env r => .ok (env.debug "hi", r) },
        returnTwiceStep ] }

/-- A step table whose `main` prints a line and has no `RETURN()`. -/
def noReturn : T_FIBER :=
  { FN_main := 0
    MAROON_steps :=
      [ { num_vars_available_before_step := 0
          num_vars_declared_for_step := 0
          new_vars := fun env => .ok env
          code := fun env r => .ok (env.debug "hi", r) } ] }

/-- The state of `callWithReturn` when the only step of `add` has run its code: the frame
of `add` with its two arguments bound, on top of the frame of `main` as the call left it. -/
def addReturning : ImplEnv :=
  { os_ := ""
    call_stack_ :=
      [ { current_idx_ := 3, f_ := "add", call_retval_var_idx_ := 0
          vars_ := [{ name := "a", value := some (U64 2) }, { name := "b", value := some (U64 3) }]
          args_used_ := 2, args_ := [none, none] },
        { current_idx_ := (0 + 1) % 2 ^ 32, vars_ := [{ name := "r", value := some (U64 0) }] } ] }

/-- The state of a table after its first step printed the line `hi` and fell through. -/
def afterHi : ImplEnv :=
  { os_ := "hi\n", call_stack_ := [{ current_idx_ := 1 }] }

/-- The only step of a function that calls `RETURN()` without a value. -/
def returnNothingStep : MaroonStep :=
  { num_vars_available_before_step := 0
    num_vars_declared_for_step := 0
    new_vars := fun env => .ok env
    code := onCollector (fun r => r.ret) }

/-- A step table in which `main` (steps 0 and 1) declares `r`, calls `f` capturing the
result in `r` and returns; `f` (step 2) returns without a value. -/
def captureWithoutValue : T_FIBER :=
  { FN_main := 0
    MAROON_steps :=
      [ { num_vars_available_before_step := 0
          num_vars_declared_for_step := 1
          new_vars := fun env => env.DeclareVar 0 "r" (U64 0)
          code := onCollector (fun r => r.call_capture_return 0 0 2 "f" []) },
        { num_vars_available_before_step := 1
          num_vars_declared_for_step := 0
          new_vars := fun env => .ok env
          code := onCollector (fun r => r.ret) },
        returnNothingStep ] }

/-- The same table with the result of `f` ignored; `main` prints a line after the call. -/
def ignoreWithoutValue : T_FIBER :=
  { FN_main := 0
    MAROON_steps :=
      [ { num_vars_available_before_step := 0
          num_vars_declared_for_step := 1
          new_vars := fun env => env.DeclareVar 0 "r" (U64 0)
          code := onCollector (fun r => r.call_ignore_return 0 2 "f" []) },
        { num_vars_available_before_step := 1
          num_vars_declared_for_step := 0
          new_vars := fun env => .ok env
          code := fun env r => onCollector (fun r => r.ret) (env.debug "back") r },
        returnNothingStep ] }

/-- The state of `captureWithoutValue` after the call: the frame of `f`, called with return
slot 0, on top of the frame of `main`. -/
def inCapturedCall : ImplEnv :=
  { os_ := ""
    call_stack_ :=
      [ { current_idx_ := 2, f_ := "f", call_retval_var_idx_ := 0 },
        { current_idx_ := (0 + 1) % 2 ^ 32, vars_ := [{ name := "r", value := some (U64 0) }] } ] }

/-- A context whose namespace `ns` declares the struct `Pair` and in which `U64` was
recorded, at line 4, as used in the spelling `OPTIONAL<U64>`. -/
def sampleRecorded : Ctx :=
  { out := { maroon := [("ns", { line := 1, types :=
      [("Pair", { line := 2, def_ := .MaroonIRTypeDefStruct [{ name := "a", type := "U64" }] })] })] }
    optional_types_per_maroon := [("ns", [("U64", 4)])] }

/-- The context `Finalize` makes of `sampleRecorded`. -/
def sampleFinalized : Ctx :=
  { out := { maroon := [("ns", { line := 1, types :=
      [("OPTIONAL_U64", { line := 4, def_ := .MaroonIRTypeDefOptional "U64" }),
        ("Pair", { line := 2, def_ := .MaroonIRTypeDefStruct [{ name := "a", type := "U64" }] })] })] }
    optional_types_per_maroon := [("ns", [("U64", 4)])]
    finalized := true }

/-- A program whose only variable is declared with the type written `OPTIONAL_U64`. -/
def directOptionalProgram : List DslMaroon :=
  [ { name := "ns", line := 1
      decls := [.FIBER "global"
        [{ name := "main", ret := none, line := 3
           body := [.VAR "x" "OPTIONAL_U64" "NONE" 4, .STMT "RETURN()" 5] }] 2] } ]

/-- The context `buildProgram` makes of `directOptionalProgram`: no type is declared. -/
def directOptionalBuilt : Ctx :=
  { out := { maroon := [("ns", { line := 1, fibers := [("global", { line := 2, functions :=
      [("main", { line := 3, body :=
        (.mk 3 [.MaroonIRVarRegular 4 "x" "OPTIONAL_U64" "NONE"]
          [.MaroonIRStmt 5 "RETURN()"]) })] })] })] }
    finalized := true }

/-- A program with a variable, a struct field and an enum case spelled `OPTIONAL<...>`. -/
def optionalProgram : List DslMaroon :=
  [ { name := "ns", line := 1
      decls :=
        [ .FIBER "global"
            [{ name := "main", ret := none, line := 3
               body := [.VAR "x" "OPTIONAL<U64>" "NONE" 4, .STMT "RETURN()" 5] }] 2,
          .TYPE "Pair" [.FIELD "a" "U64" 7, .FIELD "b" "OPTIONAL<BOOL>" 8] 6,
          .ENUM "Shape" [.CASE "dot" "OPTIONAL<Pair>" 10] 9 ] } ]

/-- The context `buildProgram` makes of `optionalProgram`. -/
def optionalProgramBuilt : Ctx :=
  { out := { maroon := [("ns", { line := 1, fibers := [("global", { line := 2, functions :=
        [("main", { line := 3, body :=
          (.mk 3 [.MaroonIRVarRegular 4 "x" "OPTIONAL_U64" "NONE"]
            [.MaroonIRStmt 5 "RETURN()"]) })] })], types :=
        [("OPTIONAL_BOOL", { line := 8, def_ := .MaroonIRTypeDefOptional "BOOL" }),
         ("OPTIONAL_Pair", { line := 10, def_ := .MaroonIRTypeDefOptional "Pair" }),
         ("OPTIONAL_U64", { line := 4, def_ := .MaroonIRTypeDefOptional "U64" }),
         ("Pair", { line := 6, def_ := (.MaroonIRTypeDefStruct
            [{ name := "a", type := "U64" }, { name := "b", type := "OPTIONAL_BOOL" }]) }),
         ("Shape", { line := 9, def_ := (.MaroonIRTypeDefEnum
            [{ key := "dot", type := "OPTIONAL_Pair" }]) })] })] }
    optional_types_per_maroon := [("ns", [("BOOL", 8), ("Pair", 10), ("U64", 4)])]
    finalized := true }

/-- A context inside `MAROON(ns)` and `ENUM(Shape)`, before any case. -/
def sampleInEnum : Ctx :=
  { current_maroon_name := "ns", current_type_name := "Shape"
    out := { maroon := [("ns", { line := 1, types :=
      [("Shape", { line := 5, def_ := .MaroonIRTypeDefEnum [] })] })] } }

/-- A context inside `MAROON(ns)` after `TYPE(Pair)`: the namespace declares the struct
`Pair`, no type and no fiber is open. -/
def sampleInNs : Ctx :=
  { out := { maroon := [("ns", { line := 1, types :=
      [("Pair", { line := 2, def_ := .MaroonIRTypeDefStruct [{ name := "a", type := "U64" }] })] })] }
    current_maroon_name := "ns" }

/-- The context in which `FN(main)`, at line 3 of `FIBER(global)` of `MAROON(ns)`, runs its
body. -/
def sampleInMain : Ctx :=
  { out := { maroon := [("ns", { line := 1, fibers := [("global", { line := 2, functions :=
      [("main", { line := 3 })] })] })] }
    current_maroon_name := "ns", current_fiber_name := "global", current_function_name := "main"
    current_fn_blocks_stack := [.mk 3 [] []] }

/-- A context whose namespace `ns` declares a struct named `OPTIONAL_U64` and in which
`U64` was recorded, at line 4, as used in the spelling `OPTIONAL<U64>`. -/
def sampleCollision : Ctx :=
  { out := { maroon := [("ns", { line := 1, types :=
      [("OPTIONAL_U64", { line := 2, def_ := .MaroonIRTypeDefStruct [] })] })] }
    optional_types_per_maroon := [("ns", [("U64", 4)])] }

/-- The context a `MAROON(late)` with a `TYPE(T)` of one `FIELD(f, U64)`, run on
`sampleFinalized`, leaves: the namespace `late` is added to the finalized program. -/
def sampleAfterLateEvents : Ctx :=
  { out := { maroon :=
      [("late", { line := 20, types :=
        [("T", { line := 21, def_ := .MaroonIRTypeDefStruct [{ name := "f", type := "U64" }] })] }),
       ("ns", { line := 1, types :=
        [("OPTIONAL_U64", { line := 4, def_ := .MaroonIRTypeDefOptional "U64" }),
          ("Pair", { line := 2, def_ := .MaroonIRTypeDefStruct [{ name := "a", type := "U64" }] })] })] }
    optional_types_per_maroon := [("ns", [("U64", 4)])]
    finalized := true }

/-- A function body that calls `ctx.EnterBlock(line)` and returns: it opens a block and
never closes it. -/
def openBlockOnly (line : Nat) : Ctx → Except Fatal Ctx :=
  fun c =>
    match c.EnterBlock line with
    | .error e => .error e
    | .ok (_, c1) => .ok c1

/-- The context in which `FN(main)` of `FIBER(global)` of `MAROON(ns)` is closed after
`openBlockOnly 4`: two blocks are on the stack, the new one on top of the function's block,
which holds the placeholder. -/
def sampleTwoDeep : Ctx :=
  { out := { maroon := [("ns", { line := 1, fibers := [("global", { line := 2, functions :=
      [("main", { line := 3 })] })] })] }
    current_maroon_name := "ns", current_fiber_name := "global", current_function_name := "main"
    next_placeholder_idx := 1
    blocks_stack := [(1, 0)]
    current_fn_blocks_stack := [MaroonIRBlock.new, .mk 3 [] [.MaroonIRBlockPlaceholder 4 1]] }

/-- The context `LeaveFunction` makes of `sampleTwoDeep`: the block on top of the stack is
the body of `main`. -/
def sampleTwoDeepLeft : Ctx :=
  { out := { maroon := [("ns", { line := 1, fibers := [("global", { line := 2, functions :=
      [("main", { line := 3, body := MaroonIRBlock.new })] })] })] }
    current_maroon_name := "ns", current_fiber_name := "global"
    next_placeholder_idx := 1
    blocks_stack := [(1, 0)] }

/-- A step table, written out by hand, in which `main` calls `f` with a packed `U64` while the
first step of `f` declares its one argument as a `BOOL`: step 0 calls, step 1 returns from
`main`, step 2 is `f`. -/
def argOfWrongClass : T_FIBER :=
  { FN_main := 0
    MAROON_steps :=
      [ { num_vars_available_before_step := 0
          num_vars_declared_for_step := 0
          new_vars := fun env => .ok env
          code := onCollector (fun r => r.call_ignore_return 1 2 "f" [some (U64 1)]) },
        { num_vars_available_before_step := 0
          num_vars_declared_for_step := 0
          new_vars := fun env => .ok env
          code := onCollector (fun r => r.ret) },
        { num_vars_available_before_step := 0
          num_vars_declared_for_step := 1
          new_vars := declareArgs [(.MAROON_TYPE_BOOL, "b")] 0
          code := onCollector (fun r => r.ret) } ] }

/-- The environment of `argOfWrongClass` after its first pass: the frame of `f` with the
packed `U64` on top of the frame of `main`. -/
def inWrongCall : ImplEnv :=
  { call_stack_ :=
      [ { current_idx_ := 2, f_ := "f", args_ := [some (U64 1)] },
        { current_idx_ := (0 + 1) % 2 ^ 32 } ] }

/-- A program whose variable has the type `Foo` and whose struct field has the type `Bar`,
neither of which is declared. -/
def undeclaredTypeProgram : List DslMaroon :=
  [ { name := "ns", line := 1
      decls :=
        [ .FIBER "global"
            [{ name := "main", ret := none, line := 3
               body := [.VAR "x" "Foo" "0" 4, .STMT "RETURN()" 5] }] 2,
          .TYPE "Pair" [.FIELD "a" "Bar" 7] 6 ] } ]

/-- The context `buildProgram` makes of `undeclaredTypeProgram`. -/
def undeclaredTypeBuilt : Ctx :=
  { out := { maroon := [("ns", { line := 1, fibers := [("global", { line := 2, functions :=
        [("main", { line := 3, body :=
          (.mk 3 [.MaroonIRVarRegular 4 "x" "Foo" "0"]
            [.MaroonIRStmt 5 "RETURN()"]) })] })], types :=
        [("Pair", { line := 6, def_ := (.MaroonIRTypeDefStruct
            [{ name := "a", type := "Bar" }]) })] })] }
    finalized := true }

/-- The body of `FN(f) { VAR(x, U64, 0); ARG(a, BOOL); STMT(RETURN()); }`: the argument is
declared after a regular variable. -/
def argAfterVar : List DslStmt :=
  [.VAR "x" "U64" "0" 4, .ARG "a" "BOOL" 5, .STMT "RETURN()" 6]

/-- The body of `FN(g) { BLOCK { ARG(b, U64); STMT(RETURN()); }; }`: the argument is declared
inside a nested block. -/
def argInBlock : List DslStmt :=
  [.BLOCK [.ARG "b" "U64" 9, .STMT "RETURN()" 10] 8]

/-- The body `MATCH_ENUM_STMT(x, ENUM_DEFAULT(STMT(DEBUG(1))), ENUM_DEFAULT(STMT(DEBUG(2))));`:
two default arms. -/
def twoDefaultArms : List DslStmt :=
  [ .MATCH_ENUM_STMT "x"
      [ .ENUM_DEFAULT [.STMT "DEBUG(1)" 5] 5,
        .ENUM_DEFAULT [.STMT "DEBUG(2)" 6] 6 ] 4 ]

/-- The body `MATCH_ENUM_STMT(x, ENUM_ARM(U64, v, STMT(DEBUG_EXPR(v))),
ENUM_ARM(U64, w, STMT(DEBUG_EXPR(w))));`: two arms for the case `U64`. -/
def twoArmsOfOneCase : List DslStmt :=
  [ .MATCH_ENUM_STMT "x"
      [ .ENUM_ARM "U64" "v" [.STMT "DEBUG_EXPR(v)" 5] 5,
        .ENUM_ARM "U64" "w" [.STMT "DEBUG_EXPR(w)" 6] 6 ] 4 ]

/-- A frame just called with one packed argument, an empty `OPTIONAL_U64`. -/
def calledWithOptional : ImplEnv :=
  { os_ := ""
    call_stack_ :=
      [ { current_idx_ := 1, f_ := "f"
          args_ := [some (.MAROON_TYPE_OPTIONAL "OPTIONAL_U64" "U64" .none)] } ] }

/-- The state `calledWithOptional` after the argument was bound to the variable `a`. -/
def optionalBoundAsU64 : ImplEnv :=
  { os_ := ""
    call_stack_ :=
      [ { current_idx_ := 1, f_ := "f"
          vars_ := [{ name := "a", value := some (.MAROON_TYPE_OPTIONAL "OPTIONAL_U64" "U64" .none) }]
          args_used_ := 1
          args_ := [none] } ] }

/-- A step with entry count 0 that declares the variable `x` and prints a line. -/
def declareXStep : MaroonStep :=
  { num_vars_available_before_step := 0
    num_vars_declared_for_step := 1
    new_vars := fun env => env.DeclareVar 0 "x" (U64 7)
    code := fun env r => .ok (env.debug "x", r) }

/-- A step with entry count 1 that declares nothing and returns. -/
def keepOneStep : MaroonStep :=
  { num_vars_available_before_step := 1
    num_vars_declared_for_step := 0
    new_vars := fun env => .ok env
    code := onCollector (fun r => r.ret) }

/-- A step table whose `main` is `declareXStep` followed by `keepOneStep`. -/
def declareX : T_FIBER := { FN_main := 0, MAROON_steps := [declareXStep, keepOneStep] }

/-- A step table whose `main` starts with a step of entry count 1. -/
def keepOne : T_FIBER := { FN_main := 0, MAROON_steps := [keepOneStep] }

/-- A frame at step 1 of `declareX` that holds `x` and, from a scope since left, `y`. -/
def holdingTwo : ImplEnv :=
  { os_ := "x\n"
    call_stack_ :=
      [ { current_idx_ := 1
          vars_ := [{ name := "x", value := some (U64 7) },
                    { name := "y", value := some (BOOL true) }] } ] }

/-- The state `holdingTwo` with `y` released. -/
def holdingOne : ImplEnv :=
  { os_ := "x\n"
    call_stack_ := [ { current_idx_ := 1, vars_ := [{ name := "x", value := some (U64 7) }] } ] }

/-- The state of `declareX` when the code of its first step is called. -/
def declaredX : ImplEnv :=
  { os_ := ""
    call_stack_ := [ { current_idx_ := 0, vars_ := [{ name := "x", value := some (U64 7) }] } ] }

/-- A step that declares the capture `v` of a match arm and dumps the variables. -/
def captureStep : MaroonStep :=
  { num_vars_available_before_step := 0
    num_vars_declared_for_step := 1
    new_vars := fun env => env.DeclareCapturedAlias 0 "v"
    code := fun env r =>
      match env.debug_dump_vars with
      | .error e => .error e
      | .ok env1 => .ok (env1, r) }

/-- A step table whose `main` is `captureStep` and a return. -/
def captureThenDump : T_FIBER := { FN_main := 0, MAROON_steps := [captureStep, returnStep] }

/-- The state of `captureThenDump` when the code of its first step is called. -/
def aliasDeclared : ImplEnv :=
  { os_ := "", call_stack_ := [ { current_idx_ := 0, vars_ := [{ name := "v", value := none }] } ] }

/-- A context inside a function whose body block, opened at line 2, holds two statements. -/
def sampleTwoStmts : Ctx :=
  { current_maroon_name := "ns", current_fiber_name := "global", current_function_name := "main"
    current_fn_blocks_stack := [.mk 2 [] [.MaroonIRStmt 3 "DEBUG(0)", .MaroonIRStmt 4 "DEBUG(1)"]] }

/-- The context `sampleInFn` after two more statements were appended at line 5. -/
def sampleThreeStmts : Ctx :=
  { current_maroon_name := "ns", current_fiber_name := "global", current_function_name := "main"
    current_fn_blocks_stack :=
      [.mk 2 [] [.MaroonIRStmt 3 "DEBUG(0)", .MaroonIRStmt 5 "DEBUG(1)", .MaroonIRStmt 5 "DEBUG(2)"]] }

/-! ## Lemmas on lists and maps -/

theorem getLast?_snoc {α : Type} (xs : List α) (a : α) : (xs ++ [a]).getLast? = some a := by
  simp

theorem dropLast_snoc {α : Type} (xs : List α) (a : α) : (xs ++ [a]).dropLast = xs := by
  simp

theorem get?_snoc_length {α : Type} (xs : List α) (a : α) :
    (xs ++ [a]).get? xs.length = some a := by
  induction xs with
  | nil => rfl
  | cons x xs ih => simp

theorem set_snoc_length {α : Type} (xs : List α) (a b : α) :
    (xs ++ [a]).set xs.length b = xs ++ [b] := by
  induction xs with
  | nil => rfl
  | cons x xs ih => simp [List.set, ih]

theorem StdMap.find_set_self {V : Type} (m : StdMap V) (k : String) (v : V) :
    StdMap.find (StdMap.set m k v) k = some v := by
  induction m with
  | nil => simp [StdMap.set, StdMap.find]
  | cons kv m ih =>
    obtain ⟨k1, v1⟩ := kv
    by_cases h : k = k1
    · simp [StdMap.set, StdMap.find, h]
    · by_cases h2 : k.data < k1.data
      · simp [StdMap.set, StdMap.find, h, h2]
      · simp [StdMap.set, StdMap.find, h, h2, ih]

theorem StdMap.find_modify_self {V : Type} [Inhabited V] (m : StdMap V) (k : String)
    (f : V → V) : StdMap.find (StdMap.modify m k f) k = some (f (StdMap.at m k)) := by
  simp [StdMap.modify, StdMap.find_set_self]

theorem MaroonIRScenarios.function_modifyFunction (out : MaroonIRScenarios) (m f fn : String)
    (g : MaroonIRFunction → MaroonIRFunction) :
    ∃ old, (out.modifyFunction m f fn g).function m f fn = some (g old) := by
  simp [MaroonIRScenarios.function, MaroonIRScenarios.modifyFunction, StdMap.find_modify_self]

/-! ## The builder against the tree -/

theorem SameScope.refl (c : Ctx) : SameScope c c := ⟨rfl, rfl, rfl, rfl, rfl⟩

theorem SameScope.trans {a b c : Ctx} (h1 : SameScope a b) (h2 : SameScope b c) :
    SameScope a c :=
  ⟨h2.1.trans h1.1, h2.2.trans h1.2, h2.3.trans h1.3, h2.4.trans h1.4, h2.5.trans h1.5⟩

theorem appended_cons (s : DslStmt) (ss : List DslStmt) :
    appended (s :: ss) = s.appends + appended ss := by
  simp [appended]

mutual
theorem DslStmt.items_length : ∀ (s : DslStmt), s.wellNested = true →
    s.items.length = s.appends
  | .STMT _ _, _ => by simp [DslStmt.items, DslStmt.appends]
  | .VAR _ _ _ _, _ => by simp [DslStmt.items, DslStmt.appends]
  | .ARG _ _ _, _ => by simp [DslStmt.items, DslStmt.appends]
  | .IF _ yes no _, h => by
    simp only [DslStmt.wellNested, Bool.and_eq_true, beq_iff_eq] at h
    obtain ⟨⟨⟨hy, hn⟩, hwy⟩, hwn⟩ := h
    have h1 := itemsOfStmts_length yes hwy
    have h2 := itemsOfStmts_length no hwn
    rw [hy] at h1
    rw [hn] at h2
    obtain ⟨y, ey⟩ := List.length_eq_one.mp h1
    obtain ⟨n, en⟩ := List.length_eq_one.mp h2
    simp [DslStmt.items, ey, en, DslStmt.appends]
  | .BLOCK _ _, _ => by simp [DslStmt.items, DslStmt.appends]
  | .MATCH_ENUM_STMT _ _ _, _ => by simp [DslStmt.items, DslStmt.appends]
theorem itemsOfStmts_length : ∀ (ss : List DslStmt), wellNestedStmts ss = true →
    (itemsOfStmts ss).length = appended ss
  | [], _ => by simp [itemsOfStmts, appended]
  | s :: ss, h => by
    simp only [wellNestedStmts, Bool.and_eq_true] at h
    simp [itemsOfStmts, appended_cons, DslStmt.items_length s h.1, itemsOfStmts_length ss h.2]
end

theorem itemsOfStmts_single (ss : List DslStmt) (hw : wellNestedStmts ss = true)
    (h1 : appended ss = 1) : ∃ item, itemsOfStmts ss = [item] := by
  have h := itemsOfStmts_length ss hw
  rw [h1] at h
  exact List.length_eq_one.mp h

theorem Ctx.InFunction_of_stack (c : Ctx) {b : MaroonIRBlock} {rest : List MaroonIRBlock}
    (h : c.current_fn_blocks_stack = b :: rest) : c.InFunction = true := by
  simp [Ctx.InFunction, h]

theorem Ctx.AddToBlock_spec (c : Ctx) {l : Nat} {vs : List MaroonIRVar}
    {code : List MaroonIRStmtOrBlock} {rest : List MaroonIRBlock} (item : MaroonIRStmtOrBlock)
    (h : c.current_fn_blocks_stack = .mk l vs code :: rest) :
    ∃ c1, c.AddToBlock item = .ok (code.length, c1) ∧
      c1.current_fn_blocks_stack = .mk l vs (code ++ [item]) :: rest ∧
      c1.blocks_stack = c.blocks_stack ∧ c1.next_placeholder_idx = c.next_placeholder_idx ∧
      SameScope c c1 := by
  refine ⟨{ c with current_fn_blocks_stack := .mk l vs (code ++ [item]) :: rest }, ?_, rfl, rfl,
    rfl, ⟨rfl, rfl, rfl, rfl, rfl⟩⟩
  simp [Ctx.AddToBlock, h]

theorem Ctx.ExtractLastStmt_spec (c : Ctx) {l : Nat} {vs : List MaroonIRVar}
    {code : List MaroonIRStmtOrBlock} {rest : List MaroonIRBlock} (item : MaroonIRStmtOrBlock)
    (h : c.current_fn_blocks_stack = .mk l vs (code ++ [item]) :: rest) :
    ∃ c1, c.ExtractLastStmt = .ok (item, c1) ∧
      c1.current_fn_blocks_stack = .mk l vs code :: rest ∧
      c1.blocks_stack = c.blocks_stack ∧ SameScope c c1 := by
  refine ⟨{ c with current_fn_blocks_stack := .mk l vs code :: rest }, ?_, rfl, rfl,
    ⟨rfl, rfl, rfl, rfl, rfl⟩⟩
  simp [Ctx.ExtractLastStmt, h]

theorem Ctx.AddVarToBlock_spec (c : Ctx) {l : Nat} {vs : List MaroonIRVar}
    {code : List MaroonIRStmtOrBlock} {rest : List MaroonIRBlock} (var : MaroonIRVar)
    (h : c.current_fn_blocks_stack = .mk l vs code :: rest) :
    ∃ c1, c.AddVarToBlock var = .ok c1 ∧
      c1.current_fn_blocks_stack = .mk l (vs ++ [var]) code :: rest ∧
      c1.blocks_stack = c.blocks_stack ∧ SameScope c c1 := by
  refine ⟨{ c with current_fn_blocks_stack := .mk l (vs ++ [var]) code :: rest }, ?_, rfl, rfl,
    ⟨rfl, rfl, rfl, rfl, rfl⟩⟩
  simp [Ctx.AddVarToBlock, h]

theorem Ctx.EnterBlock_spec (c : Ctx) (line : Nat) {l : Nat} {vs : List MaroonIRVar}
    {code : List MaroonIRStmtOrBlock} {rest : List MaroonIRBlock}
    (h : c.current_fn_blocks_stack = .mk l vs code :: rest) :
    ∃ c1, c.EnterBlock line = .ok ((c.next_placeholder_idx + 1) % 2 ^ 32, c1) ∧
      c1.current_fn_blocks_stack =
        MaroonIRBlock.new ::
          .mk l vs (code ++
            [.MaroonIRBlockPlaceholder line ((c.next_placeholder_idx + 1) % 2 ^ 32)]) :: rest ∧
      c1.blocks_stack = ((c.next_placeholder_idx + 1) % 2 ^ 32, code.length) :: c.blocks_stack ∧
      SameScope c c1 := by
  refine ⟨{ c with
    next_placeholder_idx := (c.next_placeholder_idx + 1) % 2 ^ 32
    blocks_stack := ((c.next_placeholder_idx + 1) % 2 ^ 32, code.length) :: c.blocks_stack
    current_fn_blocks_stack :=
      MaroonIRBlock.new ::
        .mk l vs (code ++
          [.MaroonIRBlockPlaceholder line ((c.next_placeholder_idx + 1) % 2 ^ 32)]) :: rest },
    ?_, rfl, rfl, ⟨rfl, rfl, rfl, rfl, rfl⟩⟩
  simp [Ctx.EnterBlock, Ctx.AddToBlock, h]

theorem Ctx.MarkInnerBlockAsCompleted_spec (c : Ctx) (key line : Nat)
    {bs : List (Nat × Nat)} {blk : MaroonIRBlock} {l : Nat} {vs : List MaroonIRVar}
    {code : List MaroonIRStmtOrBlock} {rest : List MaroonIRBlock}
    (hb : c.blocks_stack = (key, code.length) :: bs)
    (h : c.current_fn_blocks_stack =
      blk :: .mk l vs (code ++ [.MaroonIRBlockPlaceholder line key]) :: rest) :
    ∃ c1, c.MarkInnerBlockAsCompleted key = .ok c1 ∧
      c1.current_fn_blocks_stack =
        .mk l vs (code ++ [.MaroonIRBlock (.mk line blk.vars blk.code)]) :: rest ∧
      c1.blocks_stack = bs ∧ SameScope c c1 := by
  refine ⟨{ c with
    blocks_stack := bs
    current_fn_blocks_stack :=
      .mk l vs (code ++ [.MaroonIRBlock (.mk line blk.vars blk.code)]) :: rest }, ?_, rfl, rfl,
    ⟨rfl, rfl, rfl, rfl, rfl⟩⟩
  simp [Ctx.MarkInnerBlockAsCompleted, hb, h, get?_snoc_length, set_snoc_length]

theorem SupportOptionalTypes_spec (c : Ctx) (type : String) (line : Nat) :
    (SupportOptionalTypes c type line).2 = storedType type ∧
      (SupportOptionalTypes c type line).1.current_fn_blocks_stack = c.current_fn_blocks_stack ∧
      (SupportOptionalTypes c type line).1.blocks_stack = c.blocks_stack ∧
      SameScope c (SupportOptionalTypes c type line).1 := by
  unfold SupportOptionalTypes storedType
  split
  · exact ⟨rfl, rfl, rfl, ⟨rfl, rfl, rfl, rfl, rfl⟩⟩
  · exact ⟨rfl, rfl, rfl, ⟨rfl, rfl, rfl, rfl, rfl⟩⟩

theorem AsBlock_none (key : String) (line : Nat) (item : MaroonIRStmtOrBlock) :
    AsBlock none key line item = armBlock line item := by
  cases item <;> rfl

theorem AsBlock_some (capture key : String) (line : Nat) (item : MaroonIRStmtOrBlock) :
    AsBlock (some capture) key line item =
      .mk (armBlock line item).line
        ((armBlock line item).vars ++
          [.MaroonIRVarEnumCaseCapture capture key "THIS_WILL_BE_REPLACED_BY_SOURCE_VAR_NAME"])
        (armBlock line item).code := by
  cases item <;> rfl

theorem AddArm_keyed (var key capture : String) (line : Nat) (item : MaroonIRStmtOrBlock) :
    RegisterMatchEnumStmt.AddArm var
        (.mk line (some key) (some capture) (AsBlock (some capture) key line item)) =
      .ok (keyedArm var key capture line item) := by
  rw [AsBlock_some]
  simp [RegisterMatchEnumStmt.AddArm, MaroonIRBlock.vars, MaroonIRBlock.line,
    MaroonIRBlock.code, keyedArm]

theorem AddArm_default (var : String) (line : Nat) (item : MaroonIRStmtOrBlock) :
    RegisterMatchEnumStmt.AddArm var (.mk line none none (AsBlock none "" line item)) =
      .ok (defaultArm line item) := by
  rw [AsBlock_none]
  simp [RegisterMatchEnumStmt.AddArm, defaultArm]

theorem RegisterIf_run (c : Ctx) (cond : String) (yes no : Ctx → Except Fatal Ctx) (line : Nat)
    {c1 c2 : Ctx} {l2 : Nat} {vs2 : List MaroonIRVar} {code : List MaroonIRStmtOrBlock}
    {rest2 : List MaroonIRBlock} {y n : MaroonIRStmtOrBlock}
    (hin : c.InFunction = true) (hy : yes c = .ok c1) (hn : no c1 = .ok c2)
    (s2 : c2.current_fn_blocks_stack = .mk l2 vs2 (code ++ [y] ++ [n]) :: rest2) :
    ∃ c3, RegisterIf c cond yes no line = .ok c3 ∧
      c3.current_fn_blocks_stack =
        .mk l2 vs2 (code ++ [.MaroonIRIf line cond y n]) :: rest2 ∧
      c3.blocks_stack = c2.blocks_stack ∧ SameScope c2 c3 := by
  obtain ⟨c3, e3, s3, b3, f3⟩ := c2.ExtractLastStmt_spec n s2
  obtain ⟨c4, e4, s4, b4, f4⟩ := c3.ExtractLastStmt_spec y s3
  obtain ⟨c5, e5, s5, b5, _, f5⟩ := c4.AddToBlock_spec (.MaroonIRIf line cond y n) s4
  refine ⟨c5, ?_, s5, ?_, (f3.trans f4).trans f5⟩
  · simp [RegisterIf, hin, hy, hn, e3, e4, e5]
  · rw [b5, b4, b3]

theorem RegisterBlock_run (c : Ctx) (line : Nat) (f : Ctx → Except Fatal Ctx)
    {l : Nat} {vs : List MaroonIRVar} {code : List MaroonIRStmtOrBlock}
    {rest : List MaroonIRBlock} {c1 c2 : Ctx} {key : Nat} {blk : MaroonIRBlock}
    (hs : c.current_fn_blocks_stack = .mk l vs code :: rest)
    (he : c.EnterBlock line = .ok (key, c1)) (hf : f c1 = .ok c2)
    (s2 : c2.current_fn_blocks_stack = blk :: c1.current_fn_blocks_stack.tail)
    (b2 : c2.blocks_stack = c1.blocks_stack) :
    ∃ c3, RegisterBlock c line f = .ok c3 ∧
      c3.current_fn_blocks_stack =
        .mk l vs (code ++ [.MaroonIRBlock (.mk line blk.vars blk.code)]) :: rest ∧
      c3.blocks_stack = c.blocks_stack ∧ SameScope c2 c3 := by
  obtain ⟨c1a, e1, s1, b1, f1⟩ := c.EnterBlock_spec line hs
  rw [he] at e1
  have hk : key = (c.next_placeholder_idx + 1) % 2 ^ 32 := by
    have := congrArg (fun r => match r with | .ok p => p.1 | .error _ => 0) e1
    simpa using this
  have hc : c1 = c1a := by
    have h0 : (Except.ok (key, c1) : Except Fatal (Nat × Ctx)) = .ok (key, c1a) := by
      rw [e1, hk]
    injection h0 with h1
    exact (Prod.mk.inj h1).2
  subst hc
  rw [s1] at s2
  rw [b1, ← hk] at b2
  rw [← hk] at s2
  obtain ⟨c3, e3, s3, b3, f3⟩ := c2.MarkInnerBlockAsCompleted_spec key line b2 s2
  refine ⟨c3, ?_, s3, b3, f3⟩
  have hd : c2.BlocksDepth = c1.BlocksDepth := by
    simp [Ctx.BlocksDepth, s2, s1]
  simp [RegisterBlock, c.InFunction_of_stack hs, he, hf, hd, e3]

theorem RegisterMatchEnumStmt.dtor_spec (c : Ctx) (m : MaroonIRMatchEnumStmt)
    {scratch : MaroonIRBlock} {l : Nat} {vs : List MaroonIRVar}
    {code : List MaroonIRStmtOrBlock} {rest : List MaroonIRBlock}
    (h : c.current_fn_blocks_stack = scratch :: .mk l vs code :: rest) :
    ∃ c1, RegisterMatchEnumStmt.dtor c m = .ok c1 ∧
      c1.current_fn_blocks_stack = .mk l vs (code ++ [m.toStmtOrBlock]) :: rest ∧
      c1.blocks_stack = c.blocks_stack ∧ SameScope c c1 := by
  refine ⟨{ c with current_fn_blocks_stack := .mk l vs (code ++ [m.toStmtOrBlock]) :: rest },
    ?_, rfl, rfl, ⟨rfl, rfl, rfl, rfl, rfl⟩⟩
  simp [RegisterMatchEnumStmt.dtor, h, Ctx.AddToBlock]

mutual
theorem DslStmt.run_spec : ∀ (s : DslStmt) (c : Ctx) (l : Nat) (vs : List MaroonIRVar)
    (code : List MaroonIRStmtOrBlock) (rest : List MaroonIRBlock),
    s.wellNested = true → c.current_fn_blocks_stack = .mk l vs code :: rest →
    ∃ c1, s.run c = .ok c1 ∧
      c1.current_fn_blocks_stack = .mk l (vs ++ s.vars) (code ++ s.items) :: rest ∧
      c1.blocks_stack = c.blocks_stack ∧ SameScope c c1
  | .STMT stmt line, c, l, vs, code, rest, _, hs => by
    obtain ⟨c1, e1, s1, b1, _, f1⟩ := c.AddToBlock_spec (.MaroonIRStmt line stmt) hs
    refine ⟨c1, ?_, ?_, b1, f1⟩
    · simp [DslStmt.run, RegisterStmt, c.InFunction_of_stack hs, e1]
    · simpa [DslStmt.vars, DslStmt.items] using s1
  | .VAR name type init line, c, l, vs, code, rest, _, hs => by
    obtain ⟨t0, s0, b0, f0⟩ := SupportOptionalTypes_spec c type line
    obtain ⟨c1, e1, s1, b1, f1⟩ := (SupportOptionalTypes c type line).1.AddVarToBlock_spec
      (.MaroonIRVarRegular line name (SupportOptionalTypes c type line).2 (storedInit init))
      (s0.trans hs)
    refine ⟨c1, ?_, ?_, b1.trans b0, f0.trans f1⟩
    · simp [DslStmt.run, RegisterVar, c.InFunction_of_stack hs, e1]
    · simpa [DslStmt.vars, DslStmt.items, t0] using s1
  | .ARG name type line, c, l, vs, code, rest, _, hs => by
    obtain ⟨c1, e1, s1, b1, f1⟩ := (c.AddArgToFunction type).AddVarToBlock_spec
      (.MaroonIRVarFunctionArg line name type) (show _ = _ from hs)
    refine ⟨c1, ?_, ?_, b1, ?_⟩
    · simp [DslStmt.run, RegisterArg, c.InFunction_of_stack hs, e1]
    · simpa [DslStmt.vars, DslStmt.items] using s1
    · exact SameScope.trans (b := c.AddArgToFunction type) ⟨rfl, rfl, rfl, rfl, rfl⟩ f1
  | .IF cond yes no line, c, l, vs, code, rest, hw, hs => by
    simp only [DslStmt.wellNested, Bool.and_eq_true, beq_iff_eq] at hw
    obtain ⟨⟨⟨hy, hn⟩, hwy⟩, hwn⟩ := hw
    obtain ⟨y, ey⟩ := itemsOfStmts_single yes hwy hy
    obtain ⟨n, en⟩ := itemsOfStmts_single no hwn hn
    obtain ⟨c1, e1, s1, b1, f1⟩ := runStmts_spec yes c l vs code rest hwy hs
    obtain ⟨c2, e2, s2, b2, f2⟩ := runStmts_spec no c1 l _ _ rest hwn s1
    rw [ey, en] at s2
    obtain ⟨c3, e3, s3, b3, f3⟩ :=
      RegisterIf_run c cond (runStmts yes) (runStmts no) line (c.InFunction_of_stack hs) e1 e2 s2
    refine ⟨c3, ?_, ?_, (b3.trans b2).trans b1, (f1.trans f2).trans f3⟩
    · simpa [DslStmt.run] using e3
    · simpa [DslStmt.vars, DslStmt.items, ey, en] using s3
  | .BLOCK body line, c, l, vs, code, rest, hw, hs => by
    simp only [DslStmt.wellNested] at hw
    obtain ⟨c1, e1, s1, b1, f1⟩ := c.EnterBlock_spec line hs
    obtain ⟨c2, e2, s2, b2, f2⟩ := runStmts_spec body c1 0 [] [] _ hw s1
    obtain ⟨c3, e3, s3, b3, f3⟩ := RegisterBlock_run c line (runStmts body) hs e1 e2
      (by rw [s2, s1]; rfl) b2
    refine ⟨c3, ?_, ?_, b3, (f1.trans f2).trans f3⟩
    · simpa [DslStmt.run] using e3
    · simpa [DslStmt.vars, DslStmt.items, MaroonIRBlock.vars, MaroonIRBlock.code] using s3
  | .MATCH_ENUM_STMT enum_var arms line, c, l, vs, code, rest, hw, hs => by
    simp only [DslStmt.wellNested] at hw
    obtain ⟨c2, as, vs2, e2, s2, b2, f2, ha⟩ := runArms_spec arms enum_var
      (RegisterMatchEnumStmt.ctor c enum_var line).2 0 [] [] (.mk l vs code :: rest) hw
      (by simp [RegisterMatchEnumStmt.ctor, hs, MaroonIRBlock.new])
    have hm := ha (RegisterMatchEnumStmt.ctor c enum_var line).1 rfl
    obtain ⟨c3, e3, s3, b3, f3⟩ := RegisterMatchEnumStmt.dtor_spec c2
      { (RegisterMatchEnumStmt.ctor c enum_var line).1 with
        arms := (RegisterMatchEnumStmt.ctor c enum_var line).1.arms ++ armsOf enum_var arms } s2
    have f0 : SameScope c (RegisterMatchEnumStmt.ctor c enum_var line).2 :=
      ⟨rfl, rfl, rfl, rfl, rfl⟩
    refine ⟨c3, ?_, ?_, b3.trans b2, (f0.trans f2).trans f3⟩
    · simp [DslStmt.run, MATCH_ENUM_STMT, e2, hm, e3]
    · simpa [DslStmt.vars, DslStmt.items, MaroonIRMatchEnumStmt.toStmtOrBlock,
        RegisterMatchEnumStmt.ctor] using s3
theorem runStmts_spec : ∀ (ss : List DslStmt) (c : Ctx) (l : Nat) (vs : List MaroonIRVar)
    (code : List MaroonIRStmtOrBlock) (rest : List MaroonIRBlock),
    wellNestedStmts ss = true → c.current_fn_blocks_stack = .mk l vs code :: rest →
    ∃ c1, runStmts ss c = .ok c1 ∧
      c1.current_fn_blocks_stack =
        .mk l (vs ++ varsOfStmts ss) (code ++ itemsOfStmts ss) :: rest ∧
      c1.blocks_stack = c.blocks_stack ∧ SameScope c c1
  | [], c, l, vs, code, rest, _, hs => by
    refine ⟨c, rfl, ?_, rfl, SameScope.refl c⟩
    simpa [varsOfStmts, itemsOfStmts] using hs
  | s :: ss, c, l, vs, code, rest, hw, hs => by
    simp only [wellNestedStmts, Bool.and_eq_true] at hw
    obtain ⟨c1, e1, s1, b1, f1⟩ := DslStmt.run_spec s c l vs code rest hw.1 hs
    obtain ⟨c2, e2, s2, b2, f2⟩ := runStmts_spec ss c1 l _ _ rest hw.2 s1
    refine ⟨c2, ?_, ?_, b2.trans b1, f1.trans f2⟩
    · simp [runStmts, e1, e2]
    · simpa [varsOfStmts, itemsOfStmts, List.append_assoc] using s2
theorem DslArm.run_arm_spec : ∀ (a : DslArm) (var : String) (c : Ctx) (l : Nat)
    (vs : List MaroonIRVar) (code : List MaroonIRStmtOrBlock) (rest : List MaroonIRBlock),
    a.wellNested = true → c.current_fn_blocks_stack = .mk l vs code :: rest →
    ∃ c1 arm vs1 out, a.run c = .ok (arm, c1) ∧
      c1.current_fn_blocks_stack = .mk l vs1 code :: rest ∧
      c1.blocks_stack = c.blocks_stack ∧ SameScope c c1 ∧
      RegisterMatchEnumStmt.AddArm var arm = .ok out ∧ a.arm var = [out]
  | .ENUM_ARM key capture stmt line, var, c, l, vs, code, rest, hw, hs => by
    simp only [DslArm.wellNested, Bool.and_eq_true, beq_iff_eq] at hw
    obtain ⟨item, ei⟩ := itemsOfStmts_single stmt hw.2 hw.1
    obtain ⟨c1, e1, s1, b1, f1⟩ := runStmts_spec stmt c l vs code rest hw.2 hs
    rw [ei] at s1
    obtain ⟨c2, e2, s2, b2, f2⟩ := c1.ExtractLastStmt_spec item s1
    refine ⟨c2, _, _, _, ?_, s2, b2.trans b1, f1.trans f2, AddArm_keyed var key capture line item,
      ?_⟩
    · simp [DslArm.run, RegisterEnumArm, e1, e2]
    · simp [DslArm.arm, ei]
  | .ENUM_DEFAULT stmt line, var, c, l, vs, code, rest, hw, hs => by
    simp only [DslArm.wellNested, Bool.and_eq_true, beq_iff_eq] at hw
    obtain ⟨item, ei⟩ := itemsOfStmts_single stmt hw.2 hw.1
    obtain ⟨c1, e1, s1, b1, f1⟩ := runStmts_spec stmt c l vs code rest hw.2 hs
    rw [ei] at s1
    obtain ⟨c2, e2, s2, b2, f2⟩ := c1.ExtractLastStmt_spec item s1
    refine ⟨c2, _, _, _, ?_, s2, b2.trans b1, f1.trans f2, AddArm_default var line item, ?_⟩
    · simp [DslArm.run, RegisterEnumDefaultArm, e1, e2]
    · simp [DslArm.arm, ei]
theorem runArms_spec : ∀ (as : List DslArm) (var : String) (c : Ctx) (l : Nat)
    (vs : List MaroonIRVar) (code : List MaroonIRStmtOrBlock) (rest : List MaroonIRBlock),
    wellNestedArms as = true → c.current_fn_blocks_stack = .mk l vs code :: rest →
    ∃ c1 arms vs1, runArms as c = .ok (arms, c1) ∧
      c1.current_fn_blocks_stack = .mk l vs1 code :: rest ∧
      c1.blocks_stack = c.blocks_stack ∧ SameScope c c1 ∧
      ∀ m : MaroonIRMatchEnumStmt, m.var = var →
        RegisterMatchEnumStmt.AddArms m arms = .ok { m with arms := m.arms ++ armsOf var as }
  | [], var, c, l, vs, code, rest, _, hs => by
    refine ⟨c, [], vs, rfl, hs, rfl, SameScope.refl c, ?_⟩
    intro m _
    simp [RegisterMatchEnumStmt.AddArms, armsOf]
  | a :: as, var, c, l, vs, code, rest, hw, hs => by
    simp only [wellNestedArms, Bool.and_eq_true] at hw
    obtain ⟨c1, arm, vs1, out, e1, s1, b1, f1, h1, d1⟩ :=
      DslArm.run_arm_spec a var c l vs code rest hw.1 hs
    obtain ⟨c2, arms, vs2, e2, s2, b2, f2, h2⟩ := runArms_spec as var c1 l vs1 code rest hw.2 s1
    refine ⟨c2, arm :: arms, vs2, ?_, s2, b2.trans b1, f1.trans f2, ?_⟩
    · simp [runArms, e1, e2]
    · intro m hm
      subst hm
      have := h2 { m with arms := m.arms ++ [out] } rfl
      simp only [RegisterMatchEnumStmt.AddArms, h1, armsOf, d1]
      simpa using this
end

theorem codeHasPlaceholder_append (xs ys : List MaroonIRStmtOrBlock) :
    codeHasPlaceholder (xs ++ ys) = (codeHasPlaceholder xs || codeHasPlaceholder ys) := by
  induction xs with
  | nil => simp [codeHasPlaceholder]
  | cons x xs ih => simp [codeHasPlaceholder, ih, Bool.or_assoc]

theorem armsHavePlaceholder_append (xs ys : List MaroonIRMatchEnumStmtArm) :
    armsHavePlaceholder (xs ++ ys) = (armsHavePlaceholder xs || armsHavePlaceholder ys) := by
  induction xs with
  | nil => simp [armsHavePlaceholder]
  | cons x xs ih => simp [armsHavePlaceholder, ih, Bool.or_assoc]

theorem armBlock_noPlaceholder (line : Nat) (item : MaroonIRStmtOrBlock)
    (h : item.hasPlaceholder = false) :
    codeHasPlaceholder (armBlock line item).code = false := by
  cases item with
  | MaroonIRBlock b =>
    cases b with
    | mk l vs code =>
      simpa [armBlock, MaroonIRBlock.code, MaroonIRStmtOrBlock.hasPlaceholder,
        MaroonIRBlock.hasPlaceholder] using h
  | MaroonIRStmt l st => simp [armBlock, MaroonIRBlock.code, codeHasPlaceholder, h]
  | MaroonIRIf l cnd y n => simp [armBlock, MaroonIRBlock.code, codeHasPlaceholder, h]
  | MaroonIRMatchEnumStmt l v arms => simp [armBlock, MaroonIRBlock.code, codeHasPlaceholder, h]
  | MaroonIRBlockPlaceholder l i => simp [MaroonIRStmtOrBlock.hasPlaceholder] at h

theorem hasPlaceholder_of_single {item : MaroonIRStmtOrBlock}
    (h : codeHasPlaceholder [item] = false) : item.hasPlaceholder = false := by
  simpa [codeHasPlaceholder] using h

mutual
theorem DslStmt.items_noPlaceholder : ∀ (s : DslStmt), codeHasPlaceholder s.items = false
  | .STMT _ _ => by
    simp [DslStmt.items, codeHasPlaceholder, MaroonIRStmtOrBlock.hasPlaceholder]
  | .VAR _ _ _ _ => by simp [DslStmt.items, codeHasPlaceholder]
  | .ARG _ _ _ => by simp [DslStmt.items, codeHasPlaceholder]
  | .IF _ yes no _ => by
    have h1 := itemsOfStmts_noPlaceholder yes
    have h2 := itemsOfStmts_noPlaceholder no
    simp only [DslStmt.items]
    split
    · rename_i y n ey en
      rw [ey] at h1
      rw [en] at h2
      simp [codeHasPlaceholder, MaroonIRStmtOrBlock.hasPlaceholder,
        hasPlaceholder_of_single h1, hasPlaceholder_of_single h2]
    · simp [codeHasPlaceholder]
  | .BLOCK body _ => by
    simp [DslStmt.items, codeHasPlaceholder, MaroonIRStmtOrBlock.hasPlaceholder,
      MaroonIRBlock.hasPlaceholder, itemsOfStmts_noPlaceholder body]
  | .MATCH_ENUM_STMT enum_var arms _ => by
    simp [DslStmt.items, codeHasPlaceholder, MaroonIRStmtOrBlock.hasPlaceholder,
      armsOf_noPlaceholder enum_var arms]
theorem itemsOfStmts_noPlaceholder : ∀ (ss : List DslStmt),
    codeHasPlaceholder (itemsOfStmts ss) = false
  | [] => by simp [itemsOfStmts, codeHasPlaceholder]
  | s :: ss => by
    simp [itemsOfStmts, codeHasPlaceholder_append, DslStmt.items_noPlaceholder s,
      itemsOfStmts_noPlaceholder ss]
theorem DslArm.arm_noPlaceholder : ∀ (var : String) (a : DslArm),
    armsHavePlaceholder (a.arm var) = false
  | var, .ENUM_ARM key capture stmt line => by
    have h1 := itemsOfStmts_noPlaceholder stmt
    simp only [DslArm.arm]
    split
    · rename_i item ei
      rw [ei] at h1
      simp [armsHavePlaceholder, keyedArm, MaroonIRMatchEnumStmtArm.hasPlaceholder,
        MaroonIRBlock.hasPlaceholder, armBlock_noPlaceholder line item (hasPlaceholder_of_single h1)]
    · simp [armsHavePlaceholder]
  | _, .ENUM_DEFAULT stmt line => by
    have h1 := itemsOfStmts_noPlaceholder stmt
    simp only [DslArm.arm]
    split
    · rename_i item ei
      rw [ei] at h1
      have h2 := armBlock_noPlaceholder line item (hasPlaceholder_of_single h1)
      cases hb : armBlock line item with
      | mk bl bvs bcode =>
        rw [hb] at h2
        simpa [armsHavePlaceholder, defaultArm, MaroonIRMatchEnumStmtArm.hasPlaceholder,
          MaroonIRBlock.hasPlaceholder, hb, MaroonIRBlock.code] using h2
    · simp [armsHavePlaceholder]
theorem armsOf_noPlaceholder : ∀ (var : String) (as : List DslArm),
    armsHavePlaceholder (armsOf var as) = false
  | _, [] => by simp [armsOf, armsHavePlaceholder]
  | var, a :: as => by
    simp [armsOf, armsHavePlaceholder_append, DslArm.arm_noPlaceholder var a,
      armsOf_noPlaceholder var as]
end

theorem armsOf_header (var : String) : ∀ (as : List DslArm), wellNestedArms as = true →
    (armsOf var as).map (fun a => (a.line, a.key, a.capture)) =
      as.map (fun a => (a.line, a.key, a.capture))
  | [], _ => by simp [armsOf]
  | a :: as, hw => by
    simp only [wellNestedArms, Bool.and_eq_true] at hw
    have ih := armsOf_header var as hw.2
    cases a with
    | ENUM_ARM key capture stmt line =>
      have h := hw.1
      simp only [DslArm.wellNested, Bool.and_eq_true, beq_iff_eq] at h
      obtain ⟨item, ei⟩ := itemsOfStmts_single stmt h.2 h.1
      simp only [armsOf, DslArm.arm, ei, List.map_append, List.map_cons, List.map_nil, ih,
        List.singleton_append]
      rfl
    | ENUM_DEFAULT stmt line =>
      have h := hw.1
      simp only [DslArm.wellNested, Bool.and_eq_true, beq_iff_eq] at h
      obtain ⟨item, ei⟩ := itemsOfStmts_single stmt h.2 h.1
      simp only [armsOf, DslArm.arm, ei, List.map_append, List.map_cons, List.map_nil, ih,
        List.singleton_append]
      rfl

/-! ## The claims on the builder -/

/-- C1: a function registered with a well-nested body is built, and the body installed for
it when the function closes is the block of the body's own vars and items, in which no
`MaroonIRBlockPlaceholder` occurs at any depth (code lists, branches of an `If`, blocks of
match arms). -/
theorem built_body_has_no_placeholder (c : Ctx) (name : String) (ret : Option String)
    (line : Nat) (body : List DslStmt)
    (hw : wellNestedStmts body = true)
    (hfiber : c.current_fiber_name ≠ "")
    (hnew : c.out.function c.current_maroon_name c.current_fiber_name name = none)
    (hout : c.current_fn_blocks_stack = []) :
    ∃ c1 fn, FN c name ret line body = .ok c1 ∧
      c1.out.function c.current_maroon_name c.current_fiber_name name = some fn ∧
      fn.body = .mk line (varsOfStmts body) (itemsOfStmts body) ∧
      fn.body.hasPlaceholder = false := by
  let c0 : Ctx := { c with
    out := (c.out.modifyFunction c.current_maroon_name c.current_fiber_name name
      (fun fn => { fn with ret := ret, line := line }))
    current_function_name := name
    current_fn_blocks_stack := [.mk line [] []] }
  obtain ⟨c2, e2, s2, _, f2⟩ := runStmts_spec body c0 line [] [] [] hw rfl
  obtain ⟨old, ho⟩ := MaroonIRScenarios.function_modifyFunction c2.out c.current_maroon_name
    c.current_fiber_name name
    (fun fn => { fn with body := .mk line (varsOfStmts body) (itemsOfStmts body) })
  have hm : c2.current_maroon_name = c.current_maroon_name := f2.current_maroon_name
  have hf : c2.current_fiber_name = c.current_fiber_name := f2.current_fiber_name
  have hn : c2.current_function_name = name := f2.current_function_name
  simp only [List.nil_append] at s2
  refine ⟨{ c2 with
      out := (c2.out.modifyFunction c.current_maroon_name c.current_fiber_name name
        (fun fn => { fn with body := .mk line (varsOfStmts body) (itemsOfStmts body) }))
      current_fn_blocks_stack := []
      current_function_name := "" },
    { old with body := .mk line (varsOfStmts body) (itemsOfStmts body) }, ?_, ho, rfl, ?_⟩
  · simp only [FN, RegisterFn, hfiber, hnew, Ctx.EnterFunction, hout]
    simp only [if_false, Option.isSome_none, Bool.false_eq_true, List.isEmpty_nil,
      Bool.not_true]
    show (match runStmts body c0 with
      | Except.error e => Except.error e
      | Except.ok c3 => c3.LeaveFunction) = _
    rw [e2]
    simp [Ctx.LeaveFunction, s2, hm, hf, hn]
  · simp [MaroonIRBlock.hasPlaceholder, itemsOfStmts_noPlaceholder body]

/-- Witness of C1 on the sample body. -/
theorem built_body_has_no_placeholder_witness :
    wellNestedStmts sampleBody = true ∧
    ∃ c1 fn, FN sampleCtx "main" none 2 sampleBody = .ok c1 ∧
      c1.out.function "ns" "global" "main" = some fn ∧
      fn.body = .mk 2 (varsOfStmts sampleBody) (itemsOfStmts sampleBody) ∧
      fn.body.hasPlaceholder = false :=
  ⟨rfl, built_body_has_no_placeholder sampleCtx "main" none 2 sampleBody rfl (by decide) rfl rfl⟩

/-- C2: when the then sub-builder appends exactly one item `y` to the current block and the
else sub-builder then appends exactly one item `n`, `RegisterIf` succeeds and leaves the
current block with the code it had before the call followed by the one node
`If(cond, yes = y, no = n, line)`, the condition text as given, at the same block depth. -/
theorem registerIf_packs_last_two (c c1 c2 : Ctx) (cond : String)
    (yes no : Ctx → Except Fatal Ctx) (line : Nat)
    (l l1 l2 : Nat) (vs vs1 vs2 : List MaroonIRVar) (code : List MaroonIRStmtOrBlock)
    (rest : List MaroonIRBlock) (y n : MaroonIRStmtOrBlock)
    (hs : c.current_fn_blocks_stack = .mk l vs code :: rest)
    (hy : yes c = .ok c1)
    (s1 : c1.current_fn_blocks_stack = .mk l1 vs1 (code ++ [y]) :: rest)
    (hn : no c1 = .ok c2)
    (s2 : c2.current_fn_blocks_stack = .mk l2 vs2 (code ++ [y] ++ [n]) :: rest) :
    ∃ c3, RegisterIf c cond yes no line = .ok c3 ∧
      c3.current_fn_blocks_stack =
        .mk l2 vs2 (code ++ [.MaroonIRIf line cond y n]) :: rest ∧
      c3.BlocksDepth = c.BlocksDepth ∧ c1.BlocksDepth = c.BlocksDepth := by
  obtain ⟨c3, e3, s3, _, _⟩ :=
    RegisterIf_run c cond yes no line (c.InFunction_of_stack hs) hy hn s2
  exact ⟨c3, e3, s3, by simp [Ctx.BlocksDepth, s3, hs], by simp [Ctx.BlocksDepth, s1, hs]⟩

/-- Witness of C2: two `STMT` sub-builders in the sample function context. -/
theorem registerIf_packs_last_two_witness :
    ∃ c3, RegisterIf sampleInFn "a < b" (fun c => RegisterStmt c 5 "DEBUG(1)")
        (fun c => RegisterStmt c 5 "DEBUG(2)") 5 = .ok c3 ∧
      c3.current_fn_blocks_stack =
        .mk 2 [] ([.MaroonIRStmt 3 "DEBUG(0)"] ++
          [.MaroonIRIf 5 "a < b" (.MaroonIRStmt 5 "DEBUG(1)") (.MaroonIRStmt 5 "DEBUG(2)")]) :: [] ∧
      c3.BlocksDepth = sampleInFn.BlocksDepth ∧
      ({ sampleInFn with current_fn_blocks_stack :=
          [.mk 2 [] [.MaroonIRStmt 3 "DEBUG(0)", .MaroonIRStmt 5 "DEBUG(1)"]] } : Ctx).BlocksDepth =
        sampleInFn.BlocksDepth :=
  registerIf_packs_last_two sampleInFn
    { sampleInFn with current_fn_blocks_stack :=
        [.mk 2 [] [.MaroonIRStmt 3 "DEBUG(0)", .MaroonIRStmt 5 "DEBUG(1)"]] }
    { sampleInFn with current_fn_blocks_stack :=
        [.mk 2 [] [.MaroonIRStmt 3 "DEBUG(0)", .MaroonIRStmt 5 "DEBUG(1)",
          .MaroonIRStmt 5 "DEBUG(2)"]] }
    "a < b" (fun c => RegisterStmt c 5 "DEBUG(1)") (fun c => RegisterStmt c 5 "DEBUG(2)") 5
    2 2 2 [] [] [] [.MaroonIRStmt 3 "DEBUG(0)"] [] (.MaroonIRStmt 5 "DEBUG(1)")
    (.MaroonIRStmt 5 "DEBUG(2)") rfl rfl rfl rfl rfl

/-- C3: a `BLOCK` opened at `line` inside a function, with a well-nested body, is built, and
when it closes the parent block has its earlier vars and items unchanged, followed by
exactly one `Block` item whose line is `line` and whose vars and code are those the body
left, in order, in the fresh block it ran on; the block depth and the placeholder stack are
as before the `BLOCK`. -/
theorem block_replaces_its_placeholder (c : Ctx) (line : Nat) (body : List DslStmt)
    (l : Nat) (vs : List MaroonIRVar) (code : List MaroonIRStmtOrBlock)
    (rest : List MaroonIRBlock)
    (hw : wellNestedStmts body = true)
    (hs : c.current_fn_blocks_stack = .mk l vs code :: rest) :
    ∃ key c1 c2 c3 bl,
      c.EnterBlock line = .ok (key, c1) ∧
      c1.current_fn_blocks_stack =
        MaroonIRBlock.new :: .mk l vs (code ++ [.MaroonIRBlockPlaceholder line key]) :: rest ∧
      runStmts body c1 = .ok c2 ∧
      c2.current_fn_blocks_stack =
        .mk bl (varsOfStmts body) (itemsOfStmts body) ::
          .mk l vs (code ++ [.MaroonIRBlockPlaceholder line key]) :: rest ∧
      RegisterBlock c line (runStmts body) = .ok c3 ∧
      c3.current_fn_blocks_stack =
        .mk l vs (code ++
          [.MaroonIRBlock (.mk line (varsOfStmts body) (itemsOfStmts body))]) :: rest ∧
      c3.BlocksDepth = c.BlocksDepth ∧
      c3.blocks_stack = c.blocks_stack := by
  obtain ⟨c1, e1, s1, b1, _⟩ := c.EnterBlock_spec line hs
  obtain ⟨c2, e2, s2, b2, _⟩ := runStmts_spec body c1 0 [] [] _ hw s1
  obtain ⟨c3, e3, s3, b3, _⟩ := RegisterBlock_run c line (runStmts body) hs e1 e2
    (by rw [s2, s1]; rfl) b2
  simp only [List.nil_append] at s2
  refine ⟨_, c1, c2, c3, 0, e1, s1, e2, s2, e3, ?_, ?_, b3⟩
  · simpa [MaroonIRBlock.vars, MaroonIRBlock.code] using s3
  · simp [Ctx.BlocksDepth, s3, hs]

/-- Witness of C3: a block with a variable and two statements in the sample function. -/
theorem block_replaces_its_placeholder_witness :
    wellNestedStmts [.VAR "y" "BOOL" "true" 7, .STMT "DEBUG(1)" 8, .STMT "DEBUG(2)" 9] = true ∧
    ∃ key c1 c2 c3 bl,
      sampleInFn.EnterBlock 6 = .ok (key, c1) ∧
      c1.current_fn_blocks_stack =
        MaroonIRBlock.new ::
          .mk 2 [] ([.MaroonIRStmt 3 "DEBUG(0)"] ++ [.MaroonIRBlockPlaceholder 6 key]) :: [] ∧
      runStmts [.VAR "y" "BOOL" "true" 7, .STMT "DEBUG(1)" 8, .STMT "DEBUG(2)" 9] c1 = .ok c2 ∧
      c2.current_fn_blocks_stack =
        .mk bl [.MaroonIRVarRegular 7 "y" "BOOL" "true"]
            [.MaroonIRStmt 8 "DEBUG(1)", .MaroonIRStmt 9 "DEBUG(2)"] ::
          .mk 2 [] ([.MaroonIRStmt 3 "DEBUG(0)"] ++ [.MaroonIRBlockPlaceholder 6 key]) :: [] ∧
      RegisterBlock sampleInFn 6
          (runStmts [.VAR "y" "BOOL" "true" 7, .STMT "DEBUG(1)" 8, .STMT "DEBUG(2)" 9]) =
        .ok c3 ∧
      c3.current_fn_blocks_stack =
        .mk 2 [] ([.MaroonIRStmt 3 "DEBUG(0)"] ++
          [.MaroonIRBlock (.mk 6 [.MaroonIRVarRegular 7 "y" "BOOL" "true"]
            [.MaroonIRStmt 8 "DEBUG(1)", .MaroonIRStmt 9 "DEBUG(2)"])]) :: [] ∧
      c3.BlocksDepth = sampleInFn.BlocksDepth ∧
      c3.blocks_stack = sampleInFn.blocks_stack :=
  ⟨rfl, block_replaces_its_placeholder sampleInFn 6
    [.VAR "y" "BOOL" "true" 7, .STMT "DEBUG(1)" 8, .STMT "DEBUG(2)" 9] 2 []
    [.MaroonIRStmt 3 "DEBUG(0)"] [] rfl rfl⟩

/-- C4: a match on `enum_var` registered at `line` inside a function, each arm well nested
(its sub-builder appends exactly one item), is built: closing it appends to the block that
was current before the match exactly one `MatchEnum` node with that variable and line and
with one arm per registered arm, in the order given (same line, key and capture); the
earlier vars and items of that block are unchanged and the block depth is as before. -/
theorem match_emits_one_node (c : Ctx) (enum_var : String) (arms : List DslArm) (line : Nat)
    (l : Nat) (vs : List MaroonIRVar) (code : List MaroonIRStmtOrBlock)
    (rest : List MaroonIRBlock)
    (hw : wellNestedArms arms = true)
    (hs : c.current_fn_blocks_stack = .mk l vs code :: rest) :
    ∃ c1, (DslStmt.MATCH_ENUM_STMT enum_var arms line).run c = .ok c1 ∧
      c1.current_fn_blocks_stack =
        .mk l vs (code ++ [.MaroonIRMatchEnumStmt line enum_var (armsOf enum_var arms)]) :: rest ∧
      (armsOf enum_var arms).map (fun a => (a.line, a.key, a.capture)) =
        arms.map (fun a => (a.line, a.key, a.capture)) ∧
      c1.BlocksDepth = c.BlocksDepth := by
  obtain ⟨c1, e1, s1, _, _⟩ := DslStmt.run_spec (.MATCH_ENUM_STMT enum_var arms line) c l vs code
    rest (by simpa [DslStmt.wellNested] using hw) hs
  refine ⟨c1, e1, ?_, armsOf_header enum_var arms hw, ?_⟩
  · simpa [DslStmt.vars, DslStmt.items] using s1
  · simp [Ctx.BlocksDepth, s1, hs, DslStmt.vars, DslStmt.items]

/-- Witness of C4: a capturing arm and a default arm in the sample function. -/
theorem match_emits_one_node_witness :
    wellNestedArms [.ENUM_ARM "U64" "v" [.STMT "DEBUG_EXPR(v)" 11] 11,
      .ENUM_DEFAULT [.STMT "DEBUG(0)" 12] 12] = true ∧
    ∃ c1, (DslStmt.MATCH_ENUM_STMT "x" [.ENUM_ARM "U64" "v" [.STMT "DEBUG_EXPR(v)" 11] 11,
        .ENUM_DEFAULT [.STMT "DEBUG(0)" 12] 12] 10).run sampleInFn = .ok c1 ∧
      c1.current_fn_blocks_stack =
        .mk 2 [] ([.MaroonIRStmt 3 "DEBUG(0)"] ++ [.MaroonIRMatchEnumStmt 10 "x"
          [.mk 11 (some "U64") (some "v")
              (.mk 11 [.MaroonIRVarEnumCaseCapture "v" "U64" "x"]
                [.MaroonIRStmt 11 "DEBUG_EXPR(v)"]),
            .mk 12 none none (.mk 12 [] [.MaroonIRStmt 12 "DEBUG(0)"])]]) :: [] ∧
      (armsOf "x" [.ENUM_ARM "U64" "v" [.STMT "DEBUG_EXPR(v)" 11] 11,
          .ENUM_DEFAULT [.STMT "DEBUG(0)" 12] 12]).map (fun a => (a.line, a.key, a.capture)) =
        [(11, some "U64", some "v"), (12, none, none)] ∧
      c1.BlocksDepth = sampleInFn.BlocksDepth :=
  ⟨rfl, match_emits_one_node sampleInFn "x" [.ENUM_ARM "U64" "v" [.STMT "DEBUG_EXPR(v)" 11] 11,
    .ENUM_DEFAULT [.STMT "DEBUG(0)" 12] 12] 10 2 [] [.MaroonIRStmt 3 "DEBUG(0)"] [] rfl rfl⟩

/-! ## Lemmas on the engine -/

theorem storeValue_spec (x : Option MaroonValue) : ∀ (vs : List ImplVar) (i : Nat),
    i < vs.length →
    ∃ vars old, storeValue vs i x = some vars ∧ vars.length = vs.length ∧
      vs.get? i = some old ∧ vars.get? i = some { name := old.name, value := x } ∧
      ∀ j, j ≠ i → vars.get? j = vs.get? j
  | [], _, h => by simp at h
  | v :: vs, 0, _ => by
    refine ⟨{ v with value := x } :: vs, v, rfl, rfl, rfl, rfl, ?_⟩
    intro j hj
    cases j with
    | zero => exact absurd rfl hj
    | succ j => rfl
  | v :: vs, i + 1, h => by
    obtain ⟨vars, old, e, hl, ho, hn, hr⟩ :=
      storeValue_spec x vs i (Nat.lt_of_succ_lt_succ h)
    refine ⟨v :: vars, old, ?_, ?_, ?_, ?_, ?_⟩
    · simp [storeValue, e]
    · simp [hl]
    · simpa using ho
    · simpa using hn
    · intro j hj
      cases j with
      | zero => rfl
      | succ j =>
        have := hr j (fun h0 => hj (by rw [h0]))
        simpa using this

theorem MaroonEngine.loop_of_iterations (T : T_FIBER) : ∀ (k : Nat) (env0 env : ImplEnv),
    MaroonEngine.iterations T k env0 = .ok env → env.call_stack_ ≠ [] →
    ∀ n, MaroonEngine.loop T (k + n) env0 = MaroonEngine.loop T n env
  | 0, env0, env, h, _ => by
    intro n
    simp only [MaroonEngine.iterations] at h
    cases h
    simp
  | k + 1, env0, env, h, hne => by
    intro n
    simp only [MaroonEngine.iterations] at h
    by_cases he : env0.call_stack_.isEmpty = true
    · rw [if_pos he] at h
      cases h
      exact absurd (List.isEmpty_iff.mp he) hne
    · rw [if_neg he] at h
      cases hi : MaroonEngine.iteration T env0 with
      | error e => rw [hi] at h; cases h
      | ok env1 =>
        rw [hi] at h
        have ih := MaroonEngine.loop_of_iterations T k env1 env h hne n
        have hk : k + 1 + n = (k + n) + 1 := by omega
        rw [hk, MaroonEngine.loop, if_neg he]
        simp only [hi]
        exact ih

theorem MaroonEngine.run_of_raise (T : T_FIBER) (fuel k : Nat) (env : ImplEnv) (msg : String)
    (hk : k < fuel) (hreach : MaroonEngine.iterations T k (MaroonEngine.initial T) = .ok env)
    (hne : env.call_stack_ ≠ [])
    (hraise : MaroonEngine.iteration T env = .error (.throw msg)) :
    MaroonEngine.run T fuel = .ok ("", msg) := by
  obtain ⟨n, rfl⟩ : ∃ n, fuel = k + (n + 1) := ⟨fuel - k - 1, by omega⟩
  have h := MaroonEngine.loop_of_iterations T k _ env hreach hne (n + 1)
  have he : ¬ env.call_stack_.isEmpty = true := fun h0 => hne (List.isEmpty_iff.mp h0)
  have hl : MaroonEngine.loop T (n + 1) env = .error (.throw msg) := by
    rw [MaroonEngine.loop, if_neg he]
    simp only [hraise]
  simp only [MaroonEngine.run, h, hl]

theorem ControlOp.apply_recorded (op : ControlOp) (r : ImplResultCollector)
    (h : r.status_ ≠ .None) : op.apply r = (.error (.throw op.misplaced), r) := by
  cases op <;>
    simp [ControlOp.apply, ControlOp.misplaced, ImplResultCollector.branch,
      ImplResultCollector.call_ignore_return, ImplResultCollector.call_capture_return,
      ImplResultCollector.ret, ImplResultCollector.retVal, h]

theorem ControlOp.apply_records (op : ControlOp) (r : ImplResultCollector)
    (h : (op.apply r).1 = .ok ()) : (op.apply r).2.status_ ≠ .None := by
  by_cases hs : r.status_ = .None
  · cases op with
    | branch idx => simp [ControlOp.apply, ImplResultCollector.branch, hs]
    | ret => simp [ControlOp.apply, ImplResultCollector.ret, hs]
    | retVal val => simp [ControlOp.apply, ImplResultCollector.retVal, hs]
    | call_ignore_return n idx f args =>
      by_cases ha : args.length = n
      · simp [ControlOp.apply, ImplResultCollector.call_ignore_return, hs, ha]
      · simp [ControlOp.apply, ImplResultCollector.call_ignore_return, hs, ha] at h
    | call_capture_return v n idx f args =>
      by_cases ha : args.length = n
      · simp [ControlOp.apply, ImplResultCollector.call_capture_return, hs, ha]
      · simp [ControlOp.apply, ImplResultCollector.call_capture_return, hs, ha] at h
  · rw [ControlOp.apply_recorded op r hs] at h
    cases h

theorem andThen_second_raises (first second : ControlOp) (env : ImplEnv)
    (r : ImplResultCollector) (h : (first.apply r).1 = .ok ()) :
    andThen (onCollector first.apply) (onCollector second.apply) env r =
      .error (.throw second.misplaced) := by
  have h2 := ControlOp.apply_recorded second _ (ControlOp.apply_records first r h)
  simp [andThen, onCollector, h, h2]

theorem MaroonEngine.iteration_of_code_raise (T : T_FIBER) (env env2 : ImplEnv)
    (step : MaroonStep) (e : Stop)
    (hp : MaroonEngine.prepareStep T env = .ok (step, env2))
    (hc : step.code env2 {} = .error e) : MaroonEngine.iteration T env = .error e := by
  simp [MaroonEngine.iteration, hp, hc]

theorem StripMaroonTypeNamePrefix_prefixed (t : String) :
    StripMaroonTypeNamePrefix ("MAROON_TYPE_" ++ t) = t := by
  have h1 : ("MAROON_TYPE_" ++ t).length ≥ "MAROON_TYPE_".length := by
    simp [String.length_append]
  have h2 : ("MAROON_TYPE_" ++ t).toList = "MAROON_TYPE_".toList ++ t.toList := by
    simp [String.toList, String.data_append]
  have h3 : ("MAROON_TYPE_".toList ++ t.toList).take "MAROON_TYPE_".length =
      "MAROON_TYPE_".toList := by
    have : "MAROON_TYPE_".length = "MAROON_TYPE_".toList.length := rfl
    rw [this, List.take_left']
    rfl
  have h4 : ("MAROON_TYPE_".toList ++ t.toList).drop "MAROON_TYPE_".length = t.toList := by
    have : "MAROON_TYPE_".length = "MAROON_TYPE_".toList.length := rfl
    rw [this, List.drop_left']
    rfl
  unfold StripMaroonTypeNamePrefix
  rw [if_pos ⟨h1, by rw [h2, h3]⟩, h2, h4]
  rfl

/-! ## The claims on the engine -/

/-- C5: when the frame on top was called with return slot `i` (not the sentinel), the frame
under it is the caller as the call left it (step index advanced past the calling step `p`)
and `i` was below the caller's variable count, a step that returns the value `v` pops the
frame and leaves the caller on top with slot `i` holding `v` under its old name, every other
slot, the caller's other fields, the frames below and the transcript unchanged; the caller's
step index is the one following the call. -/
theorem return_stores_value (env : ImplEnv) (result : ImplResultCollector)
    (callee caller : ImplCallStackEntry) (below : List ImplCallStackEntry) (i : Nat)
    (v : MaroonValue)
    (hstack : env.call_stack_ =
      callee :: { caller with current_idx_ := (caller.current_idx_ + 1) % 2 ^ 32 } :: below)
    (hslot : callee.call_retval_var_idx_ = i) (hi : i ≠ noRetvalVar)
    (hlt : i < caller.vars_.length)
    (hret : result.status = .Return) (hhas : result.has_retval_ = true)
    (hval : result.retval_ = some v) :
    ∃ vars old,
      MaroonEngine.applyResult env result =
        .ok { env with call_stack_ :=
          { caller with current_idx_ := (caller.current_idx_ + 1) % 2 ^ 32, vars_ := vars } ::
            below } ∧
      vars.length = caller.vars_.length ∧
      caller.vars_.get? i = some old ∧
      vars.get? i = some { name := old.name, value := some v } ∧
      ∀ j, j ≠ i → vars.get? j = caller.vars_.get? j := by
  obtain ⟨vars, old, e, hl, ho, hn, hr⟩ := storeValue_spec (some v) caller.vars_ i hlt
  refine ⟨vars, old, ?_, hl, ho, hn, hr⟩
  simp [MaroonEngine.applyResult, hstack, hret, hhas, hval, hslot, hi, e]

/-- Witness of C5 on the hand-written table of the call-with-return scenario: `add` returns
`2 + 3` into slot 0 of `main`, and the whole run prints `r=5`. -/
theorem return_stores_value_witness :
    (∃ vars old,
      MaroonEngine.applyResult addReturning
          { status_ := .Return, has_retval_ := true, retval_ := some (U64.add 2 3) } =
        .ok { addReturning with call_stack_ :=
          { ({ current_idx_ := 0, vars_ := [{ name := "r", value := some (U64 0) }] } :
                ImplCallStackEntry) with
              current_idx_ := (0 + 1) % 2 ^ 32, vars_ := vars } :: [] } ∧
      vars.length = 1 ∧
      [({ name := "r", value := some (U64 0) } : ImplVar)].get? 0 = some old ∧
      vars.get? 0 = some { name := old.name, value := some (U64.add 2 3) } ∧
      ∀ j, j ≠ 0 → vars.get? j =
        [({ name := "r", value := some (U64 0) } : ImplVar)].get? j) ∧
    MaroonEngine.run callWithReturn 10 = .ok ("r=5\n", "") :=
  ⟨return_stores_value addReturning
      { status_ := .Return, has_retval_ := true, retval_ := some (U64.add 2 3) }
      { current_idx_ := 3, f_ := "add", call_retval_var_idx_ := 0
        vars_ := [{ name := "a", value := some (U64 2) }, { name := "b", value := some (U64 3) }]
        args_used_ := 2, args_ := [none, none] }
      { current_idx_ := 0, vars_ := [{ name := "r", value := some (U64 0) }] } [] 0
      (U64.add 2 3) rfl rfl (by decide) (by decide) rfl rfl rfl,
    rfl⟩

/-- C6: after a step whose code recorded a call on a new collector (`call_capture_return`
with a return slot, or `call_ignore_return`, which records the sentinel), the calling frame
has its step index advanced by one and everything else, its variables included, unchanged,
and exactly one frame is pushed on top of it: step index `target`, function name `fn_name`,
the recorded return slot, no variables, and the packed `args` in order with none consumed.
The step index is a `uint32_t` and is assumed not to be the largest one. -/
theorem call_pushes_frame (env : ImplEnv) (top : ImplCallStackEntry)
    (rest : List ImplCallStackEntry) (r : ImplResultCollector) (target : Nat)
    (fn_name : String) (args : List (Option MaroonValue)) (return_slot : Nat)
    (hstack : env.call_stack_ = top :: rest) (hfresh : r.status_ = .None)
    (hidx : top.current_idx_ + 1 < 2 ^ 32) :
    MaroonEngine.applyResult env
        (r.call_capture_return return_slot args.length target fn_name args).2 =
      .ok { env with call_stack_ :=
        { current_idx_ := target, f_ := fn_name, call_retval_var_idx_ := return_slot
          vars_ := [], args_used_ := 0, args_ := args } ::
        { top with current_idx_ := top.current_idx_ + 1 } :: rest } ∧
    MaroonEngine.applyResult env (r.call_ignore_return args.length target fn_name args).2 =
      .ok { env with call_stack_ :=
        { current_idx_ := target, f_ := fn_name, call_retval_var_idx_ := noRetvalVar
          vars_ := [], args_used_ := 0, args_ := args } ::
        { top with current_idx_ := top.current_idx_ + 1 } :: rest } := by
  have hm : (top.current_idx_ + 1) % 2 ^ 32 = top.current_idx_ + 1 := Nat.mod_eq_of_lt hidx
  constructor
  · simp only [MaroonEngine.applyResult, ImplResultCollector.call_capture_return,
      ImplResultCollector.status, hstack, hfresh, hm, ne_eq, not_true_eq_false, if_false]
  · simp only [MaroonEngine.applyResult, ImplResultCollector.call_ignore_return,
      ImplResultCollector.status, hstack, hfresh, hm, ne_eq, not_true_eq_false, if_false]

/-- Witness of C6: the call of `add` from the first step of `main`. -/
theorem call_pushes_frame_witness :
    MaroonEngine.applyResult
        { os_ := "", call_stack_ := [{ current_idx_ := 0, vars_ := [{ name := "r", value := some (U64 0) }] }] }
        (({} : ImplResultCollector).call_capture_return 0 [some (U64 2), some (U64 3)].length 3
          "add" [some (U64 2), some (U64 3)]).2 =
      .ok { os_ := "", call_stack_ :=
        [ { current_idx_ := 3, f_ := "add", call_retval_var_idx_ := 0
            vars_ := [], args_used_ := 0, args_ := [some (U64 2), some (U64 3)] },
          { current_idx_ := 0 + 1, vars_ := [{ name := "r", value := some (U64 0) }] } ] } ∧
    MaroonEngine.applyResult
        { os_ := "", call_stack_ := [{ current_idx_ := 0, vars_ := [{ name := "r", value := some (U64 0) }] }] }
        (({} : ImplResultCollector).call_ignore_return [some (U64 2), some (U64 3)].length 3
          "add" [some (U64 2), some (U64 3)]).2 =
      .ok { os_ := "", call_stack_ :=
        [ { current_idx_ := 3, f_ := "add", call_retval_var_idx_ := noRetvalVar
            vars_ := [], args_used_ := 0, args_ := [some (U64 2), some (U64 3)] },
          { current_idx_ := 0 + 1, vars_ := [{ name := "r", value := some (U64 0) }] } ] } :=
  call_pushes_frame
    { os_ := "", call_stack_ := [{ current_idx_ := 0, vars_ := [{ name := "r", value := some (U64 0) }] }] }
    { current_idx_ := 0, vars_ := [{ name := "r", value := some (U64 0) }] } [] {} 3 "add"
    [some (U64 2), some (U64 3)] 0 rfl rfl (by decide)

/-- C7: if, after any number `k` of completed passes through the loop (whatever they wrote
to the transcript), the next pass raises an `ImplException` with description `msg`, then
`run`, given more than `k` passes, returns the pair of the empty transcript and `msg`. -/
theorem raise_gives_empty_transcript (T : T_FIBER) (fuel k : Nat) (env : ImplEnv)
    (msg : String) (hk : k < fuel)
    (hreach : MaroonEngine.iterations T k (MaroonEngine.initial T) = .ok env)
    (hne : env.call_stack_ ≠ [])
    (hraise : MaroonEngine.iteration T env = .error (.throw msg)) :
    MaroonEngine.run T fuel = .ok ("", msg) :=
  MaroonEngine.run_of_raise T fuel k env msg hk hreach hne hraise

/-- Witness of C7: the first step printed `hi`, the second raises the type mismatch; the
pair returned has an empty transcript. -/
theorem raise_gives_empty_transcript_witness :
    MaroonEngine.iterations boolAsU64 1 (MaroonEngine.initial boolAsU64) = .ok afterHi ∧
    afterHi.os_ = "hi\n" ∧
    MaroonEngine.run boolAsU64 5 = .ok ("", "Attempted to use `b` of type `BOOL` as `U64`.") :=
  ⟨rfl, rfl,
    raise_gives_empty_transcript boolAsU64 5 1 afterHi
      "Attempted to use `b` of type `BOOL` as `U64`." (by decide) rfl (by simp [afterHi]) rfl⟩

/-- C8: on a slot `idx` of the current frame recorded under `name` and holding the value
`v`, `AccessVar<T_VAR>(idx, name)` returns `v` when the class of `v` is `T_VAR`, and otherwise
throws the exception whose text is exactly
``Attempted to use `name` of type `A` as `E`.`` where `A` is the type name of `v` and `E` the
type name of `T_VAR`, both passed through `StripMaroonTypeNamePrefix`, which removes a leading
`MAROON_TYPE_` and leaves a text without that prefix as it is. -/
theorem accessVar_result (T_VAR : MaroonClass) (env : ImplEnv) (top : ImplCallStackEntry)
    (rest : List ImplCallStackEntry) (idx : Nat) (name : String) (v : MaroonValue)
    (hstack : env.call_stack_ = top :: rest)
    (hslot : top.vars_.get? idx = some { name := name, value := some v }) :
    (v.cls = T_VAR → ImplEnv.AccessVar T_VAR env idx name = .ok v) ∧
    (v.cls ≠ T_VAR → ImplEnv.AccessVar T_VAR env idx name =
      .error (.throw ("Attempted to use `" ++ name ++ "` of type `" ++
        StripMaroonTypeNamePrefix v.MAROON_type_name ++ "` as `" ++
        StripMaroonTypeNamePrefix T_VAR.MAROON_type_name_static ++ "`."))) ∧
    (∀ t : String, StripMaroonTypeNamePrefix ("MAROON_TYPE_" ++ t) = t) ∧
    (∀ s : String, ¬ ("MAROON_TYPE_".toList <+: s.toList) → StripMaroonTypeNamePrefix s = s) := by
  have hslot1 : top.vars_[idx]? = some { name := name, value := some v } := by
    simpa using hslot
  refine ⟨?_, ?_, StripMaroonTypeNamePrefix_prefixed, ?_⟩
  · intro h
    simp [ImplEnv.AccessVar, hstack, hslot1, h]
  · intro h
    simp [ImplEnv.AccessVar, hstack, hslot1, h, typeMismatchMessage]
  · intro s hs
    unfold StripMaroonTypeNamePrefix
    rw [if_neg]
    rintro ⟨_, h2⟩
    apply hs
    rw [← h2]
    exact List.take_prefix _ _

/-- Witness of C8: the `BOOL` variable `b` read as `U64`; the text ends in "as" and the
expected type `U64`. -/
theorem accessVar_result_witness :
    ImplEnv.AccessVar .MAROON_TYPE_U64
        { os_ := "", call_stack_ := [{ current_idx_ := 1, vars_ := [{ name := "b", value := some (BOOL true) }] }] }
        0 "b" =
      .error (.throw ("Attempted to use `" ++ "b" ++ "` of type `" ++
        StripMaroonTypeNamePrefix (BOOL true).MAROON_type_name ++ "` as `" ++
        StripMaroonTypeNamePrefix MaroonClass.MAROON_TYPE_U64.MAROON_type_name_static ++ "`.")) ∧
    ("Attempted to use `" ++ "b" ++ "` of type `" ++
        StripMaroonTypeNamePrefix (BOOL true).MAROON_type_name ++ "` as `" ++
        StripMaroonTypeNamePrefix MaroonClass.MAROON_TYPE_U64.MAROON_type_name_static ++ "`.") =
      "Attempted to use `b` of type `BOOL` " ++ "as `U64`" ++ "." ∧
    ImplEnv.AccessVar .MAROON_TYPE_BOOL
        { os_ := "", call_stack_ := [{ current_idx_ := 1, vars_ := [{ name := "b", value := some (BOOL true) }] }] }
        0 "b" = .ok (BOOL true) :=
  ⟨(accessVar_result .MAROON_TYPE_U64
      { os_ := "", call_stack_ := [{ current_idx_ := 1, vars_ := [{ name := "b", value := some (BOOL true) }] }] }
      { current_idx_ := 1, vars_ := [{ name := "b", value := some (BOOL true) }] } [] 0 "b"
      (BOOL true) rfl rfl).2.1 (by decide),
    by decide,
    (accessVar_result .MAROON_TYPE_BOOL
      { os_ := "", call_stack_ := [{ current_idx_ := 1, vars_ := [{ name := "b", value := some (BOOL true) }] }] }
      { current_idx_ := 1, vars_ := [{ name := "b", value := some (BOOL true) }] } [] 0 "b"
      (BOOL true) rfl rfl).1 rfl⟩

/-- C9: for any two outcome-recording calls `first` and `second` (`branch`,
`call_ignore_return`, `call_capture_return`, `ret` with or without a value): on a collector
that already holds an outcome `second` throws its wrong-place exception and leaves the
collector as it was; on a collector holding none `first` never throws a wrong-place
exception, and when it succeeds the collector holds an outcome; so a step whose code makes
the two calls in a row throws, and a run that reaches such a step returns the pair of the
empty transcript and that exception's text. -/
theorem second_outcome_is_rejected (first second : ControlOp) :
    (∀ r : ImplResultCollector, r.status_ ≠ .None →
      second.apply r = (.error (.throw second.misplaced), r)) ∧
    (∀ r : ImplResultCollector, r.status_ = .None →
      ∀ op : ControlOp, (first.apply r).1 ≠ .error (.throw op.misplaced)) ∧
    (∀ r : ImplResultCollector, (first.apply r).1 = .ok () →
      (first.apply r).2.status_ ≠ .None) ∧
    (∀ (env : ImplEnv) (r : ImplResultCollector), (first.apply r).1 = .ok () →
      andThen (onCollector first.apply) (onCollector second.apply) env r =
        .error (.throw second.misplaced)) ∧
    (∀ (T : T_FIBER) (fuel k : Nat) (env env2 : ImplEnv) (step : MaroonStep),
      k < fuel → MaroonEngine.iterations T k (MaroonEngine.initial T) = .ok env →
      env.call_stack_ ≠ [] → MaroonEngine.prepareStep T env = .ok (step, env2) →
      step.code = andThen (onCollector first.apply) (onCollector second.apply) →
      (first.apply {}).1 = .ok () →
      MaroonEngine.run T fuel = .ok ("", second.misplaced)) := by
  refine ⟨ControlOp.apply_recorded second, ?_, ControlOp.apply_records first,
    fun env r h => andThen_second_raises first second env r h, ?_⟩
  · intro r hr op
    cases first with
    | branch idx => simp [ControlOp.apply, ImplResultCollector.branch, hr]
    | ret => simp [ControlOp.apply, ImplResultCollector.ret, hr]
    | retVal val => simp [ControlOp.apply, ImplResultCollector.retVal, hr]
    | call_ignore_return n idx f args =>
      by_cases ha : args.length = n
      · simp [ControlOp.apply, ImplResultCollector.call_ignore_return, hr, ha]
      · simp only [ControlOp.apply, ImplResultCollector.call_ignore_return, hr, ha, ne_eq,
          not_true_eq_false, if_false, not_false_eq_true, if_true]
        cases op <;> simp [ControlOp.misplaced]
    | call_capture_return v n idx f args =>
      by_cases ha : args.length = n
      · simp [ControlOp.apply, ImplResultCollector.call_capture_return, hr, ha]
      · simp only [ControlOp.apply, ImplResultCollector.call_capture_return, hr, ha, ne_eq,
          not_true_eq_false, if_false, not_false_eq_true, if_true]
        cases op <;> simp [ControlOp.misplaced]
  · intro T fuel k env env2 step hk hreach hne hp hcode hfirst
    apply MaroonEngine.run_of_raise T fuel k env second.misplaced hk hreach hne
    apply MaroonEngine.iteration_of_code_raise T env env2 step _ hp
    rw [hcode]
    exact andThen_second_raises first second env2 {} hfirst

/-- Witness of C9: the table whose second step calls `RETURN()` twice, after a first step
that printed a line. -/
theorem second_outcome_is_rejected_witness :
    MaroonEngine.run returnTwice 5 =
      .ok ("", "TODO(dkorolev): FIXME: Attempted `RETURN()` in the wrong place.") :=
  (second_outcome_is_rejected .ret .ret).2.2.2.2 returnTwice 5 1 afterHi afterHi returnTwiceStep
    (by decide) rfl (by simp [afterHi]) rfl rfl rfl

/-- C10: when a pass through the loop starts with the top frame's step index at or past
the number of steps of the table, the pass throws the exception with the text
"Need `RETURN()` at least at the last `STMT()` of the `FN()`." before any step is fetched
(the table has no step at that index) or run, and a run that reaches that state returns the
pair of the empty transcript and that text. -/
theorem index_past_end_raises (T : T_FIBER) (env : ImplEnv) (top : ImplCallStackEntry)
    (rest : List ImplCallStackEntry)
    (hstack : env.call_stack_ = top :: rest)
    (hpast : top.current_idx_ ≥ T.kStepsCount) :
    T.MAROON_steps.get? top.current_idx_ = none ∧
    MaroonEngine.prepareStep T env =
      .error (.throw "Need `RETURN()` at least at the last `STMT()` of the `FN()`.") ∧
    MaroonEngine.iteration T env =
      .error (.throw "Need `RETURN()` at least at the last `STMT()` of the `FN()`.") ∧
    ∀ fuel k : Nat, k < fuel →
      MaroonEngine.iterations T k (MaroonEngine.initial T) = .ok env →
      MaroonEngine.run T fuel =
        .ok ("", "Need `RETURN()` at least at the last `STMT()` of the `FN()`.") := by
  have hp : MaroonEngine.prepareStep T env =
      .error (.throw "Need `RETURN()` at least at the last `STMT()` of the `FN()`.") := by
    simp [MaroonEngine.prepareStep, hstack, hpast]
  have hi : MaroonEngine.iteration T env =
      .error (.throw "Need `RETURN()` at least at the last `STMT()` of the `FN()`.") := by
    simp [MaroonEngine.iteration, hp]
  refine ⟨?_, hp, hi, ?_⟩
  · exact List.get?_eq_none.mpr hpast
  · intro fuel k hk hreach
    exact MaroonEngine.run_of_raise T fuel k env _ hk hreach (by simp [hstack]) hi

/-- Witness of C10: a `main` of one step that prints a line and has no `RETURN()`. -/
theorem index_past_end_raises_witness :
    (1 : Nat) ≥ noReturn.kStepsCount ∧
    MaroonEngine.run noReturn 5 =
      .ok ("", "Need `RETURN()` at least at the last `STMT()` of the `FN()`.") :=
  ⟨by decide,
    (index_past_end_raises noReturn afterHi { current_idx_ := 1 } [] rfl (by decide)).2.2.2 5 1
      (by decide) rfl⟩

/-- C11: when the frame on top returns without a value (`ret()` on a new collector), the
pass throws the exception with the text "A return value must have been provided." if the
frame was called with a designated return slot, and a run that reaches that return gives the
pair of the empty transcript and that text; if the frame has no designated slot (the
sentinel) nothing is thrown and the frame is popped, all else unchanged. -/
theorem return_without_value (env : ImplEnv) (callee : ImplCallStackEntry)
    (rest : List ImplCallStackEntry) (r : ImplResultCollector)
    (hstack : env.call_stack_ = callee :: rest) (hfresh : r.status_ = .None) :
    (callee.call_retval_var_idx_ ≠ noRetvalVar →
      MaroonEngine.applyResult env r.ret.2 =
        .error (.throw "A return value must have been provided.")) ∧
    (callee.call_retval_var_idx_ = noRetvalVar →
      MaroonEngine.applyResult env r.ret.2 = .ok { env with call_stack_ := rest }) ∧
    (∀ (T : T_FIBER) (fuel k : Nat) (env0 env1 : ImplEnv) (step : MaroonStep),
      k < fuel → MaroonEngine.iterations T k (MaroonEngine.initial T) = .ok env0 →
      env0.call_stack_ ≠ [] → MaroonEngine.prepareStep T env0 = .ok (step, env1) →
      step.code env1 {} = .ok (env, r.ret.2) →
      callee.call_retval_var_idx_ ≠ noRetvalVar →
      MaroonEngine.run T fuel = .ok ("", "A return value must have been provided.")) := by
  have h1 : callee.call_retval_var_idx_ ≠ noRetvalVar →
      MaroonEngine.applyResult env r.ret.2 =
        .error (.throw "A return value must have been provided.") := by
    intro h
    simp [MaroonEngine.applyResult, ImplResultCollector.ret, ImplResultCollector.status, hstack,
      hfresh, h]
  refine ⟨h1, ?_, ?_⟩
  · intro h
    simp [MaroonEngine.applyResult, ImplResultCollector.ret, ImplResultCollector.status, hstack,
      hfresh, h]
  · intro T fuel k env0 env1 step hk hreach hne hp hc hslot
    apply MaroonEngine.run_of_raise T fuel k env0 _ hk hreach hne
    simp [MaroonEngine.iteration, hp, hc, h1 hslot]

/-- Witness of C11: `f` called with return slot 0 returns nothing and the run fails; with
the result ignored the frame of `f` is popped and `main` goes on to print a line. -/
theorem return_without_value_witness :
    MaroonEngine.run captureWithoutValue 5 =
      .ok ("", "A return value must have been provided.") ∧
    MaroonEngine.applyResult
        { os_ := "", call_stack_ := [{ current_idx_ := 2, f_ := "f" }, { current_idx_ := 1 }] }
        ({} : ImplResultCollector).ret.2 =
      .ok { os_ := "", call_stack_ := [{ current_idx_ := 1 }] } ∧
    MaroonEngine.run ignoreWithoutValue 5 = .ok ("back\n", "") :=
  ⟨(return_without_value inCapturedCall { current_idx_ := 2, f_ := "f", call_retval_var_idx_ := 0 }
      [{ current_idx_ := (0 + 1) % 2 ^ 32, vars_ := [{ name := "r", value := some (U64 0) }] }]
      {} rfl rfl).2.2 captureWithoutValue 5 1 inCapturedCall inCapturedCall returnNothingStep
      (by decide) rfl (by simp [inCapturedCall]) rfl rfl (by decide),
    (return_without_value
      { os_ := "", call_stack_ := [{ current_idx_ := 2, f_ := "f" }, { current_idx_ := 1 }] }
      { current_idx_ := 2, f_ := "f" } [{ current_idx_ := 1 }] {} rfl rfl).2.1 rfl,
    rfl⟩

/-! ## Lemmas on match arms -/

mutual
theorem DslStmt.vars_noCapture : ∀ (s : DslStmt) (v : MaroonIRVar), v ∈ s.vars →
    v.isCapture = false
  | .STMT _ _, v, h => by simp [DslStmt.vars] at h
  | .VAR _ _ _ _, v, h => by
    simp only [DslStmt.vars, List.mem_singleton] at h
    subst h
    rfl
  | .ARG _ _ _, v, h => by
    simp only [DslStmt.vars, List.mem_singleton] at h
    subst h
    rfl
  | .IF _ yes no _, v, h => by
    simp only [DslStmt.vars, List.mem_append] at h
    rcases h with h | h
    · exact varsOfStmts_noCapture yes v h
    · exact varsOfStmts_noCapture no v h
  | .BLOCK _ _, v, h => by simp [DslStmt.vars] at h
  | .MATCH_ENUM_STMT _ _ _, v, h => by simp [DslStmt.vars] at h
theorem varsOfStmts_noCapture : ∀ (ss : List DslStmt) (v : MaroonIRVar), v ∈ varsOfStmts ss →
    v.isCapture = false
  | [], v, h => by simp [varsOfStmts] at h
  | s :: ss, v, h => by
    simp only [varsOfStmts, List.mem_append] at h
    rcases h with h | h
    · exact DslStmt.vars_noCapture s v h
    · exact varsOfStmts_noCapture ss v h
end

theorem DslStmt.items_armBlock_noCapture (line : Nat) (s : DslStmt) (item : MaroonIRStmtOrBlock)
    (hi : item ∈ s.items) (v : MaroonIRVar) (hv : v ∈ (armBlock line item).vars) :
    v.isCapture = false := by
  cases s with
  | STMT st l =>
    simp only [DslStmt.items, List.mem_singleton] at hi
    subst hi
    simp [armBlock, MaroonIRBlock.vars] at hv
  | VAR n t i l => simp [DslStmt.items] at hi
  | ARG n t l => simp [DslStmt.items] at hi
  | IF c yes no l =>
    simp only [DslStmt.items] at hi
    split at hi
    · simp only [List.mem_singleton] at hi
      subst hi
      simp [armBlock, MaroonIRBlock.vars] at hv
    · simp at hi
  | BLOCK body l =>
    simp only [DslStmt.items, List.mem_singleton] at hi
    subst hi
    exact varsOfStmts_noCapture body v (by simpa [armBlock, MaroonIRBlock.vars] using hv)
  | MATCH_ENUM_STMT ev arms l =>
    simp only [DslStmt.items, List.mem_singleton] at hi
    subst hi
    simp [armBlock, MaroonIRBlock.vars] at hv

theorem itemsOfStmts_armBlock_noCapture (line : Nat) : ∀ (ss : List DslStmt)
    (item : MaroonIRStmtOrBlock), item ∈ itemsOfStmts ss → ∀ v : MaroonIRVar,
    v ∈ (armBlock line item).vars → v.isCapture = false
  | [], item, hi => by simp [itemsOfStmts] at hi
  | s :: ss, item, hi => by
    simp only [itemsOfStmts, List.mem_append] at hi
    intro v hv
    rcases hi with hi | hi
    · exact DslStmt.items_armBlock_noCapture line s item hi v hv
    · exact itemsOfStmts_armBlock_noCapture line ss item hi v hv

theorem armsOf_mem (var : String) : ∀ (as : List DslArm) (out : MaroonIRMatchEnumStmtArm),
    out ∈ armsOf var as ↔ ∃ a ∈ as, out ∈ a.arm var
  | [], out => by simp [armsOf]
  | a :: as, out => by
    simp [armsOf, armsOf_mem var as out]

theorem wellNestedArms_mem : ∀ (as : List DslArm), wellNestedArms as = true →
    ∀ a ∈ as, a.wellNested = true
  | [], _, a, ha => by simp at ha
  | b :: as, hw, a, ha => by
    simp only [wellNestedArms, Bool.and_eq_true] at hw
    rcases List.mem_cons.mp ha with h | h
    · rw [h]
      exact hw.1
    · exact wellNestedArms_mem as hw.2 a h

theorem DslArm.arm_sources (var : String) (a : DslArm) (out : MaroonIRMatchEnumStmtArm)
    (ho : out ∈ a.arm var) (n k src : String)
    (hv : MaroonIRVar.MaroonIRVarEnumCaseCapture n k src ∈ out.code.vars) : src = var := by
  cases a with
  | ENUM_ARM key capture stmt line =>
    simp only [DslArm.arm] at ho
    split at ho
    · rename_i item ei
      simp only [List.mem_singleton] at ho
      subst ho
      simp only [keyedArm, MaroonIRMatchEnumStmtArm.code, MaroonIRBlock.vars, List.mem_append,
        List.mem_singleton] at hv
      rcases hv with hv | hv
      · have := itemsOfStmts_armBlock_noCapture line stmt item (by rw [ei]; simp) _ hv
        simp [MaroonIRVar.isCapture] at this
      · injection hv with _ _ h3
    · simp at ho
  | ENUM_DEFAULT stmt line =>
    simp only [DslArm.arm] at ho
    split at ho
    · rename_i item ei
      simp only [List.mem_singleton] at ho
      subst ho
      simp only [defaultArm, MaroonIRMatchEnumStmtArm.code] at hv
      have := itemsOfStmts_armBlock_noCapture line stmt item (by rw [ei]; simp) _ hv
      simp [MaroonIRVar.isCapture] at this
    · simp at ho

/-! ## The claims on match arms -/

/-- C12: in the node a well-nested match on `enum_var` emits, every arm registered by
`ENUM_ARM` with key `K` and capture `C` has, as the last var of its block, the capture alias
with name `C`, key `K` and source `enum_var`; and every capture alias among the vars of the
blocks of the emitted arms has `enum_var` as its source, so the text written while the arm
was wrapped is gone. -/
theorem emitted_alias_names_match_var (c : Ctx) (enum_var : String) (arms : List DslArm)
    (line : Nat) (l : Nat) (vs : List MaroonIRVar) (code : List MaroonIRStmtOrBlock)
    (rest : List MaroonIRBlock)
    (hw : wellNestedArms arms = true)
    (hs : c.current_fn_blocks_stack = .mk l vs code :: rest) :
    ∃ c1, (DslStmt.MATCH_ENUM_STMT enum_var arms line).run c = .ok c1 ∧
      c1.current_fn_blocks_stack =
        .mk l vs (code ++ [.MaroonIRMatchEnumStmt line enum_var (armsOf enum_var arms)]) :: rest ∧
      (∀ (K C : String) (stmt : List DslStmt) (al : Nat), DslArm.ENUM_ARM K C stmt al ∈ arms →
        ∃ out ∈ armsOf enum_var arms, out.line = al ∧ out.key = some K ∧ out.capture = some C ∧
          out.code.vars.getLast? = some (.MaroonIRVarEnumCaseCapture C K enum_var)) ∧
      (∀ out ∈ armsOf enum_var arms, ∀ n k src : String,
        MaroonIRVar.MaroonIRVarEnumCaseCapture n k src ∈ out.code.vars → src = enum_var) := by
  obtain ⟨c1, e1, s1, _, _⟩ := DslStmt.run_spec (.MATCH_ENUM_STMT enum_var arms line) c l vs code
    rest (by simpa [DslStmt.wellNested] using hw) hs
  refine ⟨c1, e1, ?_, ?_, ?_⟩
  · simpa [DslStmt.vars, DslStmt.items] using s1
  · intro K C stmt al ha
    have h := wellNestedArms_mem arms hw _ ha
    simp only [DslArm.wellNested, Bool.and_eq_true, beq_iff_eq] at h
    obtain ⟨item, ei⟩ := itemsOfStmts_single stmt h.2 h.1
    refine ⟨keyedArm enum_var K C al item, ?_, rfl, rfl, rfl, ?_⟩
    · exact (armsOf_mem enum_var arms _).mpr ⟨_, ha, by simp [DslArm.arm, ei]⟩
    · simp [keyedArm, MaroonIRMatchEnumStmtArm.code, MaroonIRBlock.vars]
  · intro out ho n k src hv
    obtain ⟨a, _, hoa⟩ := (armsOf_mem enum_var arms out).mp ho
    exact DslArm.arm_sources enum_var a out hoa n k src hv

/-- Witness of C12: a capturing arm and a default arm in the sample function. -/
theorem emitted_alias_names_match_var_witness :
    wellNestedArms [.ENUM_ARM "U64" "v" [.STMT "DEBUG_EXPR(v)" 11] 11,
      .ENUM_DEFAULT [.STMT "DEBUG(0)" 12] 12] = true ∧
    ∃ c1, (DslStmt.MATCH_ENUM_STMT "x" [.ENUM_ARM "U64" "v" [.STMT "DEBUG_EXPR(v)" 11] 11,
        .ENUM_DEFAULT [.STMT "DEBUG(0)" 12] 12] 10).run sampleInFn = .ok c1 ∧
      c1.current_fn_blocks_stack =
        .mk 2 [] ([.MaroonIRStmt 3 "DEBUG(0)"] ++ [.MaroonIRMatchEnumStmt 10 "x"
          (armsOf "x" [.ENUM_ARM "U64" "v" [.STMT "DEBUG_EXPR(v)" 11] 11,
            .ENUM_DEFAULT [.STMT "DEBUG(0)" 12] 12])]) :: [] ∧
      (∀ (K C : String) (stmt : List DslStmt) (al : Nat),
        DslArm.ENUM_ARM K C stmt al ∈ [DslArm.ENUM_ARM "U64" "v" [.STMT "DEBUG_EXPR(v)" 11] 11,
          .ENUM_DEFAULT [.STMT "DEBUG(0)" 12] 12] →
        ∃ out ∈ armsOf "x" [.ENUM_ARM "U64" "v" [.STMT "DEBUG_EXPR(v)" 11] 11,
            .ENUM_DEFAULT [.STMT "DEBUG(0)" 12] 12],
          out.line = al ∧ out.key = some K ∧ out.capture = some C ∧
          out.code.vars.getLast? = some (.MaroonIRVarEnumCaseCapture C K "x")) ∧
      (∀ out ∈ armsOf "x" [.ENUM_ARM "U64" "v" [.STMT "DEBUG_EXPR(v)" 11] 11,
            .ENUM_DEFAULT [.STMT "DEBUG(0)" 12] 12], ∀ n k src : String,
        MaroonIRVar.MaroonIRVarEnumCaseCapture n k src ∈ out.code.vars → src = "x") :=
  ⟨rfl, emitted_alias_names_match_var sampleInFn "x"
    [.ENUM_ARM "U64" "v" [.STMT "DEBUG_EXPR(v)" 11] 11, .ENUM_DEFAULT [.STMT "DEBUG(0)" 12] 12]
    10 2 [] [.MaroonIRStmt 3 "DEBUG(0)"] [] rfl rfl⟩

/-- C13, the code at the failing input: the two-argument `ENUM_ARM` passes the empty text as
`capture`; the arm registered has the capture present (and empty), and a capture alias with
the empty name is the last var of its block, which wraps a statement that has no vars. -/
theorem two_argument_arm_has_capture :
    (∀ (c c1 : Ctx) (key : String) (line : Nat) (code : Ctx → Except Fatal Ctx)
        (arm : MaroonIRMatchEnumStmtArm),
      RegisterEnumArm c key "" line code = .ok (arm, c1) →
      arm.key = some key ∧ arm.capture = some "" ∧
      arm.code.vars.getLast? = some (.MaroonIRVarEnumCaseCapture "" key temporarySrc)) ∧
    (DslStmt.MATCH_ENUM_STMT "x" [.ENUM_ARM "U64" "" [.STMT "DEBUG(1)" 11] 11] 10).run sampleInFn =
      .ok { sampleInFn with current_fn_blocks_stack :=
        [.mk 2 [] [.MaroonIRStmt 3 "DEBUG(0)",
          .MaroonIRMatchEnumStmt 10 "x"
            [.mk 11 (some "U64") (some "")
              (.mk 11 [.MaroonIRVarEnumCaseCapture "" "U64" "x"]
                [.MaroonIRStmt 11 "DEBUG(1)"])]]] } := by
  refine ⟨?_, rfl⟩
  intro c c1 key line code arm h
  simp only [RegisterEnumArm] at h
  cases h1 : code c with
  | error e => simp [h1] at h
  | ok c2 =>
    simp only [h1] at h
    cases h2 : c2.ExtractLastStmt with
    | error e => simp [h2] at h
    | ok p =>
      obtain ⟨item, c3⟩ := p
      simp only [h2, Except.ok.injEq, Prod.mk.injEq] at h
      rw [← h.1, AsBlock_some]
      simp [MaroonIRMatchEnumStmtArm.key, MaroonIRMatchEnumStmtArm.capture,
        MaroonIRMatchEnumStmtArm.code, MaroonIRBlock.vars, temporarySrc]

/-- C14: when the sub-builder of an arm has run and left `item` as the last item of the
current block, `RegisterEnumDefaultArm` and `RegisterEnumArm` remove that item from the
block and make it the arm's code: the default arm has no key, no capture and exactly the
wrapped block; the keyed arm has the wrapped block with one capture alias after its vars;
the wrapped block is the item itself when the item is a block (its line, vars and code),
and otherwise a block at the arm's line with no vars whose code is the item alone. -/
theorem arm_wraps_last_item (c c1 : Ctx) (code : Ctx → Except Fatal Ctx)
    (key capture : String) (line : Nat) (l : Nat) (vs : List MaroonIRVar)
    (code0 : List MaroonIRStmtOrBlock) (rest : List MaroonIRBlock) (item : MaroonIRStmtOrBlock)
    (hrun : code c = .ok c1)
    (hs : c1.current_fn_blocks_stack = .mk l vs (code0 ++ [item]) :: rest) :
    ∃ c2, c2.current_fn_blocks_stack = .mk l vs code0 :: rest ∧
      RegisterEnumDefaultArm c line code = .ok (.mk line none none (armBlock line item), c2) ∧
      RegisterEnumArm c key capture line code =
        .ok (.mk line (some key) (some capture)
          (.mk (armBlock line item).line
            ((armBlock line item).vars ++
              [.MaroonIRVarEnumCaseCapture capture key temporarySrc])
            (armBlock line item).code), c2) ∧
      (∀ b, item = .MaroonIRBlock b → armBlock line item = b) ∧
      ((∀ b, item ≠ .MaroonIRBlock b) → armBlock line item = .mk line [] [item]) := by
  obtain ⟨c2, e2, s2, _, _⟩ := c1.ExtractLastStmt_spec item hs
  refine ⟨c2, s2, ?_, ?_, ?_, ?_⟩
  · simp [RegisterEnumDefaultArm, hrun, e2, AsBlock_none]
  · simp [RegisterEnumArm, hrun, e2, AsBlock_some, temporarySrc]
  · intro b hb
    subst hb
    rfl
  · intro hb
    cases item with
    | MaroonIRBlock b => exact absurd rfl (hb b)
    | MaroonIRStmt _ _ => rfl
    | MaroonIRIf _ _ _ _ => rfl
    | MaroonIRMatchEnumStmt _ _ _ => rfl
    | MaroonIRBlockPlaceholder _ _ => rfl

/-- Witness of C14: an arm whose sub-builder is one `BLOCK` with a variable, in the sample
function; the block keeps its own line 12. -/
theorem arm_wraps_last_item_witness :
    ∃ c2, c2.current_fn_blocks_stack = .mk 2 [] [.MaroonIRStmt 3 "DEBUG(0)"] :: [] ∧
      RegisterEnumDefaultArm sampleInFn 11
          (runStmts [.BLOCK [.VAR "y" "BOOL" "true" 13, .STMT "DEBUG(y)" 14] 12]) =
        .ok (.mk 11 none none
          (armBlock 11 (.MaroonIRBlock (.mk 12 [.MaroonIRVarRegular 13 "y" "BOOL" "true"]
            [.MaroonIRStmt 14 "DEBUG(y)"]))), c2) ∧
      RegisterEnumArm sampleInFn "U64" "v" 11
          (runStmts [.BLOCK [.VAR "y" "BOOL" "true" 13, .STMT "DEBUG(y)" 14] 12]) =
        .ok (.mk 11 (some "U64") (some "v")
          (.mk (armBlock 11 (.MaroonIRBlock (.mk 12 [.MaroonIRVarRegular 13 "y" "BOOL" "true"]
              [.MaroonIRStmt 14 "DEBUG(y)"]))).line
            ((armBlock 11 (.MaroonIRBlock (.mk 12 [.MaroonIRVarRegular 13 "y" "BOOL" "true"]
              [.MaroonIRStmt 14 "DEBUG(y)"]))).vars ++
              [.MaroonIRVarEnumCaseCapture "v" "U64" temporarySrc])
            (armBlock 11 (.MaroonIRBlock (.mk 12 [.MaroonIRVarRegular 13 "y" "BOOL" "true"]
              [.MaroonIRStmt 14 "DEBUG(y)"]))).code), c2) ∧
      (∀ b, MaroonIRStmtOrBlock.MaroonIRBlock (.mk 12 [.MaroonIRVarRegular 13 "y" "BOOL" "true"]
          [.MaroonIRStmt 14 "DEBUG(y)"]) = .MaroonIRBlock b →
        armBlock 11 (.MaroonIRBlock (.mk 12 [.MaroonIRVarRegular 13 "y" "BOOL" "true"]
          [.MaroonIRStmt 14 "DEBUG(y)"])) = b) ∧
      ((∀ b, MaroonIRStmtOrBlock.MaroonIRBlock (.mk 12 [.MaroonIRVarRegular 13 "y" "BOOL" "true"]
          [.MaroonIRStmt 14 "DEBUG(y)"]) ≠ .MaroonIRBlock b) →
        armBlock 11 (.MaroonIRBlock (.mk 12 [.MaroonIRVarRegular 13 "y" "BOOL" "true"]
          [.MaroonIRStmt 14 "DEBUG(y)"])) =
          .mk 11 [] [.MaroonIRBlock (.mk 12 [.MaroonIRVarRegular 13 "y" "BOOL" "true"]
            [.MaroonIRStmt 14 "DEBUG(y)"])]) :=
  arm_wraps_last_item sampleInFn
    { sampleInFn with
      next_placeholder_idx := 1
      current_fn_blocks_stack :=
        [.mk 2 [] [.MaroonIRStmt 3 "DEBUG(0)",
          .MaroonIRBlock (.mk 12 [.MaroonIRVarRegular 13 "y" "BOOL" "true"]
            [.MaroonIRStmt 14 "DEBUG(y)"])]] }
    (runStmts [.BLOCK [.VAR "y" "BOOL" "true" 13, .STMT "DEBUG(y)" 14] 12])
    "U64" "v" 11 2 [] [.MaroonIRStmt 3 "DEBUG(0)"] []
    (.MaroonIRBlock (.mk 12 [.MaroonIRVarRegular 13 "y" "BOOL" "true"]
      [.MaroonIRStmt 14 "DEBUG(y)"])) rfl rfl

/-- C19, the code at the failing input: with no function active, `STMT` exits, but a match
is not rejected: the constructor of `RegisterMatchEnumStmt` pushes a block, after which
`InFunction` holds and the `STMT` of the arm is accepted; the destructor then pops that
block and calls `AddToBlock` on the empty stack, which is undefined behaviour, not an exit. -/
theorem match_outside_function_is_not_rejected :
    sampleCtx.InFunction = false ∧
    RegisterStmt sampleCtx 5 "DEBUG(1)" =
      .error (.exit "`STMT()` is only legal inside an `FN()`.") ∧
    (RegisterMatchEnumStmt.ctor sampleCtx "x" 5).2.current_fn_blocks_stack =
      [MaroonIRBlock.new] ∧
    (RegisterMatchEnumStmt.ctor sampleCtx "x" 5).2.InFunction = true ∧
    (∃ arms c1, runArms [.ENUM_DEFAULT [.STMT "DEBUG(1)" 6] 6]
      (RegisterMatchEnumStmt.ctor sampleCtx "x" 5).2 = .ok (arms, c1)) ∧
    (DslStmt.MATCH_ENUM_STMT "x" [.ENUM_DEFAULT [.STMT "DEBUG(1)" 6] 6] 5).run sampleCtx =
      .error (.undefined "back() of an empty current_fn_blocks_stack") :=
  ⟨rfl, rfl, rfl, rfl, ⟨_, _, rfl⟩, rfl⟩

/-! ## More lemmas on maps and strings -/

theorem StdMap.find_set_other {V : Type} (m : StdMap V) (k j : String) (v : V) (h : j ≠ k) :
    StdMap.find (StdMap.set m k v) j = StdMap.find m j := by
  induction m with
  | nil => simp [StdMap.set, StdMap.find, h]
  | cons kv m ih =>
    obtain ⟨k1, v1⟩ := kv
    by_cases h1 : k = k1
    · subst h1
      simp [StdMap.set, StdMap.find, h]
    · by_cases h2 : k.data < k1.data
      · simp [StdMap.set, StdMap.find, h1, h2, h]
      · simp [StdMap.set, StdMap.find, h1, h2, ih]

theorem StdMap.at_set_self {V : Type} [Inhabited V] (m : StdMap V) (k : String) (v : V) :
    StdMap.at (StdMap.set m k v) k = v := by
  simp [StdMap.at, StdMap.find_set_self]

theorem StdMap.at_set_other {V : Type} [Inhabited V] (m : StdMap V) (k j : String) (v : V)
    (h : j ≠ k) : StdMap.at (StdMap.set m k v) j = StdMap.at m j := by
  simp [StdMap.at, StdMap.find_set_other m k j v h]

theorem StdMap.mem_set_self {V : Type} (m : StdMap V) (k : String) (v : V) :
    (k, v) ∈ StdMap.set m k v := by
  induction m with
  | nil => simp [StdMap.set]
  | cons kv m ih =>
    obtain ⟨k1, v1⟩ := kv
    by_cases h1 : k = k1
    · simp [StdMap.set, h1]
    · by_cases h2 : k.data < k1.data
      · simp [StdMap.set, h1, h2]
      · simp [StdMap.set, h1, h2, ih]

theorem StdMap.mem_set_other {V : Type} (m : StdMap V) (k j : String) (v w : V) (h : j ≠ k)
    (hm : (j, w) ∈ m) : (j, w) ∈ StdMap.set m k v := by
  induction m with
  | nil => simp at hm
  | cons kv m ih =>
    obtain ⟨k1, v1⟩ := kv
    by_cases h1 : k = k1
    · subst h1
      simp only [StdMap.set, if_true, List.mem_cons]
      rcases List.mem_cons.mp hm with hm | hm
      · exact absurd (Prod.mk.inj hm).1 h
      · exact Or.inr hm
    · by_cases h2 : k.data < k1.data
      · simp only [StdMap.set, String.toList, h1, h2, if_false, if_true]
        exact List.mem_cons_of_mem _ hm
      · simp only [StdMap.set, String.toList, h1, h2, if_false]
        rcases List.mem_cons.mp hm with hm | hm
        · rw [hm]
          exact List.mem_cons_self _ _
        · exact List.mem_cons_of_mem _ (ih hm)

theorem StdMap.mem_set_same {V : Type} (m : StdMap V) (k : String) (v w : V)
    (hm : (k, w) ∈ m) : (k, w) ∈ StdMap.set m k v ∨ StdMap.find m k = some w := by
  induction m with
  | nil => simp at hm
  | cons kv m ih =>
    obtain ⟨k1, v1⟩ := kv
    by_cases h1 : k = k1
    · subst h1
      rcases List.mem_cons.mp hm with hm | hm
      · right
        simp [StdMap.find, (Prod.mk.inj hm).2]
      · left
        simp only [StdMap.set, if_true]
        exact List.mem_cons_of_mem _ hm
    · by_cases h2 : k.data < k1.data
      · left
        simp only [StdMap.set, String.toList, h1, h2, if_false, if_true]
        exact List.mem_cons_of_mem _ hm
      · rcases List.mem_cons.mp hm with hm | hm
        · exact absurd (Prod.mk.inj hm).1 h1
        · rcases ih hm with h | h
          · left
            simp only [StdMap.set, String.toList, h1, h2, if_false]
            exact List.mem_cons_of_mem _ h
          · right
            simp [StdMap.find, h1, h]

theorem StdMap.find_some_mem {V : Type} (m : StdMap V) (k : String) (v : V)
    (h : StdMap.find m k = some v) : (k, v) ∈ m := by
  induction m with
  | nil => simp [StdMap.find] at h
  | cons kv m ih =>
    obtain ⟨k1, v1⟩ := kv
    by_cases h1 : k = k1
    · subst h1
      simp [StdMap.find] at h
      simp [h]
    · simp [StdMap.find, h1] at h
      exact List.mem_cons_of_mem _ (ih h)

theorem StdMap.count_eq_zero {V : Type} (m : StdMap V) (k : String) :
    StdMap.count m k = 0 ↔ StdMap.find m k = none := by
  unfold StdMap.count
  cases StdMap.find m k <;> simp

theorem String.append_toList (a b : String) : (a ++ b).toList = a.toList ++ b.toList := by
  simp [String.toList, String.data_append]

theorem isOptionalSpelling_iff (type : String) :
    isOptionalSpelling type = true ↔
      "OPTIONAL<".toList <+: type.toList ∧ ">".toList <:+ type.toList := by
  have hl : "OPTIONAL<".length = "OPTIONAL<".toList.length := rfl
  simp only [isOptionalSpelling, Bool.and_eq_true, beq_iff_eq, hl]
  constructor
  · rintro ⟨h1, h2⟩
    refine ⟨List.prefix_iff_eq_take.mpr h1.symm, ?_⟩
    obtain ⟨ys, hy⟩ := List.getLast?_eq_some_iff.mp h2
    exact ⟨ys, hy.symm⟩
  · rintro ⟨h1, ⟨ys, hy⟩⟩
    refine ⟨(List.prefix_iff_eq_take.mp h1).symm, ?_⟩
    rw [← hy]
    exact List.getLast?_eq_some_iff.mpr ⟨ys, rfl⟩

theorem isOptionalSpelling_wrap (T : String) :
    isOptionalSpelling ("OPTIONAL<" ++ T ++ ">") = true := by
  rw [isOptionalSpelling_iff]
  simp only [String.append_toList]
  exact ⟨⟨T.toList ++ ">".toList, by simp⟩, ⟨"OPTIONAL<".toList ++ T.toList, rfl⟩⟩

theorem optionalInner_wrap (T : String) : optionalInner ("OPTIONAL<" ++ T ++ ">") = T := by
  have hl : "OPTIONAL<".length = "OPTIONAL<".toList.length := rfl
  unfold optionalInner
  rw [String.append_toList, String.append_toList, hl, List.append_assoc, List.drop_left']
  · have : (">".toList : List Char) = ['>'] := rfl
    rw [this, List.dropLast_concat]
    rfl
  · rfl

theorem StdMap.at_modify_self {V : Type} [Inhabited V] (m : StdMap V) (k : String)
    (f : V → V) : StdMap.at (StdMap.modify m k f) k = f (StdMap.at m k) := by
  simp [StdMap.modify, StdMap.at_set_self]

theorem StdMap.at_modify_other {V : Type} [Inhabited V] (m : StdMap V) (k j : String)
    (f : V → V) (h : j ≠ k) : StdMap.at (StdMap.modify m k f) j = StdMap.at m j := by
  simp [StdMap.modify, StdMap.at_set_other m k j _ h]

theorem StdMap.find_modify_other {V : Type} [Inhabited V] (m : StdMap V) (k j : String)
    (f : V → V) (h : j ≠ k) : StdMap.find (StdMap.modify m k f) j = StdMap.find m j := by
  simp [StdMap.modify, StdMap.find_set_other m k j _ h]

theorem MaroonIRScenarios.typesOf_modifyType (out : MaroonIRScenarios) (m t : String)
    (g : MaroonIRType → MaroonIRType) :
    (out.modifyType m t g).typesOf m = StdMap.modify (out.typesOf m) t g := by
  simp [MaroonIRScenarios.modifyType, MaroonIRScenarios.modifyNamespace,
    MaroonIRScenarios.typesOf, StdMap.at_modify_self]

theorem SupportOptionalTypes_out (c : Ctx) (type : String) (line : Nat) :
    (SupportOptionalTypes c type line).1.out = c.out ∧
    (SupportOptionalTypes c type line).1.next_placeholder_idx = c.next_placeholder_idx := by
  unfold SupportOptionalTypes
  split <;> exact ⟨rfl, rfl⟩

theorem Ctx.recorded_ConsiderOptionalType (c : Ctx) (T : String) (line : Nat) :
    (c.ConsiderOptionalType T line).recorded c.current_maroon_name T := by
  refine ⟨_, _, StdMap.mem_set_self _ _ _, StdMap.mem_set_self _ _ _⟩

theorem SupportOptionalTypes_wrap (c : Ctx) (T : String) (line : Nat) :
    SupportOptionalTypes c ("OPTIONAL<" ++ T ++ ">") line =
      (c.ConsiderOptionalType T line, "OPTIONAL_" ++ T) := by
  simp [SupportOptionalTypes, isOptionalSpelling_wrap, optionalInner_wrap]

theorem SupportOptionalTypes_other (c : Ctx) (type : String) (line : Nat)
    (h : ¬ ("OPTIONAL<".toList <+: type.toList ∧ ">".toList <:+ type.toList)) :
    SupportOptionalTypes c type line = (c, type) := by
  have : ¬ isOptionalSpelling type = true := fun h1 => h ((isOptionalSpelling_iff type).mp h1)
  simp [SupportOptionalTypes, this]

/-! ## The claims on optional types -/

/-- C15: `SupportOptionalTypes` turns the type text `OPTIONAL<T>`, for every `T`, into
`OPTIONAL_T` and records `T` in the current namespace, and returns every text that does not
both start with `OPTIONAL<` and end with `>` as it is, with the context as it is; and the
type `RegisterVar` stores in the var, `RegisterField` in the field and `RegisterCase` in the
case is the text `SupportOptionalTypes` returns, the record of optional types being the one
it leaves. -/
theorem optional_spelling_is_rewritten (c : Ctx) (line : Nat) :
    (∀ T : String,
      SupportOptionalTypes c ("OPTIONAL<" ++ T ++ ">") line =
        (c.ConsiderOptionalType T line, "OPTIONAL_" ++ T) ∧
      (c.ConsiderOptionalType T line).recorded c.current_maroon_name T) ∧
    (∀ type : String, ¬ ("OPTIONAL<".toList <+: type.toList ∧ ">".toList <:+ type.toList) →
      SupportOptionalTypes c type line = (c, type)) ∧
    (∀ (name type init : String) (l : Nat) (vs : List MaroonIRVar)
        (code : List MaroonIRStmtOrBlock) (rest : List MaroonIRBlock),
      c.current_fn_blocks_stack = .mk l vs code :: rest →
      ∃ c1, RegisterVar c name type init line = .ok c1 ∧
        c1.current_fn_blocks_stack =
          .mk l (vs ++ [.MaroonIRVarRegular line name (SupportOptionalTypes c type line).2
            (storedInit init)]) code :: rest ∧
        c1.optional_types_per_maroon =
          (SupportOptionalTypes c type line).1.optional_types_per_maroon ∧
        c1.out = c.out) ∧
    (∀ (name type : String) (fields : List MaroonIRTypeDefStructField),
      c.current_type_name ≠ "" →
      (StdMap.at (c.out.typesOf c.current_maroon_name) c.current_type_name).def_ =
        .MaroonIRTypeDefStruct fields →
      ∃ c1, RegisterField c name type line = .ok c1 ∧
        (StdMap.at (c1.out.typesOf c.current_maroon_name) c.current_type_name).def_ =
          .MaroonIRTypeDefStruct
            (fields ++ [{ name := name, type := (SupportOptionalTypes c type line).2 }]) ∧
        c1.optional_types_per_maroon =
          (SupportOptionalTypes c type line).1.optional_types_per_maroon) ∧
    (∀ (key type : String) (cases : List MaroonIRTypeDefEnumCase),
      c.current_type_name ≠ "" →
      (StdMap.at (c.out.typesOf c.current_maroon_name) c.current_type_name).def_ =
        .MaroonIRTypeDefEnum cases →
      ∃ c1, RegisterCase c key type line = .ok c1 ∧
        (StdMap.at (c1.out.typesOf c.current_maroon_name) c.current_type_name).def_ =
          .MaroonIRTypeDefEnum
            (cases ++ [{ key := key, type := (SupportOptionalTypes c type line).2 }]) ∧
        c1.optional_types_per_maroon =
          (SupportOptionalTypes c type line).1.optional_types_per_maroon) := by
  refine ⟨fun T => ⟨SupportOptionalTypes_wrap c T line, c.recorded_ConsiderOptionalType T line⟩,
    fun type h => SupportOptionalTypes_other c type line h, ?_, ?_, ?_⟩
  · intro name type init l vs code rest hs
    obtain ⟨_, s0, _, _⟩ := SupportOptionalTypes_spec c type line
    obtain ⟨ho, _⟩ := SupportOptionalTypes_out c type line
    refine ⟨{ (SupportOptionalTypes c type line).1 with current_fn_blocks_stack :=
      (.mk l (vs ++ [.MaroonIRVarRegular line name (SupportOptionalTypes c type line).2
        (storedInit init)]) code :: rest) }, ?_, rfl, rfl, ho⟩
    simp [RegisterVar, c.InFunction_of_stack hs, Ctx.AddVarToBlock, s0.trans hs]
  · intro name type fields ht hd
    obtain ⟨_, _, _, f0⟩ := SupportOptionalTypes_spec c type line
    obtain ⟨ho, _⟩ := SupportOptionalTypes_out c type line
    refine ⟨{ (SupportOptionalTypes c type line).1 with
      out := (c.out.modifyType c.current_maroon_name c.current_type_name
        (fun t => { t with def_ := (.MaroonIRTypeDefStruct
          (fields ++ [{ name := name, type := (SupportOptionalTypes c type line).2 }])) })) },
      ?_, ?_, rfl⟩
    · simp only [RegisterField, ht, if_false, ho, f0.current_maroon_name, f0.current_type_name, hd]
    · simp [MaroonIRScenarios.typesOf_modifyType, StdMap.at_modify_self]
  · intro key type cases ht hd
    obtain ⟨_, _, _, f0⟩ := SupportOptionalTypes_spec c type line
    obtain ⟨ho, _⟩ := SupportOptionalTypes_out c type line
    refine ⟨{ (SupportOptionalTypes c type line).1 with
      out := (c.out.modifyType c.current_maroon_name c.current_type_name
        (fun t => { t with def_ := (.MaroonIRTypeDefEnum
          (cases ++ [{ key := key, type := (SupportOptionalTypes c type line).2 }])) })) },
      ?_, ?_, rfl⟩
    · simp only [RegisterCase, ht, if_false, ho, f0.current_maroon_name, f0.current_type_name, hd]
    · simp [MaroonIRScenarios.typesOf_modifyType, StdMap.at_modify_self]

/-- Witness of C15 in the sample function: `OPTIONAL<U64>` becomes `OPTIONAL_U64` and `U64`
is recorded for the namespace `ns`; the directly written `OPTIONAL_U64` is left as it is. -/
theorem optional_spelling_is_rewritten_witness :
    SupportOptionalTypes sampleInFn ("OPTIONAL<" ++ "U64" ++ ">") 4 =
      (sampleInFn.ConsiderOptionalType "U64" 4, "OPTIONAL_" ++ "U64") ∧
    (sampleInFn.ConsiderOptionalType "U64" 4).optional_types_per_maroon =
      [("ns", [("U64", 4)])] ∧
    SupportOptionalTypes sampleInFn "OPTIONAL_U64" 4 = (sampleInFn, "OPTIONAL_U64") :=
  ⟨((optional_spelling_is_rewritten sampleInFn 4).1 "U64").1, rfl,
    (optional_spelling_is_rewritten sampleInFn 4).2.1 "OPTIONAL_U64" (by decide)⟩

theorem optionalName_injective (a b : String) (h : "OPTIONAL_" ++ a = "OPTIONAL_" ++ b) :
    a = b := by
  have h1 := congrArg String.toList h
  rw [String.append_toList, String.append_toList] at h1
  have h2 := List.append_cancel_left h1
  exact String.ext h2

theorem Ctx.Finalize.types_spec : ∀ (per : List (String × Nat))
    (types types1 : StdMap MaroonIRType), Ctx.Finalize.types types per = .ok types1 →
    (∀ T line, (T, line) ∈ per → StdMap.find types1 ("OPTIONAL_" ++ T) =
      some { line := line, def_ := .MaroonIRTypeDefOptional T }) ∧
    (∀ name, (∀ T line, (T, line) ∈ per → name ≠ "OPTIONAL_" ++ T) →
      StdMap.find types1 name = StdMap.find types name) ∧
    (∀ T line, (T, line) ∈ per → StdMap.find types ("OPTIONAL_" ++ T) = none)
  | [], types, types1, h => by
    simp only [Ctx.Finalize.types, Except.ok.injEq] at h
    subst h
    simp
  | t :: rest, types, types1, h => by
    obtain ⟨T0, l0⟩ := t
    simp only [Ctx.Finalize.types] at h
    by_cases hc : StdMap.count types ("OPTIONAL_" ++ T0) = 0
    · simp only [hc, ne_eq, not_true_eq_false, if_false] at h
      obtain ⟨ha, hb, hcc⟩ := Ctx.Finalize.types_spec rest _ types1 h
      have hnone : StdMap.find types ("OPTIONAL_" ++ T0) = none :=
        (StdMap.count_eq_zero _ _).mp hc
      have hrest : ∀ T line, (T, line) ∈ rest → "OPTIONAL_" ++ T0 ≠ "OPTIONAL_" ++ T := by
        intro T line hm heq
        have := hcc T line hm
        rw [← heq, StdMap.find_set_self] at this
        cases this
      refine ⟨?_, ?_, ?_⟩
      · intro T line hm
        rcases List.mem_cons.mp hm with hm | hm
        · obtain ⟨rfl, rfl⟩ := Prod.mk.inj hm
          rw [hb _ hrest, StdMap.find_set_self]
        · exact ha T line hm
      · intro name hn
        rw [hb name (fun T line hm => hn T line (List.mem_cons_of_mem _ hm)),
          StdMap.find_set_other _ _ _ _ (hn T0 l0 (List.mem_cons_self _ _))]
      · intro T line hm
        rcases List.mem_cons.mp hm with hm | hm
        · obtain ⟨rfl, rfl⟩ := Prod.mk.inj hm
          exact hnone
        · have h1 := hcc T line hm
          have h2 : "OPTIONAL_" ++ T ≠ "OPTIONAL_" ++ T0 := fun heq => hrest T line hm heq.symm
          rwa [StdMap.find_set_other _ _ _ _ h2] at h1
    · simp [hc] at h

theorem MaroonIRScenarios.typesOf_modifyNamespace (out : MaroonIRScenarios) (m N : String)
    (types : StdMap MaroonIRType) :
    (out.modifyNamespace m (fun ns => { ns with types := types })).typesOf N =
      if N = m then types else out.typesOf N := by
  by_cases h : N = m
  · subst h
    simp [MaroonIRScenarios.modifyNamespace, MaroonIRScenarios.typesOf, StdMap.at_modify_self]
  · simp [MaroonIRScenarios.modifyNamespace, MaroonIRScenarios.typesOf,
      StdMap.at_modify_other _ _ _ _ h, h]

theorem MaroonIRScenarios.rest_modifyNamespace_types (out : MaroonIRScenarios) (m N : String)
    (types : StdMap MaroonIRType) :
    (out.modifyNamespace m (fun ns => { ns with types := types })).fibersOf N =
        out.fibersOf N ∧
      (StdMap.at (out.modifyNamespace m (fun ns => { ns with types := types })).maroon N).line =
        (StdMap.at out.maroon N).line := by
  by_cases h : N = m
  · subst h
    simp [MaroonIRScenarios.modifyNamespace, MaroonIRScenarios.fibersOf, StdMap.at_modify_self]
  · simp [MaroonIRScenarios.modifyNamespace, MaroonIRScenarios.fibersOf,
      StdMap.at_modify_other _ _ _ _ h]

theorem Ctx.Finalize.namespaces_spec : ∀ (nss : List (String × StdMap Nat))
    (out out1 : MaroonIRScenarios), Ctx.Finalize.namespaces out nss = .ok out1 →
    (∀ N per T line, (N, per) ∈ nss → (T, line) ∈ per →
      StdMap.find (out1.typesOf N) ("OPTIONAL_" ++ T) =
        some { line := line, def_ := .MaroonIRTypeDefOptional T }) ∧
    (∀ N name, (∀ per T line, (N, per) ∈ nss → (T, line) ∈ per → name ≠ "OPTIONAL_" ++ T) →
      StdMap.find (out1.typesOf N) name = StdMap.find (out.typesOf N) name) ∧
    (∀ N name d, StdMap.find (out.typesOf N) name = some d →
      StdMap.find (out1.typesOf N) name = some d) ∧
    (∀ N, out1.fibersOf N = out.fibersOf N ∧
      (StdMap.at out1.maroon N).line = (StdMap.at out.maroon N).line) ∧
    out1.tests = out.tests ∧ out1.src = out.src
  | [], out, out1, h => by
    simp only [Ctx.Finalize.namespaces, Except.ok.injEq] at h
    subst h
    simp
  | cit :: rest, out, out1, h => by
    obtain ⟨m, per0⟩ := cit
    simp only [Ctx.Finalize.namespaces] at h
    cases ht : Ctx.Finalize.types (out.typesOf m) per0 with
    | error e => simp [ht] at h
    | ok types =>
      simp only [ht] at h
      obtain ⟨ta, tb, tc⟩ := Ctx.Finalize.types_spec per0 _ types ht
      obtain ⟨ia, ib, id, ic, it, is⟩ := Ctx.Finalize.namespaces_spec rest _ out1 h
      have hkeep : ∀ N name d, StdMap.find (out.typesOf N) name = some d →
          StdMap.find ((out.modifyNamespace m
            (fun ns => { ns with types := types })).typesOf N) name = some d := by
        intro N name d hd
        rw [MaroonIRScenarios.typesOf_modifyNamespace]
        by_cases hN : N = m
        · subst hN
          rw [if_pos rfl, tb name, hd]
          intro T line hm heq
          rw [heq, tc T line hm] at hd
          cases hd
        · rw [if_neg hN, hd]
      refine ⟨?_, ?_, ?_, ?_, ?_, ?_⟩
      · intro N per T line hN hT
        rcases List.mem_cons.mp hN with hN | hN
        · obtain ⟨rfl, rfl⟩ := Prod.mk.inj hN
          apply id
          rw [MaroonIRScenarios.typesOf_modifyNamespace, if_pos rfl]
          exact ta T line hT
        · exact ia N per T line hN hT
      · intro N name hn
        rw [ib N name (fun per T line hN hT => hn per T line (List.mem_cons_of_mem _ hN) hT),
          MaroonIRScenarios.typesOf_modifyNamespace]
        by_cases hN : N = m
        · subst hN
          rw [if_pos rfl]
          exact tb name (fun T line hT => hn per0 T line (List.mem_cons_self _ _) hT)
        · rw [if_neg hN]
      · intro N name d hd
        exact id N name d (hkeep N name d hd)
      · intro N
        obtain ⟨h1, h2⟩ := ic N
        obtain ⟨h3, h4⟩ := MaroonIRScenarios.rest_modifyNamespace_types out m N types
        exact ⟨h1.trans h3, h2.trans h4⟩
      · exact it
      · exact is

/-- C16: after a successful `Finalize`, for every namespace `N` and every `T` recorded for
`N` (with `line`), the type table of `N` maps `OPTIONAL_T` to the declaration with that line
and the definition `Optional` of `T`; every entry a type table had before is still there
with the same declaration; a name that is not `OPTIONAL_T` for a `T` recorded for `N` is
looked up in the table of `N` as before, so nothing else was added; the fibers and the line
of every namespace, the test list and the source tag are unchanged; and the context is
marked finalized. -/
theorem finalize_synthesizes_optionals (c c1 : Ctx) (h : c.Finalize = .ok c1) :
    (∀ N T line, c.recordedAt N T line →
      StdMap.find (c1.out.typesOf N) ("OPTIONAL_" ++ T) =
        some { line := line, def_ := .MaroonIRTypeDefOptional T }) ∧
    (∀ N name d, StdMap.find (c.out.typesOf N) name = some d →
      StdMap.find (c1.out.typesOf N) name = some d) ∧
    (∀ N name, (∀ T, c.recorded N T → name ≠ "OPTIONAL_" ++ T) →
      StdMap.find (c1.out.typesOf N) name = StdMap.find (c.out.typesOf N) name) ∧
    (∀ N, c1.out.fibersOf N = c.out.fibersOf N ∧
      (StdMap.at c1.out.maroon N).line = (StdMap.at c.out.maroon N).line) ∧
    c1.out.tests = c.out.tests ∧ c1.out.src = c.out.src ∧ c1.finalized = true := by
  simp only [Ctx.Finalize] at h
  by_cases hf : c.finalized = true
  · simp [hf] at h
  · simp only [hf, Bool.false_eq_true, if_false] at h
    cases hn : Ctx.Finalize.namespaces c.out c.optional_types_per_maroon with
    | error e => simp [hn] at h
    | ok out =>
      simp only [hn, Except.ok.injEq] at h
      subst h
      obtain ⟨ia, ib, id, ic, it, is⟩ := Ctx.Finalize.namespaces_spec _ _ out hn
      refine ⟨?_, id, ?_, ic, it, is, rfl⟩
      · rintro N T line ⟨per, hN, hT⟩
        exact ia N per T line hN hT
      · intro N name hnot
        exact ib N name (fun per T line hN hT => hnot T ⟨line, per, hN, hT⟩)

/-- Witness of C16: `U64` recorded at line 4 in the namespace `ns`, which declares `Pair`. -/
theorem finalize_synthesizes_optionals_witness :
    sampleRecorded.Finalize = .ok sampleFinalized ∧
    (∀ N T line, sampleRecorded.recordedAt N T line →
      StdMap.find (sampleFinalized.out.typesOf N) ("OPTIONAL_" ++ T) =
        some { line := line, def_ := .MaroonIRTypeDefOptional T }) ∧
    (∀ N name d, StdMap.find (sampleRecorded.out.typesOf N) name = some d →
      StdMap.find (sampleFinalized.out.typesOf N) name = some d) ∧
    (∀ N name, (∀ T, sampleRecorded.recorded N T → name ≠ "OPTIONAL_" ++ T) →
      StdMap.find (sampleFinalized.out.typesOf N) name =
        StdMap.find (sampleRecorded.out.typesOf N) name) ∧
    (∀ N, sampleFinalized.out.fibersOf N = sampleRecorded.out.fibersOf N ∧
      (StdMap.at sampleFinalized.out.maroon N).line =
        (StdMap.at sampleRecorded.out.maroon N).line) ∧
    sampleFinalized.out.tests = sampleRecorded.out.tests ∧
    sampleFinalized.out.src = sampleRecorded.out.src ∧ sampleFinalized.finalized = true :=
  ⟨rfl, finalize_synthesizes_optionals sampleRecorded sampleFinalized rfl⟩

/-! ## What a build keeps -/

theorem OptGrows.same (c : Ctx) : OptGrows c c := ⟨rfl, fun _ _ h => h⟩

theorem OptGrows.chain {a b c : Ctx} (h1 : OptGrows a b) (h2 : OptGrows b c) : OptGrows a c :=
  ⟨h2.1.trans h1.1, fun N T h => h2.2 N T (h1.2 N T h)⟩

theorem OptGrows.of_eq {c c1 : Ctx} (h1 : c1.current_maroon_name = c.current_maroon_name)
    (h2 : c1.optional_types_per_maroon = c.optional_types_per_maroon) : OptGrows c c1 := by
  refine ⟨h1, fun N T h => ?_⟩
  unfold Ctx.recorded Ctx.recordedAt at *
  rw [h2]
  exact h

theorem Ctx.AddToBlock_inv {c c1 : Ctx} {item : MaroonIRStmtOrBlock} {i : Nat}
    (h : c.AddToBlock item = .ok (i, c1)) :
    c1.current_fn_blocks_stack.length = c.current_fn_blocks_stack.length ∧ OptGrows c c1 := by
  unfold Ctx.AddToBlock at h
  cases hs : c.current_fn_blocks_stack with
  | nil => simp [hs] at h
  | cons b rest =>
    cases b
    simp only [hs, Except.ok.injEq, Prod.mk.injEq] at h
    obtain ⟨_, rfl⟩ := h
    exact ⟨by simp, OptGrows.of_eq rfl rfl⟩

theorem Ctx.ExtractLastStmt_inv {c c1 : Ctx} {item : MaroonIRStmtOrBlock}
    (h : c.ExtractLastStmt = .ok (item, c1)) :
    c1.current_fn_blocks_stack.length = c.current_fn_blocks_stack.length ∧ OptGrows c c1 := by
  unfold Ctx.ExtractLastStmt at h
  cases hs : c.current_fn_blocks_stack with
  | nil => simp [hs] at h
  | cons b rest =>
    cases b with
    | mk l vs code =>
      simp only [hs] at h
      cases hl : code.getLast? with
      | none => simp [hl] at h
      | some res =>
        simp only [hl, Except.ok.injEq, Prod.mk.injEq] at h
        obtain ⟨_, rfl⟩ := h
        exact ⟨by simp, OptGrows.of_eq rfl rfl⟩

theorem Ctx.AddVarToBlock_inv {c c1 : Ctx} {var : MaroonIRVar}
    (h : c.AddVarToBlock var = .ok c1) :
    c1.current_fn_blocks_stack.length = c.current_fn_blocks_stack.length ∧ OptGrows c c1 := by
  unfold Ctx.AddVarToBlock at h
  cases hs : c.current_fn_blocks_stack with
  | nil => simp [hs] at h
  | cons b rest =>
    cases b
    simp only [hs, Except.ok.injEq] at h
    subst h
    exact ⟨by simp, OptGrows.of_eq rfl rfl⟩

theorem Ctx.EnterBlock_inv {c c1 : Ctx} {line key : Nat}
    (h : c.EnterBlock line = .ok (key, c1)) :
    c1.current_fn_blocks_stack.length = c.current_fn_blocks_stack.length + 1 ∧
      OptGrows c c1 := by
  simp only [Ctx.EnterBlock] at h
  split at h
  · cases h
  · rename_i i c0 ha
    simp only [Except.ok.injEq, Prod.mk.injEq] at h
    obtain ⟨_, rfl⟩ := h
    obtain ⟨hl, hg⟩ := Ctx.AddToBlock_inv ha
    exact ⟨by simpa using hl, ⟨hg.1, hg.2⟩⟩

theorem Ctx.MarkInnerBlockAsCompleted_inv {c c1 : Ctx} {key : Nat}
    (h : c.MarkInnerBlockAsCompleted key = .ok c1) :
    c1.current_fn_blocks_stack.length + 1 = c.current_fn_blocks_stack.length ∧
      OptGrows c c1 := by
  unfold Ctx.MarkInnerBlockAsCompleted at h
  split at h
  · cases h
  · split at h
    · cases h
    · split at h
      · cases h
      · cases h
      · rename_i hs
        split at h
        · cases h
        · split at h
          · cases h
          · split at h
            · split at h
              · cases h
              · simp only [Except.ok.injEq] at h
                subst h
                exact ⟨by simp [hs], OptGrows.of_eq rfl rfl⟩
            · cases h

theorem RegisterMatchEnumStmt.dtor_inv {c c1 : Ctx} {m : MaroonIRMatchEnumStmt}
    (h : RegisterMatchEnumStmt.dtor c m = .ok c1) :
    c1.current_fn_blocks_stack.length + 1 = c.current_fn_blocks_stack.length ∧
      OptGrows c c1 := by
  unfold RegisterMatchEnumStmt.dtor at h
  cases hs : c.current_fn_blocks_stack with
  | nil => simp [hs] at h
  | cons b rest =>
    simp only [hs] at h
    cases ha : Ctx.AddToBlock { c with current_fn_blocks_stack := rest } m.toStmtOrBlock with
    | error e => simp [ha] at h
    | ok r =>
      obtain ⟨i, c0⟩ := r
      simp only [ha, Except.ok.injEq] at h
      subst h
      obtain ⟨hl, hg⟩ := Ctx.AddToBlock_inv ha
      exact ⟨by simpa using hl, ⟨hg.1, hg.2⟩⟩

theorem Ctx.recorded_mono_ConsiderOptionalType (c : Ctx) (T : String) (line : Nat)
    (N T1 : String) (h : c.recorded N T1) : (c.ConsiderOptionalType T line).recorded N T1 := by
  obtain ⟨l, per, hN, hT⟩ := h
  by_cases hn : N = c.current_maroon_name
  · subst hn
    rcases StdMap.mem_set_same c.optional_types_per_maroon c.current_maroon_name
        (StdMap.modify (StdMap.at c.optional_types_per_maroon c.current_maroon_name) T
          (fun placeholder => if placeholder = 0 then line else placeholder)) per hN with h1 | h1
    · exact ⟨l, per, h1, hT⟩
    · have hat : StdMap.at c.optional_types_per_maroon c.current_maroon_name = per := by
        simp [StdMap.at, h1]
      by_cases ht : T1 = T
      · subst ht
        exact ⟨_, _, StdMap.mem_set_self _ _ _, StdMap.mem_set_self _ _ _⟩
      · refine ⟨l, _, StdMap.mem_set_self _ _ _, ?_⟩
        rw [hat]
        exact StdMap.mem_set_other _ _ _ _ _ ht hT
  · exact ⟨l, per, StdMap.mem_set_other _ _ _ _ _ hn hN, hT⟩

theorem SupportOptionalTypes_grows (c : Ctx) (type : String) (line : Nat) :
    OptGrows c (SupportOptionalTypes c type line).1 ∧
      ∀ T ∈ optionalUse type,
        (SupportOptionalTypes c type line).1.recorded c.current_maroon_name T := by
  by_cases h : isOptionalSpelling type = true
  · simp only [SupportOptionalTypes, optionalUse, h, if_true, List.mem_singleton]
    refine ⟨⟨rfl, c.recorded_mono_ConsiderOptionalType _ line⟩, ?_⟩
    intro T hT
    subst hT
    exact c.recorded_ConsiderOptionalType _ line
  · simp only [SupportOptionalTypes, optionalUse, h]
    exact ⟨OptGrows.same c, fun T hT => by simp at hT⟩

theorem RegisterVar_inv {c c1 : Ctx} {name type init : String} {line : Nat}
    (h : RegisterVar c name type init line = .ok c1) :
    c1.current_fn_blocks_stack.length = c.current_fn_blocks_stack.length ∧ OptGrows c c1 ∧
      ∀ T ∈ optionalUse type, c1.recorded c.current_maroon_name T := by
  unfold RegisterVar at h
  split at h
  · cases h
  · obtain ⟨hl, hg⟩ := Ctx.AddVarToBlock_inv h
    obtain ⟨_, s0, _, _⟩ := SupportOptionalTypes_spec c type line
    obtain ⟨g0, u0⟩ := SupportOptionalTypes_grows c type line
    exact ⟨hl.trans (congrArg List.length s0), g0.chain hg,
      fun T hT => hg.2 _ _ (u0 T hT)⟩

theorem RegisterArg_inv {c c1 : Ctx} {name type : String} {line : Nat}
    (h : RegisterArg c name type line = .ok c1) :
    c1.current_fn_blocks_stack.length = c.current_fn_blocks_stack.length ∧ OptGrows c c1 := by
  unfold RegisterArg at h
  split at h
  · cases h
  · obtain ⟨hl, hg⟩ := Ctx.AddVarToBlock_inv h
    exact ⟨hl, ⟨hg.1, hg.2⟩⟩

theorem RegisterStmt_inv {c c1 : Ctx} {stmt : String} {line : Nat}
    (h : RegisterStmt c line stmt = .ok c1) :
    c1.current_fn_blocks_stack.length = c.current_fn_blocks_stack.length ∧ OptGrows c c1 := by
  unfold RegisterStmt at h
  split at h
  · cases h
  · cases ha : c.AddToBlock (.MaroonIRStmt line stmt) with
    | error e => simp [ha] at h
    | ok r =>
      obtain ⟨i, c0⟩ := r
      simp only [ha, Except.ok.injEq] at h
      subst h
      exact Ctx.AddToBlock_inv ha

theorem Kept.seq {u1 u2 : List String} {a b c : Ctx} (h1 : Kept u1 a b) (h2 : Kept u2 b c) :
    Kept (u1 ++ u2) a c := by
  refine ⟨h2.depth.trans h1.depth, h1.grows.chain h2.grows, ?_⟩
  intro T hT
  rcases List.mem_append.mp hT with hT | hT
  · exact h2.grows.2 _ _ (h1.uses T hT)
  · have := h2.uses T hT
    rwa [h1.grows.1] at this

theorem Kept.then_same {u : List String} {a b c : Ctx} (h1 : Kept u a b)
    (hd : c.current_fn_blocks_stack.length = b.current_fn_blocks_stack.length)
    (hg : OptGrows b c) : Kept u a c := by
  have := Kept.seq h1 (⟨hd, hg, fun T hT => by simp at hT⟩ : Kept [] b c)
  simpa using this

theorem RegisterIf_inv {c c5 : Ctx} {cond : String} {yes no : Ctx → Except Fatal Ctx}
    {line : Nat} {uy un : List String}
    (hy : ∀ c1, yes c = .ok c1 → Kept uy c c1)
    (hn : ∀ c1 c2, yes c = .ok c1 → no c1 = .ok c2 → Kept un c1 c2)
    (h : RegisterIf c cond yes no line = .ok c5) : Kept (uy ++ un) c c5 := by
  unfold RegisterIf at h
  split at h
  · cases h
  · cases h1 : yes c with
    | error e => simp [h1] at h
    | ok c1 =>
      simp only [h1] at h
      cases h2 : no c1 with
      | error e => simp [h2] at h
      | ok c2 =>
        simp only [h2] at h
        cases h3 : c2.ExtractLastStmt with
        | error e => simp [h3] at h
        | ok r3 =>
          obtain ⟨cond_no, c3⟩ := r3
          simp only [h3] at h
          cases h4 : c3.ExtractLastStmt with
          | error e => simp [h4] at h
          | ok r4 =>
            obtain ⟨cond_yes, c4⟩ := r4
            simp only [h4] at h
            cases h5 : c4.AddToBlock (.MaroonIRIf line cond cond_yes cond_no) with
            | error e => simp [h5] at h
            | ok r5 =>
              obtain ⟨i, c5a⟩ := r5
              simp only [h5, Except.ok.injEq] at h
              subst h
              obtain ⟨l3, g3⟩ := Ctx.ExtractLastStmt_inv h3
              obtain ⟨l4, g4⟩ := Ctx.ExtractLastStmt_inv h4
              obtain ⟨l5, g5⟩ := Ctx.AddToBlock_inv h5
              exact (Kept.seq (hy c1 h1) (hn c1 c2 h1 h2)).then_same
                ((l5.trans l4).trans l3) ((g3.chain g4).chain g5)

theorem RegisterBlock_inv {c c3 : Ctx} {f : Ctx → Except Fatal Ctx} {line : Nat}
    {u : List String}
    (hf : ∀ key c1 c2, c.EnterBlock line = .ok (key, c1) → f c1 = .ok c2 → Kept u c1 c2)
    (h : RegisterBlock c line f = .ok c3) : Kept u c c3 := by
  unfold RegisterBlock at h
  split at h
  · cases h
  · cases h1 : c.EnterBlock line with
    | error e => simp [h1] at h
    | ok r1 =>
      obtain ⟨key, c1⟩ := r1
      simp only [h1] at h
      cases h2 : f c1 with
      | error e => simp [h2] at h
      | ok c2 =>
        simp only [h2] at h
        split at h
        · cases h
        · obtain ⟨l1, g1⟩ := Ctx.EnterBlock_inv h1
          obtain ⟨l3, g3⟩ := Ctx.MarkInnerBlockAsCompleted_inv h
          have k := hf key c1 c2 h1 h2
          refine ⟨?_, (g1.chain k.grows).chain g3, ?_⟩
          · have := k.depth
            omega
          · intro T hT
            have := g3.2 _ _ (k.uses T hT)
            rwa [g1.1] at this

theorem MATCH_ENUM_STMT_inv {c c3 : Ctx} {enum_var : String} {line : Nat}
    {arms : Ctx → Except Fatal (List MaroonIRMatchEnumStmtArm × Ctx)} {u : List String}
    (hf : ∀ as c2, arms (RegisterMatchEnumStmt.ctor c enum_var line).2 = .ok (as, c2) →
      Kept u (RegisterMatchEnumStmt.ctor c enum_var line).2 c2)
    (h : MATCH_ENUM_STMT c enum_var line arms = .ok c3) : Kept u c c3 := by
  unfold MATCH_ENUM_STMT at h
  simp only at h
  cases h1 : arms (RegisterMatchEnumStmt.ctor c enum_var line).2 with
  | error e => simp [h1] at h
  | ok r1 =>
    obtain ⟨as, c2⟩ := r1
    simp only [h1] at h
    cases h2 : RegisterMatchEnumStmt.AddArms (RegisterMatchEnumStmt.ctor c enum_var line).1 as with
    | error e => simp [h2] at h
    | ok m =>
      simp only [h2] at h
      obtain ⟨l3, g3⟩ := RegisterMatchEnumStmt.dtor_inv h
      have k := hf as c2 h1
      have g1 : OptGrows c (RegisterMatchEnumStmt.ctor c enum_var line).2 :=
        OptGrows.of_eq rfl rfl
      have l1 : (RegisterMatchEnumStmt.ctor c enum_var line).2.current_fn_blocks_stack.length =
          c.current_fn_blocks_stack.length + 1 := by
        simp [RegisterMatchEnumStmt.ctor]
      refine ⟨?_, (g1.chain k.grows).chain g3, ?_⟩
      · have := k.depth
        omega
      · intro T hT
        have := g3.2 _ _ (k.uses T hT)
        rwa [g1.1] at this

theorem RegisterEnumArm_inv {c c2 : Ctx} {key capture : String} {line : Nat}
    {code : Ctx → Except Fatal Ctx} {arm : MaroonIRMatchEnumStmtArm} {u : List String}
    (hf : ∀ c1, code c = .ok c1 → Kept u c c1)
    (h : RegisterEnumArm c key capture line code = .ok (arm, c2)) : Kept u c c2 := by
  unfold RegisterEnumArm at h
  cases h1 : code c with
  | error e => simp [h1] at h
  | ok c1 =>
    simp only [h1] at h
    cases h3 : c1.ExtractLastStmt with
    | error e => simp [h3] at h
    | ok r3 =>
      obtain ⟨item, c3⟩ := r3
      simp only [h3, Except.ok.injEq, Prod.mk.injEq] at h
      obtain ⟨_, rfl⟩ := h
      obtain ⟨l3, g3⟩ := Ctx.ExtractLastStmt_inv h3
      exact (hf c1 h1).then_same l3 g3

theorem RegisterEnumDefaultArm_inv {c c2 : Ctx} {line : Nat}
    {code : Ctx → Except Fatal Ctx} {arm : MaroonIRMatchEnumStmtArm} {u : List String}
    (hf : ∀ c1, code c = .ok c1 → Kept u c c1)
    (h : RegisterEnumDefaultArm c line code = .ok (arm, c2)) : Kept u c c2 := by
  unfold RegisterEnumDefaultArm at h
  cases h1 : code c with
  | error e => simp [h1] at h
  | ok c1 =>
    simp only [h1] at h
    cases h3 : c1.ExtractLastStmt with
    | error e => simp [h3] at h
    | ok r3 =>
      obtain ⟨item, c3⟩ := r3
      simp only [h3, Except.ok.injEq, Prod.mk.injEq] at h
      obtain ⟨_, rfl⟩ := h
      obtain ⟨l3, g3⟩ := Ctx.ExtractLastStmt_inv h3
      exact (hf c1 h1).then_same l3 g3

mutual
theorem DslStmt.run_kept : ∀ (s : DslStmt) (c c1 : Ctx), s.run c = .ok c1 →
    Kept s.optionalUses c c1
  | .STMT stmt line, c, c1, h => by
    simp only [DslStmt.run] at h
    obtain ⟨hl, hg⟩ := RegisterStmt_inv h
    exact ⟨hl, hg, fun T hT => by simp [DslStmt.optionalUses] at hT⟩
  | .VAR name type init line, c, c1, h => by
    simp only [DslStmt.run] at h
    obtain ⟨hl, hg, hu⟩ := RegisterVar_inv h
    exact ⟨hl, hg, hu⟩
  | .ARG name type line, c, c1, h => by
    simp only [DslStmt.run] at h
    obtain ⟨hl, hg⟩ := RegisterArg_inv h
    exact ⟨hl, hg, fun T hT => by simp [DslStmt.optionalUses] at hT⟩
  | .IF cond yes no line, c, c1, h => by
    simp only [DslStmt.run] at h
    exact RegisterIf_inv (fun c1 h1 => runStmts_kept yes c c1 h1)
      (fun c1 c2 _ h2 => runStmts_kept no c1 c2 h2) h
  | .BLOCK body line, c, c1, h => by
    simp only [DslStmt.run] at h
    exact RegisterBlock_inv (fun _ c1 c2 _ h2 => runStmts_kept body c1 c2 h2) h
  | .MATCH_ENUM_STMT enum_var arms line, c, c1, h => by
    simp only [DslStmt.run] at h
    exact MATCH_ENUM_STMT_inv (fun as c2 h2 => runArms_kept arms _ as c2 h2) h
theorem runStmts_kept : ∀ (ss : List DslStmt) (c c1 : Ctx), runStmts ss c = .ok c1 →
    Kept (optionalUsesOfStmts ss) c c1
  | [], c, c1, h => by
    simp only [runStmts, Except.ok.injEq] at h
    subst h
    exact ⟨rfl, OptGrows.same _, fun T hT => by simp [optionalUsesOfStmts] at hT⟩
  | s :: ss, c, c2, h => by
    simp only [runStmts] at h
    cases h1 : s.run c with
    | error e => simp [h1] at h
    | ok c1 =>
      simp only [h1] at h
      exact Kept.seq (DslStmt.run_kept s c c1 h1) (runStmts_kept ss c1 c2 h)
theorem DslArm.run_arm_kept : ∀ (a : DslArm) (c : Ctx) (arm : MaroonIRMatchEnumStmtArm)
    (c1 : Ctx), a.run c = .ok (arm, c1) → Kept a.optionalUses c c1
  | .ENUM_ARM key capture stmt line, c, arm, c1, h => by
    simp only [DslArm.run] at h
    exact RegisterEnumArm_inv (fun c1 h1 => runStmts_kept stmt c c1 h1) h
  | .ENUM_DEFAULT stmt line, c, arm, c1, h => by
    simp only [DslArm.run] at h
    exact RegisterEnumDefaultArm_inv (fun c1 h1 => runStmts_kept stmt c c1 h1) h
theorem runArms_kept : ∀ (as : List DslArm) (c : Ctx) (arms : List MaroonIRMatchEnumStmtArm)
    (c1 : Ctx), runArms as c = .ok (arms, c1) → Kept (optionalUsesOfArms as) c c1
  | [], c, arms, c1, h => by
    simp only [runArms, Except.ok.injEq, Prod.mk.injEq] at h
    obtain ⟨_, rfl⟩ := h
    exact ⟨rfl, OptGrows.same _, fun T hT => by simp [optionalUsesOfArms] at hT⟩
  | a :: as, c, arms, c2, h => by
    simp only [runArms] at h
    cases h1 : a.run c with
    | error e => simp [h1] at h
    | ok r1 =>
      obtain ⟨arm, c1⟩ := r1
      simp only [h1] at h
      cases h2 : runArms as c1 with
      | error e => simp [h2] at h
      | ok r2 =>
        obtain ⟨arms2, c2a⟩ := r2
        simp only [h2, Except.ok.injEq, Prod.mk.injEq] at h
        obtain ⟨_, rfl⟩ := h
        exact Kept.seq (DslArm.run_arm_kept a c arm c1 h1) (runArms_kept as c1 arms2 c2a h2)
end

theorem RegisterField_inv {c c1 : Ctx} {name type : String} {line : Nat}
    (h : RegisterField c name type line = .ok c1) : Kept (optionalUse type) c c1 := by
  unfold RegisterField at h
  split at h
  · cases h
  · simp only at h
    obtain ⟨_, s0, _, _⟩ := SupportOptionalTypes_spec c type line
    obtain ⟨g0, u0⟩ := SupportOptionalTypes_grows c type line
    split at h
    · simp only [Except.ok.injEq] at h
      subst h
      exact ⟨congrArg List.length s0, ⟨g0.1, g0.2⟩, u0⟩
    · cases h

theorem RegisterCase_inv {c c1 : Ctx} {key type : String} {line : Nat}
    (h : RegisterCase c key type line = .ok c1) : Kept (optionalUse type) c c1 := by
  unfold RegisterCase at h
  split at h
  · cases h
  · simp only at h
    obtain ⟨_, s0, _, _⟩ := SupportOptionalTypes_spec c type line
    obtain ⟨g0, u0⟩ := SupportOptionalTypes_grows c type line
    split at h
    · simp only [Except.ok.injEq] at h
      subst h
      exact ⟨congrArg List.length s0, ⟨g0.1, g0.2⟩, u0⟩
    · cases h

theorem DslMember.run_member_kept (m : DslMember) (c c1 : Ctx) (h : m.run c = .ok c1) :
    Kept m.optionalUses c c1 := by
  cases m with
  | FIELD name type line => exact RegisterField_inv h
  | CASE key type line => exact RegisterCase_inv h

theorem runMembers_kept : ∀ (ms : List DslMember) (c c1 : Ctx), runMembers ms c = .ok c1 →
    Kept (optionalUsesOfMembers ms) c c1
  | [], c, c1, h => by
    simp only [runMembers, Except.ok.injEq] at h
    subst h
    exact ⟨rfl, OptGrows.same _, fun T hT => by simp [optionalUsesOfMembers] at hT⟩
  | m :: ms, c, c2, h => by
    simp only [runMembers] at h
    cases h1 : m.run c with
    | error e => simp [h1] at h
    | ok c1 =>
      simp only [h1] at h
      exact Kept.seq (m.run_member_kept c c1 h1) (runMembers_kept ms c1 c2 h)

theorem Ctx.EnterFunction_inv {c c1 : Ctx} {line : Nat} (h : c.EnterFunction line = .ok c1) :
    c.current_fn_blocks_stack = [] ∧ c1.current_fn_blocks_stack.length = 1 ∧
      OptGrows c c1 := by
  unfold Ctx.EnterFunction at h
  split at h
  · cases h
  · rename_i hs
    simp only [Except.ok.injEq] at h
    subst h
    refine ⟨?_, rfl, OptGrows.of_eq rfl rfl⟩
    simpa using hs

theorem Ctx.LeaveFunction_inv {c c1 : Ctx} (h : c.LeaveFunction = .ok c1) :
    c1.current_fn_blocks_stack = [] ∧ OptGrows c c1 := by
  unfold Ctx.LeaveFunction at h
  split at h
  · cases h
  · simp only [Except.ok.injEq] at h
    subst h
    exact ⟨rfl, OptGrows.of_eq rfl rfl⟩

theorem RegisterFn_inv {c c4 : Ctx} {name : String} {ret : Option String} {line : Nat}
    {f : Ctx → Except Fatal Ctx} {u : List String}
    (hf : ∀ c2 c3, f c2 = .ok c3 → Kept u c2 c3)
    (h : RegisterFn c name ret line f = .ok c4) : Kept u c c4 := by
  unfold RegisterFn at h
  split at h
  · cases h
  · split at h
    · cases h
    · simp only at h
      split at h
      · cases h
      · rename_i c2 h2
        split at h
        · cases h
        · rename_i c3 h3
          obtain ⟨e2, _, g2⟩ := Ctx.EnterFunction_inv h2
          obtain ⟨e4, g4⟩ := Ctx.LeaveFunction_inv h
          have k := hf c2 c3 h3
          have g2a : OptGrows c c2 := ⟨g2.1, g2.2⟩
          refine ⟨?_, (g2a.chain k.grows).chain g4, ?_⟩
          · rw [e4]
            have : c.current_fn_blocks_stack = [] := e2
            rw [this]
          · intro T hT
            have := g4.2 _ _ (k.uses T hT)
            rwa [g2a.1] at this

theorem runFns_kept : ∀ (fns : List DslFn) (c c1 : Ctx), runFns fns c = .ok c1 →
    Kept (optionalUsesOfFns fns) c c1
  | [], c, c1, h => by
    simp only [runFns, Except.ok.injEq] at h
    subst h
    exact ⟨rfl, OptGrows.same _, fun T hT => by simp [optionalUsesOfFns] at hT⟩
  | fn :: fns, c, c2, h => by
    simp only [runFns] at h
    cases h1 : FN c fn.name fn.ret fn.line fn.body with
    | error e => simp [h1] at h
    | ok c1 =>
      simp only [h1] at h
      exact Kept.seq (RegisterFn_inv (fun c2 c3 h3 => runStmts_kept fn.body c2 c3 h3) h1)
        (runFns_kept fns c1 c2 h)

theorem RegisterFiber_inv {c c3 : Ctx} {name : String} {line : Nat}
    {f : Ctx → Except Fatal Ctx} {u : List String}
    (hf : ∀ c1 c2, f c1 = .ok c2 → Kept u c1 c2)
    (h : RegisterFiber c name line f = .ok c3) : Kept u c c3 := by
  unfold RegisterFiber at h
  split at h
  · cases h
  · split at h
    · cases h
    · simp only at h
      split at h
      · cases h
      · split at h
        · cases h
        · rename_i c2 h2
          simp only [Except.ok.injEq] at h
          subst h
          have k := hf _ c2 h2
          exact ⟨k.depth, ⟨k.grows.1, k.grows.2⟩, k.uses⟩

theorem RegisterType_inv {c c3 : Ctx} {name : String} {line : Nat}
    {f : Ctx → Except Fatal Ctx} {u : List String}
    (hf : ∀ c1 c2, f c1 = .ok c2 → Kept u c1 c2)
    (h : RegisterType c name line f = .ok c3) : Kept u c c3 := by
  unfold RegisterType at h
  split at h
  · cases h
  · split at h
    · cases h
    · simp only at h
      split at h
      · cases h
      · split at h
        · cases h
        · rename_i c2 h2
          simp only [Except.ok.injEq] at h
          subst h
          have k := hf _ c2 h2
          exact ⟨k.depth, ⟨k.grows.1, k.grows.2⟩, k.uses⟩

theorem RegisterEnum_inv {c c3 : Ctx} {name : String} {line : Nat}
    {f : Ctx → Except Fatal Ctx} {u : List String}
    (hf : ∀ c1 c2, f c1 = .ok c2 → Kept u c1 c2)
    (h : RegisterEnum c name line f = .ok c3) : Kept u c c3 := by
  unfold RegisterEnum at h
  split at h
  · cases h
  · split at h
    · cases h
    · simp only at h
      split at h
      · cases h
      · split at h
        · cases h
        · rename_i c2 h2
          simp only [Except.ok.injEq] at h
          subst h
          have k := hf _ c2 h2
          exact ⟨k.depth, ⟨k.grows.1, k.grows.2⟩, k.uses⟩

theorem DslDecl.run_decl_kept (d : DslDecl) (c c1 : Ctx) (h : d.run c = .ok c1) :
    Kept d.optionalUses c c1 := by
  cases d with
  | FIBER name fns line => exact RegisterFiber_inv (fun c1 c2 h2 => runFns_kept fns c1 c2 h2) h
  | TYPE name members line =>
    exact RegisterType_inv (fun c1 c2 h2 => runMembers_kept members c1 c2 h2) h
  | ENUM name members line =>
    exact RegisterEnum_inv (fun c1 c2 h2 => runMembers_kept members c1 c2 h2) h

theorem runDecls_kept : ∀ (ds : List DslDecl) (c c1 : Ctx), runDecls ds c = .ok c1 →
    Kept (optionalUsesOfDecls ds) c c1
  | [], c, c1, h => by
    simp only [runDecls, Except.ok.injEq] at h
    subst h
    exact ⟨rfl, OptGrows.same _, fun T hT => by simp [optionalUsesOfDecls] at hT⟩
  | d :: ds, c, c2, h => by
    simp only [runDecls] at h
    cases h1 : d.run c with
    | error e => simp [h1] at h
    | ok c1 =>
      simp only [h1] at h
      exact Kept.seq (d.run_decl_kept c c1 h1) (runDecls_kept ds c1 c2 h)

theorem RegisterMaroon_recorded {c c3 : Ctx} {name : String} {line : Nat}
    {f : Ctx → Except Fatal Ctx} {u : List String}
    (hf : ∀ c1 c2, f c1 = .ok c2 → Kept u c1 c2)
    (h : RegisterMaroon c name line f = .ok c3) :
    (∀ N T, c.recorded N T → c3.recorded N T) ∧ ∀ T ∈ u, c3.recorded name T := by
  unfold RegisterMaroon at h
  split at h
  · cases h
  · simp only at h
    split at h
    · cases h
    · split at h
      · cases h
      · rename_i c2 h2
        simp only [Except.ok.injEq] at h
        subst h
        have k := hf _ c2 h2
        exact ⟨fun N T hr => k.grows.2 N T hr, fun T hT => k.uses T hT⟩

theorem runMaroons_recorded : ∀ (P : List DslMaroon) (c c1 : Ctx), runMaroons P c = .ok c1 →
    (∀ N T, c.recorded N T → c1.recorded N T) ∧
      ∀ N T, (N, T) ∈ optionalUsesOfProgram P → c1.recorded N T
  | [], c, c1, h => by
    simp only [runMaroons, Except.ok.injEq] at h
    subst h
    exact ⟨fun _ _ hr => hr, fun N T hT => by simp [optionalUsesOfProgram] at hT⟩
  | m :: ms, c, c2, h => by
    simp only [runMaroons] at h
    cases h1 : RegisterMaroon c m.name m.line (runDecls m.decls) with
    | error e => simp [h1] at h
    | ok c1 =>
      simp only [h1] at h
      obtain ⟨g1, u1⟩ := RegisterMaroon_recorded (fun a b hab => runDecls_kept m.decls a b hab) h1
      obtain ⟨g2, u2⟩ := runMaroons_recorded ms c1 c2 h
      refine ⟨fun N T hr => g2 N T (g1 N T hr), ?_⟩
      intro N T hT
      simp only [optionalUsesOfProgram, List.mem_append, List.mem_map, Prod.mk.injEq] at hT
      rcases hT with ⟨T1, hT1, rfl, rfl⟩ | hT
      · exact g2 _ _ (u1 _ hT1)
      · exact u2 N T hT

theorem Ctx.Finalize_recorded {c c1 : Ctx} (h : c.Finalize = .ok c1) (N T : String)
    (line : Nat) (hr : c.recordedAt N T line) :
    StdMap.find (c1.out.typesOf N) ("OPTIONAL_" ++ T) =
      some { line := line, def_ := .MaroonIRTypeDefOptional T } := by
  simp only [Ctx.Finalize] at h
  by_cases hf : c.finalized = true
  · simp [hf] at h
  · simp only [hf, Bool.false_eq_true, if_false] at h
    cases hn : Ctx.Finalize.namespaces c.out c.optional_types_per_maroon with
    | error e => simp [hn] at h
    | ok out =>
      simp only [hn, Except.ok.injEq] at h
      subst h
      obtain ⟨ia, _⟩ := Ctx.Finalize.namespaces_spec _ _ out hn
      obtain ⟨per, hN, hT⟩ := hr
      exact ia N per T line hN hT

/-- `RegisterArg` stores the type text of an argument as it is written, also when it is
spelled `OPTIONAL<T>`, and leaves the record of optional types as it is. -/
theorem RegisterArg_keeps_type_text (c : Ctx) (name type : String) (line l : Nat)
    (vs : List MaroonIRVar) (code : List MaroonIRStmtOrBlock) (rest : List MaroonIRBlock)
    (hs : c.current_fn_blocks_stack = .mk l vs code :: rest) :
    ∃ c1, RegisterArg c name type line = .ok c1 ∧
      c1.current_fn_blocks_stack =
        .mk l (vs ++ [.MaroonIRVarFunctionArg line name type]) code :: rest ∧
      c1.optional_types_per_maroon = c.optional_types_per_maroon := by
  refine ⟨{ c.AddArgToFunction type with current_fn_blocks_stack :=
    (.mk l (vs ++ [.MaroonIRVarFunctionArg line name type]) code :: rest) }, ?_, rfl, rfl⟩
  have hs1 : (c.AddArgToFunction type).current_fn_blocks_stack = .mk l vs code :: rest := hs
  simp [RegisterArg, c.InFunction_of_stack hs, Ctx.AddVarToBlock, hs1]

/-! ## The claim on optional types across a program -/

/-- C17 (amended): in every program that builds, for every namespace `N` and every `T` that
a `FIELD`, a `CASE` or a `VAR` of `N` spells as `OPTIONAL<T>` (which is what makes the
builder store the type name `OPTIONAL_T`), the type table of `N` in the built program maps
`OPTIONAL_T` to a declaration whose definition is `Optional` of `T`. -/
theorem spelled_optionals_are_declared (P : List DslMaroon) (c : Ctx)
    (h : buildProgram P = .ok c) :
    ∀ N T, (N, T) ∈ optionalUsesOfProgram P →
      ∃ line, StdMap.find (c.out.typesOf N) ("OPTIONAL_" ++ T) =
        some { line := line, def_ := .MaroonIRTypeDefOptional T } := by
  intro N T hT
  unfold buildProgram at h
  cases h1 : runMaroons P {} with
  | error e => simp [h1] at h
  | ok c0 =>
    simp only [h1] at h
    obtain ⟨_, u⟩ := runMaroons_recorded P {} c0 h1
    obtain ⟨line, hr⟩ := u N T hT
    exact ⟨line, Ctx.Finalize_recorded h N T line hr⟩

/-- Witness of C17 (amended): `optionalProgram` builds, and its three spellings
`OPTIONAL<U64>`, `OPTIONAL<BOOL>` and `OPTIONAL<Pair>` are declared in `ns`. -/
theorem spelled_optionals_are_declared_witness :
    buildProgram optionalProgram = .ok optionalProgramBuilt ∧
    optionalUsesOfProgram optionalProgram = [("ns", "U64"), ("ns", "BOOL"), ("ns", "Pair")] ∧
    ∀ N T, (N, T) ∈ optionalUsesOfProgram optionalProgram →
      ∃ line, StdMap.find (optionalProgramBuilt.out.typesOf N) ("OPTIONAL_" ++ T) =
        some { line := line, def_ := .MaroonIRTypeDefOptional T } :=
  ⟨rfl, rfl, spelled_optionals_are_declared optionalProgram optionalProgramBuilt rfl⟩

/-- C17 (counterexample): `directOptionalProgram` builds; its function `main` in the
namespace `ns` has the variable `x` of the type `OPTIONAL_U64`; and the type table of `ns`
in the built program has no entry `OPTIONAL_U64`. -/
theorem direct_optional_name_is_not_declared :
    buildProgram directOptionalProgram = .ok directOptionalBuilt ∧
    directOptionalBuilt.out.function "ns" "global" "main" =
      some { line := 3, body := (.mk 3
        [.MaroonIRVarRegular 4 "x" ("OPTIONAL_" ++ "U64") "NONE"] [.MaroonIRStmt 5 "RETURN()"]) } ∧
    StdMap.find (directOptionalBuilt.out.typesOf "ns") ("OPTIONAL_" ++ "U64") = none :=
  ⟨rfl, rfl, rfl⟩

/-! ## Lemmas on scope errors -/

theorem String.ne_of_take (n : Nat) {a b : String}
    (h : a.toList.take n ≠ b.toList.take n) : a ≠ b :=
  fun hab => h (by rw [hab])

theorem fiber_messages_differ (name cm : String) :
    "`FIBER(" ++ name ++ ")` is defined more than once in `MAROON(" ++ cm ++ ")`." ≠
      "`FIBER(" ++ name ++ ")` should be defined within some `MAROON()`." := by
  intro h
  have h1 := congrArg String.toList h
  simp only [String.append_toList, List.append_assoc] at h1
  have h2 := List.append_cancel_left (List.append_cancel_left h1)
  have h3 := congrArg (List.take 4) h2
  rw [List.take_append_of_le_length (by decide)] at h3
  revert h3
  decide

theorem fn_messages_differ (name cf cm : String) :
    "`FN(" ++ name ++ ")` is defined more than once in `FIBER(" ++ cf ++ ")` of `MAROON(" ++
        cm ++ ")`." ≠
      "`FN(" ++ name ++ ")` should be defined within some `FIBER()`." := by
  intro h
  have h1 := congrArg String.toList h
  simp only [String.append_toList, List.append_assoc] at h1
  have h2 := List.append_cancel_left (List.append_cancel_left h1)
  have h3 := congrArg (List.take 4) h2
  rw [List.take_append_of_le_length (by decide)] at h3
  revert h3
  decide

theorem fiber_scope_head (name : String) :
    ("`FIBER(" ++ name ++ ")` should be defined within some `MAROON()`.").toList.take 1 =
      ['`'] := by
  simp only [String.append_toList, List.append_assoc]
  rw [List.take_append_of_le_length (by decide)]
  rfl

theorem type_scope_head (name : String) :
    ("`TYPE(" ++ name ++ ")` should be defined within some `MAROON()`.").toList.take 1 =
      ['`'] := by
  simp only [String.append_toList, List.append_assoc]
  rw [List.take_append_of_le_length (by decide)]
  rfl

theorem enum_scope_head (name : String) :
    ("`ENUM(" ++ name ++ ")` should be defined within some `MAROON()`.").toList.take 1 =
      ['`'] := by
  simp only [String.append_toList, List.append_assoc]
  rw [List.take_append_of_le_length (by decide)]
  rfl

theorem fn_scope_head (name : String) :
    ("`FN(" ++ name ++ ")` should be defined within some `FIBER()`.").toList.take 1 =
      ['`'] := by
  simp only [String.append_toList, List.append_assoc]
  rw [List.take_append_of_le_length (by decide)]
  rfl

theorem type_dup_head (name cm : String) :
    ("Type `" ++ name ++ "` is defined more than once in `MAROON(" ++ cm ++
      ")`.").toList.take 1 = ['T'] := by
  simp only [String.append_toList, List.append_assoc]
  rw [List.take_append_of_le_length (by decide)]
  rfl

theorem Ctx.InFunction_iff (c : Ctx) : c.InFunction = true ↔ c.current_fn_blocks_stack ≠ [] := by
  cases h : c.current_fn_blocks_stack <;> simp [Ctx.InFunction, h]

theorem Ctx.AddToBlock_err {c : Ctx} {item : MaroonIRStmtOrBlock} {e : Fatal}
    (h : c.AddToBlock item = .error e) : e.isFunctionScope = false := by
  unfold Ctx.AddToBlock at h
  split at h
  · simp only [Except.error.injEq] at h
    subst h
    rfl
  · cases h

theorem Ctx.ExtractLastStmt_err {c : Ctx} {e : Fatal}
    (h : c.ExtractLastStmt = .error e) : e.isFunctionScope = false := by
  unfold Ctx.ExtractLastStmt at h
  split at h
  · simp only [Except.error.injEq] at h
    subst h
    rfl
  · split at h
    · simp only [Except.error.injEq] at h
      subst h
      rfl
    · cases h

theorem Ctx.AddVarToBlock_ok (c : Ctx) (var : MaroonIRVar)
    (h : c.current_fn_blocks_stack ≠ []) : ∃ c1, c.AddVarToBlock var = .ok c1 := by
  unfold Ctx.AddVarToBlock
  cases hs : c.current_fn_blocks_stack with
  | nil => exact absurd hs h
  | cons b rest =>
    cases b
    exact ⟨_, rfl⟩

theorem Ctx.AddToBlock_ok (c : Ctx) (item : MaroonIRStmtOrBlock)
    (h : c.current_fn_blocks_stack ≠ []) : ∃ r, c.AddToBlock item = .ok r := by
  unfold Ctx.AddToBlock
  cases hs : c.current_fn_blocks_stack with
  | nil => exact absurd hs h
  | cons b rest =>
    cases b
    exact ⟨_, rfl⟩

theorem Ctx.EnterBlock_err {c : Ctx} {line : Nat} {e : Fatal}
    (h : c.EnterBlock line = .error e) : e.isFunctionScope = false := by
  simp only [Ctx.EnterBlock] at h
  split at h
  · rename_i e1 ha
    simp only [Except.error.injEq] at h
    subst h
    exact Ctx.AddToBlock_err ha
  · cases h

theorem Ctx.MarkInnerBlockAsCompleted_err {c : Ctx} {key : Nat} {e : Fatal}
    (h : c.MarkInnerBlockAsCompleted key = .error e) : e.isFunctionScope = false := by
  unfold Ctx.MarkInnerBlockAsCompleted at h
  repeat' split at h
  all_goals cases h
  all_goals rfl

theorem RegisterMatchEnumStmt.AddArm_err {var : String} {in_ : MaroonIRMatchEnumStmtArm}
    {e : Fatal} (h : RegisterMatchEnumStmt.AddArm var in_ = .error e) :
    e.isFunctionScope = false := by
  unfold RegisterMatchEnumStmt.AddArm at h
  repeat' split at h
  all_goals cases h
  all_goals rfl

theorem RegisterMatchEnumStmt.AddArms_err : ∀ (as : List MaroonIRMatchEnumStmtArm)
    (m : MaroonIRMatchEnumStmt) (e : Fatal), RegisterMatchEnumStmt.AddArms m as = .error e →
    e.isFunctionScope = false
  | [], m, e, h => by simp [RegisterMatchEnumStmt.AddArms] at h
  | arm :: arms, m, e, h => by
    simp only [RegisterMatchEnumStmt.AddArms] at h
    split at h
    · rename_i e1 ha
      simp only [Except.error.injEq] at h
      subst h
      exact RegisterMatchEnumStmt.AddArm_err ha
    · exact RegisterMatchEnumStmt.AddArms_err arms _ e h

theorem RegisterMatchEnumStmt.dtor_err {c : Ctx} {m : MaroonIRMatchEnumStmt} {e : Fatal}
    (h : RegisterMatchEnumStmt.dtor c m = .error e) : e.isFunctionScope = false := by
  unfold RegisterMatchEnumStmt.dtor at h
  split at h
  · simp only [Except.error.injEq] at h
    subst h
    rfl
  · simp only at h
    split at h
    · rename_i e1 ha
      simp only [Except.error.injEq] at h
      subst h
      exact Ctx.AddToBlock_err ha
    · cases h

theorem RegisterStmt_err {c : Ctx} {stmt : String} {line : Nat} {e : Fatal}
    (hin : c.current_fn_blocks_stack ≠ []) (h : RegisterStmt c line stmt = .error e) :
    e.isFunctionScope = false := by
  unfold RegisterStmt at h
  simp only [(Ctx.InFunction_iff c).mpr hin, Bool.not_true, Bool.false_eq_true, if_false] at h
  split at h
  · rename_i e1 ha
    simp only [Except.error.injEq] at h
    subst h
    exact Ctx.AddToBlock_err ha
  · cases h

theorem RegisterVar_ok (c : Ctx) (name type init : String) (line : Nat)
    (hin : c.current_fn_blocks_stack ≠ []) : ∃ c1, RegisterVar c name type init line = .ok c1 := by
  unfold RegisterVar
  simp only [(Ctx.InFunction_iff c).mpr hin, Bool.not_true, Bool.false_eq_true, if_false]
  obtain ⟨_, s0, _, _⟩ := SupportOptionalTypes_spec c type line
  exact Ctx.AddVarToBlock_ok _ _ (by rw [s0]; exact hin)

theorem RegisterArg_ok (c : Ctx) (name type : String) (line : Nat)
    (hin : c.current_fn_blocks_stack ≠ []) : ∃ c1, RegisterArg c name type line = .ok c1 := by
  unfold RegisterArg
  simp only [(Ctx.InFunction_iff c).mpr hin, Bool.not_true, Bool.false_eq_true, if_false]
  exact Ctx.AddVarToBlock_ok _ _ hin

theorem RegisterStmt_ok (c : Ctx) (stmt : String) (line : Nat)
    (hin : c.current_fn_blocks_stack ≠ []) : ∃ c1, RegisterStmt c line stmt = .ok c1 := by
  unfold RegisterStmt
  simp only [(Ctx.InFunction_iff c).mpr hin, Bool.not_true, Bool.false_eq_true, if_false]
  obtain ⟨r, hr⟩ := Ctx.AddToBlock_ok c (.MaroonIRStmt line stmt) hin
  exact ⟨r.2, by rw [hr]⟩

theorem RegisterIf_err {c : Ctx} {cond : String} {yes no : Ctx → Except Fatal Ctx}
    {line : Nat} {e : Fatal} (hin : c.current_fn_blocks_stack ≠ [])
    (hy : ∀ e, yes c = .error e → e.isFunctionScope = false)
    (hn : ∀ c1 e, yes c = .ok c1 → no c1 = .error e → e.isFunctionScope = false)
    (h : RegisterIf c cond yes no line = .error e) : e.isFunctionScope = false := by
  unfold RegisterIf at h
  simp only [(Ctx.InFunction_iff c).mpr hin, Bool.not_true, Bool.false_eq_true, if_false] at h
  cases h1 : yes c with
  | error e1 =>
    simp only [h1, Except.error.injEq] at h
    subst h
    exact hy _ h1
  | ok c1 =>
    simp only [h1] at h
    cases h2 : no c1 with
    | error e2 =>
      simp only [h2, Except.error.injEq] at h
      subst h
      exact hn c1 _ h1 h2
    | ok c2 =>
      simp only [h2] at h
      cases h3 : c2.ExtractLastStmt with
      | error e3 =>
        simp only [h3, Except.error.injEq] at h
        subst h
        exact Ctx.ExtractLastStmt_err h3
      | ok r3 =>
        obtain ⟨cond_no, c3⟩ := r3
        simp only [h3] at h
        cases h4 : c3.ExtractLastStmt with
        | error e4 =>
          simp only [h4, Except.error.injEq] at h
          subst h
          exact Ctx.ExtractLastStmt_err h4
        | ok r4 =>
          obtain ⟨cond_yes, c4⟩ := r4
          simp only [h4] at h
          cases h5 : c4.AddToBlock (.MaroonIRIf line cond cond_yes cond_no) with
          | error e5 =>
            simp only [h5, Except.error.injEq] at h
            subst h
            exact Ctx.AddToBlock_err h5
          | ok r5 => simp [h5] at h

theorem RegisterBlock_err {c : Ctx} {f : Ctx → Except Fatal Ctx} {line : Nat} {e : Fatal}
    (hin : c.current_fn_blocks_stack ≠ [])
    (hf : ∀ key c1 e, c.EnterBlock line = .ok (key, c1) → f c1 = .error e →
      e.isFunctionScope = false)
    (h : RegisterBlock c line f = .error e) : e.isFunctionScope = false := by
  unfold RegisterBlock at h
  simp only [(Ctx.InFunction_iff c).mpr hin, Bool.not_true, Bool.false_eq_true, if_false] at h
  cases h1 : c.EnterBlock line with
  | error e1 =>
    simp only [h1, Except.error.injEq] at h
    subst h
    exact Ctx.EnterBlock_err h1
  | ok r1 =>
    obtain ⟨key, c1⟩ := r1
    simp only [h1] at h
    cases h2 : f c1 with
    | error e2 =>
      simp only [h2, Except.error.injEq] at h
      subst h
      exact hf key c1 _ h1 h2
    | ok c2 =>
      simp only [h2] at h
      split at h
      · simp only [Except.error.injEq] at h
        subst h
        decide
      · exact Ctx.MarkInnerBlockAsCompleted_err h

theorem MATCH_ENUM_STMT_err {c : Ctx} {enum_var : String} {line : Nat}
    {arms : Ctx → Except Fatal (List MaroonIRMatchEnumStmtArm × Ctx)} {e : Fatal}
    (hf : ∀ e, arms (RegisterMatchEnumStmt.ctor c enum_var line).2 = .error e →
      e.isFunctionScope = false)
    (h : MATCH_ENUM_STMT c enum_var line arms = .error e) : e.isFunctionScope = false := by
  unfold MATCH_ENUM_STMT at h
  simp only at h
  cases h1 : arms (RegisterMatchEnumStmt.ctor c enum_var line).2 with
  | error e1 =>
    simp only [h1, Except.error.injEq] at h
    subst h
    exact hf _ h1
  | ok r1 =>
    obtain ⟨as, c2⟩ := r1
    simp only [h1] at h
    cases h2 : RegisterMatchEnumStmt.AddArms (RegisterMatchEnumStmt.ctor c enum_var line).1 as with
    | error e2 =>
      simp only [h2, Except.error.injEq] at h
      subst h
      exact RegisterMatchEnumStmt.AddArms_err _ _ _ h2
    | ok m =>
      simp only [h2] at h
      exact RegisterMatchEnumStmt.dtor_err h

theorem RegisterEnumArm_err {c : Ctx} {key capture : String} {line : Nat}
    {code : Ctx → Except Fatal Ctx} {e : Fatal}
    (hf : ∀ e, code c = .error e → e.isFunctionScope = false)
    (h : RegisterEnumArm c key capture line code = .error e) : e.isFunctionScope = false := by
  unfold RegisterEnumArm at h
  cases h1 : code c with
  | error e1 =>
    simp only [h1, Except.error.injEq] at h
    subst h
    exact hf _ h1
  | ok c1 =>
    simp only [h1] at h
    cases h3 : c1.ExtractLastStmt with
    | error e3 =>
      simp only [h3, Except.error.injEq] at h
      subst h
      exact Ctx.ExtractLastStmt_err h3
    | ok r3 => simp [h3] at h

theorem RegisterEnumDefaultArm_err {c : Ctx} {line : Nat}
    {code : Ctx → Except Fatal Ctx} {e : Fatal}
    (hf : ∀ e, code c = .error e → e.isFunctionScope = false)
    (h : RegisterEnumDefaultArm c line code = .error e) : e.isFunctionScope = false := by
  unfold RegisterEnumDefaultArm at h
  cases h1 : code c with
  | error e1 =>
    simp only [h1, Except.error.injEq] at h
    subst h
    exact hf _ h1
  | ok c1 =>
    simp only [h1] at h
    cases h3 : c1.ExtractLastStmt with
    | error e3 =>
      simp only [h3, Except.error.injEq] at h
      subst h
      exact Ctx.ExtractLastStmt_err h3
    | ok r3 => simp [h3] at h

theorem Kept.nonempty {u : List String} {c c1 : Ctx} (k : Kept u c c1)
    (h : c.current_fn_blocks_stack ≠ []) : c1.current_fn_blocks_stack ≠ [] := by
  intro h1
  have := k.depth
  rw [h1] at this
  exact h (List.length_eq_zero.mp this.symm)

mutual
theorem DslStmt.run_scope : ∀ (s : DslStmt) (c : Ctx) (e : Fatal),
    c.current_fn_blocks_stack ≠ [] → s.run c = .error e → e.isFunctionScope = false
  | .STMT stmt line, c, e, hin, h => by
    simp only [DslStmt.run] at h
    exact RegisterStmt_err hin h
  | .VAR name type init line, c, e, hin, h => by
    simp only [DslStmt.run] at h
    obtain ⟨c1, h1⟩ := RegisterVar_ok c name type init line hin
    rw [h1] at h
    cases h
  | .ARG name type line, c, e, hin, h => by
    simp only [DslStmt.run] at h
    obtain ⟨c1, h1⟩ := RegisterArg_ok c name type line hin
    rw [h1] at h
    cases h
  | .IF cond yes no line, c, e, hin, h => by
    simp only [DslStmt.run] at h
    exact RegisterIf_err hin (fun e he => runStmts_scope yes c e hin he)
      (fun c1 e h1 he => runStmts_scope no c1 e ((runStmts_kept yes c c1 h1).nonempty hin) he) h
  | .BLOCK body line, c, e, hin, h => by
    simp only [DslStmt.run] at h
    refine RegisterBlock_err hin (fun key c1 e h1 he => runStmts_scope body c1 e ?_ he) h
    intro h0
    have := (Ctx.EnterBlock_inv h1).1
    rw [h0] at this
    simp at this
  | .MATCH_ENUM_STMT enum_var arms line, c, e, _, h => by
    simp only [DslStmt.run] at h
    exact MATCH_ENUM_STMT_err
      (fun e he => runArms_scope arms _ e (by simp [RegisterMatchEnumStmt.ctor]) he) h
theorem runStmts_scope : ∀ (ss : List DslStmt) (c : Ctx) (e : Fatal),
    c.current_fn_blocks_stack ≠ [] → runStmts ss c = .error e → e.isFunctionScope = false
  | [], c, e, _, h => by simp [runStmts] at h
  | s :: ss, c, e, hin, h => by
    simp only [runStmts] at h
    cases h1 : s.run c with
    | error e1 =>
      simp only [h1, Except.error.injEq] at h
      subst h
      exact DslStmt.run_scope s c _ hin h1
    | ok c1 =>
      simp only [h1] at h
      exact runStmts_scope ss c1 e ((DslStmt.run_kept s c c1 h1).nonempty hin) h
theorem DslArm.run_arm_scope : ∀ (a : DslArm) (c : Ctx) (e : Fatal),
    c.current_fn_blocks_stack ≠ [] → a.run c = .error e → e.isFunctionScope = false
  | .ENUM_ARM key capture stmt line, c, e, hin, h => by
    simp only [DslArm.run] at h
    exact RegisterEnumArm_err (fun e he => runStmts_scope stmt c e hin he) h
  | .ENUM_DEFAULT stmt line, c, e, hin, h => by
    simp only [DslArm.run] at h
    exact RegisterEnumDefaultArm_err (fun e he => runStmts_scope stmt c e hin he) h
theorem runArms_scope : ∀ (as : List DslArm) (c : Ctx) (e : Fatal),
    c.current_fn_blocks_stack ≠ [] → runArms as c = .error e → e.isFunctionScope = false
  | [], c, e, _, h => by simp [runArms] at h
  | a :: as, c, e, hin, h => by
    simp only [runArms] at h
    cases h1 : a.run c with
    | error e1 =>
      simp only [h1, Except.error.injEq] at h
      subst h
      exact DslArm.run_arm_scope a c _ hin h1
    | ok r1 =>
      obtain ⟨arm, c1⟩ := r1
      simp only [h1] at h
      cases h2 : runArms as c1 with
      | error e2 =>
        simp only [h2, Except.error.injEq] at h
        subst h
        exact runArms_scope as c1 _ ((DslArm.run_arm_kept a c arm c1 h1).nonempty hin) h2
      | ok r2 => simp [h2] at h
end

theorem RegisterFiber_not_scope (c : Ctx) (name : String) (line : Nat)
    (f : Ctx → Except Fatal Ctx) (hm : c.current_maroon_name ≠ "")
    (hf : ∀ c1, f c1 ≠
      .error (.exit ("`FIBER(" ++ name ++ ")` should be defined within some `MAROON()`."))) :
    RegisterFiber c name line f ≠
      .error (.exit ("`FIBER(" ++ name ++ ")` should be defined within some `MAROON()`.")) := by
  intro h
  unfold RegisterFiber at h
  simp only [hm, if_false] at h
  split at h
  · simp only [Except.error.injEq, Fatal.exit.injEq] at h
    exact fiber_messages_differ _ _ h
  · split at h
    · simp only [Except.error.injEq, Fatal.exit.injEq] at h
      refine String.ne_of_take 1 ?_ h
      rw [fiber_scope_head]
      decide
    · split at h
      · rename_i e he
        simp only [Except.error.injEq] at h
        subst h
        exact hf _ he
      · cases h

theorem RegisterType_not_scope (c : Ctx) (name : String) (line : Nat)
    (f : Ctx → Except Fatal Ctx) (hm : c.current_maroon_name ≠ "")
    (hf : ∀ c1, f c1 ≠
      .error (.exit ("`TYPE(" ++ name ++ ")` should be defined within some `MAROON()`."))) :
    RegisterType c name line f ≠
      .error (.exit ("`TYPE(" ++ name ++ ")` should be defined within some `MAROON()`.")) := by
  intro h
  unfold RegisterType at h
  simp only [hm, if_false] at h
  split at h
  · simp only [Except.error.injEq, Fatal.exit.injEq] at h
    refine String.ne_of_take 1 ?_ h
    rw [type_scope_head, type_dup_head]
    decide
  · split at h
    · simp only [Except.error.injEq, Fatal.exit.injEq] at h
      refine String.ne_of_take 1 ?_ h
      rw [type_scope_head]
      decide
    · split at h
      · rename_i e he
        simp only [Except.error.injEq] at h
        subst h
        exact hf _ he
      · cases h

theorem RegisterEnum_not_scope (c : Ctx) (name : String) (line : Nat)
    (f : Ctx → Except Fatal Ctx) (hm : c.current_maroon_name ≠ "")
    (hf : ∀ c1, f c1 ≠
      .error (.exit ("`ENUM(" ++ name ++ ")` should be defined within some `MAROON()`."))) :
    RegisterEnum c name line f ≠
      .error (.exit ("`ENUM(" ++ name ++ ")` should be defined within some `MAROON()`.")) := by
  intro h
  unfold RegisterEnum at h
  simp only [hm, if_false] at h
  split at h
  · simp only [Except.error.injEq, Fatal.exit.injEq] at h
    refine String.ne_of_take 1 ?_ h
    rw [enum_scope_head, type_dup_head]
    decide
  · split at h
    · simp only [Except.error.injEq, Fatal.exit.injEq] at h
      refine String.ne_of_take 1 ?_ h
      rw [enum_scope_head]
      decide
    · split at h
      · rename_i e he
        simp only [Except.error.injEq] at h
        subst h
        exact hf _ he
      · cases h

theorem RegisterFn_not_scope (c : Ctx) (name : String) (ret : Option String) (line : Nat)
    (f : Ctx → Except Fatal Ctx) (hm : c.current_fiber_name ≠ "")
    (hf : ∀ c1, f c1 ≠
      .error (.exit ("`FN(" ++ name ++ ")` should be defined within some `FIBER()`."))) :
    RegisterFn c name ret line f ≠
      .error (.exit ("`FN(" ++ name ++ ")` should be defined within some `FIBER()`.")) := by
  intro h
  unfold RegisterFn at h
  simp only [hm, if_false] at h
  split at h
  · simp only [Except.error.injEq, Fatal.exit.injEq] at h
    exact fn_messages_differ _ _ _ h
  · split at h
    · rename_i e he
      simp only [Except.error.injEq] at h
      subst h
      unfold Ctx.EnterFunction at he
      split at he
      · simp only [Except.error.injEq, Fatal.exit.injEq] at he
        refine String.ne_of_take 1 ?_ he
        rw [fn_scope_head]
        decide
      · cases he
    · split at h
      · rename_i e he
        simp only [Except.error.injEq] at h
        subst h
        exact hf _ he
      · unfold Ctx.LeaveFunction at h
        split at h
        · cases h
        · cases h

theorem RegisterField_ok (c : Ctx) (name type : String) (line : Nat)
    (fields : List MaroonIRTypeDefStructField) (ht : c.current_type_name ≠ "")
    (hd : c.activeTypeDef = .MaroonIRTypeDefStruct fields) :
    ∃ c1, RegisterField c name type line = .ok c1 := by
  obtain ⟨_, _, _, f0⟩ := SupportOptionalTypes_spec c type line
  obtain ⟨ho, _⟩ := SupportOptionalTypes_out c type line
  unfold Ctx.activeTypeDef at hd
  simp only [RegisterField, ht, if_false, ho, f0.current_maroon_name, f0.current_type_name, hd]
  exact ⟨_, rfl⟩

theorem RegisterCase_ok (c : Ctx) (key type : String) (line : Nat)
    (cases : List MaroonIRTypeDefEnumCase) (ht : c.current_type_name ≠ "")
    (hd : c.activeTypeDef = .MaroonIRTypeDefEnum cases) :
    ∃ c1, RegisterCase c key type line = .ok c1 := by
  obtain ⟨_, _, _, f0⟩ := SupportOptionalTypes_spec c type line
  obtain ⟨ho, _⟩ := SupportOptionalTypes_out c type line
  unfold Ctx.activeTypeDef at hd
  simp only [RegisterCase, ht, if_false, ho, f0.current_maroon_name, f0.current_type_name, hd]
  exact ⟨_, rfl⟩

theorem RegisterField_wrong_kind (c : Ctx) (name type : String) (line : Nat)
    (ht : c.current_type_name ≠ "")
    (hd : ∀ fields, c.activeTypeDef ≠ .MaroonIRTypeDefStruct fields) :
    RegisterField c name type line =
      .error (.exit "`FIELD()` is only legal inside the type that is a proper `TYPE()`.") := by
  obtain ⟨_, _, _, f0⟩ := SupportOptionalTypes_spec c type line
  obtain ⟨ho, _⟩ := SupportOptionalTypes_out c type line
  unfold Ctx.activeTypeDef at hd
  simp only [RegisterField, ht, if_false, ho, f0.current_maroon_name, f0.current_type_name]

theorem RegisterCase_wrong_kind (c : Ctx) (key type : String) (line : Nat)
    (ht : c.current_type_name ≠ "")
    (hd : ∀ cases, c.activeTypeDef ≠ .MaroonIRTypeDefEnum cases) :
    RegisterCase c key type line =
      .error (.exit "`CASE()` is only legal inside the type that is a proper `ENUM()`.") := by
  obtain ⟨_, _, _, f0⟩ := SupportOptionalTypes_spec c type line
  obtain ⟨ho, _⟩ := SupportOptionalTypes_out c type line
  unfold Ctx.activeTypeDef at hd
  simp only [RegisterCase, ht, if_false, ho, f0.current_maroon_name, f0.current_type_name]

/-! ## The claim on scope rules -/

/-- C18: every scope rule is a fatal exit, and an event whose scope requirement is met does
not stop at its scope guard. With no namespace active, `FIBER`, `TYPE` and `ENUM` exit with
their scope message; with one active, none of them returns that message unless its body
does. `FN` likewise with respect to the active fiber. `FIELD` and `CASE` exit when no type
is active and when the active type is not of their kind, and succeed when it is. With no
function active, `STMT`, `VAR`, `ARG`, `IF` and `BLOCK` exit with their scope message; with
one active, `STMT`, `VAR` and `ARG` succeed, and no statement, whatever `IF`, `BLOCK` and
`MATCH_ENUM_STMT` nesting it has, stops with one of the five function-scope messages. A
fatal result carries no context, so nothing of the IR is left. -/
theorem scope_rules_are_enforced (c : Ctx) (name : String) (line : Nat)
    (f : Ctx → Except Fatal Ctx) :
    (c.current_maroon_name = "" →
      RegisterFiber c name line f =
        .error (.exit ("`FIBER(" ++ name ++ ")` should be defined within some `MAROON()`.")) ∧
      RegisterType c name line f =
        .error (.exit ("`TYPE(" ++ name ++ ")` should be defined within some `MAROON()`.")) ∧
      RegisterEnum c name line f =
        .error (.exit ("`ENUM(" ++ name ++ ")` should be defined within some `MAROON()`."))) ∧
    (c.current_maroon_name ≠ "" →
      ((∀ c1, f c1 ≠
          .error (.exit ("`FIBER(" ++ name ++ ")` should be defined within some `MAROON()`."))) →
        RegisterFiber c name line f ≠
          .error (.exit ("`FIBER(" ++ name ++ ")` should be defined within some `MAROON()`."))) ∧
      ((∀ c1, f c1 ≠
          .error (.exit ("`TYPE(" ++ name ++ ")` should be defined within some `MAROON()`."))) →
        RegisterType c name line f ≠
          .error (.exit ("`TYPE(" ++ name ++ ")` should be defined within some `MAROON()`."))) ∧
      ((∀ c1, f c1 ≠
          .error (.exit ("`ENUM(" ++ name ++ ")` should be defined within some `MAROON()`."))) →
        RegisterEnum c name line f ≠
          .error (.exit ("`ENUM(" ++ name ++ ")` should be defined within some `MAROON()`.")))) ∧
    (c.current_fiber_name = "" → ∀ ret,
      RegisterFn c name ret line f =
        .error (.exit ("`FN(" ++ name ++ ")` should be defined within some `FIBER()`."))) ∧
    (c.current_fiber_name ≠ "" → ∀ ret,
      (∀ c1, f c1 ≠
        .error (.exit ("`FN(" ++ name ++ ")` should be defined within some `FIBER()`."))) →
      RegisterFn c name ret line f ≠
        .error (.exit ("`FN(" ++ name ++ ")` should be defined within some `FIBER()`."))) ∧
    (c.current_type_name = "" → ∀ type,
      RegisterField c name type line =
        .error (.exit "`FIELD()` is only legal inside `TYPE()`.") ∧
      RegisterCase c name type line =
        .error (.exit "`CASE()` is only legal inside `ENUM()`.")) ∧
    (c.current_type_name ≠ "" → ∀ type,
      ((∀ fields, c.activeTypeDef ≠ .MaroonIRTypeDefStruct fields) →
        RegisterField c name type line =
          .error (.exit "`FIELD()` is only legal inside the type that is a proper `TYPE()`.")) ∧
      ((∀ cases, c.activeTypeDef ≠ .MaroonIRTypeDefEnum cases) →
        RegisterCase c name type line =
          .error (.exit "`CASE()` is only legal inside the type that is a proper `ENUM()`.")) ∧
      (∀ fields, c.activeTypeDef = .MaroonIRTypeDefStruct fields →
        ∃ c1, RegisterField c name type line = .ok c1) ∧
      (∀ cases, c.activeTypeDef = .MaroonIRTypeDefEnum cases →
        ∃ c1, RegisterCase c name type line = .ok c1)) ∧
    (c.InFunction = false → ∀ (text type init : String) (yes no : Ctx → Except Fatal Ctx),
      RegisterStmt c line text = .error (.exit "`STMT()` is only legal inside an `FN()`.") ∧
      RegisterVar c name type init line =
        .error (.exit "`VAR()` is only legal inside an `FN()`.") ∧
      RegisterArg c name type line = .error (.exit "`ARG()` is only legal inside an `FN()`.") ∧
      RegisterIf c text yes no line = .error (.exit "`IF()` is only legal inside an `FN()`.") ∧
      RegisterBlock c line f = .error (.exit "`BLOCK()` is only legal inside an `FN()`.")) ∧
    (c.InFunction = true →
      (∀ text type init : String,
        (∃ c1, RegisterStmt c line text = .ok c1) ∧
        (∃ c1, RegisterVar c name type init line = .ok c1) ∧
        (∃ c1, RegisterArg c name type line = .ok c1)) ∧
      (∀ (s : DslStmt) (e : Fatal), s.run c = .error e → e.isFunctionScope = false)) := by
  refine ⟨?_, ?_, ?_, ?_, ?_, ?_, ?_, ?_⟩
  · intro h
    simp [RegisterFiber, RegisterType, RegisterEnum, h]
  · intro h
    exact ⟨RegisterFiber_not_scope c name line f h, RegisterType_not_scope c name line f h,
      RegisterEnum_not_scope c name line f h⟩
  · intro h ret
    simp [RegisterFn, h]
  · intro h ret
    exact RegisterFn_not_scope c name ret line f h
  · intro h type
    simp [RegisterField, RegisterCase, h]
  · intro h type
    exact ⟨RegisterField_wrong_kind c name type line h, RegisterCase_wrong_kind c name type line h,
      fun fields hd => RegisterField_ok c name type line fields h hd,
      fun cases hd => RegisterCase_ok c name type line cases h hd⟩
  · intro h text type init yes no
    simp [RegisterStmt, RegisterVar, RegisterArg, RegisterIf, RegisterBlock, h]
  · intro h
    have hin := (Ctx.InFunction_iff c).mp h
    exact ⟨fun text type init => ⟨RegisterStmt_ok c text line hin,
      RegisterVar_ok c name type init line hin, RegisterArg_ok c name type line hin⟩,
      fun s e he => DslStmt.run_scope s c e hin he⟩

/-- Witness of C18: `FIBER` in a new context, `FN` and `STMT` in `sampleCtx` (a fiber, no
function), `FIELD` in `sampleInEnum` (an enum is active) are fatal; in `sampleInFn` (a
function is active) `STMT` succeeds and an `IF` with two empty branches fails, but not with
a function-scope message; in `sampleInEnum` `CASE` succeeds. -/
theorem scope_rules_are_enforced_witness :
    RegisterFiber {} "global" 2 (fun c => .ok c) =
      .error (.exit ("`FIBER(" ++ "global" ++ ")` should be defined within some `MAROON()`.")) ∧
    RegisterFn {} "main" none 3 (fun c => .ok c) =
      .error (.exit ("`FN(" ++ "main" ++ ")` should be defined within some `FIBER()`.")) ∧
    RegisterStmt sampleCtx 3 "DEBUG(1)" =
      .error (.exit "`STMT()` is only legal inside an `FN()`.") ∧
    RegisterField sampleInEnum "a" "U64" 6 =
      .error (.exit "`FIELD()` is only legal inside the type that is a proper `TYPE()`.") ∧
    (∃ c1, RegisterCase sampleInEnum "a" "U64" 6 = .ok c1) ∧
    (∃ c1, RegisterStmt sampleInFn 4 "DEBUG(1)" = .ok c1) ∧
    DslStmt.run (.IF "x" [] [] 4) sampleInFn =
      .error (.undefined "back() of an empty code vector") ∧
    (Fatal.undefined "back() of an empty code vector").isFunctionScope = false :=
  ⟨((scope_rules_are_enforced {} "global" 2 (fun c => .ok c)).1 rfl).1,
    (scope_rules_are_enforced {} "main" 3 (fun c => .ok c)).2.2.1 rfl none,
    ((scope_rules_are_enforced sampleCtx "x" 3 (fun c => .ok c)).2.2.2.2.2.2.1 rfl
      "DEBUG(1)" "U64" "0" (fun c => .ok c) (fun c => .ok c)).1,
    ((scope_rules_are_enforced sampleInEnum "a" 6 (fun c => .ok c)).2.2.2.2.2.1
      (by decide) "U64").1 (fun fields h => by
        have h2 : MaroonIRTypeDef.MaroonIRTypeDefEnum [] = .MaroonIRTypeDefStruct fields := h
        cases h2),
    ((scope_rules_are_enforced sampleInEnum "a" 6 (fun c => .ok c)).2.2.2.2.2.1
      (by decide) "U64").2.2.2 [] rfl,
    (((scope_rules_are_enforced sampleInFn "x" 4 (fun c => .ok c)).2.2.2.2.2.2.2 rfl).1
      "DEBUG(1)" "U64" "0").1,
    rfl,
    ((scope_rules_are_enforced sampleInFn "x" 4 (fun c => .ok c)).2.2.2.2.2.2.2 rfl).2
      (.IF "x" [] [] 4) _ rfl⟩

/-! ## Lemmas on opening a name -/

theorem StdMap.find_modify_new {V : Type} [Inhabited V] (m : StdMap V) (k : String)
    (f : V → V) (h : StdMap.count m k = 0) :
    StdMap.find (StdMap.modify m k f) k = some (f default) := by
  have hn := (StdMap.count_eq_zero m k).mp h
  simp [StdMap.find_modify_self, StdMap.at, hn]

theorem MaroonIRScenarios.find_modifyNamespace_other (out : MaroonIRScenarios) (m N : String)
    (g : MaroonIRNamespace → MaroonIRNamespace) (h : N ≠ m) :
    StdMap.find (out.modifyNamespace m g).maroon N = StdMap.find out.maroon N := by
  simp [MaroonIRScenarios.modifyNamespace, StdMap.find_modify_other _ _ _ _ h]

theorem MaroonIRScenarios.fibersOf_modifyFiber (out : MaroonIRScenarios) (m f : String)
    (g : MaroonIRFiber → MaroonIRFiber) :
    (out.modifyFiber m f g).fibersOf m = StdMap.modify (out.fibersOf m) f g ∧
      (out.modifyFiber m f g).typesOf m = out.typesOf m ∧
      (StdMap.at (out.modifyFiber m f g).maroon m).line = (StdMap.at out.maroon m).line := by
  simp [MaroonIRScenarios.modifyFiber, MaroonIRScenarios.modifyNamespace,
    MaroonIRScenarios.fibersOf, MaroonIRScenarios.typesOf, StdMap.at_modify_self]

theorem MaroonIRScenarios.rest_modifyType (out : MaroonIRScenarios) (m t : String)
    (g : MaroonIRType → MaroonIRType) :
    (out.modifyType m t g).fibersOf m = out.fibersOf m ∧
      (StdMap.at (out.modifyType m t g).maroon m).line = (StdMap.at out.maroon m).line := by
  simp [MaroonIRScenarios.modifyType, MaroonIRScenarios.modifyNamespace,
    MaroonIRScenarios.fibersOf, StdMap.at_modify_self]

theorem MaroonIRScenarios.function_eq (out : MaroonIRScenarios) (m f fn : String) :
    out.function m f fn =
      StdMap.find (StdMap.at (StdMap.at out.maroon m).fibers f).functions fn := by
  unfold MaroonIRScenarios.function StdMap.at
  cases h1 : StdMap.find out.maroon m with
  | none => rfl
  | some ns =>
    simp only [Option.getD_some]
    cases h2 : StdMap.find ns.fibers f with
    | none => rfl
    | some fib => rfl

theorem MaroonIRScenarios.functions_modifyFunction (out : MaroonIRScenarios) (m f fn : String)
    (g : MaroonIRFunction → MaroonIRFunction) :
    (StdMap.at (StdMap.at (out.modifyFunction m f fn g).maroon m).fibers f).functions =
        StdMap.modify (StdMap.at (StdMap.at out.maroon m).fibers f).functions fn g ∧
      (StdMap.at (StdMap.at (out.modifyFunction m f fn g).maroon m).fibers f).line =
        (StdMap.at (StdMap.at out.maroon m).fibers f).line ∧
      (∀ F, F ≠ f → StdMap.find ((out.modifyFunction m f fn g).fibersOf m) F =
        StdMap.find (out.fibersOf m) F) ∧
      (out.modifyFunction m f fn g).typesOf m = out.typesOf m ∧
      (StdMap.at (out.modifyFunction m f fn g).maroon m).line = (StdMap.at out.maroon m).line ∧
      (∀ N, N ≠ m → StdMap.find (out.modifyFunction m f fn g).maroon N =
        StdMap.find out.maroon N) := by
  refine ⟨?_, ?_, ?_, ?_, ?_, ?_⟩
  · simp [MaroonIRScenarios.modifyFunction, StdMap.at_modify_self]
  · simp [MaroonIRScenarios.modifyFunction, StdMap.at_modify_self]
  · intro F hF
    simp [MaroonIRScenarios.modifyFunction, MaroonIRScenarios.fibersOf, StdMap.at_modify_self,
      StdMap.find_modify_other _ _ _ _ hF]
  · simp [MaroonIRScenarios.modifyFunction, MaroonIRScenarios.typesOf, StdMap.at_modify_self]
  · simp [MaroonIRScenarios.modifyFunction, StdMap.at_modify_self]
  · intro N hN
    simp [MaroonIRScenarios.modifyFunction, StdMap.find_modify_other _ _ _ _ hN]

theorem RegisterMaroon_new (c : Ctx) (name : String) (line : Nat) (f : Ctx → Except Fatal Ctx)
    (h0 : StdMap.count c.out.maroon name = 0) (hn : name ≠ "") :
    ∃ c1, RegisterMaroon c name line f =
        (match f c1 with
          | .error e => .error e
          | .ok c2 => .ok { c2 with current_maroon_name := "" }) ∧
      c1.current_maroon_name = name ∧
      StdMap.find c1.out.maroon name = some { line := line } ∧
      (∀ N, N ≠ name → StdMap.find c1.out.maroon N = StdMap.find c.out.maroon N) := by
  refine ⟨{ c with
    current_maroon_name := name
    out := (c.out.modifyNamespace name (fun ns => { ns with line := line })) }, ?_, rfl, ?_, ?_⟩
  · simp only [RegisterMaroon, h0, ne_eq, not_true_eq_false, if_false, hn]
  · simp only [MaroonIRScenarios.modifyNamespace]
    rw [StdMap.find_modify_new _ _ _ h0]
    rfl
  · intro N hN
    exact MaroonIRScenarios.find_modifyNamespace_other _ _ _ _ hN

theorem RegisterFiber_new (c : Ctx) (name : String) (line : Nat) (f : Ctx → Except Fatal Ctx)
    (hm : c.current_maroon_name ≠ "")
    (h0 : StdMap.count (c.out.fibersOf c.current_maroon_name) name = 0) (hn : name ≠ "") :
    ∃ c1, RegisterFiber c name line f =
        (match f c1 with
          | .error e => .error e
          | .ok c2 => .ok { c2 with current_fiber_name := "" }) ∧
      c1.current_fiber_name = name ∧
      StdMap.find (c1.out.fibersOf c.current_maroon_name) name = some { line := line } ∧
      (∀ F, F ≠ name → StdMap.find (c1.out.fibersOf c.current_maroon_name) F =
        StdMap.find (c.out.fibersOf c.current_maroon_name) F) ∧
      c1.out.typesOf c.current_maroon_name = c.out.typesOf c.current_maroon_name ∧
      (StdMap.at c1.out.maroon c.current_maroon_name).line =
        (StdMap.at c.out.maroon c.current_maroon_name).line ∧
      (∀ N, N ≠ c.current_maroon_name →
        StdMap.find c1.out.maroon N = StdMap.find c.out.maroon N) := by
  obtain ⟨e1, e2, e3⟩ := MaroonIRScenarios.fibersOf_modifyFiber c.out c.current_maroon_name name
    (fun fib => { fib with line := line })
  refine ⟨{ c with
    current_fiber_name := name
    out := (c.out.modifyFiber c.current_maroon_name name (fun fib => { fib with line := line })) },
    ?_, rfl, ?_, ?_, e2, e3, ?_⟩
  · simp only [RegisterFiber, hm, h0, ne_eq, not_true_eq_false, if_false, hn]
  · show StdMap.find ((c.out.modifyFiber c.current_maroon_name name _).fibersOf _) name = _
    rw [e1, StdMap.find_modify_new _ _ _ h0]
    rfl
  · intro F hF
    show StdMap.find ((c.out.modifyFiber c.current_maroon_name name _).fibersOf _) F = _
    rw [e1, StdMap.find_modify_other _ _ _ _ hF]
  · intro N hN
    exact MaroonIRScenarios.find_modifyNamespace_other _ _ _ _ hN

theorem RegisterType_new (c : Ctx) (name : String) (line : Nat) (f : Ctx → Except Fatal Ctx)
    (hm : c.current_maroon_name ≠ "")
    (h0 : StdMap.count (c.out.typesOf c.current_maroon_name) name = 0) (hn : name ≠ "") :
    ∃ c1, RegisterType c name line f =
        (match f c1 with
          | .error e => .error e
          | .ok c2 => .ok { c2 with current_type_name := "" }) ∧
      c1.current_type_name = name ∧
      StdMap.find (c1.out.typesOf c.current_maroon_name) name =
        some { line := line, def_ := .MaroonIRTypeDefStruct [] } ∧
      (∀ T, T ≠ name → StdMap.find (c1.out.typesOf c.current_maroon_name) T =
        StdMap.find (c.out.typesOf c.current_maroon_name) T) ∧
      c1.out.fibersOf c.current_maroon_name = c.out.fibersOf c.current_maroon_name ∧
      (StdMap.at c1.out.maroon c.current_maroon_name).line =
        (StdMap.at c.out.maroon c.current_maroon_name).line ∧
      (∀ N, N ≠ c.current_maroon_name →
        StdMap.find c1.out.maroon N = StdMap.find c.out.maroon N) := by
  have e1 := MaroonIRScenarios.typesOf_modifyType c.out c.current_maroon_name name
    (fun r => { r with line := line, def_ := .MaroonIRTypeDefStruct [] })
  obtain ⟨e2, e3⟩ := MaroonIRScenarios.rest_modifyType c.out c.current_maroon_name name
    (fun r => { r with line := line, def_ := .MaroonIRTypeDefStruct [] })
  refine ⟨{ c with
    current_type_name := name
    out := (c.out.modifyType c.current_maroon_name name
      (fun r => { r with line := line, def_ := .MaroonIRTypeDefStruct [] })) },
    ?_, rfl, ?_, ?_, e2, e3, ?_⟩
  · simp only [RegisterType, hm, h0, ne_eq, not_true_eq_false, if_false, hn]
  · show StdMap.find ((c.out.modifyType c.current_maroon_name name _).typesOf _) name = _
    rw [e1, StdMap.find_modify_new _ _ _ h0]
  · intro T hT
    show StdMap.find ((c.out.modifyType c.current_maroon_name name _).typesOf _) T = _
    rw [e1, StdMap.find_modify_other _ _ _ _ hT]
  · intro N hN
    exact MaroonIRScenarios.find_modifyNamespace_other _ _ _ _ hN

theorem RegisterEnum_new (c : Ctx) (name : String) (line : Nat) (f : Ctx → Except Fatal Ctx)
    (hm : c.current_maroon_name ≠ "")
    (h0 : StdMap.count (c.out.typesOf c.current_maroon_name) name = 0) (hn : name ≠ "") :
    ∃ c1, RegisterEnum c name line f =
        (match f c1 with
          | .error e => .error e
          | .ok c2 => .ok { c2 with current_type_name := "" }) ∧
      c1.current_type_name = name ∧
      StdMap.find (c1.out.typesOf c.current_maroon_name) name =
        some { line := line, def_ := .MaroonIRTypeDefEnum [] } ∧
      (∀ T, T ≠ name → StdMap.find (c1.out.typesOf c.current_maroon_name) T =
        StdMap.find (c.out.typesOf c.current_maroon_name) T) ∧
      c1.out.fibersOf c.current_maroon_name = c.out.fibersOf c.current_maroon_name ∧
      (StdMap.at c1.out.maroon c.current_maroon_name).line =
        (StdMap.at c.out.maroon c.current_maroon_name).line ∧
      (∀ N, N ≠ c.current_maroon_name →
        StdMap.find c1.out.maroon N = StdMap.find c.out.maroon N) := by
  have e1 := MaroonIRScenarios.typesOf_modifyType c.out c.current_maroon_name name
    (fun r => { r with line := line, def_ := .MaroonIRTypeDefEnum [] })
  obtain ⟨e2, e3⟩ := MaroonIRScenarios.rest_modifyType c.out c.current_maroon_name name
    (fun r => { r with line := line, def_ := .MaroonIRTypeDefEnum [] })
  refine ⟨{ c with
    current_type_name := name
    out := (c.out.modifyType c.current_maroon_name name
      (fun r => { r with line := line, def_ := .MaroonIRTypeDefEnum [] })) },
    ?_, rfl, ?_, ?_, e2, e3, ?_⟩
  · simp only [RegisterEnum, hm, h0, ne_eq, not_true_eq_false, if_false, hn]
  · show StdMap.find ((c.out.modifyType c.current_maroon_name name _).typesOf _) name = _
    rw [e1, StdMap.find_modify_new _ _ _ h0]
  · intro T hT
    show StdMap.find ((c.out.modifyType c.current_maroon_name name _).typesOf _) T = _
    rw [e1, StdMap.find_modify_other _ _ _ _ hT]
  · intro N hN
    exact MaroonIRScenarios.find_modifyNamespace_other _ _ _ _ hN

theorem RegisterFn_new (c : Ctx) (name : String) (ret : Option String) (line : Nat)
    (f : Ctx → Except Fatal Ctx) (hm : c.current_fiber_name ≠ "")
    (h0 : (c.out.function c.current_maroon_name c.current_fiber_name name).isSome = false)
    (hs : c.current_fn_blocks_stack = []) :
    ∃ c2, RegisterFn c name ret line f =
        (match f c2 with
          | .error e => .error e
          | .ok c3 => c3.LeaveFunction) ∧
      c2.current_function_name = name ∧
      c2.current_fn_blocks_stack = [.mk line [] []] ∧
      c2.out.function c.current_maroon_name c.current_fiber_name name =
        some { line := line, ret := ret } ∧
      (∀ other, other ≠ name →
        c2.out.function c.current_maroon_name c.current_fiber_name other =
          c.out.function c.current_maroon_name c.current_fiber_name other) ∧
      (StdMap.at (c2.out.fibersOf c.current_maroon_name) c.current_fiber_name).line =
        (StdMap.at (c.out.fibersOf c.current_maroon_name) c.current_fiber_name).line ∧
      (∀ F, F ≠ c.current_fiber_name →
        StdMap.find (c2.out.fibersOf c.current_maroon_name) F =
          StdMap.find (c.out.fibersOf c.current_maroon_name) F) ∧
      c2.out.typesOf c.current_maroon_name = c.out.typesOf c.current_maroon_name ∧
      (StdMap.at c2.out.maroon c.current_maroon_name).line =
        (StdMap.at c.out.maroon c.current_maroon_name).line ∧
      (∀ N, N ≠ c.current_maroon_name →
        StdMap.find c2.out.maroon N = StdMap.find c.out.maroon N) := by
  obtain ⟨e1, e2, e3, e4, e5, e6⟩ := MaroonIRScenarios.functions_modifyFunction c.out
    c.current_maroon_name c.current_fiber_name name
    (fun fn => { fn with ret := ret, line := line })
  have hnone : StdMap.find (StdMap.at (StdMap.at c.out.maroon c.current_maroon_name).fibers
      c.current_fiber_name).functions name = none := by
    rw [← MaroonIRScenarios.function_eq]
    cases hx : c.out.function c.current_maroon_name c.current_fiber_name name with
    | none => rfl
    | some x => simp [hx] at h0
  refine ⟨{ c with
    out := (c.out.modifyFunction c.current_maroon_name c.current_fiber_name name
      (fun fn => { fn with ret := ret, line := line }))
    current_function_name := name
    current_fn_blocks_stack := [.mk line [] []] }, ?_, rfl, rfl, ?_, ?_, e2, e3, e4, e5, e6⟩
  · simp [RegisterFn, hm, h0, Ctx.EnterFunction, hs]
  · show (c.out.modifyFunction c.current_maroon_name c.current_fiber_name name _).function _ _ _
      = _
    have hat : StdMap.at (StdMap.at (StdMap.at c.out.maroon c.current_maroon_name).fibers
        c.current_fiber_name).functions name = default := by
      show (StdMap.find _ name).getD default = default
      rw [hnone]
      rfl
    rw [MaroonIRScenarios.function_eq, e1, StdMap.find_modify_self, hat]
    rfl
  · intro other ho
    show (c.out.modifyFunction c.current_maroon_name c.current_fiber_name name _).function _ _ _
      = _
    rw [MaroonIRScenarios.function_eq, e1, StdMap.find_modify_other _ _ _ _ ho,
      ← MaroonIRScenarios.function_eq]

/-! ## The claim on opening a name -/

/-- C20 (amended): opening a name that is already defined at its level is fatal, with the
message of the duplicate: a namespace in the program, a fiber in the current namespace, a
type or an enum in the one type table of the current namespace (so `ENUM` cannot reuse the
name of a `TYPE` nor `TYPE` that of an `ENUM`), a function in the current fiber. Opening a
name that is not defined is fatal too when the name is empty (`MAROON`, `FIBER`, `TYPE`,
`ENUM`) or when a function is under construction (`FN`). In every other case the opening is
not fatal: the body runs in a context `c1` in which the name has a new entry with the line
of the event, every other entry is as before, and the result is the one of the body. For
`FIBER`, `TYPE`, `ENUM` the current namespace is not empty, for `FN` the current fiber. -/
theorem opening_a_name (c : Ctx) (name : String) (line : Nat) (f : Ctx → Except Fatal Ctx) :
    ((StdMap.count c.out.maroon name ≠ 0 →
        RegisterMaroon c name line f =
          .error (.exit ("`MAROON(" ++ name ++ ")` is defined more than once."))) ∧
      (StdMap.count c.out.maroon name = 0 → name = "" →
        RegisterMaroon c name line f = .error (.exit "FOO2")) ∧
      (StdMap.count c.out.maroon name = 0 → name ≠ "" →
        ∃ c1, RegisterMaroon c name line f =
            (match f c1 with
              | .error e => .error e
              | .ok c2 => .ok { c2 with current_maroon_name := "" }) ∧
          c1.current_maroon_name = name ∧
          StdMap.find c1.out.maroon name = some { line := line } ∧
          (∀ N, N ≠ name → StdMap.find c1.out.maroon N = StdMap.find c.out.maroon N))) ∧
    (c.current_maroon_name ≠ "" →
      (StdMap.count (c.out.fibersOf c.current_maroon_name) name ≠ 0 →
        RegisterFiber c name line f =
          .error (.exit ("`FIBER(" ++ name ++ ")` is defined more than once in `MAROON(" ++
            c.current_maroon_name ++ ")`."))) ∧
      (StdMap.count (c.out.fibersOf c.current_maroon_name) name = 0 → name = "" →
        RegisterFiber c name line f = .error (.exit "BAR2")) ∧
      (StdMap.count (c.out.fibersOf c.current_maroon_name) name = 0 → name ≠ "" →
        ∃ c1, RegisterFiber c name line f =
            (match f c1 with
              | .error e => .error e
              | .ok c2 => .ok { c2 with current_fiber_name := "" }) ∧
          c1.current_fiber_name = name ∧
          StdMap.find (c1.out.fibersOf c.current_maroon_name) name = some { line := line } ∧
          (∀ F, F ≠ name → StdMap.find (c1.out.fibersOf c.current_maroon_name) F =
            StdMap.find (c.out.fibersOf c.current_maroon_name) F) ∧
          c1.out.typesOf c.current_maroon_name = c.out.typesOf c.current_maroon_name ∧
          (StdMap.at c1.out.maroon c.current_maroon_name).line =
            (StdMap.at c.out.maroon c.current_maroon_name).line ∧
          (∀ N, N ≠ c.current_maroon_name →
            StdMap.find c1.out.maroon N = StdMap.find c.out.maroon N))) ∧
    (c.current_maroon_name ≠ "" →
      (StdMap.count (c.out.typesOf c.current_maroon_name) name ≠ 0 →
        RegisterType c name line f =
          .error (.exit ("Type `" ++ name ++ "` is defined more than once in `MAROON(" ++
            c.current_maroon_name ++ ")`.")) ∧
        RegisterEnum c name line f =
          .error (.exit ("Type `" ++ name ++ "` is defined more than once in `MAROON(" ++
            c.current_maroon_name ++ ")`."))) ∧
      (StdMap.count (c.out.typesOf c.current_maroon_name) name = 0 → name = "" →
        RegisterType c name line f = .error (.exit "") ∧
        RegisterEnum c name line f = .error (.exit "")) ∧
      (StdMap.count (c.out.typesOf c.current_maroon_name) name = 0 → name ≠ "" →
        (∃ c1, RegisterType c name line f =
            (match f c1 with
              | .error e => .error e
              | .ok c2 => .ok { c2 with current_type_name := "" }) ∧
          c1.current_type_name = name ∧
          StdMap.find (c1.out.typesOf c.current_maroon_name) name =
            some { line := line, def_ := .MaroonIRTypeDefStruct [] } ∧
          (∀ T, T ≠ name → StdMap.find (c1.out.typesOf c.current_maroon_name) T =
            StdMap.find (c.out.typesOf c.current_maroon_name) T) ∧
          c1.out.fibersOf c.current_maroon_name = c.out.fibersOf c.current_maroon_name ∧
          (StdMap.at c1.out.maroon c.current_maroon_name).line =
            (StdMap.at c.out.maroon c.current_maroon_name).line ∧
          (∀ N, N ≠ c.current_maroon_name →
            StdMap.find c1.out.maroon N = StdMap.find c.out.maroon N)) ∧
        (∃ c1, RegisterEnum c name line f =
            (match f c1 with
              | .error e => .error e
              | .ok c2 => .ok { c2 with current_type_name := "" }) ∧
          c1.current_type_name = name ∧
          StdMap.find (c1.out.typesOf c.current_maroon_name) name =
            some { line := line, def_ := .MaroonIRTypeDefEnum [] } ∧
          (∀ T, T ≠ name → StdMap.find (c1.out.typesOf c.current_maroon_name) T =
            StdMap.find (c.out.typesOf c.current_maroon_name) T) ∧
          c1.out.fibersOf c.current_maroon_name = c.out.fibersOf c.current_maroon_name ∧
          (StdMap.at c1.out.maroon c.current_maroon_name).line =
            (StdMap.at c.out.maroon c.current_maroon_name).line ∧
          (∀ N, N ≠ c.current_maroon_name →
            StdMap.find c1.out.maroon N = StdMap.find c.out.maroon N)))) ∧
    (c.current_fiber_name ≠ "" → ∀ ret : Option String,
      ((c.out.function c.current_maroon_name c.current_fiber_name name).isSome = true →
        RegisterFn c name ret line f =
          .error (.exit ("`FN(" ++ name ++ ")` is defined more than once in `FIBER(" ++
            c.current_fiber_name ++ ")` of `MAROON(" ++ c.current_maroon_name ++ ")`."))) ∧
      ((c.out.function c.current_maroon_name c.current_fiber_name name).isSome = false →
        c.current_fn_blocks_stack ≠ [] → RegisterFn c name ret line f = .error (.exit "NE")) ∧
      ((c.out.function c.current_maroon_name c.current_fiber_name name).isSome = false →
        c.current_fn_blocks_stack = [] →
        ∃ c2, RegisterFn c name ret line f =
            (match f c2 with
              | .error e => .error e
              | .ok c3 => c3.LeaveFunction) ∧
          c2.current_function_name = name ∧
          c2.current_fn_blocks_stack = [.mk line [] []] ∧
          c2.out.function c.current_maroon_name c.current_fiber_name name =
            some { line := line, ret := ret } ∧
          (∀ other, other ≠ name →
            c2.out.function c.current_maroon_name c.current_fiber_name other =
              c.out.function c.current_maroon_name c.current_fiber_name other) ∧
          (StdMap.at (c2.out.fibersOf c.current_maroon_name) c.current_fiber_name).line =
            (StdMap.at (c.out.fibersOf c.current_maroon_name) c.current_fiber_name).line ∧
          (∀ F, F ≠ c.current_fiber_name →
            StdMap.find (c2.out.fibersOf c.current_maroon_name) F =
              StdMap.find (c.out.fibersOf c.current_maroon_name) F) ∧
          c2.out.typesOf c.current_maroon_name = c.out.typesOf c.current_maroon_name ∧
          (StdMap.at c2.out.maroon c.current_maroon_name).line =
            (StdMap.at c.out.maroon c.current_maroon_name).line ∧
          (∀ N, N ≠ c.current_maroon_name →
            StdMap.find c2.out.maroon N = StdMap.find c.out.maroon N))) := by
  refine ⟨⟨?_, ?_, ?_⟩, ?_, ?_, ?_⟩
  · intro h
    simp [RegisterMaroon, h]
  · intro h hn
    subst hn
    simp [RegisterMaroon, h]
  · intro h hn
    exact RegisterMaroon_new c name line f h hn
  · intro hm
    refine ⟨?_, ?_, ?_⟩
    · intro h
      simp [RegisterFiber, hm, h]
    · intro h hn
      subst hn
      simp [RegisterFiber, hm, h]
    · intro h hn
      exact RegisterFiber_new c name line f hm h hn
  · intro hm
    refine ⟨?_, ?_, ?_⟩
    · intro h
      simp [RegisterType, RegisterEnum, hm, h]
    · intro h hn
      subst hn
      simp [RegisterType, RegisterEnum, hm, h]
    · intro h hn
      exact ⟨RegisterType_new c name line f hm h hn, RegisterEnum_new c name line f hm h hn⟩
  · intro hm ret
    refine ⟨?_, ?_, ?_⟩
    · intro h
      simp [RegisterFn, hm, h]
    · intro h hs
      have hne : c.current_fn_blocks_stack.isEmpty = false := by
        cases hc : c.current_fn_blocks_stack with
        | nil => exact absurd hc hs
        | cons b rest => rfl
      simp [RegisterFn, hm, h, Ctx.EnterFunction, hne]
    · intro h hs
      exact RegisterFn_new c name ret line f hm h hs

/-- Witness of C20 (amended) in `sampleInNs`: `ENUM(Pair)` is fatal because the struct `Pair`
is in the type table; `TYPE(Shape)` is not: its body runs in a context whose type table has
the new entry `Shape` with line 5 and the entry `Pair` as before; and `FN(main)` in
`sampleCtx` runs its body in a context with the new function entry of line 3. -/
theorem opening_a_name_witness :
    RegisterEnum sampleInNs "Pair" 5 (fun c => .ok c) =
      .error (.exit ("Type `" ++ "Pair" ++ "` is defined more than once in `MAROON(" ++
        "ns" ++ ")`.")) ∧
    (∃ c1 : Ctx, RegisterType sampleInNs "Shape" 5 (fun c => .ok c) =
        .ok { c1 with current_type_name := "" } ∧
      StdMap.find (c1.out.typesOf "ns") "Shape" =
        some { line := 5, def_ := .MaroonIRTypeDefStruct [] } ∧
      StdMap.find (c1.out.typesOf "ns") "Pair" =
        some { line := 2, def_ := .MaroonIRTypeDefStruct [{ name := "a", type := "U64" }] }) ∧
    (∃ c2 : Ctx, RegisterFn sampleCtx "main" none 3 (fun c => .ok c) = c2.LeaveFunction ∧
      c2.current_fn_blocks_stack = [.mk 3 [] []] ∧
      c2.out.function "ns" "global" "main" = some { line := 3 }) := by
  refine ⟨(((opening_a_name sampleInNs "Pair" 5 (fun c => .ok c)).2.2.1 (by decide)).1
    (by decide)).2, ?_, ?_⟩
  · obtain ⟨c1, h1, _, h3, h4, _⟩ :=
      (((opening_a_name sampleInNs "Shape" 5 (fun c => .ok c)).2.2.1 (by decide)).2.2
        (by decide) (by decide)).1
    exact ⟨c1, h1, h3, (h4 "Pair" (by decide)).trans rfl⟩
  · obtain ⟨c2, h1, _, h3, h4, _⟩ :=
      ((opening_a_name sampleCtx "main" 3 (fun c => .ok c)).2.2.2 (by decide) none).2.2 rfl rfl
    exact ⟨c2, h1, h3, h4⟩

/-- C20 (counterexample): the empty name is not a defined namespace of a new context, yet
`MAROON()` is fatal (`FOO2`); and in the context in which `FN(main)` runs its body, the fiber
`global` is active and has no function `helper`, yet `FN(helper)` is fatal (`NE`), as it is
when the four macros are run in full. -/
theorem fresh_names_can_be_fatal :
    StdMap.count ({} : Ctx).out.maroon "" = 0 ∧
    RegisterMaroon {} "" 1 (fun c => .ok c) = .error (.exit "FOO2") ∧
    sampleInMain.current_fiber_name = "global" ∧
    sampleInMain.out.function "ns" "global" "helper" = none ∧
    RegisterFn sampleInMain "helper" none 4 (fun c => .ok c) = .error (.exit "NE") ∧
    RegisterMaroon {} "ns" 1 (fun c => RegisterFiber c "global" 2 (fun c =>
      RegisterFn c "main" none 3 (fun c => RegisterFn c "helper" none 4 (fun c => .ok c)))) =
        .error (.exit "NE") :=
  ⟨rfl, rfl, rfl, rfl, rfl, rfl⟩

/-! ## Lemmas on collisions in `Finalize` -/

theorem Ctx.Finalize.types_ok : ∀ (per : List (String × Nat)) (types : StdMap MaroonIRType),
    StdMap.distinctKeys per →
    (∀ T line, (T, line) ∈ per → StdMap.find types ("OPTIONAL_" ++ T) = none) →
    ∃ types1, Ctx.Finalize.types types per = .ok types1
  | [], types, _, _ => ⟨types, rfl⟩
  | (T0, l0) :: rest, types, hd, hn => by
    have hd1 : T0 ∉ rest.map Prod.fst ∧ (rest.map Prod.fst).Nodup := by
      simpa [StdMap.distinctKeys] using hd
    have h0 : StdMap.count types ("OPTIONAL_" ++ T0) = 0 :=
      (StdMap.count_eq_zero _ _).mpr (hn T0 l0 (List.mem_cons_self _ _))
    simp only [Ctx.Finalize.types, h0, ne_eq, not_true_eq_false, if_false]
    apply Ctx.Finalize.types_ok rest _ hd1.2
    intro T line hm
    have hne : T ≠ T0 := by
      intro h
      subst h
      exact hd1.1 (List.mem_map.mpr ⟨(T, line), hm, rfl⟩)
    rw [StdMap.find_set_other _ _ _ _ (fun h => hne (optionalName_injective _ _ h))]
    exact hn T line (List.mem_cons_of_mem _ hm)

theorem Ctx.Finalize.types_error : ∀ (per : List (String × Nat)) (types : StdMap MaroonIRType)
    (e : Fatal), Ctx.Finalize.types types per = .error e →
    ∃ T line, (T, line) ∈ per ∧ e = .exit (collisionMessage T)
  | [], types, e, h => by simp [Ctx.Finalize.types] at h
  | (T0, l0) :: rest, types, e, h => by
    simp only [Ctx.Finalize.types] at h
    split at h
    · simp only [Except.error.injEq] at h
      exact ⟨T0, l0, List.mem_cons_self _ _, h.symm⟩
    · obtain ⟨T, line, hm, he⟩ := Ctx.Finalize.types_error rest _ e h
      exact ⟨T, line, List.mem_cons_of_mem _ hm, he⟩

theorem Ctx.Finalize.namespaces_ok : ∀ (nss : List (String × StdMap Nat))
    (out : MaroonIRScenarios), StdMap.distinctKeys nss →
    (∀ p ∈ nss, StdMap.distinctKeys p.2) →
    (∀ N per T line, (N, per) ∈ nss → (T, line) ∈ per →
      StdMap.find (out.typesOf N) ("OPTIONAL_" ++ T) = none) →
    ∃ out1, Ctx.Finalize.namespaces out nss = .ok out1
  | [], out, _, _, _ => ⟨out, rfl⟩
  | (N0, per0) :: rest, out, hd, hp, hn => by
    have hd1 : N0 ∉ rest.map Prod.fst ∧ (rest.map Prod.fst).Nodup := by
      simpa [StdMap.distinctKeys] using hd
    obtain ⟨types, ht⟩ := Ctx.Finalize.types_ok per0 (out.typesOf N0)
      (hp _ (List.mem_cons_self _ _))
      (fun T line hm => hn N0 per0 T line (List.mem_cons_self _ _) hm)
    simp only [Ctx.Finalize.namespaces, ht]
    apply Ctx.Finalize.namespaces_ok rest _ hd1.2
      (fun p hm => hp p (List.mem_cons_of_mem _ hm))
    intro N per T line hN hT
    have hne : N ≠ N0 := by
      intro h
      subst h
      exact hd1.1 (List.mem_map.mpr ⟨(N, per), hN, rfl⟩)
    rw [MaroonIRScenarios.typesOf_modifyNamespace, if_neg hne]
    exact hn N per T line (List.mem_cons_of_mem _ hN) hT

theorem Ctx.Finalize.namespaces_error : ∀ (nss : List (String × StdMap Nat))
    (out : MaroonIRScenarios) (e : Fatal), Ctx.Finalize.namespaces out nss = .error e →
    ∃ N per T line, (N, per) ∈ nss ∧ (T, line) ∈ per ∧ e = .exit (collisionMessage T)
  | [], out, e, h => by simp [Ctx.Finalize.namespaces] at h
  | (N0, per0) :: rest, out, e, h => by
    simp only [Ctx.Finalize.namespaces] at h
    split at h
    · rename_i e1 he1
      simp only [Except.error.injEq] at h
      subst h
      obtain ⟨T, line, hm, he⟩ := Ctx.Finalize.types_error per0 _ _ he1
      exact ⟨N0, per0, T, line, List.mem_cons_self _ _, hm, he⟩
    · obtain ⟨N, per, T, line, hN, hT, he⟩ := Ctx.Finalize.namespaces_error rest _ e h
      exact ⟨N, per, T, line, List.mem_cons_of_mem _ hN, hT, he⟩

theorem Ctx.Finalize.namespaces_collision (nss : List (String × StdMap Nat))
    (out out1 : MaroonIRScenarios) (N T : String) (per : StdMap Nat) (line : Nat)
    (hN : (N, per) ∈ nss) (hT : (T, line) ∈ per)
    (hc : StdMap.find (out.typesOf N) ("OPTIONAL_" ++ T) ≠ none) :
    Ctx.Finalize.namespaces out nss ≠ .ok out1 := by
  induction nss generalizing out with
  | nil => simp at hN
  | cons cit rest ih =>
    obtain ⟨N0, per0⟩ := cit
    intro h
    simp only [Ctx.Finalize.namespaces] at h
    cases ht : Ctx.Finalize.types (out.typesOf N0) per0 with
    | error e => simp [ht] at h
    | ok types =>
      simp only [ht] at h
      obtain ⟨ta, tb, tc⟩ := Ctx.Finalize.types_spec per0 _ types ht
      rcases List.mem_cons.mp hN with hN | hN
      · obtain ⟨rfl, rfl⟩ := Prod.mk.inj hN
        exact hc (tc T line hT)
      · refine ih _ hN ?_ h
        rw [MaroonIRScenarios.typesOf_modifyNamespace]
        by_cases hn : N = N0
        · subst hn
          rw [if_pos rfl]
          by_cases hx : ∃ T1 l1, (T1, l1) ∈ per0 ∧ "OPTIONAL_" ++ T = "OPTIONAL_" ++ T1
          · obtain ⟨T1, l1, hm, heq⟩ := hx
            rw [heq, ta T1 l1 hm]
            simp
          · rw [tb _ (fun T1 l1 hm heq => hx ⟨T1, l1, hm, heq⟩)]
            exact hc
        · rw [if_neg hn]
          exact hc

/-! ## The claim on collisions -/

/-- C21: when the type table of a namespace `N` holds an entry `OPTIONAL_T` and `T` is
recorded for `N`, `Finalize` is fatal: it returns no context, so no declaration is
overwritten, and on a context not yet finalized the exit is the one of a collision, for some
recorded `T1`. When no recorded `T` of any namespace has an entry `OPTIONAL_T` in the table
of its namespace, `Finalize` on a context not yet finalized succeeds; the record being a
`std::map` of `std::map`s, its keys are distinct. -/
theorem finalize_collision_is_fatal (c : Ctx) :
    (∀ N T, c.recorded N T →
      StdMap.find (c.out.typesOf N) ("OPTIONAL_" ++ T) ≠ none →
      (∃ msg, c.Finalize = .error (.exit msg)) ∧
      (c.finalized = false →
        ∃ N1 T1, c.recorded N1 T1 ∧ c.Finalize = .error (.exit (collisionMessage T1)))) ∧
    (c.finalized = false → c.recordIsMap →
      (∀ N T, c.recorded N T →
        StdMap.find (c.out.typesOf N) ("OPTIONAL_" ++ T) = none) →
      ∃ c1, c.Finalize = .ok c1) := by
  constructor
  · rintro N T ⟨line, per, hN, hT⟩ hc
    have key : c.finalized = false →
        ∃ N1 T1, c.recorded N1 T1 ∧ c.Finalize = .error (.exit (collisionMessage T1)) := by
      intro hf
      cases hn : Ctx.Finalize.namespaces c.out c.optional_types_per_maroon with
      | ok out1 => exact absurd hn (Ctx.Finalize.namespaces_collision _ _ _ N T per line hN hT hc)
      | error e =>
        obtain ⟨N1, per1, T1, l1, hN1, hT1, he⟩ := Ctx.Finalize.namespaces_error _ _ _ hn
        refine ⟨N1, T1, ⟨l1, per1, hN1, hT1⟩, ?_⟩
        simp [Ctx.Finalize, hf, hn, he]
    refine ⟨?_, key⟩
    by_cases hf : c.finalized = true
    · exact ⟨"Internal error, `Finalize()` already called.", by simp [Ctx.Finalize, hf]⟩
    · obtain ⟨_, T1, _, h1⟩ := key (by simpa using hf)
      exact ⟨_, h1⟩
  · intro hf hm hn
    obtain ⟨out1, h1⟩ := Ctx.Finalize.namespaces_ok c.optional_types_per_maroon c.out hm.1 hm.2
      (fun N per T line hN hT => hn N T ⟨line, per, hN, hT⟩)
    exact ⟨{ c with finalized := true, out := out1 }, by simp [Ctx.Finalize, hf, h1]⟩

/-- Witness of C21: `sampleCollision` declares `OPTIONAL_U64` and records `U64`, and its
`Finalize` exits with the collision message; `sampleRecorded` records `U64` with no such
declaration, and its `Finalize` succeeds. -/
theorem finalize_collision_is_fatal_witness :
    sampleCollision.Finalize = .error (.exit (collisionMessage "U64")) ∧
    (∃ msg, sampleCollision.Finalize = .error (.exit msg)) ∧
    sampleRecorded.Finalize = .ok sampleFinalized ∧
    (∃ c1, sampleRecorded.Finalize = .ok c1) :=
  ⟨rfl,
    ((finalize_collision_is_fatal sampleCollision).1 "ns" "U64"
      ⟨4, [("U64", 4)], by simp [sampleCollision], by simp⟩ (by decide)).1,
    rfl,
    (finalize_collision_is_fatal sampleRecorded).2 rfl
      ⟨by simp [StdMap.distinctKeys, sampleRecorded],
        by simp [StdMap.distinctKeys, sampleRecorded]⟩
      (by
        rintro N T ⟨line, per, hN, hT⟩
        simp only [sampleRecorded, List.mem_singleton, Prod.mk.injEq] at hN
        obtain ⟨rfl, rfl⟩ := hN
        simp only [List.mem_singleton, Prod.mk.injEq] at hT
        obtain ⟨rfl, rfl⟩ := hT
        rfl)⟩

/-! ## The claim on what `Finalize` locks -/

/-- C22 (amended): a successful `Finalize` marks the context finalized, and `Finalize` on a
finalized context is fatal, so a second `Finalize` right after a successful one is. The
events do not consult the mark: `STMT`, `VAR`, `ARG`, `FIELD` and `CASE` give on a context
with the mark set to `b` the result they give without it, the mark being kept, and
`MAROON`, `FIBER`, `TYPE`, `ENUM` and `FN` pass the mark on to their body. -/
theorem finalize_guards_only_itself (c : Ctx) (b : Bool) (name type init : String)
    (line : Nat) (ret : Option String) (f : Ctx → Except Fatal Ctx) :
    (∀ c1, c.Finalize = .ok c1 →
      c1.finalized = true ∧
      c1.Finalize = .error (.exit "Internal error, `Finalize()` already called.")) ∧
    (c.finalized = true →
      c.Finalize = .error (.exit "Internal error, `Finalize()` already called.")) ∧
    RegisterStmt { c with finalized := b } line name =
      (match RegisterStmt c line name with
        | .ok c1 => .ok { c1 with finalized := b }
        | .error e => .error e) ∧
    RegisterVar { c with finalized := b } name type init line =
      (match RegisterVar c name type init line with
        | .ok c1 => .ok { c1 with finalized := b }
        | .error e => .error e) ∧
    RegisterArg { c with finalized := b } name type line =
      (match RegisterArg c name type line with
        | .ok c1 => .ok { c1 with finalized := b }
        | .error e => .error e) ∧
    RegisterField { c with finalized := b } name type line =
      (match RegisterField c name type line with
        | .ok c1 => .ok { c1 with finalized := b }
        | .error e => .error e) ∧
    RegisterCase { c with finalized := b } name type line =
      (match RegisterCase c name type line with
        | .ok c1 => .ok { c1 with finalized := b }
        | .error e => .error e) ∧
    RegisterMaroon { c with finalized := b } name line f =
      RegisterMaroon c name line (fun c1 => f { c1 with finalized := b }) ∧
    RegisterFiber { c with finalized := b } name line f =
      RegisterFiber c name line (fun c1 => f { c1 with finalized := b }) ∧
    RegisterType { c with finalized := b } name line f =
      RegisterType c name line (fun c1 => f { c1 with finalized := b }) ∧
    RegisterEnum { c with finalized := b } name line f =
      RegisterEnum c name line (fun c1 => f { c1 with finalized := b }) ∧
    RegisterFn { c with finalized := b } name ret line f =
      RegisterFn c name ret line (fun c1 => f { c1 with finalized := b }) := by
  refine ⟨?_, ?_, ?_, ?_, ?_, ?_, ?_, ?_, ?_, ?_, ?_, ?_⟩
  · intro c1 h
    have hf : c1.finalized = true := by
      simp only [Ctx.Finalize] at h
      split at h
      · cases h
      · split at h
        · cases h
        · simp only [Except.ok.injEq] at h
          subst h
          rfl
    exact ⟨hf, by simp [Ctx.Finalize, hf]⟩
  · intro hf
    simp [Ctx.Finalize, hf]
  · rcases hs : c.current_fn_blocks_stack with _ | ⟨⟨l, vs, code⟩, rest⟩ <;>
      simp [RegisterStmt, Ctx.InFunction, Ctx.AddToBlock, hs]
  · rcases hs : c.current_fn_blocks_stack with _ | ⟨⟨l, vs, code⟩, rest⟩ <;>
      by_cases h : isOptionalSpelling type = true <;>
      simp [RegisterVar, Ctx.InFunction, Ctx.AddVarToBlock, SupportOptionalTypes,
        Ctx.ConsiderOptionalType, hs, h]
  · rcases hs : c.current_fn_blocks_stack with _ | ⟨⟨l, vs, code⟩, rest⟩ <;>
      simp [RegisterArg, Ctx.InFunction, Ctx.AddVarToBlock, Ctx.AddArgToFunction, hs]
  · by_cases ht : c.current_type_name = "" <;>
      by_cases h : isOptionalSpelling type = true <;>
      cases hd : (StdMap.at (c.out.typesOf c.current_maroon_name) c.current_type_name).def_ <;>
      simp [RegisterField, SupportOptionalTypes, Ctx.ConsiderOptionalType, ht, h, hd]
  · by_cases ht : c.current_type_name = "" <;>
      by_cases h : isOptionalSpelling type = true <;>
      cases hd : (StdMap.at (c.out.typesOf c.current_maroon_name) c.current_type_name).def_ <;>
      simp [RegisterCase, SupportOptionalTypes, Ctx.ConsiderOptionalType, ht, h, hd]
  · rfl
  · rfl
  · rfl
  · rfl
  · by_cases h1 : c.current_fiber_name = "" <;>
      by_cases h2 : (c.out.function c.current_maroon_name c.current_fiber_name name).isSome <;>
      rcases hs : c.current_fn_blocks_stack with _ | ⟨blk, rest⟩ <;>
      simp [RegisterFn, Ctx.EnterFunction, h1, h2, hs]

/-- Witness of C22 (amended): `Finalize` on `sampleRecorded` gives `sampleFinalized`, which
is marked and on which `Finalize` is fatal. -/
theorem finalize_guards_only_itself_witness :
    sampleRecorded.Finalize = .ok sampleFinalized ∧
    sampleFinalized.finalized = true ∧
    sampleFinalized.Finalize = .error (.exit "Internal error, `Finalize()` already called.") :=
  ⟨rfl, (finalize_guards_only_itself sampleRecorded false "" "" "" 0 none
    (fun c => .ok c)).1 sampleFinalized rfl⟩

/-- C22 (counterexample): on the finalized context that `Finalize` makes of
`sampleRecorded`, `MAROON(late)` holding `TYPE(T)` with `FIELD(f, U64)` is accepted, and the
program, which had no namespace `late`, has one afterwards. -/
theorem events_after_finalize_are_accepted :
    sampleRecorded.Finalize = .ok sampleFinalized ∧
    RegisterMaroon sampleFinalized "late" 20 (fun c =>
      RegisterType c "T" 21 (fun c => RegisterField c "f" "U64" 22)) =
        .ok sampleAfterLateEvents ∧
    StdMap.find sampleFinalized.out.maroon "late" = none ∧
    StdMap.count sampleAfterLateEvents.out.maroon "late" = 1 :=
  ⟨rfl, rfl, rfl, rfl⟩

/-! ## The claim on closing a function at the wrong depth -/

/-- C23 (evidence): `FN(main)` whose body opens a block and does not close it reaches
`LeaveFunction` with two blocks on the stack (`sampleTwoDeep`); `LeaveFunction` does not
stop there: it installs the block on top, the empty inner one, as the body of `main`, and
the build goes on to close the fiber and the namespace and to succeed in `Finalize`. -/
theorem unbalanced_function_is_installed :
    sampleTwoDeep.BlocksDepth = 2 ∧
    sampleTwoDeep.LeaveFunction = .ok sampleTwoDeepLeft ∧
    sampleTwoDeepLeft.out.function "ns" "global" "main" =
      some { line := 3, body := MaroonIRBlock.new } ∧
    RegisterMaroon {} "ns" 1 (fun c => RegisterFiber c "global" 2 (fun c =>
      RegisterFn c "main" none 3 (openBlockOnly 4))) =
        .ok { sampleTwoDeepLeft with current_maroon_name := "", current_fiber_name := "" } ∧
    ({ sampleTwoDeepLeft with current_maroon_name := "", current_fiber_name := "" } : Ctx).Finalize =
      .ok { sampleTwoDeepLeft with
        current_maroon_name := "", current_fiber_name := "", finalized := true } :=
  ⟨rfl, rfl, rfl, rfl, rfl⟩

/-! ## Lemmas on closing a function -/

theorem FN_closes_at_depth_one (c c2 c3 : Ctx) (line : Nat) (body : List DslStmt)
    (h2 : c.EnterFunction line = .ok c2) (h3 : runStmts body c2 = .ok c3) :
    c3.BlocksDepth = 1 := by
  obtain ⟨_, d2, _⟩ := Ctx.EnterFunction_inv h2
  exact (runStmts_kept body c2 c3 h3).depth.trans d2

/-! ## The claim on the arity error -/

theorem arity_message_head (name actual expected : String) :
    (typeMismatchMessage name actual expected).toList.take 1 = ['A'] := by
  simp only [typeMismatchMessage, String.append_toList, List.append_assoc]
  rw [List.take_append_of_le_length (by decide)]
  rfl

/-- C24: on a collector that holds no outcome yet, `call_ignore_return` and
`call_capture_return` throw `WRONG NUMBER OF ARGS` exactly when the number of packed
arguments differs from `number_of_args`, and succeed exactly when it does not; when they
throw, the collector is as it was, with no outcome recorded, and when they succeed the
outcome is a call; and the text `WRONG NUMBER OF ARGS` is not the text of any exception
`AccessVar` throws for a type mismatch, nor the text printed for an argument of the wrong
type. -/
theorem arity_error_iff_count_differs (r : ImplResultCollector) (v number_of_args idx : Nat)
    (f : String) (args : List (Option MaroonValue)) (h : r.status_ = .None) :
    ((r.call_ignore_return number_of_args idx f args).1 =
        .error (.throw "WRONG NUMBER OF ARGS") ↔ args.length ≠ number_of_args) ∧
    ((r.call_capture_return v number_of_args idx f args).1 =
        .error (.throw "WRONG NUMBER OF ARGS") ↔ args.length ≠ number_of_args) ∧
    ((r.call_ignore_return number_of_args idx f args).1 = .ok () ↔
      args.length = number_of_args) ∧
    ((r.call_capture_return v number_of_args idx f args).1 = .ok () ↔
      args.length = number_of_args) ∧
    (args.length ≠ number_of_args →
      (r.call_ignore_return number_of_args idx f args).2 = r ∧
      (r.call_capture_return v number_of_args idx f args).2 = r ∧
      (r.call_ignore_return number_of_args idx f args).2.status = .None ∧
      (r.call_capture_return v number_of_args idx f args).2.status = .None) ∧
    (args.length = number_of_args →
      (r.call_ignore_return number_of_args idx f args).2.status = .Call ∧
      (r.call_capture_return v number_of_args idx f args).2.status = .Call) ∧
    (∀ name actual expected : String,
      "WRONG NUMBER OF ARGS" ≠ typeMismatchMessage name actual expected) ∧
    "WRONG NUMBER OF ARGS" ≠
      "Internal error: function argument type does not match (should not happen)." := by
  refine ⟨?_, ?_, ?_, ?_, ?_, ?_, ?_, by decide⟩
  · by_cases ha : args.length = number_of_args <;>
      simp [ImplResultCollector.call_ignore_return, h, ha]
  · by_cases ha : args.length = number_of_args <;>
      simp [ImplResultCollector.call_capture_return, h, ha]
  · by_cases ha : args.length = number_of_args <;>
      simp [ImplResultCollector.call_ignore_return, h, ha]
  · by_cases ha : args.length = number_of_args <;>
      simp [ImplResultCollector.call_capture_return, h, ha]
  · intro ha
    simp [ImplResultCollector.call_ignore_return, ImplResultCollector.call_capture_return,
      ImplResultCollector.status, h, ha]
  · intro ha
    simp [ImplResultCollector.call_ignore_return, ImplResultCollector.call_capture_return,
      ImplResultCollector.status, h, ha]
  · intro name actual expected
    refine String.ne_of_take 1 ?_
    rw [arity_message_head]
    decide

/-- Witness of C24: one packed argument for a callee of two. -/
theorem arity_error_iff_count_differs_witness :
    (({} : ImplResultCollector).call_ignore_return 2 3 "add" [some (U64 2)]).1 =
      .error (.throw "WRONG NUMBER OF ARGS") ∧
    (({} : ImplResultCollector).call_capture_return 0 2 3 "add" [some (U64 2)]).1 =
      .error (.throw "WRONG NUMBER OF ARGS") ∧
    (({} : ImplResultCollector).call_ignore_return 2 3 "add" [some (U64 2)]).2.status =
      .None :=
  ⟨(arity_error_iff_count_differs {} 0 2 3 "add" [some (U64 2)] rfl).1.mpr (by decide),
    (arity_error_iff_count_differs {} 0 2 3 "add" [some (U64 2)] rfl).2.1.mpr (by decide),
    ((arity_error_iff_count_differs {} 0 2 3 "add" [some (U64 2)] rfl).2.2.2.2.1
      (by decide)).2.2.1⟩

/-! ## Lemmas on binding arguments -/

theorem ImplEnv.DeclareFunctionArg_mismatch (T_VAR : MaroonClass) (env : ImplEnv)
    (top : ImplCallStackEntry) (rest : List ImplCallStackEntry) (idx : Nat) (name : String)
    (value : MaroonValue) (hstack : env.call_stack_ = top :: rest)
    (hidx : idx = top.vars_.length)
    (harg : top.args_.get? top.args_used_ = some (some value))
    (hne : T_VAR.MAROON_type_name_static ≠ value.MAROON_type_name) :
    ImplEnv.DeclareFunctionArg T_VAR env idx name = .error (.exit argumentTypeMessage) := by
  have hlt : top.args_used_ < top.args_.length := by
    by_contra hc
    rw [List.get?_eq_none.mpr (Nat.le_of_not_lt hc)] at harg
    cases harg
  have hge : ¬ top.args_used_ ≥ top.args_.length := Nat.not_le.mpr hlt
  simp only [ImplEnv.DeclareFunctionArg, hstack, hidx, ne_eq, not_true_eq_false, if_false, hge,
    harg, hne, not_false_eq_true, if_true, argumentTypeMessage]

theorem ImplEnv.DeclareFunctionArg_match (T_VAR : MaroonClass) (env : ImplEnv)
    (top : ImplCallStackEntry) (rest : List ImplCallStackEntry) (idx : Nat) (name : String)
    (value : MaroonValue) (hstack : env.call_stack_ = top :: rest)
    (hidx : idx = top.vars_.length)
    (harg : top.args_.get? top.args_used_ = some (some value))
    (heq : T_VAR.MAROON_type_name_static = value.MAROON_type_name) :
    ImplEnv.DeclareFunctionArg T_VAR env idx name =
      .ok { env with call_stack_ :=
        { top with
          vars_ := top.vars_ ++ [{ name := name, value := some value }]
          args_ := top.args_.set top.args_used_ none
          args_used_ := top.args_used_ + 1 } :: rest } := by
  have hlt : top.args_used_ < top.args_.length := by
    by_contra hc
    rw [List.get?_eq_none.mpr (Nat.le_of_not_lt hc)] at harg
    cases harg
  have hge : ¬ top.args_used_ ≥ top.args_.length := Nat.not_le.mpr hlt
  simp only [ImplEnv.DeclareFunctionArg, hstack, hidx, ne_eq, not_true_eq_false, if_false, hge,
    harg, heq]

theorem declareArgs_mismatch : ∀ (decl : List (MaroonClass × String)) (k : Nat) (env : ImplEnv)
    (top : ImplCallStackEntry) (rest : List ImplCallStackEntry) (idx : Nat),
    env.call_stack_ = top :: rest → idx = top.vars_.length →
    (∀ j T_VAR name, j < k → decl.get? j = some (T_VAR, name) →
      ∃ v, top.args_.get? (top.args_used_ + j) = some (some v) ∧
        T_VAR.MAROON_type_name_static = v.MAROON_type_name) →
    (∃ T_VAR name v, decl.get? k = some (T_VAR, name) ∧
      top.args_.get? (top.args_used_ + k) = some (some v) ∧
      T_VAR.MAROON_type_name_static ≠ v.MAROON_type_name) →
    declareArgs decl idx env = .error (.exit argumentTypeMessage)
  | [], k, env, top, rest, idx, _, _, _, hbad => by
    obtain ⟨_, _, _, h, _⟩ := hbad
    simp at h
  | (T0, n0) :: decl, 0, env, top, rest, idx, hstack, hidx, _, hbad => by
    obtain ⟨T_VAR, name, v, h, ha, hne⟩ := hbad
    simp only [List.get?_cons_zero, Option.some.injEq, Prod.mk.injEq] at h
    obtain ⟨rfl, rfl⟩ := h
    simp only [declareArgs,
      ImplEnv.DeclareFunctionArg_mismatch T0 env top rest idx n0 v hstack hidx ha hne]
  | (T0, n0) :: decl, k + 1, env, top, rest, idx, hstack, hidx, hpre, hbad => by
    obtain ⟨v0, ha0, heq0⟩ := hpre 0 T0 n0 (Nat.succ_pos k) rfl
    simp only [declareArgs,
      ImplEnv.DeclareFunctionArg_match T0 env top rest idx n0 v0 hstack hidx ha0 heq0]
    have hother : ∀ j, (top.args_.set top.args_used_ none).get? (top.args_used_ + 1 + j) =
        top.args_.get? (top.args_used_ + (j + 1)) := by
      intro j
      have e : top.args_used_ + 1 + j = top.args_used_ + (j + 1) := by omega
      rw [e, List.get?_eq_getElem?, List.get?_eq_getElem?, List.getElem?_set_ne (by omega)]
    apply declareArgs_mismatch decl k _ _ rest (idx + 1) rfl
    · simp [hidx]
    · intro j T_VAR name hj hd
      obtain ⟨v, ha, heq⟩ := hpre (j + 1) T_VAR name (Nat.succ_lt_succ hj) (by simpa using hd)
      exact ⟨v, (hother j).trans ha, heq⟩
    · obtain ⟨T_VAR, name, v, h, ha, hne⟩ := hbad
      exact ⟨T_VAR, name, v, by simpa using h, (hother k).trans ha, hne⟩

theorem MaroonEngine.iteration_of_new_vars_stop (T : T_FIBER) (env : ImplEnv)
    (top : ImplCallStackEntry) (rest : List ImplCallStackEntry) (step : MaroonStep) (e : Stop)
    (hstack : env.call_stack_ = top :: rest) (hidx : top.current_idx_ < T.kStepsCount)
    (hstep : T.MAROON_steps.get? top.current_idx_ = some step)
    (hav : top.vars_.length = step.num_vars_available_before_step)
    (hnew : step.new_vars env = .error e) : MaroonEngine.iteration T env = .error e := by
  have h1 : ¬ top.current_idx_ ≥ T.kStepsCount := Nat.not_le.mpr hidx
  have hstep1 : T.MAROON_steps[top.current_idx_]? = some step := by simpa using hstep
  simp [MaroonEngine.iteration, MaroonEngine.prepareStep, hstack, h1, hstep1, hav, hnew]

theorem MaroonEngine.run_of_stop (T : T_FIBER) (fuel k : Nat) (env : ImplEnv) (msg : String)
    (hk : k < fuel) (hreach : MaroonEngine.iterations T k (MaroonEngine.initial T) = .ok env)
    (hne : env.call_stack_ ≠ [])
    (hstop : MaroonEngine.iteration T env = .error (.exit msg)) :
    MaroonEngine.run T fuel = .error (.exit msg) := by
  obtain ⟨n, rfl⟩ : ∃ n, fuel = k + (n + 1) := ⟨fuel - k - 1, by omega⟩
  have h := MaroonEngine.loop_of_iterations T k _ env hreach hne (n + 1)
  have he : ¬ env.call_stack_.isEmpty = true := fun h0 => hne (List.isEmpty_iff.mp h0)
  have hl : MaroonEngine.loop T (n + 1) env = .error (.exit msg) := by
    rw [MaroonEngine.loop, if_neg he]
    simp only [hstop]
  simp only [MaroonEngine.run, h, hl]

/-! ## The claim on an argument of the wrong type -/

/-- C25 (amended): when the run reaches, after `k` passes, a new frame on top whose first
step materializes the declared arguments `decl` in order, the packed values before position
`j` have the declared type names and the one at position `j` has another type name than the
declared one, then `DeclareFunctionArg` prints its internal-error message and calls
`std::exit(1)`: `run` does not return, in particular not a pair of an empty transcript and a
message. -/
theorem argument_of_wrong_type_exits (T : T_FIBER) (fuel k j : Nat) (env : ImplEnv)
    (top : ImplCallStackEntry) (rest : List ImplCallStackEntry) (step : MaroonStep)
    (decl : List (MaroonClass × String)) (hk : k < fuel)
    (hreach : MaroonEngine.iterations T k (MaroonEngine.initial T) = .ok env)
    (hstack : env.call_stack_ = top :: rest) (hvars : top.vars_ = [])
    (hused : top.args_used_ = 0) (hidx : top.current_idx_ < T.kStepsCount)
    (hstep : T.MAROON_steps.get? top.current_idx_ = some step)
    (hav : step.num_vars_available_before_step = 0)
    (hnew : step.new_vars = declareArgs decl 0)
    (hpre : ∀ i T_VAR name, i < j → decl.get? i = some (T_VAR, name) →
      ∃ v, top.args_.get? i = some (some v) ∧
        T_VAR.MAROON_type_name_static = v.MAROON_type_name)
    (hbad : ∃ T_VAR name v, decl.get? j = some (T_VAR, name) ∧
      top.args_.get? j = some (some v) ∧
      T_VAR.MAROON_type_name_static ≠ v.MAROON_type_name) :
    MaroonEngine.run T fuel = .error (.exit argumentTypeMessage) ∧
    ∀ msg, MaroonEngine.run T fuel ≠ .ok ("", msg) := by
  have hd : declareArgs decl 0 env = .error (.exit argumentTypeMessage) := by
    apply declareArgs_mismatch decl j env top rest 0 hstack (by simp [hvars])
    · intro i T_VAR name hi hg
      simpa [hused] using hpre i T_VAR name hi hg
    · simpa [hused] using hbad
  have hi : MaroonEngine.iteration T env = .error (.exit argumentTypeMessage) :=
    MaroonEngine.iteration_of_new_vars_stop T env top rest step _ hstack hidx hstep
      (by simp [hvars, hav]) (by rw [hnew]; exact hd)
  have hr := MaroonEngine.run_of_stop T fuel k env argumentTypeMessage hk hreach
    (by simp [hstack]) hi
  refine ⟨hr, fun msg h => ?_⟩
  rw [hr] at h
  cases h

/-- Witness of C25 (amended) on `argOfWrongClass`: after one pass the frame of `f` holds the
packed `U64` and its first step declares a `BOOL`. -/
theorem argument_of_wrong_type_exits_witness :
    MaroonEngine.iterations argOfWrongClass 1 (MaroonEngine.initial argOfWrongClass) =
      .ok inWrongCall ∧
    MaroonEngine.run argOfWrongClass 10 = .error (.exit argumentTypeMessage) ∧
    ∀ msg, MaroonEngine.run argOfWrongClass 10 ≠ .ok ("", msg) :=
  ⟨rfl, argument_of_wrong_type_exits argOfWrongClass 10 1 0 inWrongCall
    { current_idx_ := 2, f_ := "f", args_ := [some (U64 1)] }
    [{ current_idx_ := (0 + 1) % 2 ^ 32 }]
    { num_vars_available_before_step := 0
      num_vars_declared_for_step := 1
      new_vars := declareArgs [(.MAROON_TYPE_BOOL, "b")] 0
      code := onCollector (fun r => r.ret) }
    [(.MAROON_TYPE_BOOL, "b")] (by decide) rfl rfl rfl rfl (by decide) rfl rfl rfl
    (fun i _ _ hi => absurd hi (Nat.not_lt_zero i))
    ⟨.MAROON_TYPE_BOOL, "b", U64 1, rfl, rfl, by decide⟩⟩

/-- C25 (counterexample): in `argOfWrongClass` the callee `f` binds its first argument, a
packed value whose type name is `U64`, as a `BOOL`; the run does not return a pair: it stops
by `std::exit(1)` with the internal-error message. -/
theorem wrong_argument_type_is_not_returned :
    (U64 1).MAROON_type_name = "U64" ∧
    MaroonClass.MAROON_TYPE_BOOL.MAROON_type_name_static = "BOOL" ∧
    MaroonEngine.run argOfWrongClass 10 =
      .error (.exit "Internal error: function argument type does not match (should not happen).") :=
  ⟨rfl, rfl, rfl⟩

/-! ## The claim on the type names a program mentions -/

/-- C26 (amended): the builder accepts every type text and checks none. In a function, `VAR`
succeeds and stores `storedType type`, and `ARG` succeeds and stores `type` as written, in
the var and in the argument list of the function; in a struct `FIELD`, and in an enum `CASE`,
succeeds and stores `storedType type`. `storedType` turns `OPTIONAL<T>` into `OPTIONAL_T`
and is the identity on every text that is not of this spelling. -/
theorem type_names_are_stored_unchecked (c : Ctx) (name type init : String) (line : Nat) :
    (∀ (l : Nat) (vs : List MaroonIRVar) (code : List MaroonIRStmtOrBlock)
        (rest : List MaroonIRBlock),
      c.current_fn_blocks_stack = .mk l vs code :: rest →
      (∃ c1, RegisterVar c name type init line = .ok c1 ∧
        c1.current_fn_blocks_stack =
          .mk l (vs ++ [.MaroonIRVarRegular line name (storedType type) (storedInit init)])
            code :: rest) ∧
      (∃ c1, RegisterArg c name type line = .ok c1 ∧
        c1.current_fn_blocks_stack =
          .mk l (vs ++ [.MaroonIRVarFunctionArg line name type]) code :: rest ∧
        c1.out = c.out.modifyFunction c.current_maroon_name c.current_fiber_name
          c.current_function_name (fun fn => { fn with args := fn.args ++ [type] }))) ∧
    (∀ fields : List MaroonIRTypeDefStructField, c.current_type_name ≠ "" →
      c.activeTypeDef = .MaroonIRTypeDefStruct fields →
      ∃ c1, RegisterField c name type line = .ok c1 ∧
        (StdMap.at (c1.out.typesOf c.current_maroon_name) c.current_type_name).def_ =
          .MaroonIRTypeDefStruct (fields ++ [{ name := name, type := storedType type }])) ∧
    (∀ cases : List MaroonIRTypeDefEnumCase, c.current_type_name ≠ "" →
      c.activeTypeDef = .MaroonIRTypeDefEnum cases →
      ∃ c1, RegisterCase c name type line = .ok c1 ∧
        (StdMap.at (c1.out.typesOf c.current_maroon_name) c.current_type_name).def_ =
          .MaroonIRTypeDefEnum (cases ++ [{ key := name, type := storedType type }])) ∧
    (∀ T : String, storedType ("OPTIONAL<" ++ T ++ ">") = "OPTIONAL_" ++ T) ∧
    (¬ ("OPTIONAL<".toList <+: type.toList ∧ ">".toList <:+ type.toList) →
      storedType type = type) := by
  obtain ⟨s2, s0, _, f0⟩ := SupportOptionalTypes_spec c type line
  obtain ⟨ho, _⟩ := SupportOptionalTypes_out c type line
  refine ⟨?_, ?_, ?_, ?_, ?_⟩
  · intro l vs code rest hs
    constructor
    · refine ⟨{ (SupportOptionalTypes c type line).1 with current_fn_blocks_stack :=
        (.mk l (vs ++ [.MaroonIRVarRegular line name (storedType type) (storedInit init)])
          code :: rest) }, ?_, rfl⟩
      simp [RegisterVar, c.InFunction_of_stack hs, Ctx.AddVarToBlock, s0.trans hs, s2]
    · obtain ⟨c1, h1, h2, _⟩ := RegisterArg_keeps_type_text c name type line l vs code rest hs
      refine ⟨c1, h1, h2, ?_⟩
      have hs1 : (c.AddArgToFunction type).current_fn_blocks_stack = .mk l vs code :: rest := hs
      simp only [RegisterArg, c.InFunction_of_stack hs, Bool.not_true, Bool.false_eq_true,
        if_false, Ctx.AddVarToBlock, hs1, Except.ok.injEq] at h1
      subst h1
      rfl
  · intro fields ht hd
    unfold Ctx.activeTypeDef at hd
    refine ⟨{ (SupportOptionalTypes c type line).1 with
      out := (c.out.modifyType c.current_maroon_name c.current_type_name
        (fun t => { t with def_ := (.MaroonIRTypeDefStruct
          (fields ++ [{ name := name, type := storedType type }])) })) }, ?_, ?_⟩
    · simp only [RegisterField, ht, if_false, ho, f0.current_maroon_name, f0.current_type_name,
        hd, s2]
    · simp [MaroonIRScenarios.typesOf_modifyType, StdMap.at_modify_self]
  · intro cases ht hd
    unfold Ctx.activeTypeDef at hd
    refine ⟨{ (SupportOptionalTypes c type line).1 with
      out := (c.out.modifyType c.current_maroon_name c.current_type_name
        (fun t => { t with def_ := (.MaroonIRTypeDefEnum
          (cases ++ [{ key := name, type := storedType type }])) })) }, ?_, ?_⟩
    · simp only [RegisterCase, ht, if_false, ho, f0.current_maroon_name, f0.current_type_name,
        hd, s2]
    · simp [MaroonIRScenarios.typesOf_modifyType, StdMap.at_modify_self]
  · intro T
    simp [storedType, isOptionalSpelling_wrap, optionalInner_wrap]
  · intro h
    have : ¬ isOptionalSpelling type = true := fun h1 => h ((isOptionalSpelling_iff type).mp h1)
    simp [storedType, this]

/-- Witness of C26 (amended) in `sampleInFn`: `VAR(x, Foo, 0)` is accepted and its type is
stored as `Foo`. -/
theorem type_names_are_stored_unchecked_witness :
    ∃ c1 : Ctx, RegisterVar sampleInFn "x" "Foo" "0" 4 = .ok c1 ∧
      c1.current_fn_blocks_stack =
        [.mk 2 [.MaroonIRVarRegular 4 "x" "Foo" "0"] [.MaroonIRStmt 3 "DEBUG(0)"]] := by
  obtain ⟨c1, h1, h2⟩ :=
    ((type_names_are_stored_unchecked sampleInFn "x" "Foo" "0" 4).1 2 []
      [.MaroonIRStmt 3 "DEBUG(0)"] [] rfl).1
  exact ⟨c1, h1, h2.trans rfl⟩

/-- C26 (counterexample): `undeclaredTypeProgram` builds; its variable `x` has the type
`Foo` and the field `a` of its struct `Pair` has the type `Bar`; neither name is a base
type, starts with `OPTIONAL_`, or is in the type table of the namespace, which holds `Pair`
alone. -/
theorem undeclared_type_names_are_accepted :
    buildProgram undeclaredTypeProgram = .ok undeclaredTypeBuilt ∧
    undeclaredTypeBuilt.out.function "ns" "global" "main" =
      some { line := 3, body := (.mk 3 [.MaroonIRVarRegular 4 "x" "Foo" "0"]
        [.MaroonIRStmt 5 "RETURN()"]) } ∧
    undeclaredTypeBuilt.out.typesOf "ns" =
      [("Pair", { line := 6, def_ := .MaroonIRTypeDefStruct [{ name := "a", type := "Bar" }] })] ∧
    (∀ t ∈ ["Foo", "Bar"], t ≠ "U64" ∧ t ≠ "BOOL" ∧ ¬ "OPTIONAL_".toList <+: t.toList ∧
      StdMap.find (undeclaredTypeBuilt.out.typesOf "ns") t = none) :=
  ⟨rfl, rfl, rfl, by decide⟩

/-- C27 (evidence): `ARG` is accepted anywhere inside a function. `RegisterArg` pushes the
type to `args` of the function and the var to the innermost open block, wherever that is.
With `VAR(x, U64, 0); ARG(a, BOOL);` the built function has `args = ["BOOL"]` while the first
var of its top-level block is the regular var `x`; with the `ARG` inside a `BLOCK` the built
function has `args = ["U64"]` while its top-level block has no var at all. -/
theorem argument_vars_need_not_come_first :
    (match FN sampleCtx "f" none 3 argAfterVar with
      | .ok c => c.out.function "ns" "global" "f"
      | .error _ => none) =
      some { line := 3, args := ["BOOL"]
             body := (.mk 3 [.MaroonIRVarRegular 4 "x" "U64" "0",
                             .MaroonIRVarFunctionArg 5 "a" "BOOL"]
                            [.MaroonIRStmt 6 "RETURN()"]) } ∧
    (match FN sampleCtx "g" none 7 argInBlock with
      | .ok c => c.out.function "ns" "global" "g"
      | .error _ => none) =
      some { line := 7, args := ["U64"]
             body := (.mk 7 []
               [.MaroonIRBlock (.mk 8 [.MaroonIRVarFunctionArg 9 "b" "U64"]
                                      [.MaroonIRStmt 10 "RETURN()"])]) } :=
  ⟨rfl, rfl⟩

/-- C28 (evidence): `AddArms` pushes every arm it is given. A match written with two
`ENUM_DEFAULT` arms is built and the emitted match node holds both, each with an absent key;
a match written with two `ENUM_ARM` arms for the case `U64` is built and the emitted match
node holds both, each with the key `U64`. -/
theorem repeated_arms_are_emitted :
    (match FN sampleCtx "main" none 3 twoDefaultArms with
      | .ok c => c.out.function "ns" "global" "main"
      | .error _ => none) =
      some { line := 3
             body := (.mk 3 []
               [ .MaroonIRMatchEnumStmt 4 "x"
                   [ .mk 5 none none (.mk 5 [] [.MaroonIRStmt 5 "DEBUG(1)"]),
                     .mk 6 none none (.mk 6 [] [.MaroonIRStmt 6 "DEBUG(2)"]) ] ]) } ∧
    (match FN sampleCtx "main" none 3 twoArmsOfOneCase with
      | .ok c => c.out.function "ns" "global" "main"
      | .error _ => none) =
      some { line := 3
             body := (.mk 3 []
               [ .MaroonIRMatchEnumStmt 4 "x"
                   [ .mk 5 (some "U64") (some "v")
                       (.mk 5 [.MaroonIRVarEnumCaseCapture "v" "U64" "x"]
                         [.MaroonIRStmt 5 "DEBUG_EXPR(v)"]),
                     .mk 6 (some "U64") (some "w")
                       (.mk 6 [.MaroonIRVarEnumCaseCapture "w" "U64" "x"]
                         [.MaroonIRStmt 6 "DEBUG_EXPR(w)"]) ] ]) } :=
  ⟨rfl, rfl⟩

theorem MaroonEngine.iteration_debugStep (T : T_FIBER) (o s : String) (i : Nat)
    (h : T.MAROON_steps.get? i = some (debugStep s)) :
    MaroonEngine.iteration T { os_ := o, call_stack_ := [{ current_idx_ := i }] } =
      .ok { os_ := o ++ s ++ "\n", call_stack_ := [{ current_idx_ := (i + 1) % 2 ^ 32 }] } := by
  have hi : i < T.MAROON_steps.length := by
    rcases Nat.lt_or_ge i T.MAROON_steps.length with h1 | h1
    · exact h1
    · rw [List.get?_eq_none.mpr h1] at h; cases h
  have hi1 : ¬ i ≥ T.kStepsCount := by simp [T_FIBER.kStepsCount]; exact hi
  simp only [MaroonEngine.iteration, MaroonEngine.prepareStep, if_neg hi1, h]
  simp [debugStep, MaroonEngine.applyResult, ImplResultCollector.status, ImplEnv.debug]

theorem MaroonEngine.iteration_returnStep (T : T_FIBER) (o : String) (i : Nat)
    (h : T.MAROON_steps.get? i = some returnStep) :
    MaroonEngine.iteration T { os_ := o, call_stack_ := [{ current_idx_ := i }] } =
      .ok { os_ := o, call_stack_ := [] } := by
  have hi : i < T.MAROON_steps.length := by
    rcases Nat.lt_or_ge i T.MAROON_steps.length with h1 | h1
    · exact h1
    · rw [List.get?_eq_none.mpr h1] at h; cases h
  have hi1 : ¬ i ≥ T.kStepsCount := by simp [T_FIBER.kStepsCount]; exact hi
  simp only [MaroonEngine.iteration, MaroonEngine.prepareStep, if_neg hi1, h]
  simp [returnStep, onCollector, ImplResultCollector.ret, MaroonEngine.applyResult,
    ImplResultCollector.status]

theorem MaroonEngine.loop_debugThenReturn (ss : List String) (hn : ss.length < 2 ^ 32) :
    ∀ (suf pre : List String) (o : String) (fuel : Nat), ss = pre ++ suf →
      suf.length < fuel →
      MaroonEngine.loop (debugThenReturn ss) fuel
          { os_ := o, call_stack_ := [{ current_idx_ := pre.length }] } =
        .ok { os_ := o ++ linesOf suf, call_stack_ := [] }
  | [], pre, o, fuel, hs, hf => by
    obtain ⟨n, rfl⟩ : ∃ n, fuel = n + 1 := ⟨fuel - 1, by simp at hf; omega⟩
    have hg : (debugThenReturn ss).MAROON_steps.get? pre.length = some returnStep := by
      subst hs
      simp only [debugThenReturn, List.map_append, List.map_nil, List.append_nil]
      rw [List.get?_eq_getElem?, List.getElem?_append_right (by simp)]
      simp
    rw [MaroonEngine.loop]
    simp only [List.isEmpty_cons, Bool.false_eq_true, if_false,
      MaroonEngine.iteration_returnStep _ o _ hg]
    rw [MaroonEngine.loop.eq_def]
    simp [linesOf]
  | s :: suf, pre, o, fuel, hs, hf => by
    obtain ⟨n, rfl⟩ : ∃ n, fuel = n + 1 := ⟨fuel - 1, by simp at hf; omega⟩
    have hg : (debugThenReturn ss).MAROON_steps.get? pre.length = some (debugStep s) := by
      subst hs
      simp only [debugThenReturn, List.map_append, List.map_cons, List.append_assoc]
      rw [List.get?_eq_getElem?, List.getElem?_append_right (by simp)]
      simp
    have hlen : pre.length + 1 < 2 ^ 32 := by
      subst hs
      simp at hn
      omega
    have hmod : (pre.length + 1) % 2 ^ 32 = (pre ++ [s]).length := by
      rw [Nat.mod_eq_of_lt hlen]; simp
    rw [MaroonEngine.loop]
    simp only [List.isEmpty_cons, Bool.false_eq_true, if_false,
      MaroonEngine.iteration_debugStep _ o s _ hg, hmod]
    have ih := MaroonEngine.loop_debugThenReturn ss hn suf (pre ++ [s]) (o ++ s ++ "\n") n
      (by rw [hs]; simp) (by simp at hf; omega)
    rw [ih]
    simp [linesOf, String.append_assoc]

theorem MaroonEngine.applyResult_os (env env1 : ImplEnv) (result : ImplResultCollector)
    (h : MaroonEngine.applyResult env result = .ok env1) : env1.os_ = env.os_ := by
  simp only [MaroonEngine.applyResult] at h
  repeat' split at h
  all_goals first
    | (cases h; rfl)
    | cases h

theorem MaroonEngine.prepareStep_os (T : T_FIBER) (env env2 : ImplEnv) (step : MaroonStep)
    (h : MaroonEngine.prepareStep T env = .ok (step, env2)) :
    step ∈ T.MAROON_steps ∧ ∃ env1, env1.os_ = env.os_ ∧ step.new_vars env1 = .ok env2 := by
  simp only [MaroonEngine.prepareStep] at h
  rcases hs : env.call_stack_ with _ | ⟨top, rest⟩
  · rw [hs] at h; cases h
  · rw [hs] at h
    simp only at h
    split at h
    · cases h
    · rcases hg : T.MAROON_steps.get? top.current_idx_ with _ | st
      · rw [hg] at h; cases h
      · rw [hg] at h
        simp only at h
        split at h
        · cases h
        · rcases hv : st.new_vars (if top.vars_.length > st.num_vars_available_before_step then
              { env with call_stack_ :=
                { top with vars_ := top.vars_.take st.num_vars_available_before_step } :: rest }
            else env) with e | e2
          · rw [hv] at h; cases h
          · rw [hv] at h
            simp only at h
            repeat' split at h
            all_goals cases h
            refine ⟨List.get?_mem hg, _, ?_, hv⟩
            split <;> rfl

theorem MaroonEngine.iteration_appends (T : T_FIBER) (env env1 : ImplEnv)
    (hT : ∀ step ∈ T.MAROON_steps, step.appendsOnly)
    (h : MaroonEngine.iteration T env = .ok env1) : ∃ t, env1.os_ = env.os_ ++ t := by
  simp only [MaroonEngine.iteration] at h
  rcases hp : MaroonEngine.prepareStep T env with e | ⟨step, env2⟩
  · rw [hp] at h; cases h
  · rw [hp] at h
    simp only at h
    obtain ⟨hmem, e1, ho, hv⟩ := MaroonEngine.prepareStep_os T env env2 step hp
    rcases hc : step.code env2 {} with e | ⟨env3, result⟩
    · rw [hc] at h; cases h
    · rw [hc] at h
      simp only at h
      obtain ⟨t1, ht1⟩ := (hT step hmem).1 e1 env2 hv
      obtain ⟨t2, ht2⟩ := (hT step hmem).2 env2 {} env3 result hc
      refine ⟨t1 ++ t2, ?_⟩
      rw [MaroonEngine.applyResult_os env3 env1 result h, ht2, ht1, ho, String.append_assoc]

theorem MaroonEngine.loop_appends (T : T_FIBER)
    (hT : ∀ step ∈ T.MAROON_steps, step.appendsOnly) :
    ∀ (fuel : Nat) (env0 env : ImplEnv), MaroonEngine.loop T fuel env0 = .ok env →
      ∃ t, env.os_ = env0.os_ ++ t
  | fuel, env0, env, h => by
    rw [MaroonEngine.loop.eq_def] at h
    simp only at h
    by_cases he : env0.call_stack_.isEmpty = true
    · rw [if_pos he] at h
      cases h
      exact ⟨"", by simp⟩
    · rw [if_neg he] at h
      cases fuel with
      | zero => cases h
      | succ n =>
        simp only at h
        rcases hi : MaroonEngine.iteration T env0 with e | env1
        · rw [hi] at h; cases h
        · rw [hi] at h
          simp only at h
          obtain ⟨t1, ht1⟩ := MaroonEngine.iteration_appends T env0 env1 hT hi
          obtain ⟨t2, ht2⟩ := MaroonEngine.loop_appends T hT n env1 env h
          exact ⟨t1 ++ t2, by rw [ht2, ht1, String.append_assoc]⟩

theorem MaroonEngine.loop_extends_iterations (T : T_FIBER)
    (hT : ∀ step ∈ T.MAROON_steps, step.appendsOnly) :
    ∀ (k fuel : Nat) (env0 envk env : ImplEnv), MaroonEngine.iterations T k env0 = .ok envk →
      MaroonEngine.loop T fuel env0 = .ok env → ∃ t, env.os_ = envk.os_ ++ t
  | 0, fuel, env0, envk, env, hk, hl => by
    simp only [MaroonEngine.iterations] at hk
    cases hk
    exact MaroonEngine.loop_appends T hT fuel _ env hl
  | k + 1, fuel, env0, envk, env, hk, hl => by
    simp only [MaroonEngine.iterations] at hk
    by_cases he : env0.call_stack_.isEmpty = true
    · rw [if_pos he] at hk
      cases hk
      exact MaroonEngine.loop_appends T hT fuel _ env hl
    · rw [if_neg he] at hk
      rw [MaroonEngine.loop.eq_def] at hl
      simp only at hl
      rw [if_neg he] at hl
      cases fuel with
      | zero => cases hl
      | succ n =>
        simp only at hl
        rcases hi : MaroonEngine.iteration T env0 with e | env1
        · rw [hi] at hl; cases hl
        · rw [hi] at hl hk
          simp only at hl hk
          exact MaroonEngine.loop_extends_iterations T hT k n env1 envk env hk hl

theorem debugStep_appendsOnly (s : String) : (debugStep s).appendsOnly := by
  refine ⟨?_, ?_⟩
  · intro e e1 h
    simp only [debugStep] at h
    cases h
    exact ⟨"", by simp⟩
  · intro e r e1 r1 h
    simp only [debugStep] at h
    cases h
    exact ⟨s ++ "\n", by simp [ImplEnv.debug, String.append_assoc]⟩

theorem returnStep_appendsOnly : returnStep.appendsOnly := by
  refine ⟨?_, ?_⟩
  · intro e e1 h
    simp only [returnStep] at h
    cases h
    exact ⟨"", by simp⟩
  · intro e r e1 r1 h
    simp only [returnStep, onCollector] at h
    split at h
    · cases h
    · cases h
      exact ⟨"", by simp⟩

theorem debugThenReturn_appendsOnly (ss : List String) :
    ∀ step ∈ (debugThenReturn ss).MAROON_steps, step.appendsOnly := by
  intro step h
  simp only [debugThenReturn, List.mem_append, List.mem_map, List.mem_singleton] at h
  rcases h with ⟨s, _, rfl⟩ | rfl
  · exact debugStep_appendsOnly s
  · exact returnStep_appendsOnly

/-- C29: for the step table whose `main` is one `DEBUG(s_i)` step per text of `ss` followed
by a `RETURN()` step (fewer than `2 ^ 32` of them, the width of the step index), `run`, given
more passes than there are texts, returns the transcript `s_1 ++ "\n" ++ ... ++ s_n ++ "\n"`
and an empty error. In general, for any step table: a run whose loop ends returns the
stream as the loop left it together with an empty error; `debug` appends the text and a
newline to the stream; and when the steps only ever append to the stream, the stream after
any number of passes is an initial part of the transcript returned, so that the lines stand
in the order in which they were written. -/
theorem debug_lines_form_the_transcript (ss : List String) (fuel : Nat)
    (hn : ss.length < 2 ^ 32) (hf : ss.length < fuel) :
    MaroonEngine.run (debugThenReturn ss) fuel = .ok (linesOf ss, "") ∧
    (∀ (T : T_FIBER) (fuel1 : Nat) (env : ImplEnv),
      MaroonEngine.loop T fuel1 (MaroonEngine.initial T) = .ok env →
      MaroonEngine.run T fuel1 = .ok (env.os_, "")) ∧
    (∀ (env : ImplEnv) (s : String),
      (env.debug s).os_ = env.os_ ++ s ++ "\n" ∧ (env.debug s).call_stack_ = env.call_stack_) ∧
    (∀ (T : T_FIBER) (fuel1 k : Nat) (envk env : ImplEnv),
      (∀ step ∈ T.MAROON_steps, step.appendsOnly) →
      MaroonEngine.iterations T k (MaroonEngine.initial T) = .ok envk →
      MaroonEngine.loop T fuel1 (MaroonEngine.initial T) = .ok env →
      ∃ t, env.os_ = envk.os_ ++ t) := by
  refine ⟨?_, ?_, ?_, ?_⟩
  · have h := MaroonEngine.loop_debugThenReturn ss hn ss [] "" fuel rfl hf
    have h0 : MaroonEngine.initial (debugThenReturn ss) =
        { os_ := "", call_stack_ := [{ current_idx_ := ([] : List String).length }] } := rfl
    simp only [MaroonEngine.run, h0, h]
    simp
  · intro T fuel1 env h
    simp only [MaroonEngine.run, h]
  · intro env s
    exact ⟨rfl, rfl⟩
  · intro T fuel1 k envk env hT hk hl
    exact MaroonEngine.loop_extends_iterations T hT k fuel1 _ envk env hk hl

/-- Witness of C29: `DEBUG("hi"); DEBUG("hi"); RETURN();` gives the transcript `"hi\nhi\n"`
and an empty error, and the stream after the first pass, `"hi\n"`, begins it. -/
theorem debug_lines_form_the_transcript_witness :
    MaroonEngine.run (debugThenReturn ["hi", "hi"]) 3 = .ok ("hi\nhi\n", "") ∧
    ∃ t, "hi\nhi\n" = "hi\n" ++ t :=
  ⟨(debug_lines_form_the_transcript ["hi", "hi"] 3 (by decide) (by decide)).1,
   (debug_lines_form_the_transcript ["hi", "hi"] 3 (by decide) (by decide)).2.2.2
     (debugThenReturn ["hi", "hi"]) 3 1 { os_ := "hi\n", call_stack_ := [{ current_idx_ := 1 }] }
     { os_ := "hi\nhi\n", call_stack_ := [] }
     (debugThenReturn_appendsOnly ["hi", "hi"]) rfl rfl⟩

theorem ite_ne_of {c : Prop} [Decidable c] {a b x : Char} (ha : a ≠ x) (hb : b ≠ x) :
    (if c then a else b) ≠ x := by
  split <;> assumption

theorem digitChar_ne_newline (d : Nat) : Nat.digitChar d ≠ '\n' := by
  unfold Nat.digitChar
  repeat' first
    | exact (by decide)
    | apply ite_ne_of (by decide)

theorem toDigitsCore_no_newline : ∀ (fuel n : Nat) (acc : List Char),
    '\n' ∉ acc → '\n' ∉ Nat.toDigitsCore 10 fuel n acc
  | 0, n, acc, h => by simpa [Nat.toDigitsCore] using h
  | fuel + 1, n, acc, h => by
    have hc : '\n' ∉ Nat.digitChar (n % 10) :: acc := by
      intro hm
      rcases List.mem_cons.mp hm with h1 | h1
      · exact digitChar_ne_newline _ h1.symm
      · exact h h1
    simp only [Nat.toDigitsCore]
    split
    · exact hc
    · exact toDigitsCore_no_newline fuel _ _ hc

theorem repr_no_newline (n : Nat) : '\n' ∉ (toString n).toList := by
  show '\n' ∉ (Nat.repr n).toList
  simp only [Nat.repr, Nat.toDigits, String.toList, List.asString]
  exact toDigitsCore_no_newline _ _ _ (by simp)

theorem MaroonValue.display_no_newline : ∀ v : MaroonValue, '\n' ∉ v.MAROON_display.toList
  | .MAROON_TYPE_U64 value => by
    simp only [MaroonValue.MAROON_display]
    exact repr_no_newline value
  | .MAROON_TYPE_BOOL value => by
    cases value <;> simp only [MaroonValue.MAROON_display] <;> decide
  | .MAROON_TYPE_OPTIONAL _ _ .none => by
    simp only [MaroonValue.MAROON_display, MaroonOptional.MAROON_display]
    decide
  | .MAROON_TYPE_OPTIONAL _ _ (.some w) => by
    have ih := MaroonValue.display_no_newline w
    simp only [MaroonValue.MAROON_display, MaroonOptional.MAROON_display, String.toList,
      String.data_append, List.mem_append, not_or]
    exact ⟨⟨by decide, ih⟩, by decide⟩

/-- C30: `debug_expr(e, v)` leaves as the stream what was there followed by the one line
`e ++ "=" ++ display(v) ++ "\n"`, and leaves the call stack alone. The display of a `U64` is
its decimal numeral, the display of a `BOOL` is `true` or `false`, the display of an optional
is `None` when it is empty and `Some(` ++ the display of the value ++ `)` when it holds one.
No display contains a newline, so the text appended has as many newlines as `e` has, and one
more, at its end. On the stream `"hi\n"`, the expression text `x` and an optional holding the
`U64` 42 give `"hi\nx=Some(42)\n"`. -/
theorem debug_expr_appends_one_line (env : ImplEnv) (e : String) (v : MaroonValue) :
    (env.debug_expr e v).os_ = env.os_ ++ (e ++ "=" ++ v.MAROON_display ++ "\n") ∧
    (env.debug_expr e v).call_stack_ = env.call_stack_ ∧
    (e ++ "=" ++ v.MAROON_display ++ "\n").toList.count '\n' = e.toList.count '\n' + 1 ∧
    (∀ n : Nat, (MaroonValue.MAROON_TYPE_U64 n).MAROON_display = toString n) ∧
    (BOOL true).MAROON_display = "true" ∧ (BOOL false).MAROON_display = "false" ∧
    (∀ alias_ inner : String,
      (MaroonValue.MAROON_TYPE_OPTIONAL alias_ inner .none).MAROON_display = "None") ∧
    (∀ (alias_ inner : String) (w : MaroonValue),
      (MaroonValue.MAROON_TYPE_OPTIONAL alias_ inner (.some w)).MAROON_display =
        "Some(" ++ w.MAROON_display ++ ")") ∧
    (ImplEnv.debug_expr { os_ := "hi\n" } "x"
      (.MAROON_TYPE_OPTIONAL "OPTIONAL_U64" "U64" (.some (U64 42)))).os_ = "hi\nx=Some(42)\n" := by
  refine ⟨?_, rfl, ?_, fun _ => ?_, ?_, ?_, fun _ _ => ?_, fun _ _ _ => ?_, by decide⟩
  · simp [ImplEnv.debug_expr, String.append_assoc]
  · have h := MaroonValue.display_no_newline v
    have h0 : List.count '\n' v.MAROON_display.data = 0 := List.count_eq_zero_of_not_mem h
    have h1 : List.count '\n' "=".data = 0 := by decide
    have h2 : List.count '\n' "\n".data = 1 := by decide
    simp only [String.toList, String.data_append, List.count_append]
    rw [h0, h1, h2]
  · simp [MaroonValue.MAROON_display]
  · rfl
  · rfl
  · simp [MaroonValue.MAROON_display, MaroonOptional.MAROON_display]
  · simp [MaroonValue.MAROON_display, MaroonOptional.MAROON_display]

theorem intercalate_go_comma : ∀ (xs : List String) (acc : String),
    String.intercalate.go acc "," xs = acc ++ commaTail xs
  | [], acc => by simp [String.intercalate.go, commaTail]
  | x :: xs, acc => by
    simp [String.intercalate.go, commaTail, intercalate_go_comma xs, String.append_assoc]

theorem intercalate_comma_cons (x : String) (xs : List String) :
    String.intercalate "," (x :: xs) = x ++ commaTail xs := by
  simp [String.intercalate, intercalate_go_comma]

theorem do_debug_dump_vars.loop_rest : ∀ (vars : List ImplVar), allBoxed vars = true →
    do_debug_dump_vars.loop false vars = .ok (commaTail (vars.map varText))
  | [], _ => by simp [do_debug_dump_vars.loop, commaTail]
  | v :: vs, h => by
    simp only [allBoxed, List.all_cons, Bool.and_eq_true] at h
    have ih := do_debug_dump_vars.loop_rest vs h.2
    rcases hv : v.value with _ | x
    · simp [ImplVar.boxed, hv] at h
    · simp [do_debug_dump_vars.loop, hv, ih, commaTail, varText, String.append_assoc]

theorem ImplEnv.do_debug_dump_vars_boxed (vars : List ImplVar) (h : allBoxed vars = true) :
    ImplEnv.do_debug_dump_vars vars = .ok (varsText vars) := by
  rcases vars with _ | ⟨v, vs⟩
  · simp [ImplEnv.do_debug_dump_vars, do_debug_dump_vars.loop, varsText, String.intercalate]
  · simp only [allBoxed, List.all_cons, Bool.and_eq_true] at h
    have ih := do_debug_dump_vars.loop_rest vs h.2
    rcases hv : v.value with _ | x
    · simp [ImplVar.boxed, hv] at h
    · simp [ImplEnv.do_debug_dump_vars, do_debug_dump_vars.loop, hv, ih, varsText,
        intercalate_comma_cons, varText, String.append_assoc]

theorem debug_dump_stack.loop_frames_rest : ∀ (frames : List ImplCallStackEntry),
    (∀ fr ∈ frames, allBoxed fr.vars_ = true) →
    debug_dump_stack.loop false frames = .ok (commaTail (frames.map frameText))
  | [], _ => by simp [debug_dump_stack.loop, commaTail]
  | fr :: frs, h => by
    have h1 := ImplEnv.do_debug_dump_vars_boxed fr.vars_ (h fr (List.mem_cons_self _ _))
    have ih := debug_dump_stack.loop_frames_rest frs (fun g hg => h g (List.mem_cons_of_mem _ hg))
    by_cases hf : fr.f_ = ""
    · simp [debug_dump_stack.loop, h1, ih, commaTail, frameText, hf, String.append_assoc]
    · simp [debug_dump_stack.loop, h1, ih, commaTail, frameText, hf, String.append_assoc]

theorem debug_dump_stack.loop_first (frames : List ImplCallStackEntry)
    (h : ∀ fr ∈ frames, allBoxed fr.vars_ = true) :
    debug_dump_stack.loop true frames = .ok (String.intercalate "," (frames.map frameText)) := by
  rcases frames with _ | ⟨fr, frs⟩
  · simp [debug_dump_stack.loop, String.intercalate]
  · have h1 := ImplEnv.do_debug_dump_vars_boxed fr.vars_ (h fr (List.mem_cons_self _ _))
    have ih := debug_dump_stack.loop_frames_rest frs (fun g hg => h g (List.mem_cons_of_mem _ hg))
    by_cases hf : fr.f_ = ""
    · simp [debug_dump_stack.loop, h1, ih, intercalate_comma_cons, frameText, hf,
        String.append_assoc]
    · simp [debug_dump_stack.loop, h1, ih, intercalate_comma_cons, frameText, hf,
        String.append_assoc]

theorem ImplEnv.debug_dump_stack_boxed (env : ImplEnv) (h : env.slotsBoxed = true) :
    env.debug_dump_stack =
      .ok { env with os_ := env.os_ ++ stackText env.call_stack_ ++ "\n" } := by
  have h1 : ∀ fr ∈ env.call_stack_.reverse, allBoxed fr.vars_ = true := by
    intro fr hfr
    simp only [ImplEnv.slotsBoxed, List.all_eq_true] at h
    exact h fr (List.mem_reverse.mp hfr)
  simp [ImplEnv.debug_dump_stack, debug_dump_stack.loop_first _ h1, stackText,
    String.append_assoc]

/-- C31: on a call stack with top frame `top`, every slot of which holds a value,
`debug_dump_vars` leaves as the stream what was there followed by the one line
`[` ++ the variables of `top` in slot order, each as `name:display`, joined by commas ++ `]`
and a newline. When every slot of every frame holds a value, `debug_dump_stack` leaves what
was there followed by the one line `<` ++ the frames from the entry frame to the top frame,
joined by commas ++ `>` and a newline, each frame being its bracketed variable list, preceded
by its function name and `@` exactly when that name is not empty. Neither changes the call
stack. The frame `run` starts with has an empty function name, so that the entry frame
carries no prefix: dumped at once it gives `<[]>`. -/
theorem dumps_append_one_line (env : ImplEnv) (top : ImplCallStackEntry)
    (rest : List ImplCallStackEntry) (hs : env.call_stack_ = top :: rest)
    (ht : allBoxed top.vars_ = true) (hr : ∀ fr ∈ rest, allBoxed fr.vars_ = true) :
    env.debug_dump_vars =
      .ok { os_ := env.os_ ++ varsText top.vars_ ++ "\n", call_stack_ := env.call_stack_ } ∧
    env.debug_dump_stack =
      .ok { os_ := env.os_ ++ stackText env.call_stack_ ++ "\n",
            call_stack_ := env.call_stack_ } ∧
    (∀ fr : ImplCallStackEntry, fr.f_ ≠ "" → frameText fr = fr.f_ ++ "@" ++ varsText fr.vars_) ∧
    (∀ fr : ImplCallStackEntry, fr.f_ = "" → frameText fr = varsText fr.vars_) ∧
    (∀ T : T_FIBER, (MaroonEngine.initial T).debug_dump_stack =
      .ok { os_ := "<[]>\n", call_stack_ := (MaroonEngine.initial T).call_stack_ }) := by
  have hall : env.slotsBoxed = true := by
    simp only [ImplEnv.slotsBoxed, hs, List.all_cons, Bool.and_eq_true, List.all_eq_true]
    exact ⟨ht, hr⟩
  refine ⟨?_, ?_, ?_, ?_, ?_⟩
  · simp [ImplEnv.debug_dump_vars, hs, ImplEnv.do_debug_dump_vars_boxed _ ht]
  · exact env.debug_dump_stack_boxed hall
  · intro fr hf
    simp [frameText, hf, String.append_assoc]
  · intro fr hf
    simp [frameText, hf]
  · intro T
    rfl

/-- Witness of C31: the frame of `add` with `a = 2` and `b = 3` on top of the frame of `main`
with `r = 0`. -/
theorem dumps_append_one_line_witness :
    addReturning.debug_dump_vars =
      .ok { os_ := "[a:2,b:3]\n", call_stack_ := addReturning.call_stack_ } ∧
    addReturning.debug_dump_stack =
      .ok { os_ := "<[r:0],add@[a:2,b:3]>\n", call_stack_ := addReturning.call_stack_ } :=
  ⟨(dumps_append_one_line addReturning _ _ rfl (by decide) (by decide)).1,
   (dumps_append_one_line addReturning _ _ rfl (by decide) (by decide)).2.1⟩

/-- C32 (evidence): a class made by `DEFINE_MAROON_OPTIONAL_TYPE(alias, inner)` returns the
stringified `inner` from both `MAROON_type_name_static()` and `MAROON_type_name()`. The class
`MAROON_TYPE_OPTIONAL_U64` and its values report `U64`, the name `MAROON_TYPE_U64` reports.
Hence `DeclareFunctionArg<MAROON_TYPE_U64>` binds an `OPTIONAL_U64` argument without a
complaint, and the exception `AccessVar<MAROON_TYPE_U64>` then throws names the same type
twice. -/
theorem optional_reports_inner_type_name :
    (∀ (alias_ inner : String) (value : MaroonOptional),
      (MaroonClass.MAROON_TYPE_OPTIONAL alias_ inner).MAROON_type_name_static = inner ∧
      (MaroonValue.MAROON_TYPE_OPTIONAL alias_ inner value).MAROON_type_name = inner) ∧
    (MaroonClass.MAROON_TYPE_OPTIONAL "OPTIONAL_U64" "U64").MAROON_type_name_static =
      MaroonClass.MAROON_TYPE_U64.MAROON_type_name_static ∧
    (MaroonValue.MAROON_TYPE_OPTIONAL "OPTIONAL_U64" "U64" .none).MAROON_type_name =
      (U64 0).MAROON_type_name ∧
    (U64 0).MAROON_type_name = "U64" ∧
    ImplEnv.DeclareFunctionArg .MAROON_TYPE_U64 calledWithOptional 0 "a" =
      .ok optionalBoundAsU64 ∧
    ImplEnv.AccessVar .MAROON_TYPE_U64 optionalBoundAsU64 0 "a" =
      .error (.throw "Attempted to use `a` of type `U64` as `U64`.") :=
  ⟨fun _ _ _ => ⟨rfl, rfl⟩, rfl, rfl, rfl, rfl, rfl⟩

theorem MaroonEngine.get?_in_table (T : T_FIBER) (i : Nat) (step : MaroonStep)
    (h : T.MAROON_steps.get? i = some step) : ¬ i ≥ T.kStepsCount := by
  rcases Nat.lt_or_ge i T.MAROON_steps.length with h1 | h1
  · simpa [T_FIBER.kStepsCount] using h1
  · rw [List.get?_eq_none.mpr h1] at h; cases h

theorem MaroonEngine.resized_eq (env : ImplEnv) (top : ImplCallStackEntry)
    (rest : List ImplCallStackEntry) (b : Nat) (hstack : env.call_stack_ = top :: rest)
    (hb : b ≤ top.vars_.length) :
    (if top.vars_.length > b then
        ({ env with call_stack_ := { top with vars_ := top.vars_.take b } :: rest } : ImplEnv)
      else env) =
      { env with call_stack_ := { top with vars_ := top.vars_.take b } :: rest } := by
  by_cases h : top.vars_.length > b
  · rw [if_pos h]
  · rw [if_neg h]
    have he : top.vars_.length = b := by omega
    have ht : top.vars_.take b = top.vars_ := by rw [← he]; exact List.take_length _
    rw [ht]
    cases env
    simp only at hstack
    subst hstack
    rfl

theorem MaroonEngine.prepareStep_few (T : T_FIBER) (env : ImplEnv) (top : ImplCallStackEntry)
    (rest : List ImplCallStackEntry) (step : MaroonStep)
    (hstack : env.call_stack_ = top :: rest)
    (hstep : T.MAROON_steps.get? top.current_idx_ = some step)
    (hb : top.vars_.length < step.num_vars_available_before_step) :
    MaroonEngine.prepareStep T env = .error (.exit preStepMessage) := by
  have h1 := MaroonEngine.get?_in_table T _ step hstep
  simp only [MaroonEngine.prepareStep, hstack, if_neg h1, hstep, if_pos hb, preStepMessage]

theorem MaroonEngine.prepareStep_enough (T : T_FIBER) (env : ImplEnv)
    (top : ImplCallStackEntry) (rest : List ImplCallStackEntry) (step : MaroonStep)
    (hstack : env.call_stack_ = top :: rest)
    (hstep : T.MAROON_steps.get? top.current_idx_ = some step)
    (hb : step.num_vars_available_before_step ≤ top.vars_.length) :
    (∀ e, step.new_vars { env with call_stack_ :=
        { top with vars_ := top.vars_.take step.num_vars_available_before_step } :: rest } =
        .error e → MaroonEngine.prepareStep T env = .error e) ∧
    (∀ env2, step.new_vars { env with call_stack_ :=
        { top with vars_ := top.vars_.take step.num_vars_available_before_step } :: rest } =
        .ok env2 →
      (env2.call_stack_ = [] →
        MaroonEngine.prepareStep T env =
          .error (.undefined "back() of an empty call_stack_")) ∧
      (∀ top2 rest2, env2.call_stack_ = top2 :: rest2 →
        (top2.vars_.length =
            step.num_vars_available_before_step + step.num_vars_declared_for_step →
          MaroonEngine.prepareStep T env = .ok (step, env2)) ∧
        (top2.vars_.length ≠
            step.num_vars_available_before_step + step.num_vars_declared_for_step →
          MaroonEngine.prepareStep T env = .error (.exit intraStepMessage)))) := by
  have h1 := MaroonEngine.get?_in_table T _ step hstep
  have h2 : ¬ top.vars_.length < step.num_vars_available_before_step := by omega
  have h3 := MaroonEngine.resized_eq env top rest _ hstack hb
  refine ⟨?_, ?_⟩
  · intro e he
    simp only [MaroonEngine.prepareStep, hstack, if_neg h1, hstep, if_neg h2]
    simp only [h3, he]
  · intro env2 he
    refine ⟨?_, ?_⟩
    · intro h0
      simp only [MaroonEngine.prepareStep, hstack, if_neg h1, hstep, if_neg h2]
      simp only [h3, he, h0]
    · intro top2 rest2 h0
      refine ⟨?_, ?_⟩
      · intro hl
        simp only [MaroonEngine.prepareStep, hstack, if_neg h1, hstep, if_neg h2]
        simp only [h3, he, h0, hl, ne_eq, not_true_eq_false, if_false]
      · intro hl
        simp only [MaroonEngine.prepareStep, hstack, if_neg h1, hstep, if_neg h2]
        simp only [h3, he, h0, ne_eq, hl, not_false_eq_true, if_true, intraStepMessage]

theorem MaroonEngine.prepareStep_count (T : T_FIBER) (env env2 : ImplEnv) (step : MaroonStep)
    (h : MaroonEngine.prepareStep T env = .ok (step, env2)) :
    ∃ top rest top2 rest2, env.call_stack_ = top :: rest ∧
      T.MAROON_steps.get? top.current_idx_ = some step ∧
      step.num_vars_available_before_step ≤ top.vars_.length ∧
      step.new_vars { env with call_stack_ :=
        { top with vars_ := top.vars_.take step.num_vars_available_before_step } :: rest } =
        .ok env2 ∧
      env2.call_stack_ = top2 :: rest2 ∧
      top2.vars_.length =
        step.num_vars_available_before_step + step.num_vars_declared_for_step := by
  rcases hs : env.call_stack_ with _ | ⟨top, rest⟩
  · simp [MaroonEngine.prepareStep, hs] at h
  · by_cases h1 : top.current_idx_ ≥ T.kStepsCount
    · simp [MaroonEngine.prepareStep, hs, h1] at h
    · rcases hg : T.MAROON_steps.get? top.current_idx_ with _ | st
      · simp only [MaroonEngine.prepareStep, hs, if_neg h1, hg] at h
        cases h
      · by_cases h2 : top.vars_.length < st.num_vars_available_before_step
        · simp only [MaroonEngine.prepareStep, hs, if_neg h1, hg, if_pos h2] at h
          cases h
        · have hb : st.num_vars_available_before_step ≤ top.vars_.length := by omega
          obtain ⟨he, ho⟩ := MaroonEngine.prepareStep_enough T env top rest st hs hg hb
          rcases hv : st.new_vars { env with call_stack_ :=
              { top with vars_ := top.vars_.take st.num_vars_available_before_step } :: rest }
            with e | e2
          · rw [he e hv] at h; cases h
          · obtain ⟨h0, hc⟩ := ho e2 hv
            rcases hs2 : e2.call_stack_ with _ | ⟨top2, rest2⟩
            · rw [h0 hs2] at h; cases h
            · obtain ⟨hok, hbad⟩ := hc top2 rest2 hs2
              by_cases hl : top2.vars_.length =
                  st.num_vars_available_before_step + st.num_vars_declared_for_step
              · rw [hok hl] at h
                cases h
                exact ⟨top, rest, top2, rest2, rfl, hg, hb, hv, hs2, hl⟩
              · rw [hbad hl] at h; cases h

theorem MaroonEngine.iteration_of_prepare_stop (T : T_FIBER) (env : ImplEnv) (e : Stop)
    (h : MaroonEngine.prepareStep T env = .error e) : MaroonEngine.iteration T env = .error e := by
  simp [MaroonEngine.iteration, h]

/-- C33: at a pass of the loop on top frame `top`, with `step` the step at its index and
`b` the step's entry count: when `top` holds at least `b` variables, `step.new_vars` is
called on the environment in which the variable list of `top` is its first `b` entries (as
many as `b`, each the entry the list held at that index, the list before being these
followed by the ones released), with the rest of `top`, every other frame and the stream as
they were; what `new_vars` returns decides the pass. When `top` holds fewer than `b`
variables the pass exits with the message of the pre-step check whatever the step's
`new_vars` and `code` are, and so does `run` when the loop gets there. -/
theorem step_starts_from_entry_count (T : T_FIBER) (env : ImplEnv) (top : ImplCallStackEntry)
    (rest : List ImplCallStackEntry) (step : MaroonStep)
    (hstack : env.call_stack_ = top :: rest)
    (hstep : T.MAROON_steps.get? top.current_idx_ = some step) :
    (step.num_vars_available_before_step ≤ top.vars_.length →
      ((∀ e, step.new_vars { env with call_stack_ :=
          { top with vars_ := top.vars_.take step.num_vars_available_before_step } :: rest } =
          .error e → MaroonEngine.iteration T env = .error e) ∧
       (∀ env2 top2 rest2, step.new_vars { env with call_stack_ :=
          { top with vars_ := top.vars_.take step.num_vars_available_before_step } :: rest } =
          .ok env2 → env2.call_stack_ = top2 :: rest2 →
          top2.vars_.length =
            step.num_vars_available_before_step + step.num_vars_declared_for_step →
          MaroonEngine.prepareStep T env = .ok (step, env2))) ∧
      (top.vars_.take step.num_vars_available_before_step).length =
        step.num_vars_available_before_step ∧
      (∀ i, i < step.num_vars_available_before_step →
        (top.vars_.take step.num_vars_available_before_step).get? i = top.vars_.get? i) ∧
      top.vars_.take step.num_vars_available_before_step ++
        top.vars_.drop step.num_vars_available_before_step = top.vars_) ∧
    (top.vars_.length < step.num_vars_available_before_step →
      MaroonEngine.iteration T env = .error (.exit preStepMessage) ∧
      (∀ (code : ImplEnv → ImplResultCollector → Except Stop (ImplEnv × ImplResultCollector))
          (new_vars : ImplEnv → Except Stop ImplEnv) (T1 : T_FIBER),
        T1.MAROON_steps.get? top.current_idx_ =
          some { step with code := code, new_vars := new_vars } →
        MaroonEngine.iteration T1 env = .error (.exit preStepMessage)) ∧
      (∀ fuel k, k < fuel →
        MaroonEngine.iterations T k (MaroonEngine.initial T) = .ok env →
        MaroonEngine.run T fuel = .error (.exit preStepMessage))) := by
  refine ⟨?_, ?_⟩
  · intro hb
    obtain ⟨he, ho⟩ := MaroonEngine.prepareStep_enough T env top rest step hstack hstep hb
    refine ⟨⟨?_, ?_⟩, ?_, ?_, ?_⟩
    · intro e h
      exact MaroonEngine.iteration_of_prepare_stop T env e (he e h)
    · intro env2 top2 rest2 h h0 hl
      exact ((ho env2 h).2 top2 rest2 h0).1 hl
    · simp [List.length_take, hb]
    · intro i hi
      simp [List.getElem?_take, hi]
    · exact List.take_append_drop _ _
  · intro hb
    have h1 := MaroonEngine.iteration_of_prepare_stop T env _
      (MaroonEngine.prepareStep_few T env top rest step hstack hstep hb)
    refine ⟨h1, ?_, ?_⟩
    · intro code new_vars T1 hs1
      exact MaroonEngine.iteration_of_prepare_stop T1 env _
        (MaroonEngine.prepareStep_few T1 env top rest _ hstack hs1 hb)
    · intro fuel k hk hreach
      exact MaroonEngine.run_of_stop T fuel k env _ hk hreach (by rw [hstack]; simp) h1
/-- Witness of C33: at step 1 of `declareX`, whose entry count is 1, a frame holding `x` and
`y` has `y` released before the step; the table `keepOne` starts with a step of entry count 1
on a frame without variables and exits. -/
theorem step_starts_from_entry_count_witness :
    MaroonEngine.prepareStep declareX holdingTwo = .ok (keepOneStep, holdingOne) ∧
    MaroonEngine.run keepOne 1 = .error (.exit preStepMessage) :=
  ⟨((step_starts_from_entry_count declareX holdingTwo _ _ keepOneStep rfl rfl).1
      (by decide)).1.2 holdingOne _ _ rfl rfl rfl,
   ((step_starts_from_entry_count keepOne (MaroonEngine.initial keepOne) _ _ keepOneStep
      rfl rfl).2 (by decide)).2.2 1 0 (by decide) rfl⟩

theorem MaroonEngine.applyResult_fall_through (env : ImplEnv) (top : ImplCallStackEntry)
    (rest : List ImplCallStackEntry) (result : ImplResultCollector)
    (hstack : env.call_stack_ = top :: rest) (hs : result.status = .None) :
    MaroonEngine.applyResult env result =
      .ok { env with call_stack_ :=
        { top with current_idx_ := (top.current_idx_ + 1) % 2 ^ 32 } :: rest } := by
  simp only [MaroonEngine.applyResult, hstack, hs]

theorem MaroonEngine.applyResult_branch (env : ImplEnv) (top : ImplCallStackEntry)
    (rest : List ImplCallStackEntry) (result : ImplResultCollector)
    (hstack : env.call_stack_ = top :: rest) (hs : result.status = .Branch) :
    MaroonEngine.applyResult env result =
      .ok { env with call_stack_ := { top with current_idx_ := result.next_idx_ } :: rest } := by
  simp only [MaroonEngine.applyResult, hstack, hs]

theorem MaroonEngine.applyResult_call (env : ImplEnv) (top : ImplCallStackEntry)
    (rest : List ImplCallStackEntry) (result : ImplResultCollector)
    (hstack : env.call_stack_ = top :: rest) (hs : result.status = .Call) :
    MaroonEngine.applyResult env result =
      .ok { env with call_stack_ :=
        { current_idx_ := result.call_idx_, f_ := result.call_f_
          call_retval_var_idx_ := result.call_retval_var_idx_, args_ := result.call_args_ } ::
        { top with current_idx_ := (top.current_idx_ + 1) % 2 ^ 32 } :: rest } := by
  simp only [MaroonEngine.applyResult, hstack, hs]

theorem storeValue_length : ∀ (vars : List ImplVar) (i : Nat) (x : Option MaroonValue)
    (vars1 : List ImplVar), storeValue vars i x = some vars1 → vars1.length = vars.length
  | [], _, _, _, h => by simp [storeValue] at h
  | v :: vs, 0, x, vars1, h => by
    simp only [storeValue, Option.some.injEq] at h
    subst h
    rfl
  | v :: vs, i + 1, x, vars1, h => by
    simp only [storeValue] at h
    rcases hh : storeValue vs i x with _ | vs1
    · rw [hh] at h; cases h
    · rw [hh] at h
      simp only [Option.some.injEq] at h
      subst h
      simp [storeValue_length vs i x vs1 hh]

theorem MaroonEngine.applyResult_return (env env4 : ImplEnv) (top : ImplCallStackEntry)
    (rest : List ImplCallStackEntry) (result : ImplResultCollector)
    (hstack : env.call_stack_ = top :: rest) (hs : result.status = .Return)
    (h : MaroonEngine.applyResult env result = .ok env4) :
    env4.call_stack_.length = rest.length := by
  simp only [MaroonEngine.applyResult, hstack, hs] at h
  repeat' split at h
  all_goals first
    | (cases h; done)
    | (cases h; simp_all)

/-- C34: when the loop body gets to call the code of `step` (the preparation of the pass
returns `step` and the environment `env2` its code will run on), the top frame of `env2`
holds as many variables as the step's entry count and its declared count together; when
after `new_vars` the count is another one, the pass exits with the message of the intra-step
check and the code is not called. When the code leaves that count as it found it, then after
the pass the frame that executed the step still holds that many variables: it is the top
frame with the same variable list when the code recorded nothing or a branch, the frame
under a new frame without variables when it recorded a call, and it is popped when it
recorded a return. -/
theorem executed_step_has_declared_count (T : T_FIBER) (env env2 : ImplEnv) (step : MaroonStep)
    (h : MaroonEngine.prepareStep T env = .ok (step, env2)) :
    (∃ top2 rest2, env2.call_stack_ = top2 :: rest2 ∧
      top2.vars_.length =
        step.num_vars_available_before_step + step.num_vars_declared_for_step) ∧
    (∀ (env3 env4 : ImplEnv) (result : ImplResultCollector) (top2 top3 : ImplCallStackEntry)
        (rest2 rest3 : List ImplCallStackEntry),
      env2.call_stack_ = top2 :: rest2 → step.code env2 {} = .ok (env3, result) →
      env3.call_stack_ = top3 :: rest3 → top3.vars_.length = top2.vars_.length →
      MaroonEngine.applyResult env3 result = .ok env4 →
      top3.vars_.length =
        step.num_vars_available_before_step + step.num_vars_declared_for_step ∧
      MaroonEngine.iteration T env = .ok env4 ∧
      (result.status = .None ∨ result.status = .Branch →
        ∃ top4, env4.call_stack_ = top4 :: rest3 ∧ top4.vars_ = top3.vars_) ∧
      (result.status = .Call →
        ∃ callee top4, env4.call_stack_ = callee :: top4 :: rest3 ∧ callee.vars_ = [] ∧
          top4.vars_ = top3.vars_) ∧
      (result.status = .Return → env4.call_stack_.length = rest3.length)) ∧
    (∀ (env0 env1 : ImplEnv) (top top1 : ImplCallStackEntry)
        (rest rest1 : List ImplCallStackEntry) (st : MaroonStep),
      env0.call_stack_ = top :: rest → T.MAROON_steps.get? top.current_idx_ = some st →
      st.num_vars_available_before_step ≤ top.vars_.length →
      st.new_vars { env0 with call_stack_ :=
        { top with vars_ := top.vars_.take st.num_vars_available_before_step } :: rest } =
        .ok env1 →
      env1.call_stack_ = top1 :: rest1 →
      top1.vars_.length ≠ st.num_vars_available_before_step + st.num_vars_declared_for_step →
      MaroonEngine.iteration T env0 = .error (.exit intraStepMessage)) := by
  obtain ⟨top, rest, top2, rest2, hs, hg, hb, hv, hs2, hl⟩ :=
    MaroonEngine.prepareStep_count T env env2 step h
  refine ⟨⟨top2, rest2, hs2, hl⟩, ?_, ?_⟩
  · intro env3 env4 result t2 top3 r2 rest3 h2 hc h3 hk ha
    rw [hs2] at h2
    cases h2
    refine ⟨by rw [hk, hl], ?_, ?_, ?_, ?_⟩
    · simp only [MaroonEngine.iteration, h, hc, ha]
    · intro hst
      rcases hst with hst | hst
      · rw [MaroonEngine.applyResult_fall_through env3 top3 rest3 result h3 hst] at ha
        cases ha
        exact ⟨_, rfl, rfl⟩
      · rw [MaroonEngine.applyResult_branch env3 top3 rest3 result h3 hst] at ha
        cases ha
        exact ⟨_, rfl, rfl⟩
    · intro hst
      rw [MaroonEngine.applyResult_call env3 top3 rest3 result h3 hst] at ha
      cases ha
      exact ⟨_, _, rfl, rfl, rfl⟩
    · intro hst
      exact MaroonEngine.applyResult_return env3 env4 top3 rest3 result h3 hst ha
  · intro env0 env1 top0 top1 rest0 rest1 st h0 hg0 hb0 hv0 hs1 hne
    exact MaroonEngine.iteration_of_prepare_stop T env0 _
      ((((MaroonEngine.prepareStep_enough T env0 top0 rest0 st h0 hg0 hb0).2 env1 hv0).2
        top1 rest1 hs1).2 hne)

/-- Witness of C34: the first step of `declareX` has entry count 0 and declares one
variable; its code runs on a frame holding one variable. -/
theorem executed_step_has_declared_count_witness :
    ∃ top2 rest2, declaredX.call_stack_ = top2 :: rest2 ∧ top2.vars_.length = 0 + 1 :=
  (executed_step_has_declared_count declareX (MaroonEngine.initial declareX) declaredX
    declareXStep rfl).1

/-- C35: on top frame `top`, when the result the step's code left records nothing and the
step index of `top` is not the largest `uint32_t`, the loop body leaves `top` with its index
plus one; when the result records a branch, with the recorded index, which `branch(t)` on a
new collector sets to `t`. In both cases nothing else changes: the other fields of `top`,
its variables among them, the frames under it, the depth and the stream are as the code left
them. The same read on a whole pass of the loop. -/
theorem index_moves_as_recorded (env : ImplEnv) (top : ImplCallStackEntry)
    (rest : List ImplCallStackEntry) (result : ImplResultCollector)
    (hstack : env.call_stack_ = top :: rest) :
    (result.status = .None → top.current_idx_ + 1 < 2 ^ 32 →
      MaroonEngine.applyResult env result =
        .ok { os_ := env.os_
              call_stack_ := { top with current_idx_ := top.current_idx_ + 1 } :: rest }) ∧
    (result.status = .Branch →
      MaroonEngine.applyResult env result =
        .ok { os_ := env.os_
              call_stack_ := { top with current_idx_ := result.next_idx_ } :: rest }) ∧
    (∀ (r : ImplResultCollector) (t : Nat), r.status_ = .None →
      (r.branch t).1 = .ok () ∧ (r.branch t).2.status = .Branch ∧
      (r.branch t).2.next_idx_ = t ∧
      MaroonEngine.applyResult env (r.branch t).2 =
        .ok { os_ := env.os_, call_stack_ := { top with current_idx_ := t } :: rest }) ∧
    (∀ (T : T_FIBER) (env0 env2 : ImplEnv) (step : MaroonStep),
      MaroonEngine.prepareStep T env0 = .ok (step, env2) →
      step.code env2 {} = .ok (env, result) →
      (result.status = .None → top.current_idx_ + 1 < 2 ^ 32 →
        MaroonEngine.iteration T env0 =
          .ok { os_ := env.os_
                call_stack_ := { top with current_idx_ := top.current_idx_ + 1 } :: rest }) ∧
      (result.status = .Branch →
        MaroonEngine.iteration T env0 =
          .ok { os_ := env.os_
                call_stack_ := { top with current_idx_ := result.next_idx_ } :: rest })) := by
  have hn : result.status = .None → top.current_idx_ + 1 < 2 ^ 32 →
      MaroonEngine.applyResult env result =
        .ok { os_ := env.os_
              call_stack_ := { top with current_idx_ := top.current_idx_ + 1 } :: rest } := by
    intro hs hi
    rw [MaroonEngine.applyResult_fall_through env top rest result hstack hs,
      Nat.mod_eq_of_lt hi]
  have hb : ∀ res : ImplResultCollector, res.status = .Branch →
      MaroonEngine.applyResult env res =
        .ok { os_ := env.os_
              call_stack_ := { top with current_idx_ := res.next_idx_ } :: rest } := by
    intro res hs
    rw [MaroonEngine.applyResult_branch env top rest res hstack hs]
  refine ⟨hn, hb result, ?_, ?_⟩
  · intro r t hr
    have h1 : (r.branch t).2 = { r with status_ := .Branch, next_idx_ := t } := by
      simp [ImplResultCollector.branch, hr]
    refine ⟨by simp [ImplResultCollector.branch, hr], by rw [h1]; rfl, by rw [h1], ?_⟩
    rw [hb _ (by rw [h1]; rfl), h1]
  · intro T env0 env2 step hp hc
    refine ⟨?_, ?_⟩
    · intro hs hi
      simp only [MaroonEngine.iteration, hp, hc]
      exact hn hs hi
    · intro hs
      simp only [MaroonEngine.iteration, hp, hc]
      exact hb result hs

/-- Witness of C35: on the frame of `holdingOne`, at step 1, a result that records nothing
moves the index to 2 and a recorded `branch(0)` moves it to 0; the variable `x` stays. -/
theorem index_moves_as_recorded_witness :
    MaroonEngine.applyResult holdingOne {} =
      .ok { os_ := "x\n"
            call_stack_ :=
              [ { current_idx_ := 2, vars_ := [{ name := "x", value := some (U64 7) }] } ] } ∧
    MaroonEngine.applyResult holdingOne (ImplResultCollector.branch {} 0).2 =
      .ok { os_ := "x\n"
            call_stack_ :=
              [ { current_idx_ := 0, vars_ := [{ name := "x", value := some (U64 7) }] } ] } :=
  ⟨(index_moves_as_recorded holdingOne _ _ {} rfl).1 rfl (by decide),
   ((index_moves_as_recorded holdingOne _ _ {} rfl).2.2.1 {} 0 rfl).2.2.2⟩

theorem allBoxed_append (xs ys : List ImplVar) :
    allBoxed (xs ++ ys) = (allBoxed xs && allBoxed ys) := by
  simp [allBoxed, List.all_append]

theorem allBoxed_take (xs : List ImplVar) (n : Nat) (h : allBoxed xs = true) :
    allBoxed (xs.take n) = true := by
  simp only [allBoxed, List.all_eq_true] at h ⊢
  intro v hv
  exact h v (List.mem_of_mem_take hv)

theorem storeValue_boxed : ∀ (vars : List ImplVar) (i : Nat) (x : Option MaroonValue)
    (vars1 : List ImplVar), allBoxed vars = true → x.isSome = true →
    storeValue vars i x = some vars1 → allBoxed vars1 = true
  | [], _, _, _, _, _, h => by simp [storeValue] at h
  | v :: vs, 0, x, vars1, hb, hx, h => by
    simp only [storeValue, Option.some.injEq] at h
    subst h
    simp only [allBoxed, List.all_cons, Bool.and_eq_true] at hb ⊢
    exact ⟨by simpa [ImplVar.boxed] using hx, hb.2⟩
  | v :: vs, i + 1, x, vars1, hb, hx, h => by
    simp only [storeValue] at h
    rcases hh : storeValue vs i x with _ | vs1
    · rw [hh] at h; cases h
    · rw [hh] at h
      simp only [Option.some.injEq] at h
      subst h
      simp only [allBoxed, List.all_cons, Bool.and_eq_true] at hb ⊢
      exact ⟨hb.1, storeValue_boxed vs i x vs1 hb.2 hx hh⟩

theorem ImplEnv.slotsBoxed_cons (env : ImplEnv) (top : ImplCallStackEntry)
    (rest : List ImplCallStackEntry) (h : env.call_stack_ = top :: rest) :
    env.slotsBoxed = true ↔
      allBoxed top.vars_ = true ∧ ∀ fr ∈ rest, allBoxed fr.vars_ = true := by
  simp [ImplEnv.slotsBoxed, h]

theorem ImplEnv.DeclareVar_boxed (env env1 : ImplEnv) (idx : Nat) (name : String)
    (init : MaroonValue) (hb : env.slotsBoxed = true)
    (h : env.DeclareVar idx name init = .ok env1) : env1.slotsBoxed = true := by
  rcases hs : env.call_stack_ with _ | ⟨top, rest⟩
  · simp [ImplEnv.DeclareVar, hs] at h
  · obtain ⟨h1, h2⟩ := (env.slotsBoxed_cons top rest hs).mp hb
    simp only [ImplEnv.DeclareVar, hs] at h
    split at h
    · cases h
    · cases h
      simp only [ImplEnv.slotsBoxed, List.all_cons, Bool.and_eq_true, List.all_eq_true]
      refine ⟨?_, h2⟩
      rw [allBoxed_append, h1]
      rfl

theorem ImplEnv.DeclareFunctionArg_boxed (T_VAR : MaroonClass) (env env1 : ImplEnv)
    (idx : Nat) (name : String) (hb : env.slotsBoxed = true)
    (h : ImplEnv.DeclareFunctionArg T_VAR env idx name = .ok env1) :
    env1.slotsBoxed = true := by
  rcases hs : env.call_stack_ with _ | ⟨top, rest⟩
  · simp [ImplEnv.DeclareFunctionArg, hs] at h
  · obtain ⟨h1, h2⟩ := (env.slotsBoxed_cons top rest hs).mp hb
    simp only [ImplEnv.DeclareFunctionArg, hs] at h
    repeat' split at h
    all_goals first
      | (cases h; done)
      | skip
    cases h
    simp only [ImplEnv.slotsBoxed, List.all_cons, Bool.and_eq_true, List.all_eq_true]
    refine ⟨?_, h2⟩
    rw [allBoxed_append, h1]
    rfl

theorem ImplEnv.DeclareCapturedAlias_not_boxed (env env1 : ImplEnv) (idx : Nat)
    (name : String) (h : env.DeclareCapturedAlias idx name = .ok env1) :
    env1.slotsBoxed = false := by
  rcases hs : env.call_stack_ with _ | ⟨top, rest⟩
  · simp [ImplEnv.DeclareCapturedAlias, hs] at h
  · simp only [ImplEnv.DeclareCapturedAlias, hs] at h
    split at h
    · cases h
    · cases h
      simp [ImplEnv.slotsBoxed, allBoxed_append, allBoxed, ImplVar.boxed]

theorem MaroonEngine.applyResult_boxed (env env1 : ImplEnv) (result : ImplResultCollector)
    (hb : env.slotsBoxed = true) (hr : result.has_retval_ = true → result.retval_.isSome = true)
    (h : MaroonEngine.applyResult env result = .ok env1) : env1.slotsBoxed = true := by
  rcases hs : env.call_stack_ with _ | ⟨top, rest⟩
  · simp [MaroonEngine.applyResult, hs] at h
  · obtain ⟨h1, h2⟩ := (env.slotsBoxed_cons top rest hs).mp hb
    rcases hst : result.status with _ | _ | _ | _
    · rw [MaroonEngine.applyResult_fall_through env top rest result hs hst] at h
      cases h
      simp only [ImplEnv.slotsBoxed, List.all_cons, Bool.and_eq_true, List.all_eq_true]
      exact ⟨h1, h2⟩
    · rw [MaroonEngine.applyResult_branch env top rest result hs hst] at h
      cases h
      simp only [ImplEnv.slotsBoxed, List.all_cons, Bool.and_eq_true, List.all_eq_true]
      exact ⟨h1, h2⟩
    · rw [MaroonEngine.applyResult_call env top rest result hs hst] at h
      cases h
      simp only [ImplEnv.slotsBoxed, List.all_cons, Bool.and_eq_true, List.all_eq_true]
      exact ⟨rfl, h1, h2⟩
    · simp only [MaroonEngine.applyResult, hs, hst] at h
      by_cases hv : result.has_retval_ = true
      · rw [if_pos hv] at h
        rcases rest with _ | ⟨caller, below⟩
        · cases h
        · simp only at h
          have hc : allBoxed caller.vars_ = true := h2 caller (List.mem_cons_self _ _)
          have hbelow : ∀ fr ∈ below, allBoxed fr.vars_ = true :=
            fun fr hfr => h2 fr (List.mem_cons_of_mem _ hfr)
          split at h
          · rcases hsv : storeValue caller.vars_ top.call_retval_var_idx_ result.retval_
              with _ | vars
            · rw [hsv] at h; cases h
            · rw [hsv] at h
              cases h
              simp only [ImplEnv.slotsBoxed, List.all_cons, Bool.and_eq_true, List.all_eq_true]
              exact ⟨storeValue_boxed _ _ _ _ hc (hr hv) hsv, hbelow⟩
          · cases h
            simp only [ImplEnv.slotsBoxed, List.all_cons, Bool.and_eq_true, List.all_eq_true]
            exact ⟨hc, hbelow⟩
      · rw [if_neg hv] at h
        split at h
        · cases h
        · cases h
          simp only [ImplEnv.slotsBoxed, List.all_eq_true]
          exact h2

theorem MaroonEngine.iteration_boxed (T : T_FIBER)
    (hT : ∀ step ∈ T.MAROON_steps, step.keepsBoxed) (env env1 : ImplEnv)
    (hb : env.slotsBoxed = true) (h : MaroonEngine.iteration T env = .ok env1) :
    env1.slotsBoxed = true := by
  rcases hp : MaroonEngine.prepareStep T env with e | ⟨step, env2⟩
  · simp [MaroonEngine.iteration, hp] at h
  · obtain ⟨top, rest, top2, rest2, hs, hg, _, hv, _, _⟩ :=
      MaroonEngine.prepareStep_count T env env2 step hp
    have hk := hT step (List.get?_mem hg)
    obtain ⟨h1, h2⟩ := (env.slotsBoxed_cons top rest hs).mp hb
    have hb1 : ImplEnv.slotsBoxed { env with call_stack_ :=
        { top with vars_ := top.vars_.take step.num_vars_available_before_step } :: rest } =
        true := by
      simp only [ImplEnv.slotsBoxed, List.all_cons, Bool.and_eq_true, List.all_eq_true]
      exact ⟨allBoxed_take _ _ h1, h2⟩
    have hb2 := hk.1 _ _ hb1 hv
    rcases hc : step.code env2 {} with e | ⟨env3, result⟩
    · simp [MaroonEngine.iteration, hp, hc] at h
    · simp only [MaroonEngine.iteration, hp, hc] at h
      obtain ⟨hb3, hr⟩ := hk.2 _ _ _ hb2 hc
      exact MaroonEngine.applyResult_boxed env3 env1 result hb3 hr h

theorem MaroonEngine.iterations_boxed (T : T_FIBER)
    (hT : ∀ step ∈ T.MAROON_steps, step.keepsBoxed) :
    ∀ (k : Nat) (env0 env : ImplEnv), env0.slotsBoxed = true →
      MaroonEngine.iterations T k env0 = .ok env → env.slotsBoxed = true
  | 0, env0, env, hb, h => by
    simp only [MaroonEngine.iterations] at h
    cases h
    exact hb
  | k + 1, env0, env, hb, h => by
    simp only [MaroonEngine.iterations] at h
    split at h
    · cases h
      exact hb
    · rcases hi : MaroonEngine.iteration T env0 with e | env1
      · rw [hi] at h; cases h
      · rw [hi] at h
        exact MaroonEngine.iterations_boxed T hT k env1 env
          (MaroonEngine.iteration_boxed T hT env0 env1 hb hi) h

theorem ImplEnv.AccessVar_boxed (T_VAR : MaroonClass) (env : ImplEnv) (idx : Nat)
    (name : String) (hb : env.slotsBoxed = true) :
    ImplEnv.AccessVar T_VAR env idx name ≠
      .error (.undefined "MAROON_type_name through a null pointer") := by
  rcases hs : env.call_stack_ with _ | ⟨top, rest⟩
  · simp only [ImplEnv.AccessVar, hs]
    intro h
    injection h with h
    injection h with h
    exact absurd h (by decide)
  · obtain ⟨h1, _⟩ := (env.slotsBoxed_cons top rest hs).mp hb
    rcases hg : top.vars_.get? idx with _ | var
    · simp only [ImplEnv.AccessVar, hs, hg]
      intro h
      cases h
    · have hm : var ∈ top.vars_ := List.get?_mem hg
      simp only [allBoxed, List.all_eq_true] at h1
      have hv := h1 var hm
      rcases hval : var.value with _ | v
      · simp [ImplVar.boxed, hval] at hv
      · simp only [ImplEnv.AccessVar, hs, hg, hval]
        repeat' split
        all_goals (intro h; cases h)

theorem declareX_keepsBoxed : ∀ step ∈ declareX.MAROON_steps, step.keepsBoxed := by
  intro step h
  simp only [declareX, List.mem_cons, List.mem_singleton, List.not_mem_nil, or_false] at h
  rcases h with rfl | rfl
  · refine ⟨?_, ?_⟩
    · intro e e1 hb h
      exact ImplEnv.DeclareVar_boxed e e1 0 "x" (U64 7) hb h
    · intro e e1 r1 hb h
      simp only [declareXStep] at h
      cases h
      exact ⟨hb, by simp⟩
  · refine ⟨?_, ?_⟩
    · intro e e1 hb h
      simp only [keepOneStep] at h
      cases h
      exact hb
    · intro e e1 r1 hb h
      simp only [keepOneStep, onCollector, ImplResultCollector.ret] at h
      split at h
      · cases h
      · cases h
        exact ⟨hb, by simp⟩

/-- C36 (counterexample): `DeclareCapturedAlias` pushes an entry whose value is a null
pointer. After it the frame holds the slot `v` without a value; `debug_dump_vars`,
`debug_dump_stack` and `AccessVar` on that frame go through the null pointer; and the run of
a table whose step declares the capture and dumps the variables ends there. -/
theorem captured_alias_has_no_value :
    (MaroonEngine.initial captureThenDump).DeclareCapturedAlias 0 "v" = .ok aliasDeclared ∧
    aliasDeclared.slotsBoxed = false ∧
    aliasDeclared.debug_dump_vars =
      .error (.undefined "MAROON_display through a null pointer") ∧
    aliasDeclared.debug_dump_stack =
      .error (.undefined "MAROON_display through a null pointer") ∧
    ImplEnv.AccessVar .MAROON_TYPE_U64 aliasDeclared 0 "v" =
      .error (.undefined "MAROON_type_name through a null pointer") ∧
    MaroonEngine.prepareStep captureThenDump (MaroonEngine.initial captureThenDump) =
      .ok (captureStep, aliasDeclared) ∧
    MaroonEngine.run captureThenDump 2 =
      .error (.undefined "MAROON_display through a null pointer") :=
  ⟨rfl, rfl, rfl, rfl, rfl, rfl, rfl⟩

/-- C36 (amended): in a run whose steps keep every slot holding a value, as `DeclareVar` and
`DeclareFunctionArg` do, every entry of every frame's variable list holds a value after any
number of passes of the loop, so that there `debug_dump_vars` and `debug_dump_stack` write
their line and `AccessVar` does not go through a null pointer. The loop body itself keeps
the slots so: it releases slots, pushes frames without variables and stores recorded return
values. An entry made by `DeclareCapturedAlias` holds no value. -/
theorem slots_hold_values (T : T_FIBER) (k : Nat) (env : ImplEnv)
    (hT : ∀ step ∈ T.MAROON_steps, step.keepsBoxed)
    (hreach : MaroonEngine.iterations T k (MaroonEngine.initial T) = .ok env) :
    env.slotsBoxed = true ∧
    (∀ top rest, env.call_stack_ = top :: rest →
      env.debug_dump_vars =
        .ok { os_ := env.os_ ++ varsText top.vars_ ++ "\n", call_stack_ := env.call_stack_ }) ∧
    env.debug_dump_stack =
      .ok { os_ := env.os_ ++ stackText env.call_stack_ ++ "\n",
            call_stack_ := env.call_stack_ } ∧
    (∀ (T_VAR : MaroonClass) (idx : Nat) (name : String),
      ImplEnv.AccessVar T_VAR env idx name ≠
        .error (.undefined "MAROON_type_name through a null pointer")) ∧
    (∀ (e e1 : ImplEnv) (idx : Nat) (name : String) (init : MaroonValue),
      e.slotsBoxed = true → e.DeclareVar idx name init = .ok e1 → e1.slotsBoxed = true) ∧
    (∀ (T_VAR : MaroonClass) (e e1 : ImplEnv) (idx : Nat) (name : String),
      e.slotsBoxed = true → ImplEnv.DeclareFunctionArg T_VAR e idx name = .ok e1 →
      e1.slotsBoxed = true) ∧
    (∀ (e e1 : ImplEnv) (idx : Nat) (name : String),
      e.DeclareCapturedAlias idx name = .ok e1 → e1.slotsBoxed = false) := by
  have hb : env.slotsBoxed = true :=
    MaroonEngine.iterations_boxed T hT k (MaroonEngine.initial T) env rfl hreach
  refine ⟨hb, ?_, env.debug_dump_stack_boxed hb, ?_, ?_, ?_, ?_⟩
  · intro top rest hs
    obtain ⟨h1, _⟩ := (env.slotsBoxed_cons top rest hs).mp hb
    simp [ImplEnv.debug_dump_vars, hs, ImplEnv.do_debug_dump_vars_boxed _ h1]
  · intro T_VAR idx name
    exact ImplEnv.AccessVar_boxed T_VAR env idx name hb
  · intro e e1 idx name init h0 h
    exact ImplEnv.DeclareVar_boxed e e1 idx name init h0 h
  · intro T_VAR e e1 idx name h0 h
    exact ImplEnv.DeclareFunctionArg_boxed T_VAR e e1 idx name h0 h
  · intro e e1 idx name h
    exact ImplEnv.DeclareCapturedAlias_not_boxed e e1 idx name h

/-- Witness of C36 (amended): after the first pass of `declareX`, which declares `x` with
`DeclareVar`, the slot holds a value and the stack is dumped as `<[x:7]>`. -/
theorem slots_hold_values_witness :
    holdingOne.slotsBoxed = true ∧
    holdingOne.debug_dump_stack =
      .ok { os_ := "x\n<[x:7]>\n", call_stack_ := holdingOne.call_stack_ } :=
  ⟨(slots_hold_values declareX 1 holdingOne declareX_keepsBoxed rfl).1,
   (slots_hold_values declareX 1 holdingOne declareX_keepsBoxed rfl).2.2.1⟩

theorem ends_with_two {α : Type} (l : List α) (h : 2 ≤ l.length) :
    ∃ (init : List α) (y n : α), l = init ++ [y] ++ [n] := by
  rcases List.eq_nil_or_concat l with h0 | ⟨l1, n, h1⟩
  · subst h0; simp at h
  · rcases List.eq_nil_or_concat l1 with h0 | ⟨l2, y, h2⟩
    · subst h0; subst h1; simp at h
    · exact ⟨l2, y, n, by rw [h1, h2]; simp⟩

/-- C37 (counterexample): an `IF` whose two sub-builders append nothing takes the two items
the block held before it as its branches: of the block `DEBUG(0); DEBUG(1);` nothing but the
`If` node is left, at index 0. With a then sub-builder that appends nothing and an else
sub-builder that appends one statement, the `If` node takes the place of `DEBUG(0)`. -/
theorem empty_branches_take_earlier_items :
    (match DslStmt.run (.IF "c" [] [] 5) sampleTwoStmts with
      | .ok c => some c.current_fn_blocks_stack
      | .error _ => none) =
      some [.mk 2 []
        [.MaroonIRIf 5 "c" (.MaroonIRStmt 3 "DEBUG(0)") (.MaroonIRStmt 4 "DEBUG(1)")]] ∧
    (match RegisterIf sampleInFn "c" (fun c => .ok c) (fun c => RegisterStmt c 5 "DEBUG(2)") 5 with
      | .ok c => some c.current_fn_blocks_stack
      | .error _ => none) =
      some [.mk 2 []
        [.MaroonIRIf 5 "c" (.MaroonIRStmt 3 "DEBUG(0)") (.MaroonIRStmt 5 "DEBUG(2)")]] :=
  ⟨rfl, rfl⟩

/-- C37 (amended): when the then and else sub-builders only append to the current block and
together append at least two items (`added`; either of them may append none), `RegisterIf`
succeeds and every item the block's code list held before the `IF` is still there at the
same index: the list afterwards is the one before, followed by the items appended but for
the last two, followed by the `If` node made of these two. -/
theorem registerIf_keeps_earlier_items (c c1 c2 : Ctx) (cond : String)
    (yes no : Ctx → Except Fatal Ctx) (line : Nat) (l l2 : Nat) (vs vs2 : List MaroonIRVar)
    (code added : List MaroonIRStmtOrBlock) (rest rest2 : List MaroonIRBlock)
    (hs : c.current_fn_blocks_stack = .mk l vs code :: rest)
    (hy : yes c = .ok c1) (hn : no c1 = .ok c2)
    (s2 : c2.current_fn_blocks_stack = .mk l2 vs2 (code ++ added) :: rest2)
    (h2 : 2 ≤ added.length) :
    ∃ c3 code3 y n, RegisterIf c cond yes no line = .ok c3 ∧
      c3.current_fn_blocks_stack = .mk l2 vs2 code3 :: rest2 ∧
      (∀ i, i < code.length → code3.get? i = code.get? i) ∧
      added = added.dropLast.dropLast ++ [y] ++ [n] ∧
      code3 = code ++ added.dropLast.dropLast ++ [.MaroonIRIf line cond y n] := by
  obtain ⟨init, y, n, ha⟩ := ends_with_two added h2
  have hd : added.dropLast.dropLast = init := by
    rw [ha]
    simp [List.dropLast_append_of_ne_nil]
  have s2a : c2.current_fn_blocks_stack =
      .mk l2 vs2 ((code ++ init) ++ [y] ++ [n]) :: rest2 := by
    rw [s2, ha]
    simp
  obtain ⟨c3, e3, s3, _, _⟩ :=
    RegisterIf_run c cond yes no line (c.InFunction_of_stack hs) hy hn s2a
  refine ⟨c3, _, y, n, e3, s3, ?_, ?_, ?_⟩
  · intro i hi
    simp only [List.get?_eq_getElem?]
    rw [List.append_assoc, List.getElem?_append_left hi]
  · rw [hd, ha]
  · rw [hd]

/-- Witness of C37 (amended): a then sub-builder that appends two statements and an else
sub-builder that appends none; `DEBUG(0)` stays at index 0. -/
theorem registerIf_keeps_earlier_items_witness :
    ∃ c3 code3 y n,
      RegisterIf sampleInFn "c"
        (runStmts [.STMT "DEBUG(1)" 5, .STMT "DEBUG(2)" 5]) (runStmts []) 5 = .ok c3 ∧
      c3.current_fn_blocks_stack = .mk 2 [] code3 :: [] ∧
      (∀ i, i < [MaroonIRStmtOrBlock.MaroonIRStmt 3 "DEBUG(0)"].length →
        code3.get? i = [MaroonIRStmtOrBlock.MaroonIRStmt 3 "DEBUG(0)"].get? i) ∧
      [MaroonIRStmtOrBlock.MaroonIRStmt 5 "DEBUG(1)", .MaroonIRStmt 5 "DEBUG(2)"] =
        [MaroonIRStmtOrBlock.MaroonIRStmt 5 "DEBUG(1)",
          .MaroonIRStmt 5 "DEBUG(2)"].dropLast.dropLast ++ [y] ++ [n] ∧
      code3 = [MaroonIRStmtOrBlock.MaroonIRStmt 3 "DEBUG(0)"] ++
        [MaroonIRStmtOrBlock.MaroonIRStmt 5 "DEBUG(1)",
          .MaroonIRStmt 5 "DEBUG(2)"].dropLast.dropLast ++ [.MaroonIRIf 5 "c" y n] :=
  registerIf_keeps_earlier_items sampleInFn sampleThreeStmts sampleThreeStmts "c"
    (runStmts [.STMT "DEBUG(1)" 5, .STMT "DEBUG(2)" 5]) (runStmts []) 5 2 2 [] []
    [.MaroonIRStmt 3 "DEBUG(0)"] [.MaroonIRStmt 5 "DEBUG(1)", .MaroonIRStmt 5 "DEBUG(2)"] [] []
    rfl rfl rfl rfl (by decide)

theorem Ctx.lineOf_ConsiderOptionalType (c : Ctx) (T U : String) (line : Nat) :
    (c.ConsiderOptionalType U line).lineOf c.current_maroon_name T =
      if U = T then
        some (if (c.lineOf c.current_maroon_name T).getD 0 = 0 then line
          else (c.lineOf c.current_maroon_name T).getD 0)
      else c.lineOf c.current_maroon_name T := by
  have hat : ∀ T1, StdMap.at (StdMap.at c.optional_types_per_maroon c.current_maroon_name) T1 =
      (c.lineOf c.current_maroon_name T1).getD 0 := by
    intro T1
    simp only [Ctx.lineOf, StdMap.at]
    rcases StdMap.find c.optional_types_per_maroon c.current_maroon_name with _ | per
    · rfl
    · rfl
  have hfind : ∀ T1, StdMap.find (StdMap.at c.optional_types_per_maroon c.current_maroon_name)
      T1 = c.lineOf c.current_maroon_name T1 := by
    intro T1
    simp only [Ctx.lineOf, StdMap.at]
    rcases StdMap.find c.optional_types_per_maroon c.current_maroon_name with _ | per
    · rfl
    · rfl
  simp only [Ctx.lineOf, Ctx.ConsiderOptionalType, StdMap.find_modify_self]
  by_cases h : U = T
  · subst h
    rw [StdMap.find_modify_self, if_pos rfl, hat]
    rfl
  · rw [StdMap.find_modify_other _ _ _ _ (fun h1 => h h1.symm), if_neg h, hfind]
    rfl

theorem Ctx.considerAll_namespace : ∀ (uses : List (String × Nat)) (c : Ctx),
    (c.considerAll uses).current_maroon_name = c.current_maroon_name
  | [], _ => rfl
  | u :: us, c => by
    rw [Ctx.considerAll, Ctx.considerAll_namespace us]
    rfl

theorem Ctx.lineOf_considerAll_kept : ∀ (uses : List (String × Nat)) (c : Ctx) (T : String)
    (line : Nat), line ≠ 0 → c.lineOf c.current_maroon_name T = some line →
    (c.considerAll uses).lineOf c.current_maroon_name T = some line
  | [], _, _, _, _, h => h
  | u :: us, c, T, line, h0, h => by
    have h1 : (c.ConsiderOptionalType u.1 u.2).lineOf c.current_maroon_name T = some line := by
      rw [Ctx.lineOf_ConsiderOptionalType, h]
      by_cases hu : u.1 = T
      · simp [hu, h0]
      · simp [hu]
    exact Ctx.lineOf_considerAll_kept us (c.ConsiderOptionalType u.1 u.2) T line h0 h1

theorem Ctx.lineOf_considerAll_first : ∀ (uses : List (String × Nat)) (c : Ctx) (T : String)
    (line : Nat), (∀ u ∈ uses, u.2 ≠ 0) → (c.lineOf c.current_maroon_name T).getD 0 = 0 →
    firstUse T uses = some line →
    (c.considerAll uses).lineOf c.current_maroon_name T = some line
  | [], _, _, _, _, _, h => by simp [firstUse] at h
  | u :: us, c, T, line, hl, h0, h => by
    by_cases hu : u.1 = T
    · simp only [firstUse, if_pos hu, Option.some.injEq] at h
      have h1 : (c.ConsiderOptionalType u.1 u.2).lineOf c.current_maroon_name T =
          some line := by
        rw [Ctx.lineOf_ConsiderOptionalType, if_pos hu, if_pos h0, h]
      have hne : line ≠ 0 := by
        rw [← h]
        exact hl u (List.mem_cons_self _ _)
      exact Ctx.lineOf_considerAll_kept us (c.ConsiderOptionalType u.1 u.2) T line hne h1
    · simp only [firstUse, if_neg hu] at h
      have h1 : ((c.ConsiderOptionalType u.1 u.2).lineOf c.current_maroon_name T).getD 0 =
          0 := by
        rw [Ctx.lineOf_ConsiderOptionalType, if_neg hu, h0]
      exact Ctx.lineOf_considerAll_first us (c.ConsiderOptionalType u.1 u.2) T line
        (fun v hv => hl v (List.mem_cons_of_mem _ hv)) h1 h

theorem Ctx.recordedAt_of_lineOf (c : Ctx) (N T : String) (line : Nat)
    (h : c.lineOf N T = some line) : c.recordedAt N T line := by
  simp only [Ctx.lineOf] at h
  rcases hN : StdMap.find c.optional_types_per_maroon N with _ | per
  · rw [hN] at h; cases h
  · rw [hN] at h
    exact ⟨per, StdMap.find_some_mem _ _ _ hN, StdMap.find_some_mem _ _ _ h⟩

theorem Ctx.Finalize_declares (c c1 : Ctx) (N T : String) (line : Nat)
    (hr : c.recordedAt N T line) (h : c.Finalize = .ok c1) :
    StdMap.find (c1.out.typesOf N) ("OPTIONAL_" ++ T) =
      some { line := line, def_ := .MaroonIRTypeDefOptional T } := by
  simp only [Ctx.Finalize] at h
  by_cases hf : c.finalized = true
  · simp [hf] at h
  · simp only [hf, Bool.false_eq_true, if_false] at h
    cases hn : Ctx.Finalize.namespaces c.out c.optional_types_per_maroon with
    | error e => simp [hn] at h
    | ok out =>
      simp only [hn, Except.ok.injEq] at h
      subst h
      obtain ⟨ia, _⟩ := Ctx.Finalize.namespaces_spec _ _ out hn
      obtain ⟨per, hN, hT⟩ := hr
      exact ia N per T line hN hT

/-- C38 (counterexample): a first usage of `OPTIONAL<U64>` at line 0 leaves the record at 0,
which reads as not yet set, and the second usage, at line 7, sets it: the line recorded, and
the line of the declaration of `OPTIONAL_U64` that `Finalize` makes, is 7, not the line of
the first usage. The same through two `VAR` calls. -/
theorem line_zero_is_not_recorded :
    ((sampleCtx.ConsiderOptionalType "U64" 0).lineOf "ns" "U64") = some 0 ∧
    (sampleCtx.considerAll [("U64", 0), ("U64", 7)]).lineOf "ns" "U64" = some 7 ∧
    firstUse "U64" [("U64", 0), ("U64", 7)] = some 0 ∧
    (match RegisterVar sampleInFn "x" "OPTIONAL<U64>" "0" 0 with
      | .error _ => none
      | .ok c1 =>
        match RegisterVar c1 "y" "OPTIONAL<U64>" "0" 7 with
        | .error _ => none
        | .ok c2 => some c2.optional_types_per_maroon) = some [("ns", [("U64", 7)])] ∧
    (match (sampleCtx.considerAll [("U64", 0), ("U64", 7)]).Finalize with
      | .error _ => none
      | .ok c1 => StdMap.find (c1.out.typesOf "ns") "OPTIONAL_U64") =
      some { line := 7, def_ := .MaroonIRTypeDefOptional "U64" } :=
  ⟨rfl, rfl, rfl, rfl, rfl⟩

/-- C38 (amended): for a sequence of usages `OPTIONAL<...>` in the current namespace, at
line numbers other than 0, and a `T` for which no line is recorded before (no entry, or the
entry 0), the line recorded for `T` after the sequence is the line of the first usage of `T`
in event order, whatever lines the later usages have and whatever other types are used in
between; and the declaration of `OPTIONAL_T` that a successful `Finalize` then makes has
that line. Each usage, in `VAR`, `FIELD` or `CASE`, acts on the record through
`SupportOptionalTypes`, that is as `ConsiderOptionalType`. -/
theorem first_usage_line_is_recorded (c : Ctx) (T : String) (uses : List (String × Nat))
    (line : Nat) (hl : ∀ u ∈ uses, u.2 ≠ 0)
    (h0 : (c.lineOf c.current_maroon_name T).getD 0 = 0)
    (hfirst : firstUse T uses = some line) :
    (c.considerAll uses).lineOf c.current_maroon_name T = some line ∧
    (∀ c1, (c.considerAll uses).Finalize = .ok c1 →
      StdMap.find (c1.out.typesOf c.current_maroon_name) ("OPTIONAL_" ++ T) =
        some { line := line, def_ := .MaroonIRTypeDefOptional T }) ∧
    (∀ (c0 : Ctx) (U : String) (l : Nat),
      (SupportOptionalTypes c0 ("OPTIONAL<" ++ U ++ ">") l).1 = c0.considerAll [(U, l)]) := by
  have h1 := Ctx.lineOf_considerAll_first uses c T line hl h0 hfirst
  refine ⟨h1, ?_, ?_⟩
  · intro c1 hfin
    exact Ctx.Finalize_declares _ c1 _ T line (Ctx.recordedAt_of_lineOf _ _ _ _ h1) hfin
  · intro c0 U l
    rw [SupportOptionalTypes_wrap]
    rfl

/-- Witness of C38 (amended): usages of `U64` at line 9, of `BOOL` at line 3 and of `U64` at
line 4 record 9 for `U64`. -/
theorem first_usage_line_is_recorded_witness :
    (sampleCtx.considerAll [("U64", 9), ("BOOL", 3), ("U64", 4)]).lineOf "ns" "U64" = some 9 :=
  (first_usage_line_is_recorded sampleCtx "U64" [("U64", 9), ("BOOL", 3), ("U64", 4)] 9
    (by decide) rfl rfl).1

theorem storedInit_wrapped (t : String) : storedInit ("(" ++ t ++ ")") = t := by
  have hl : ("(" ++ t ++ ")").toList = '(' :: (t.toList ++ [')']) := by
    simp [String.toList, String.data_append]
  have hlen : ("(" ++ t ++ ")").length = t.length + 2 := by
    show ("(" ++ t ++ ")").toList.length = t.toList.length + 2
    rw [hl]
    simp
  have hne : "(" ++ t ++ ")" ≠ "" := by
    intro h
    have h1 := congrArg String.length h
    rw [hlen] at h1
    simp at h1
  have hlast : ('(' :: (t.toList ++ [')'])).getLast? = some ')' := by
    rw [← List.cons_append, List.getLast?_append]
    simp
  have htake : (t.toList ++ [')']).take t.length = t.toList := by
    have h1 : t.length = t.toList.length := rfl
    rw [h1, List.take_left']
    rfl
  unfold storedInit
  rw [if_pos ⟨hne, by rw [hl]; rfl, by rw [hl]; exact hlast⟩, hl, hlen]
  simp only [List.drop_succ_cons, List.drop_zero, Nat.add_sub_cancel]
  rw [htake]
  rfl

/-- C39 (evidence): `RegisterVar` drops the first and the last character of an initializer
that starts with `(` and ends with `)`, whether or not the two are a pair. The text
`(a)+(b)`, whose parentheses are balanced and which no pair encloses, is stored as `a)+(b`,
whose parentheses are not balanced. A text `(t)` is stored as `t` and a text that does not
both start with `(` and end with `)` is stored as it is. -/
theorem unpaired_outer_parentheses_are_removed :
    storedInit "(a)+(b)" = "a)+(b" ∧
    balanced "(a)+(b)" = true ∧ balanced "a)+(b" = false ∧
    (match RegisterVar sampleInFn "x" "U64" "(a)+(b)" 4 with
      | .ok c => some c.current_fn_blocks_stack
      | .error _ => none) =
      some [.mk 2 [.MaroonIRVarRegular 4 "x" "U64" "a)+(b"] [.MaroonIRStmt 3 "DEBUG(0)"]] ∧
    (∀ t : String, storedInit ("(" ++ t ++ ")") = t) ∧
    (∀ init : String, ¬ (init.toList.head? = some '(' ∧ init.toList.getLast? = some ')') →
      storedInit init = init) :=
  ⟨by decide, by decide, by decide, rfl, storedInit_wrapped, fun init h => by
    simp only [storedInit]
    rw [if_neg (fun h1 => h h1.2)]⟩

end Maroon
